import Mathlib

/-!
# XDMCP manager: a shallow embedding and its verified properties

The definitions below follow `src/daemon/gdm-xdmcp-manager.c`, `src/daemon/display.c`
and `src/daemon/choose.c`.

Conventions of the embedding.

* Heap objects that the C code holds in `GSList`s are list elements; a pointer to an
  element is its position in the list.  `g_slist_remove (list, p)` is `List.eraseIdx`.
* The process-wide singletons (the manager's private struct, the daemon's display list,
  the statics of `choose.c`, the function-local statics of the two `send_*` functions)
  are the fields of one value, `Daemon`, that every handler takes and returns.
* Everything a handler obtains from outside the three files (wallclock, tcp-wrappers,
  reverse lookup, the random source, `fork`, the willing script, `getaddrinfo`) is a
  field of `Env`; one `Env` is supplied per datagram.
* A datagram is given by what the libXdmcp readers (`XdmcpReadHeader`, `XdmcpReadCARD16`,
  `XdmcpReadARRAY8`, ...) yield on its buffer; `none` stands for a reader returning 0.
* `guint`, `gint32`, `CARD16` and `CARD32` arithmetic is arithmetic on `Nat`/`Int` with
  the reduction modulo `2^32` (`2^16`) written out where the C code can wrap.
* A handler returns `none` when the C code has no result: it would still be looping (the
  modelled loops carry their iteration budget explicitly), or it goes on from memory that
  it has freed (the two restarting scans of the display list, once they have removed the
  first display of the list).
* `mdm_choose_data` is called for a line of the chooser, not for a datagram; it takes the
  wallclock time and the answer of `getaddrinfo` for a node name as arguments.
-/

namespace Mdm

/-! ## Machine integers -/

/-- Largest `gint32`. -/
def G_MAXINT32 : Int := 2147483647

/-- Smallest `gint32`. -/
def G_MININT32 : Int := -2147483648

/-- Conversion of a `guint32` to `gint32`, as in `serial = g_random_int ()`. -/
def to_gint32 (n : Nat) : Int :=
  if n % 4294967296 < 2147483648 then ((n % 4294967296 : Nat) : Int)
  else ((n % 4294967296 : Nat) : Int) - 4294967296

/-- Conversion of a `gint32` to `CARD32`, as in `d->sessionid = get_next_session_serial (..)`. -/
def to_CARD32 (i : Int) : Nat := (i % 4294967296).toNat

/-- The C statement `n++` on a `guint`. -/
def guint_inc (n : Nat) : Nat := (n + 1) % 4294967296

/-- The C statement `n--` on a `guint`. -/
def guint_dec (n : Nat) : Nat := (n + 4294967295) % 4294967296

/-- Assignment of an `int` sum to the `CARD16` field `header.length`. -/
def to_CARD16 (n : Nat) : Nat := n % 65536

/-- The bytes of a C string literal (`strlen` of it is the length of the list). -/
def ascii (s : String) : List Nat := s.toList.map Char.toNat

/-! ## Addresses -/

/-- Socket address: family, address bytes, port and (IPv6) scope id. -/
structure sockaddr_storage where
  ss_family : Nat
  addr : List Nat
  port : Nat
  scope_id : Nat
deriving DecidableEq

def AF_INET : Nat := 2

def AF_INET6 : Nat := 10

/-- Default XDMCP port (`XDM_UDP_PORT`). -/
def XDM_UDP_PORT : Nat := 177

/-- Modelled from the spec: `gdm_address_equal` (gdm-address.c is not among the sources);
"family-aware: compare address bytes and, where present, scope id". -/
def gdm_address_equal (a b : sockaddr_storage) : Bool :=
  if a.ss_family = AF_INET ∧ b.ss_family = AF_INET then a.addr == b.addr
  else if a.ss_family = AF_INET6 ∧ b.ss_family = AF_INET6 then
    a.addr == b.addr && a.scope_id == b.scope_id
  else false

/-- Modelled from the spec: `gdm_address_is_local` (gdm-address.c is not among the sources);
"membership in the current host's interface-address set".  The set is passed explicitly. -/
def gdm_address_is_local (local_addrs : List sockaddr_storage) (a : sockaddr_storage) : Bool :=
  local_addrs.any (fun l => gdm_address_equal a l)

/-! ## Displays (display.h / display.c) -/

/-- Values of `d->dispstat`. -/
inductive DispStat where
  | DISPLAY_UNBORN
  | DISPLAY_ALIVE
  | XDMCP_PENDING
  | XDMCP_MANAGED
  | DISPLAY_DEAD
  | DISPLAY_CONFIG
deriving DecidableEq

/-- Values of `d->type`. -/
inductive DispType where
  | TYPE_STATIC
  | TYPE_XDMCP
  | TYPE_FLEXI
  | TYPE_FLEXI_XNEST
  | TYPE_XDMCP_PROXY
deriving DecidableEq

/-- The fields of `GdmDisplay` that the XDMCP manager reads or writes. -/
structure GdmDisplay where
  type : DispType
  dispstat : DispStat
  sessionid : Nat
  acctime : Nat
  xdmcp_dispnum : Nat
  hostname : Option String
  addr : sockaddr_storage
  bcookie : List Nat
  use_chooser : Bool
  indirect_id : Nat
  removeconf : Bool
deriving DecidableEq

/-- Modelled from the spec: the macro `SERVER_IS_XDMCP` (display.h is not among the
sources); the "XDMCP displays" are those of type `TYPE_XDMCP` or `TYPE_XDMCP_PROXY`. -/
def SERVER_IS_XDMCP (d : GdmDisplay) : Bool :=
  d.type == DispType.TYPE_XDMCP || d.type == DispType.TYPE_XDMCP_PROXY

/-! ## Tables of the manager and of choose.c -/

/-- Entry of `forward_queries`. -/
structure GdmForwardQuery where
  acctime : Nat
  dsp_sa : sockaddr_storage
  from_sa : sockaddr_storage
deriving DecidableEq

/-- Entry of `managed_forwards`. -/
structure ManagedForward where
  times : Nat
  manager : sockaddr_storage
  origin : sockaddr_storage
deriving DecidableEq

/-- Entry of the list `indirect` of choose.c. -/
structure MdmIndirectDisplay where
  id : Nat
  dsp_sa : sockaddr_storage
  chosen_host : Option sockaddr_storage
  acctime : Nat
deriving DecidableEq

/-- The statics of choose.c, with the two configuration values it reads. -/
structure ChooseState where
  ipending : Int
  indirect : List MdmIndirectDisplay
  indirect_id : Nat
  max_indirect : Int
  max_wait_indirect : Nat
deriving DecidableEq

/-- The struct `GdmXdmcpManagerPrivate`. -/
structure GdmXdmcpManagerPrivate where
  forward_queries : List GdmForwardQuery
  managed_forwards : List ManagedForward
  socket_fd : Int
  session_serial : Int
  num_sessions : Nat
  num_pending_sessions : Nat
  sysid : String
  servhost : List Nat
  port : Nat
  use_multicast : Bool
  honor_indirect : Bool
  willing_script : Option String
  max_displays_per_host : Nat
  max_displays : Nat
  max_pending_displays : Nat
  max_wait : Nat
deriving DecidableEq

/-- Function-local statics: `last_status`, `last_willing` of `gdm_xdmcp_send_willing` and
`last_time` of `gdm_xdmcp_send_unwilling`. -/
structure Statics where
  last_status : Option String
  last_willing : Int
  last_time : Int
deriving DecidableEq

/-- The whole mutable state the handlers work on. -/
structure Daemon where
  priv : GdmXdmcpManagerPrivate
  displays : List GdmDisplay
  choose : ChooseState
  statics : Statics
deriving DecidableEq

/-- What a handler obtains from its collaborators while it serves one datagram. -/
structure Env where
  now : Nat
  host_allow : sockaddr_storage → Bool
  local_addrs : List sockaddr_storage
  is_loopback : sockaddr_storage → Bool
  gethostbyaddr : sockaddr_storage → Option String
  random : List Nat
  bcookie : List Nat
  fork_ok : Bool
  willing_run : String → Option String
  getaddrinfo : List Nat → Nat → Nat → Option sockaddr_storage

/-! ## Packets -/

/-- The header of an XDMCP packet. -/
structure XdmcpHeader where
  version : Nat
  opcode : Nat
  length : Nat
deriving DecidableEq

/-- One field written with `XdmcpWriteCARD8`, ..., `XdmcpWriteARRAYofARRAY8`. -/
inductive WireField where
  | CARD8 (v : Nat)
  | CARD16 (v : Nat)
  | CARD32 (v : Nat)
  | ARRAY8 (data : List Nat)
  | ARRAYofARRAY8 (data : List (List Nat))
deriving DecidableEq

/-- One `XdmcpFlush`: destination, header and the fields written after it. -/
structure Sent where
  dest : sockaddr_storage
  header : XdmcpHeader
  fields : List WireField
deriving DecidableEq

def XDM_PROTOCOL_VERSION : Nat := 1

def GDM_XDMCP_PROTOCOL_VERSION : Nat := 1001

def BROADCAST_QUERY : Nat := 1

def QUERY : Nat := 2

def INDIRECT_QUERY : Nat := 3

def FORWARD_QUERY : Nat := 4

def WILLING : Nat := 5

def UNWILLING : Nat := 6

def REQUEST : Nat := 7

def ACCEPT : Nat := 8

def DECLINE : Nat := 9

def MANAGE : Nat := 10

def REFUSE : Nat := 11

def FAILED : Nat := 12

def KEEPALIVE : Nat := 13

def ALIVE : Nat := 14

def GDM_XDMCP_MANAGED_FORWARD : Nat := 1000

def GDM_XDMCP_GOT_MANAGED_FORWARD : Nat := 1001

def GDM_MAX_FORWARD_QUERIES : Nat := 10

def GDM_FORWARD_QUERY_TIMEOUT : Nat := 30

/-- The literal "MIT-MAGIC-COOKIE-1" (18 bytes). -/
def MIT_MAGIC_COOKIE_1 : List Nat := ascii "MIT-MAGIC-COOKIE-1"

/-- The fields of a REQUEST as the seven readers of `gdm_xdmcp_handle_request` yield them. -/
structure RequestFields where
  clnt_dspnum : Nat
  clnt_conntyp : List Nat
  clnt_addr : List (List Nat)
  clnt_authname : List Nat
  clnt_authdata : List Nat
  clnt_authorization : List (List Nat)
  clnt_manufacturer : List Nat
deriving DecidableEq

/-- The fields of a MANAGE. -/
structure ManageFields where
  clnt_sessid : Nat
  clnt_dspnum : Nat
  clnt_dspclass : List Nat
deriving DecidableEq

/-- The fields of a KEEPALIVE. -/
structure KeepaliveFields where
  clnt_dspnum : Nat
  clnt_sessid : Nat
deriving DecidableEq

/-- The fields of a FORWARD_QUERY. -/
structure ForwardQueryFields where
  clnt_addr : List Nat
  clnt_port : List Nat
  clnt_authlist : List (List Nat)
deriving DecidableEq

/-- A received datagram: the outcome of `XdmcpFill` and `XdmcpReadHeader`, and what the
reader sequence of each handler yields on the rest of the buffer (`none`: a reader failed). -/
structure Datagram where
  cond_in : Bool
  fill_ok : Bool
  clnt_sa : sockaddr_storage
  header : Option XdmcpHeader
  as_authlist : Option (List (List Nat))
  as_forward_query : Option ForwardQueryFields
  as_request : Option RequestFields
  as_manage : Option ManageFields
  as_keepalive : Option KeepaliveFields
  as_address : Option (List Nat)

/-! ## List helpers -/

/-- Position of the first element satisfying `p` (a C scan that returns at the first hit). -/
def find_first {α : Type} (p : α → Bool) : List α → Option Nat
  | [] => none
  | a :: l => if p a then some 0 else (find_first p l).map (fun i => i + 1)

/-- The first `n` bytes of a buffer that holds at least `n` bytes. -/
def pad_take (n : Nat) (l : List Nat) : List Nat := (l ++ List.replicate n 0).take n

/-! ## choose.c -/

/-- The function `mdm_choose_indirect_dispose`; the record is given by its position. -/
def mdm_choose_indirect_dispose (c : ChooseState) (i : Nat) : ChooseState :=
  match c.indirect[i]? with
  | none => c
  | some id =>
    { c with indirect := c.indirect.eraseIdx i,
             ipending := if id.acctime > 0 then c.ipending - 1 else c.ipending }

/-- The function `mdm_choose_indirect_dispose_empty_id`. -/
def mdm_choose_indirect_dispose_empty_id (c : ChooseState) (id : Nat) : ChooseState :=
  if id = 0 then c
  else
    match find_first (fun idisp => idisp.id == id) c.indirect with
    | none => c
    | some i =>
      match c.indirect[i]? with
      | none => c
      | some idisp => if idisp.chosen_host.isNone then mdm_choose_indirect_dispose c i else c

/-- The loop of `mdm_choose_indirect_lookup` over the copy `ilist`: `kept` are the records
already passed (in reverse), the second list is what is left of the copy.  Returns the new
list `indirect`, the new `ipending` and the position of the record returned. -/
def mdm_choose_indirect_lookup_scan (curtime max_wait_indirect : Nat)
    (clnt_sa : sockaddr_storage) :
    List MdmIndirectDisplay → List MdmIndirectDisplay → Int →
      List MdmIndirectDisplay × Int × Option Nat
  | kept, [], ip => (kept.reverse, ip, none)
  | kept, id :: rest, ip =>
    if id.acctime > 0 ∧ curtime > id.acctime + max_wait_indirect then
      mdm_choose_indirect_lookup_scan curtime max_wait_indirect clnt_sa kept rest (ip - 1)
    else if gdm_address_equal id.dsp_sa clnt_sa then
      (kept.reverse ++ id :: rest, ip, some kept.length)
    else
      mdm_choose_indirect_lookup_scan curtime max_wait_indirect clnt_sa (id :: kept) rest ip

/-- The function `mdm_choose_indirect_lookup` (called `gdm_choose_indirect_lookup` by the
manager). -/
def mdm_choose_indirect_lookup (curtime : Nat) (c : ChooseState) (clnt_sa : sockaddr_storage) :
    ChooseState × Option Nat :=
  match mdm_choose_indirect_lookup_scan curtime c.max_wait_indirect clnt_sa [] c.indirect
      c.ipending with
  | (l, ip, r) => ({ c with indirect := l, ipending := ip }, r)

/-- The function `mdm_choose_indirect_alloc` for a non-NULL `clnt_sa`; the new record is
at position 0 afterwards. -/
def mdm_choose_indirect_alloc (c : ChooseState) (clnt_sa : sockaddr_storage) : ChooseState :=
  let id0 := c.indirect_id
  let next := guint_inc c.indirect_id
  let id1 := if id0 = 0 then next else id0
  let next1 := if id0 = 0 then guint_inc next else next
  { c with indirect := { id := id1, dsp_sa := clnt_sa, chosen_host := none, acctime := 0 }
                        :: c.indirect,
           indirect_id := next1 }

/-- The function `mdm_choose_indirect_lookup_by_chosen`. -/
def mdm_choose_indirect_lookup_by_chosen (env : Env) (c : ChooseState)
    (chosen origin : sockaddr_storage) : Option Nat :=
  find_first (fun id =>
    match id.chosen_host with
    | none => false
    | some h =>
      gdm_address_equal h chosen &&
        (gdm_address_equal id.dsp_sa origin ||
          (env.is_loopback id.dsp_sa && gdm_address_is_local env.local_addrs origin)))
    c.indirect

/-! ## Forward queries and managed forwards -/

/-- The function `gdm_forward_query_dispose` for a non-NULL `q`, given by its position. -/
def gdm_forward_query_dispose (p : GdmXdmcpManagerPrivate) (i : Nat) : GdmXdmcpManagerPrivate :=
  { p with forward_queries := p.forward_queries.eraseIdx i }

/-- The scan of `remove_oldest_forward`: position and `acctime` of `oldest`. -/
def oldest_forward : List GdmForwardQuery → Nat → Option (Nat × Nat) → Option (Nat × Nat)
  | [], _, oldest => oldest
  | q :: l, i, none => oldest_forward l (i + 1) (some (i, q.acctime))
  | q :: l, i, some (j, t) =>
    if q.acctime < t then oldest_forward l (i + 1) (some (i, q.acctime))
    else oldest_forward l (i + 1) (some (j, t))

/-- The function `remove_oldest_forward`. -/
def remove_oldest_forward (p : GdmXdmcpManagerPrivate) : GdmXdmcpManagerPrivate × Bool :=
  match oldest_forward p.forward_queries 0 none with
  | some (i, _) => (gdm_forward_query_dispose p i, true)
  | none => (p, false)

/-- The loop `while (count > GDM_MAX_FORWARD_QUERIES && remove_oldest_forward (manager)) count--`. -/
def gdm_forward_query_alloc_evict : Nat → GdmXdmcpManagerPrivate → GdmXdmcpManagerPrivate
  | 0, p => p
  | count + 1, p =>
    if count + 1 > GDM_MAX_FORWARD_QUERIES then
      match remove_oldest_forward p with
      | (p1, true) => gdm_forward_query_alloc_evict count p1
      | (p1, false) => p1
    else p

/-- The function `gdm_forward_query_alloc`: the entry comes from `g_new0` and only its two
addresses are assigned. -/
def gdm_forward_query_alloc (p : GdmXdmcpManagerPrivate) (mgr_sa dsp_sa : sockaddr_storage) :
    GdmXdmcpManagerPrivate :=
  let p1 := gdm_forward_query_alloc_evict p.forward_queries.length p
  { p1 with forward_queries := { acctime := 0, dsp_sa := dsp_sa, from_sa := mgr_sa }
                                :: p1.forward_queries }

/-- The loop of `gdm_forward_query_lookup` over the copy `qlist`; returns the new list and
the position of the entry returned. -/
def gdm_forward_query_lookup_scan (curtime : Nat) (clnt_sa : sockaddr_storage) :
    List GdmForwardQuery → List GdmForwardQuery → List GdmForwardQuery × Option Nat
  | kept, [] => (kept.reverse, none)
  | kept, q :: rest =>
    if gdm_address_equal q.dsp_sa clnt_sa then (kept.reverse ++ q :: rest, some kept.length)
    else if q.acctime > 0 ∧ curtime > q.acctime + GDM_FORWARD_QUERY_TIMEOUT then
      gdm_forward_query_lookup_scan curtime clnt_sa kept rest
    else gdm_forward_query_lookup_scan curtime clnt_sa (q :: kept) rest

/-- The function `gdm_forward_query_lookup`. -/
def gdm_forward_query_lookup (curtime : Nat) (p : GdmXdmcpManagerPrivate)
    (clnt_sa : sockaddr_storage) : GdmXdmcpManagerPrivate × Option Nat :=
  match gdm_forward_query_lookup_scan curtime clnt_sa [] p.forward_queries with
  | (l, r) => ({ p with forward_queries := l }, r)

/-- The function `set_address_for_request`. -/
def set_address_for_request (ss : sockaddr_storage) : List Nat :=
  if ss.ss_family = AF_INET then pad_take 4 ss.addr
  else if ss.ss_family = AF_INET6 then pad_take 16 ss.addr
  else []

/-- The function `set_port_for_request`: always two bytes, the port in network order
(for a family other than INET/INET6 the C code leaves the data pointer NULL). -/
def set_port_for_request (ss : sockaddr_storage) : List Nat :=
  if ss.ss_family = AF_INET ∨ ss.ss_family = AF_INET6 then [ss.port / 256 % 256, ss.port % 256]
  else [0, 0]

/-- The packet written by `gdm_xdmcp_really_send_managed_forward`. -/
def managed_forward_packet (clnt_sa origin : sockaddr_storage) : Sent :=
  { dest := clnt_sa,
    header := { version := GDM_XDMCP_PROTOCOL_VERSION, opcode := GDM_XDMCP_MANAGED_FORWARD,
                length := to_CARD16 (4 + (set_address_for_request origin).length) },
    fields := [WireField.ARRAY8 (set_address_for_request origin)] }

/-- The function `gdm_xdmcp_send_managed_forward`: one packet now, and an entry queued for
the timer. -/
def gdm_xdmcp_send_managed_forward (p : GdmXdmcpManagerPrivate)
    (clnt_sa origin : sockaddr_storage) : GdmXdmcpManagerPrivate × List Sent :=
  ({ p with managed_forwards := { times := 0, manager := clnt_sa, origin := origin }
                                 :: p.managed_forwards },
   [managed_forward_packet clnt_sa origin])

/-- The packet written by `gdm_xdmcp_send_got_managed_forward`. -/
def got_managed_forward_packet (clnt_sa origin : sockaddr_storage) : Sent :=
  { dest := clnt_sa,
    header := { version := GDM_XDMCP_PROTOCOL_VERSION, opcode := GDM_XDMCP_GOT_MANAGED_FORWARD,
                length := to_CARD16 (4 + (set_address_for_request origin).length) },
    fields := [WireField.ARRAY8 (set_address_for_request origin)] }

/-- The function `gdm_xdmcp_whack_queued_managed_forwards`: the first matching entry goes. -/
def gdm_xdmcp_whack_queued_managed_forwards (p : GdmXdmcpManagerPrivate)
    (clnt_sa origin : sockaddr_storage) : GdmXdmcpManagerPrivate :=
  match find_first (fun mf => gdm_address_equal mf.manager clnt_sa &&
      gdm_address_equal mf.origin origin) p.managed_forwards with
  | some i => { p with managed_forwards := p.managed_forwards.eraseIdx i }
  | none => p

/-- The tail shared by `gdm_xdmcp_send_decline` and `gdm_xdmcp_send_refuse` (and by
`gdm_xdmcp_handle_manage`): if the client came through a forward query, send
MANAGED_FORWARD to the manager that forwarded it and dispose the entry. -/
def resolve_forward_query (env : Env) (p : GdmXdmcpManagerPrivate)
    (clnt_sa : sockaddr_storage) : GdmXdmcpManagerPrivate × List Sent :=
  match gdm_forward_query_lookup env.now p clnt_sa with
  | (p1, none) => (p1, [])
  | (p1, some i) =>
    match p1.forward_queries[i]? with
    | none => (p1, [])
    | some fq =>
      match gdm_xdmcp_send_managed_forward p1 fq.from_sa clnt_sa with
      | (p2, out) => (gdm_forward_query_dispose p2 i, out)

/-- The packet written by `gdm_xdmcp_send_decline`. -/
def decline_packet (clnt_sa : sockaddr_storage) (reason : String) : Sent :=
  { dest := clnt_sa,
    header := { version := XDM_PROTOCOL_VERSION, opcode := DECLINE,
                length := to_CARD16 ((2 + (ascii reason).length) + (2 + 0) + (2 + 0)) },
    fields := [WireField.ARRAY8 (ascii reason), WireField.ARRAY8 [], WireField.ARRAY8 []] }

/-- The function `gdm_xdmcp_send_decline`. -/
def gdm_xdmcp_send_decline (env : Env) (s : Daemon) (clnt_sa : sockaddr_storage)
    (reason : String) : Daemon × List Sent :=
  match resolve_forward_query env s.priv clnt_sa with
  | (p, out) => ({ s with priv := p }, decline_packet clnt_sa reason :: out)

/-- The packet written by `gdm_xdmcp_send_accept`. -/
def accept_packet (clnt_sa : sockaddr_storage) (session_id : Nat)
    (authentication_name authentication_data authorization_name authorization_data : List Nat) :
    Sent :=
  { dest := clnt_sa,
    header := { version := XDM_PROTOCOL_VERSION, opcode := ACCEPT,
                length := to_CARD16 (4 + (2 + authentication_name.length)
                  + (2 + authentication_data.length) + (2 + authorization_name.length)
                  + (2 + authorization_data.length)) },
    fields := [WireField.CARD32 session_id, WireField.ARRAY8 authentication_name,
               WireField.ARRAY8 authentication_data, WireField.ARRAY8 authorization_name,
               WireField.ARRAY8 authorization_data] }

/-- The packet written by `gdm_xdmcp_send_failed`. -/
def failed_packet (clnt_sa : sockaddr_storage) (sessid : Nat) : Sent :=
  { dest := clnt_sa,
    header := { version := XDM_PROTOCOL_VERSION, opcode := FAILED,
                length := to_CARD16 (6 + (ascii "Failed to start session").length) },
    fields := [WireField.CARD32 sessid, WireField.ARRAY8 (ascii "Failed to start session")] }

/-- The packet written by `gdm_xdmcp_send_refuse`. -/
def refuse_packet (clnt_sa : sockaddr_storage) (sessid : Nat) : Sent :=
  { dest := clnt_sa,
    header := { version := XDM_PROTOCOL_VERSION, opcode := REFUSE, length := 4 },
    fields := [WireField.CARD32 sessid] }

/-- The function `gdm_xdmcp_send_refuse`. -/
def gdm_xdmcp_send_refuse (env : Env) (s : Daemon) (clnt_sa : sockaddr_storage)
    (sessid : Nat) : Daemon × List Sent :=
  match resolve_forward_query env s.priv clnt_sa with
  | (p, out) => ({ s with priv := p }, refuse_packet clnt_sa sessid :: out)

/-! ## The session table (display list, counters, session ids) -/

/-- The function `get_next_session_serial`, one pass through the label `again` per unit of
budget: returns `serial` and the new value of `session_serial`.  `random` holds the
successive results of `g_random_int ()`; when they run out before a non-zero serial was
found the C code is still looping. -/
def get_next_session_serial_loop : Nat → Int → List Nat → Option (Int × Int)
  | 0, _, _ => none
  | fuel + 1, session_serial, random =>
    if session_serial ≠ G_MAXINT32 then
      if session_serial = 0 then get_next_session_serial_loop fuel (session_serial + 1) random
      else some (session_serial, session_serial + 1)
    else
      match random with
      | [] => none
      | r :: rest =>
        if to_gint32 r = 0 then get_next_session_serial_loop fuel session_serial rest
        else some (to_gint32 r, session_serial)

/-- The function `get_next_session_serial`. -/
def get_next_session_serial (session_serial : Int) (random : List Nat) : Option (Int × Int) :=
  get_next_session_serial_loop (random.length + 2) session_serial random

/-- The function `gdm_xdmcp_num_displays_from_host`. -/
def gdm_xdmcp_num_displays_from_host (s : Daemon) (addr : sockaddr_storage) : Nat :=
  s.displays.countP (fun disp => SERVER_IS_XDMCP disp && gdm_address_equal disp.addr addr)

/-- The function `gdm_xdmcp_display_lookup_by_host`. -/
def gdm_xdmcp_display_lookup_by_host (s : Daemon) (addr : sockaddr_storage) (dspnum : Nat) :
    Option Nat :=
  find_first (fun disp => SERVER_IS_XDMCP disp && gdm_address_equal disp.addr addr
    && disp.xdmcp_dispnum == dspnum) s.displays

/-- The function `gdm_xdmcp_display_lookup`. -/
def gdm_xdmcp_display_lookup (s : Daemon) (sessid : Nat) : Option Nat :=
  if sessid = 0 then none else find_first (fun d => d.sessionid == sessid) s.displays

/-- Number of XDMCP displays of the list in status `XDMCP_MANAGED` (a full scan). -/
def count_managed (l : List GdmDisplay) : Nat :=
  l.countP (fun d => SERVER_IS_XDMCP d && d.dispstat == DispStat.XDMCP_MANAGED)

/-- Number of XDMCP displays of the list in status `XDMCP_PENDING` (a full scan). -/
def count_pending (l : List GdmDisplay) : Nat :=
  l.countP (fun d => SERVER_IS_XDMCP d && d.dispstat == DispStat.XDMCP_PENDING)

/-- The function `gdm_xdmcp_recount_sessions`: both `guint` counters restart at 0 and are
incremented once per matching display. -/
def gdm_xdmcp_recount_sessions (s : Daemon) : Daemon :=
  { s with priv := { s.priv with
      num_sessions := count_managed s.displays % 4294967296,
      num_pending_sessions := count_pending s.displays % 4294967296 } }

/-- The function `gdm_display_dispose` of display.c, as far as the XDMCP state goes: the
display leaves the list, and an indirect record it refers to is disposed if still empty. -/
def gdm_display_dispose (s : Daemon) (i : Nat) : Daemon :=
  match s.displays[i]? with
  | none => s
  | some d =>
    if d.indirect_id > 0 then
      { s with displays := s.displays.eraseIdx i,
               choose := mdm_choose_indirect_dispose_empty_id s.choose d.indirect_id }
    else { s with displays := s.displays.eraseIdx i }

/-- The function `gdm_display_unmanage` of display.c. -/
def gdm_display_unmanage (s : Daemon) (i : Nat) : Daemon :=
  match s.displays[i]? with
  | none => s
  | some d =>
    let s1 := { s with displays := s.displays.set i { d with dispstat := DispStat.DISPLAY_DEAD } }
    if d.type ≠ DispType.TYPE_STATIC ∨ d.removeconf = true then gdm_display_dispose s1 i else s1

/-- The loop shared by `gdm_xdmcp_displays_purge` and `gdm_xdmcp_display_dispose_check`:
`dlist` walks the display list; on a display that satisfies `hit` the action is run, it
reports whether it sets `sess_dirty`, and the walk restarts with `dlist = displays`;
otherwise `dlist = dlist->next`.  One iteration per unit of budget.

`displays` is the local variable of the C function: the first cell of the `GSList`,
fetched once before the loop.  `gdm_display_dispose` takes the display out of the list
(`gdm_daemon_config_display_list_remove`; a `GSList` releases the cell of the element it
removes) and frees it (`g_free (d)`).  When the display removed is not the first of the
list, `displays` is still the first cell of the list and the walk restarts at position 0.
When it is the first, `dlist = displays` makes the walk go on from the released cell,
that is from freed memory: the loop has no result, `none`. -/
def restart_scan (hit : GdmDisplay → Bool) (act : Daemon → Nat → GdmDisplay → Daemon × Bool) :
    Nat → Daemon → Nat → Bool → Option (Daemon × Bool)
  | 0, _, _, _ => none
  | fuel + 1, s, dlist, sess_dirty =>
    match s.displays[dlist]? with
    | none => some (s, sess_dirty)
    | some d =>
      if hit d then
        if dlist = 0 ∧ (act s dlist d).1.displays.length < s.displays.length then none
        else restart_scan hit act fuel (act s dlist d).1 0 (sess_dirty || (act s dlist d).2)
      else restart_scan hit act fuel s (dlist + 1) sess_dirty

/-- Iteration budget given to the two restarting loops on a list of `n` displays. -/
def scan_budget (n : Nat) : Nat := (n + 1) * (n + 1) + 1

/-- Whether the first display of the list, if there is one, fails the test `hit` of a
restarting scan (the scan then never removes the first cell of the list). -/
def head_survives (hit : GdmDisplay → Bool) (l : List GdmDisplay) : Bool :=
  match l with
  | [] => true
  | d :: _ => !hit d

/-- The test of `gdm_xdmcp_displays_purge`: an XDMCP display, pending, accepted more
than `max_wait` seconds ago. -/
def stale_pending (curtime max_wait : Nat) (d : GdmDisplay) : Bool :=
  SERVER_IS_XDMCP d && d.dispstat == DispStat.XDMCP_PENDING
    && decide (curtime > d.acctime + max_wait)

/-- The function `gdm_xdmcp_displays_purge`. -/
def gdm_xdmcp_displays_purge (env : Env) (s : Daemon) : Option Daemon :=
  match restart_scan (stale_pending env.now s.priv.max_wait)
      (fun s1 i _ => (gdm_display_dispose s1 i, true))
      (scan_budget s.displays.length) s 0 false with
  | none => none
  | some (s1, sess_dirty) => some (if sess_dirty then gdm_xdmcp_recount_sessions s1 else s1)

/-- The test of `gdm_xdmcp_display_dispose_check`: an XDMCP display with this display
number and (`strcmp`) this hostname. -/
def same_display (hostname : String) (dspnum : Nat) (d : GdmDisplay) : Bool :=
  SERVER_IS_XDMCP d && d.xdmcp_dispnum == dspnum && d.hostname == some hostname

/-- The function `gdm_xdmcp_display_dispose_check`. -/
def gdm_xdmcp_display_dispose_check (s : Daemon) (hostname : Option String) (dspnum : Nat) :
    Option Daemon :=
  match hostname with
  | none => some s
  | some h =>
    match restart_scan (same_display h dspnum)
        (fun s1 i d =>
          if d.dispstat = DispStat.XDMCP_MANAGED then (gdm_display_unmanage s1 i, false)
          else (gdm_display_dispose s1 i, true))
        (scan_budget s.displays.length) s 0 false with
    | none => none
    | some (s1, sess_dirty) => some (if sess_dirty then gdm_xdmcp_recount_sessions s1 else s1)

/-- The function `gdm_xdmcp_display_alloc` (`use_proxy` is constantly FALSE); the new
display is appended to the display list. -/
def gdm_xdmcp_display_alloc (env : Env) (s : Daemon) (addr : sockaddr_storage)
    (he : Option String) (displaynum : Nat) : Option (Daemon × GdmDisplay) :=
  match get_next_session_serial s.priv.session_serial env.random with
  | none => none
  | some (serial, session_serial) =>
    let d : GdmDisplay :=
      { type := DispType.TYPE_XDMCP, dispstat := DispStat.XDMCP_PENDING,
        sessionid := to_CARD32 serial, acctime := env.now, xdmcp_dispnum := displaynum,
        hostname := he, addr := addr, bcookie := env.bcookie, use_chooser := false,
        indirect_id := 0, removeconf := false }
    some ({ s with
              priv := { s.priv with
                session_serial := session_serial,
                num_pending_sessions := guint_inc s.priv.num_pending_sessions },
              displays := s.displays ++ [d] }, d)

/-- The C library function `strncmp` on byte strings; the end of a list is its NUL. -/
def strncmp : List Nat → List Nat → Nat → Int
  | _, _, 0 => 0
  | [], [], _ + 1 => 0
  | [], c2 :: _, _ + 1 => -(c2 : Int)
  | c1 :: _, [], _ + 1 => (c1 : Int)
  | c1 :: s1, c2 :: s2, n + 1 =>
    if c1 ≠ c2 then (c1 : Int) - (c2 : Int)
    else if c1 = 0 then 0
    else strncmp s1 s2 n

/-- The loop that sets `mitauth` in `gdm_xdmcp_handle_request`. -/
def request_mitauth (clnt_authorization : List (List Nat)) : Bool :=
  clnt_authorization.any (fun a => a.length == 18 && strncmp a MIT_MAGIC_COOKIE_1 18 == 0)

/-- The value `explen` ("crude checksumming") of `gdm_xdmcp_handle_request`. -/
def request_explen (r : RequestFields) : Nat :=
  2 + (1 + 2 * r.clnt_conntyp.length)
    + 1 + (r.clnt_addr.map (fun a => 2 + a.length)).sum
    + (2 + r.clnt_authname.length)
    + (2 + r.clnt_authdata.length)
    + 1 + (r.clnt_authorization.map (fun a => 2 + a.length)).sum
    + (2 + r.clnt_manufacturer.length)

/-- The start of `gdm_xdmcp_handle_request` for an allowed host: purge the stale pending
displays, then recount if the display list is shorter than `num_sessions`. -/
def request_purge (env : Env) (s : Daemon) : Option Daemon :=
  match gdm_xdmcp_displays_purge env s with
  | none => none
  | some s1 =>
    some (if s1.displays.length < s1.priv.num_sessions then gdm_xdmcp_recount_sessions s1
          else s1)

/-- The function `gdm_xdmcp_handle_request`. -/
def gdm_xdmcp_handle_request (env : Env) (s : Daemon) (clnt_sa : sockaddr_storage)
    (len : Nat) (rd : Option RequestFields) : Option (Daemon × List Sent) :=
  if env.host_allow clnt_sa = false then some (s, [])
  else
    match request_purge env s with
    | none => none
    | some s2 =>
      match rd with
      | none => some (s2, [])
      | some r =>
        if request_explen r ≠ len then some (s2, [])
        else if request_mitauth r.clnt_authorization = true
            ∧ s2.priv.num_sessions < s2.priv.max_displays
            ∧ (gdm_address_is_local env.local_addrs clnt_sa = true
                ∨ gdm_xdmcp_num_displays_from_host s2 clnt_sa < s2.priv.max_displays_per_host) then
          match gdm_xdmcp_display_dispose_check s2 (env.gethostbyaddr clnt_sa) r.clnt_dspnum with
          | none => none
          | some s3 =>
            if s3.priv.num_pending_sessions ≥ s3.priv.max_pending_displays then
              some (gdm_xdmcp_send_decline env s3 clnt_sa "Maximum pending servers")
            else
              match gdm_xdmcp_display_alloc env s3 clnt_sa (env.gethostbyaddr clnt_sa)
                  r.clnt_dspnum with
              | none => none
              | some (s4, d) =>
                some (s4, [accept_packet clnt_sa d.sessionid [] [] MIT_MAGIC_COOKIE_1
                            (pad_take 16 d.bcookie)])
        else if request_mitauth r.clnt_authorization = false then
          some (gdm_xdmcp_send_decline env s2 clnt_sa "Only MIT-MAGIC-COOKIE-1 supported")
        else if s2.priv.num_sessions ≥ s2.priv.max_displays then
          some (gdm_xdmcp_send_decline env s2 clnt_sa "Maximum number of open sessions reached")
        else
          some (gdm_xdmcp_send_decline env s2 clnt_sa
            "Maximum number of open sessions from your host reached")

/-- The function `gdm_display_manage` of display.c: `fork_ok` tells whether `fork ()`
succeeded; on success the parent clears `use_chooser` and marks a local (that is, not
XDMCP) display alive.  The loop-of-death check that precedes the fork passes on a display
that was never managed before (its `last_loop_start_time` is 0), which is the case of
every display the MANAGE handler passes. -/
def gdm_display_manage (env : Env) (d : GdmDisplay) : GdmDisplay × Bool :=
  if env.fork_ok then
    ({ d with use_chooser := false,
              dispstat := if SERVER_IS_XDMCP d then d.dispstat else DispStat.DISPLAY_ALIVE }, true)
  else (d, false)

/-- The block of `gdm_xdmcp_handle_manage` guarded by `honor_indirect`: the new statics of
choose.c and the values of `use_chooser` and `indirect_id`. -/
def manage_indirect (env : Env) (s : Daemon) (clnt_sa : sockaddr_storage) :
    ChooseState × Bool × Nat :=
  if s.priv.honor_indirect then
    match mdm_choose_indirect_lookup env.now s.choose clnt_sa with
    | (c1, none) => (c1, false, 0)
    | (c1, some j) =>
      match c1.indirect[j]? with
      | none => (c1, false, 0)
      | some id =>
        if id.chosen_host.isNone then (c1, true, id.id)
        else (mdm_choose_indirect_dispose c1 j, false, 0)
  else (s.choose, false, 0)

/-- The function `gdm_xdmcp_handle_manage`. -/
def gdm_xdmcp_handle_manage (env : Env) (s : Daemon) (clnt_sa : sockaddr_storage)
    (rd : Option ManageFields) : Option (Daemon × List Sent) :=
  if env.host_allow clnt_sa = false then some (s, [])
  else
    match rd with
    | none => some (s, [])
    | some r =>
      match gdm_xdmcp_display_lookup s r.clnt_sessid with
      | none => some (gdm_xdmcp_send_refuse env s clnt_sa r.clnt_sessid)
      | some i =>
        match s.displays[i]? with
        | none => some (gdm_xdmcp_send_refuse env s clnt_sa r.clnt_sessid)
        | some d =>
          if d.dispstat = DispStat.XDMCP_PENDING then
            match manage_indirect env s clnt_sa, resolve_forward_query env s.priv clnt_sa with
            | (c1, use_chooser, indirect_id), (p1, out) =>
              match gdm_display_manage env
                  { d with use_chooser := use_chooser, indirect_id := indirect_id,
                           dispstat := DispStat.XDMCP_MANAGED } with
              | (d1, ok) =>
                some ({ s with
                          priv := { p1 with
                            num_sessions := guint_inc p1.num_sessions,
                            num_pending_sessions := guint_dec p1.num_pending_sessions },
                          choose := c1,
                          displays := s.displays.set i d1 },
                      if ok then out else out ++ [failed_packet clnt_sa r.clnt_sessid])
          else if d.dispstat = DispStat.XDMCP_MANAGED then some (s, [])
          else some (gdm_xdmcp_send_refuse env s clnt_sa r.clnt_sessid)

/-! ## The other handlers and the dispatcher -/

/-- The function `get_willing_output`: `willing_run` stands for running the script. -/
def get_willing_output (env : Env) (s : Daemon) : Option String :=
  match s.priv.willing_script with
  | none => none
  | some script => env.willing_run script

/-- The packet written by `gdm_xdmcp_send_willing` (the authentication is hardcoded empty). -/
def willing_packet (s : Daemon) (clnt_sa : sockaddr_storage) (status : List Nat) : Sent :=
  { dest := clnt_sa,
    header := { version := XDM_PROTOCOL_VERSION, opcode := WILLING,
                length := to_CARD16 (6 + 0 + s.priv.servhost.length + status.length) },
    fields := [WireField.ARRAY8 [], WireField.ARRAY8 s.priv.servhost, WireField.ARRAY8 status] }

/-- The function `gdm_xdmcp_send_willing`; `last_willing` is read but never assigned. -/
def gdm_xdmcp_send_willing (env : Env) (s : Daemon) (clnt_sa : sockaddr_storage) :
    Daemon × List Sent :=
  let last_status : Option String :=
    if s.statics.last_willing = 0 ∨ (env.now : Int) - 3 > s.statics.last_willing then
      match get_willing_output env s with
      | some o => some o
      | none => some s.priv.sysid
    else s.statics.last_status
  let status : String :=
    if gdm_address_is_local env.local_addrs clnt_sa = false
        ∧ gdm_xdmcp_num_displays_from_host s clnt_sa ≥ s.priv.max_displays_per_host then
      last_status.getD "" ++ " (Server is busy)"
    else last_status.getD ""
  ({ s with statics := { s.statics with last_status := last_status } },
   [willing_packet s clnt_sa (ascii status)])

/-- The packet written by `gdm_xdmcp_send_unwilling`. -/
def unwilling_packet (s : Daemon) (clnt_sa : sockaddr_storage) : Sent :=
  { dest := clnt_sa,
    header := { version := XDM_PROTOCOL_VERSION, opcode := UNWILLING,
                length := to_CARD16 (4 + s.priv.servhost.length
                  + (ascii "Display not authorized to connect").length) },
    fields := [WireField.ARRAY8 s.priv.servhost,
               WireField.ARRAY8 (ascii "Display not authorized to connect")] }

/-- The function `gdm_xdmcp_send_unwilling`. -/
def gdm_xdmcp_send_unwilling (env : Env) (s : Daemon) (clnt_sa : sockaddr_storage) :
    Daemon × List Sent :=
  if s.statics.last_time + 1 ≥ (env.now : Int) then (s, [])
  else ({ s with statics := { s.statics with last_time := (env.now : Int) } },
        [unwilling_packet s clnt_sa])

/-- The destination `sa = g_memdup (id->chosen_host, sizeof (id->chosen_host))` of
`gdm_xdmcp_send_forward_query`.  The size is that of the pointer `id->chosen_host`, 8
bytes, not that of the address it points to: the copy holds the family, the port and the 4
bytes that follow them.  Those are all the address bytes of a `sockaddr_in`; of a
`sockaddr_in6` they are the flow information, and none of its 16 address bytes nor its
scope id is in the copy.  `XdmcpFlush` is given this copy together with the length of the
client's address; for the bytes that the copy does not hold the embedding has no value,
and those fields are left empty. -/
def chosen_host_memdup (chosen_host : sockaddr_storage) : sockaddr_storage :=
  if chosen_host.ss_family = AF_INET then chosen_host
  else { ss_family := chosen_host.ss_family, addr := [], port := chosen_host.port,
         scope_id := 0 }

/-- The packet written by `gdm_xdmcp_send_forward_query`; it goes to the 8-byte copy of
the chosen host. -/
def forward_query_packet (chosen_host clnt_sa display_addr : sockaddr_storage)
    (authlist : List (List Nat)) : Sent :=
  { dest := chosen_host_memdup chosen_host,
    header := { version := XDM_PROTOCOL_VERSION, opcode := FORWARD_QUERY,
                length := to_CARD16 ((2 + (set_address_for_request display_addr).length)
                  + (2 + (set_port_for_request clnt_sa).length) + 1
                  + (authlist.map (fun a => 2 + a.length)).sum) },
    fields := [WireField.ARRAY8 (set_address_for_request display_addr),
               WireField.ARRAY8 (set_port_for_request clnt_sa),
               WireField.ARRAYofARRAY8 authlist] }

/-- The function `handle_direct_query` (with `handle_any_query`). -/
def handle_direct_query (env : Env) (s : Daemon) (clnt_sa : sockaddr_storage) (len : Nat)
    (rd : Option (List (List Nat))) : Daemon × List Sent :=
  match rd with
  | none => (s, [])
  | some clnt_authlist =>
    if len = 1 + (clnt_authlist.map (fun a => 2 + a.length)).sum then
      gdm_xdmcp_send_willing env s clnt_sa
    else (s, [])

/-- The function `gdm_xdmcp_handle_broadcast_query`. -/
def gdm_xdmcp_handle_broadcast_query (env : Env) (s : Daemon) (clnt_sa : sockaddr_storage)
    (len : Nat) (rd : Option (List (List Nat))) : Daemon × List Sent :=
  if env.host_allow clnt_sa then handle_direct_query env s clnt_sa len rd else (s, [])

/-- The function `gdm_xdmcp_handle_query`. -/
def gdm_xdmcp_handle_query (env : Env) (s : Daemon) (clnt_sa : sockaddr_storage)
    (len : Nat) (rd : Option (List (List Nat))) : Daemon × List Sent :=
  if env.host_allow clnt_sa then handle_direct_query env s clnt_sa len rd
  else gdm_xdmcp_send_unwilling env s clnt_sa

/-- The function `gdm_xdmcp_handle_indirect_query`. -/
def gdm_xdmcp_handle_indirect_query (env : Env) (s : Daemon) (clnt_sa : sockaddr_storage)
    (len : Nat) (rd : Option (List (List Nat))) : Daemon × List Sent :=
  if env.host_allow clnt_sa = false then (s, [])
  else if s.priv.honor_indirect = false then (s, [])
  else
    match rd with
    | none => (s, [])
    | some clnt_authlist =>
      if len = 1 + (clnt_authlist.map (fun a => 2 + a.length)).sum then
        match mdm_choose_indirect_lookup env.now s.choose clnt_sa with
        | (c1, none) =>
          gdm_xdmcp_send_willing env { s with choose := mdm_choose_indirect_alloc c1 clnt_sa }
            clnt_sa
        | (c1, some j) =>
          match c1.indirect[j]? with
          | none => (s, [])
          | some id =>
            match id.chosen_host with
            | none => gdm_xdmcp_send_willing env { s with choose := c1 } clnt_sa
            | some chosen_host =>
              if gdm_address_is_local env.local_addrs chosen_host then
                gdm_xdmcp_send_willing env
                  { s with choose := mdm_choose_indirect_dispose c1 j } clnt_sa
              else if env.is_loopback clnt_sa then
                ({ s with choose := c1 },
                 (env.local_addrs.filter (fun saddr => !env.is_loopback saddr)).map
                   (fun saddr => forward_query_packet chosen_host clnt_sa saddr clnt_authlist))
              else
                ({ s with choose := c1 },
                 [forward_query_packet chosen_host clnt_sa clnt_sa clnt_authlist])
      else (s, [])

/-- The function `create_sa_from_request`; `getaddrinfo` is given the address bytes, the
port and the family of the hints. -/
def create_sa_from_request (env : Env) (req_addr : List Nat) (req_port : Option (List Nat))
    (family : Nat) : Option sockaddr_storage :=
  match req_port with
  | some p =>
    if p.length ≠ 2 then none
    else if req_addr.length = 4 ∨ req_addr.length = 16 then
      env.getaddrinfo req_addr (p.getD 0 0 * 256 + p.getD 1 0) family
    else none
  | none =>
    if req_addr.length = 4 ∨ req_addr.length = 16 then
      env.getaddrinfo req_addr XDM_UDP_PORT family
    else none

/-- The function `gdm_xdmcp_handle_forward_query`. -/
def gdm_xdmcp_handle_forward_query (env : Env) (s : Daemon) (clnt_sa : sockaddr_storage)
    (len : Nat) (rd : Option ForwardQueryFields) : Daemon × List Sent :=
  if env.host_allow clnt_sa = false then (s, [])
  else
    match rd with
    | none => (s, [])
    | some r =>
      if len ≠ 1 + (2 + r.clnt_addr.length) + (2 + r.clnt_port.length)
          + (r.clnt_authlist.map (fun a => 2 + a.length)).sum then (s, [])
      else
        match create_sa_from_request env r.clnt_addr (some r.clnt_port) clnt_sa.ss_family with
        | none => (s, [])
        | some disp_sa =>
          let p1 := gdm_xdmcp_whack_queued_managed_forwards s.priv clnt_sa disp_sa
          if env.host_allow disp_sa then
            match gdm_forward_query_lookup env.now p1 disp_sa with
            | (p2, none) =>
              gdm_xdmcp_send_willing env
                { s with priv := gdm_forward_query_alloc p2 clnt_sa disp_sa } disp_sa
            | (p2, some i) =>
              gdm_xdmcp_send_willing env
                { s with priv := gdm_forward_query_alloc (gdm_forward_query_dispose p2 i)
                                   clnt_sa disp_sa } disp_sa
          else ({ s with priv := p1 }, [])

/-- The function `gdm_xdmcp_handle_managed_forward`. -/
def gdm_xdmcp_handle_managed_forward (env : Env) (s : Daemon) (clnt_sa : sockaddr_storage)
    (rd : Option (List Nat)) : Daemon × List Sent :=
  if env.host_allow clnt_sa = false then (s, [])
  else
    match rd with
    | none => (s, [])
    | some clnt_address =>
      match create_sa_from_request env clnt_address none clnt_sa.ss_family with
      | none => (s, [])
      | some disp_sa =>
        match mdm_choose_indirect_lookup_by_chosen env s.choose clnt_sa disp_sa with
        | some j =>
          ({ s with choose := mdm_choose_indirect_dispose s.choose j },
           [got_managed_forward_packet clnt_sa disp_sa])
        | none => (s, [got_managed_forward_packet clnt_sa disp_sa])

/-- The function `gdm_xdmcp_handle_got_managed_forward`. -/
def gdm_xdmcp_handle_got_managed_forward (env : Env) (s : Daemon)
    (clnt_sa : sockaddr_storage) (rd : Option (List Nat)) : Daemon × List Sent :=
  if env.host_allow clnt_sa = false then (s, [])
  else
    match rd with
    | none => (s, [])
    | some clnt_address =>
      match create_sa_from_request env clnt_address none clnt_sa.ss_family with
      | none => (s, [])
      | some disp_sa =>
        ({ s with priv := gdm_xdmcp_whack_queued_managed_forwards s.priv clnt_sa disp_sa }, [])

/-- The packet written by `gdm_xdmcp_send_alive`. -/
def alive_packet (clnt_sa : sockaddr_storage) (send_running send_sessid : Nat) : Sent :=
  { dest := clnt_sa,
    header := { version := XDM_PROTOCOL_VERSION, opcode := ALIVE, length := 5 },
    fields := [WireField.CARD8 send_running, WireField.CARD32 send_sessid] }

/-- The function `gdm_xdmcp_send_alive`. -/
def gdm_xdmcp_send_alive (s : Daemon) (clnt_sa : sockaddr_storage) (dspnum sessid : Nat) :
    List Sent :=
  let found : Option Nat :=
    match gdm_xdmcp_display_lookup s sessid with
    | some i => some i
    | none => gdm_xdmcp_display_lookup_by_host s clnt_sa dspnum
  match found.bind (fun i => s.displays[i]?) with
  | some d =>
    [alive_packet clnt_sa (if d.dispstat = DispStat.XDMCP_MANAGED then 1 else 0) d.sessionid]
  | none => [alive_packet clnt_sa 0 0]

/-- The function `gdm_xdmcp_handle_keepalive`. -/
def gdm_xdmcp_handle_keepalive (env : Env) (s : Daemon) (clnt_sa : sockaddr_storage)
    (rd : Option KeepaliveFields) : Daemon × List Sent :=
  if env.host_allow clnt_sa = false then (s, [])
  else
    match rd with
    | none => (s, [])
    | some r => (s, gdm_xdmcp_send_alive s clnt_sa r.clnt_dspnum r.clnt_sessid)

/-- The function `decode_packet`: the new state and the packets sent, in order. -/
def decode_packet (env : Env) (s : Daemon) (dg : Datagram) : Option (Daemon × List Sent) :=
  if dg.cond_in = false then some (s, [])
  else if dg.fill_ok = false then some (s, [])
  else
    match dg.header with
    | none => some (s, [])
    | some header =>
      if header.version ≠ XDM_PROTOCOL_VERSION ∧ header.version ≠ GDM_XDMCP_PROTOCOL_VERSION then
        some (s, [])
      else if header.opcode = BROADCAST_QUERY then
        some (gdm_xdmcp_handle_broadcast_query env s dg.clnt_sa header.length dg.as_authlist)
      else if header.opcode = QUERY then
        some (gdm_xdmcp_handle_query env s dg.clnt_sa header.length dg.as_authlist)
      else if header.opcode = INDIRECT_QUERY then
        some (gdm_xdmcp_handle_indirect_query env s dg.clnt_sa header.length dg.as_authlist)
      else if header.opcode = FORWARD_QUERY then
        some (gdm_xdmcp_handle_forward_query env s dg.clnt_sa header.length dg.as_forward_query)
      else if header.opcode = REQUEST then
        gdm_xdmcp_handle_request env s dg.clnt_sa header.length dg.as_request
      else if header.opcode = MANAGE then
        gdm_xdmcp_handle_manage env s dg.clnt_sa dg.as_manage
      else if header.opcode = KEEPALIVE then
        some (gdm_xdmcp_handle_keepalive env s dg.clnt_sa dg.as_keepalive)
      else if header.opcode = GDM_XDMCP_MANAGED_FORWARD then
        some (gdm_xdmcp_handle_managed_forward env s dg.clnt_sa dg.as_address)
      else if header.opcode = GDM_XDMCP_GOT_MANAGED_FORWARD then
        some (gdm_xdmcp_handle_got_managed_forward env s dg.clnt_sa dg.as_address)
      else some (s, [])

/-! ## Reachable states -/

/-- The state when the manager starts (`gdm_xdmcp_manager_init` on a zeroed private
struct): counters 0, empty tables, `session_serial` any `gint32`, the three limits any
`guint`; the display list holds only local displays as `gdm_display_alloc` of display.c
makes them (not XDMCP, session id 0, status not XDMCP_*); the statics of choose.c and of
the send functions have their initialisers. -/
def Initial (s : Daemon) : Prop :=
  s.priv.num_sessions = 0 ∧ s.priv.num_pending_sessions = 0
  ∧ s.priv.forward_queries = [] ∧ s.priv.managed_forwards = []
  ∧ G_MININT32 ≤ s.priv.session_serial ∧ s.priv.session_serial ≤ G_MAXINT32
  ∧ s.priv.max_displays < 4294967296 ∧ s.priv.max_pending_displays < 4294967296
  ∧ s.priv.max_displays_per_host < 4294967296
  ∧ s.displays.all (fun d => !SERVER_IS_XDMCP d && d.sessionid == 0
      && d.dispstat != DispStat.XDMCP_PENDING && d.dispstat != DispStat.XDMCP_MANAGED) = true
  ∧ s.choose.ipending = 0 ∧ s.choose.indirect = [] ∧ s.choose.indirect_id = 1
  ∧ s.statics.last_status = none ∧ s.statics.last_willing = 0 ∧ s.statics.last_time = 0

/-- States reachable from an initial one by handling datagrams with `decode_packet`, on a
host whose set of interface addresses is `local_addrs`. -/
inductive Reachable (local_addrs : List sockaddr_storage) : Daemon → Prop where
  | init (s : Daemon) (h : Initial s) : Reachable local_addrs s
  | step (s s1 : Daemon) (env : Env) (dg : Datagram) (out : List Sent)
      (h : Reachable local_addrs s) (hloc : env.local_addrs = local_addrs)
      (hstep : decode_packet env s dg = some (s1, out)) : Reachable local_addrs s1

/-- What holds of every reachable state (proved below): the configured limits are
`guint`s and `session_serial` a `gint32`; only XDMCP displays are pending; the pending
counter is exact and within its limit; `num_sessions` is a `guint`, never below the number
of managed displays, and bounded together with the pending counter; while the serial
counter has not reached `G_MAXINT32` every non-zero session id is the image of a smaller
counter value and ids are pairwise distinct; every non-local host owns at most
`max_displays_per_host` XDMCP displays. -/
structure Inv (local_addrs : List sockaddr_storage) (s : Daemon) : Prop where
  cfg_d : s.priv.max_displays < 4294967296
  cfg_p : s.priv.max_pending_displays < 4294967296
  serial_lo : G_MININT32 ≤ s.priv.session_serial
  serial_hi : s.priv.session_serial ≤ G_MAXINT32
  typed : ∀ d ∈ s.displays, d.dispstat = DispStat.XDMCP_PENDING → SERVER_IS_XDMCP d = true
  pending_eq : s.priv.num_pending_sessions = count_pending s.displays
  pending_le : s.priv.num_pending_sessions ≤ s.priv.max_pending_displays
  sessions_lt : s.priv.num_sessions < 4294967296
  managed : s.priv.max_displays + s.priv.max_pending_displays ≤ 4294967296 →
    count_managed s.displays ≤ s.priv.num_sessions
    ∧ s.priv.num_sessions + s.priv.num_pending_sessions
        ≤ s.priv.max_displays + s.priv.max_pending_displays - 1
  ids : s.priv.session_serial ≠ G_MAXINT32 →
    (∀ d ∈ s.displays, d.sessionid ≠ 0 →
      ∃ k : Int, G_MININT32 ≤ k ∧ k < s.priv.session_serial ∧ d.sessionid = to_CARD32 k)
    ∧ s.displays.Pairwise (fun a b => a.sessionid ≠ 0 → a.sessionid ≠ b.sessionid)
  per_host : ∀ peer, gdm_address_is_local local_addrs peer = false →
    gdm_xdmcp_num_displays_from_host s peer ≤ s.priv.max_displays_per_host

/-- The handler left the display list alone and changed nothing of the private struct
but the two forwarding tables. -/
def Frame (s s1 : Daemon) : Prop :=
  s1.displays = s.displays
    ∧ ∃ fq mf, s1.priv = { s.priv with forward_queries := fq, managed_forwards := mf }

/-! ## Sample inputs -/

/-- The peer 10.0.0.2:5000. -/
def sample_hostA : sockaddr_storage :=
  { ss_family := AF_INET, addr := [10, 0, 0, 2], port := 5000, scope_id := 0 }

/-- The peer 10.0.0.3:5000. -/
def sample_hostB : sockaddr_storage :=
  { ss_family := AF_INET, addr := [10, 0, 0, 3], port := 5000, scope_id := 0 }

/-- Collaborators of a sample run: every host is allowed, no address is local, reverse
lookup names 10.0.0.2 "a.example" and any other peer "b.example", `fork` succeeds. -/
def sample_env (now : Nat) (random : List Nat) : Env :=
  { now := now,
    host_allow := fun _ => true,
    local_addrs := [],
    is_loopback := fun _ => false,
    gethostbyaddr := fun a => if a.addr = [10, 0, 0, 2] then some "a.example"
      else some "b.example",
    random := random,
    bcookie := [1, 2, 3, 4, 5, 6, 7, 8, 9, 10, 11, 12, 13, 14, 15, 16],
    fork_ok := true,
    willing_run := fun _ => none,
    getaddrinfo := fun _ _ _ => none }

/-- A freshly started manager with an empty display list. -/
def sample_init (session_serial : Int) (max_displays max_pending_displays : Nat) : Daemon :=
  { priv :=
      { forward_queries := [], managed_forwards := [], socket_fd := 3,
        session_serial := session_serial, num_sessions := 0, num_pending_sessions := 0,
        sysid := "Linux 6.0", servhost := ascii "server", port := 177, use_multicast := false,
        honor_indirect := true, willing_script := none, max_displays_per_host := 2,
        max_displays := max_displays, max_pending_displays := max_pending_displays,
        max_wait := 15 },
    displays := [],
    choose := { ipending := 0, indirect := [], indirect_id := 1, max_indirect := 15,
                max_wait_indirect := 15 },
    statics := { last_status := none, last_willing := 0, last_time := 0 } }

/-- A pending XDMCP display of 10.0.0.2 (display number 1) accepted at time `acctime`. -/
def sample_pending (sessionid acctime : Nat) : GdmDisplay :=
  { type := DispType.TYPE_XDMCP, dispstat := DispStat.XDMCP_PENDING, sessionid := sessionid,
    acctime := acctime, xdmcp_dispnum := 1, hostname := some "a.example",
    addr := sample_hostA, bcookie := [1, 2, 3, 4, 5, 6, 7, 8, 9, 10, 11, 12, 13, 14, 15, 16],
    use_chooser := false, indirect_id := 0, removeconf := false }

/-- A manager that holds exactly one pending display, `sample_pending 7 acctime`. -/
def sample_one_pending (acctime max_pending_displays : Nat) : Daemon :=
  { sample_init 8 16 max_pending_displays with
    priv := { (sample_init 8 16 max_pending_displays).priv with num_pending_sessions := 1 },
    displays := [sample_pending 7 acctime] }

/-- The local display ":0" of the server, as `gdm_display_alloc` of display.c makes it:
static, unborn, session id 0, zeroed address. -/
def sample_local : GdmDisplay :=
  { type := DispType.TYPE_STATIC, dispstat := DispStat.DISPLAY_UNBORN, sessionid := 0,
    acctime := 0, xdmcp_dispnum := 0, hostname := some "server",
    addr := { ss_family := 0, addr := [], port := 0, scope_id := 0 }, bcookie := [],
    use_chooser := false, indirect_id := 0, removeconf := false }

/-- A freshly started manager whose display list holds the local display ":0". -/
def sample_init_local (session_serial : Int) (max_displays max_pending_displays : Nat) :
    Daemon :=
  { sample_init session_serial max_displays max_pending_displays with
    displays := [sample_local] }

/-- A manager that holds the local display ":0" and, after it, one pending display,
`sample_pending 7 acctime`. -/
def sample_local_pending (acctime max_pending_displays : Nat) : Daemon :=
  { sample_one_pending acctime max_pending_displays with
    displays := [sample_local, sample_pending 7 acctime] }

/-- The REQUEST of the direct-session scenario: display 1, one authorization name
"MIT-MAGIC-COOKIE-1", manufacturer "xdm"; its fields occupy 34 bytes. -/
def sample_request : RequestFields :=
  { clnt_dspnum := 1, clnt_conntyp := [], clnt_addr := [], clnt_authname := [],
    clnt_authdata := [], clnt_authorization := [MIT_MAGIC_COOKIE_1],
    clnt_manufacturer := ascii "xdm" }

/-- A REQUEST datagram from `sa` with declared length `len`. -/
def sample_dg_request (sa : sockaddr_storage) (len : Nat) : Datagram :=
  { cond_in := true, fill_ok := true, clnt_sa := sa,
    header := some { version := XDM_PROTOCOL_VERSION, opcode := REQUEST, length := len },
    as_authlist := none, as_forward_query := none, as_request := some sample_request,
    as_manage := none, as_keepalive := none, as_address := none }

/-- A MANAGE datagram from `sa` for session `sessid`, display 1, class "MIT-Sun". -/
def sample_dg_manage (sa : sockaddr_storage) (sessid : Nat) : Datagram :=
  { cond_in := true, fill_ok := true, clnt_sa := sa,
    header := some { version := XDM_PROTOCOL_VERSION, opcode := MANAGE, length := 15 },
    as_authlist := none, as_forward_query := none, as_request := none,
    as_manage := some { clnt_sessid := sessid, clnt_dspnum := 1,
                        clnt_dspclass := ascii "MIT-Sun" },
    as_keepalive := none, as_address := none }

/-- Handle a sequence of datagrams, each with its collaborators, in arrival order. -/
def run_datagrams : Daemon → List (Env × Datagram) → Option Daemon
  | s, [] => some s
  | s, (env, dg) :: rest =>
    match decode_packet env s dg with
    | none => none
    | some (s1, _) => run_datagrams s1 rest

/-- REQUEST, MANAGE, then a second REQUEST from the same host and display number. -/
def trace_remanage : List (Env × Datagram) :=
  [(sample_env 100 [], sample_dg_request sample_hostA 34),
   (sample_env 101 [], sample_dg_manage sample_hostA 7),
   (sample_env 102 [], sample_dg_request sample_hostA 34)]

/-- Two REQUESTs from two hosts; during the second one `g_random_int ()` yields 2147483646. -/
def trace_two_requests : List (Env × Datagram) :=
  [(sample_env 100 [], sample_dg_request sample_hostA 34),
   (sample_env 101 [2147483646], sample_dg_request sample_hostB 34)]

/-- Two hosts each send REQUEST and then MANAGE for the session they were given (7 and 8). -/
def trace_two_sessions : List (Env × Datagram) :=
  [(sample_env 100 [], sample_dg_request sample_hostA 34),
   (sample_env 101 [], sample_dg_request sample_hostB 34),
   (sample_env 102 [], sample_dg_manage sample_hostA 7),
   (sample_env 103 [], sample_dg_manage sample_hostB 8)]

/-- The state reached from the initial sample manager by `trace_two_requests`. -/
def state_two_pending : Daemon :=
  (run_datagrams (sample_init 7 16 4) trace_two_requests).getD (sample_init 7 16 4)

/-- The state reached from the initial sample manager by `trace_two_sessions`. -/
def state_two_managed : Daemon :=
  (run_datagrams (sample_init 7 16 4) trace_two_sessions).getD (sample_init 7 16 4)

/-- An answer to a REQUEST: DECLINE with a reason, or ACCEPT. -/
inductive RequestReply where
  | decline (reason : String)
  | accept
deriving DecidableEq

/-- The decision as the specification words it: all three capacity checks read the
counters of the state `s2` reached by the purge of stale pending sessions. -/
def claimed_request_reply (env : Env) (s2 : Daemon) (clnt_sa : sockaddr_storage) :
    RequestReply :=
  if s2.priv.num_sessions ≥ s2.priv.max_displays then
    RequestReply.decline "Maximum number of open sessions reached"
  else if gdm_address_is_local env.local_addrs clnt_sa = false
      ∧ gdm_xdmcp_num_displays_from_host s2 clnt_sa ≥ s2.priv.max_displays_per_host then
    RequestReply.decline "Maximum number of open sessions from your host reached"
  else if s2.priv.num_pending_sessions ≥ s2.priv.max_pending_displays then
    RequestReply.decline "Maximum pending servers"
  else RequestReply.accept

/-! ## Bytes occupied on the wire -/

/-- Bytes that `XdmcpReadARRAY8` consumes: a CARD16 length, then the data. -/
def ARRAY8_wire_length (a : List Nat) : Nat := 2 + a.length

/-- Bytes that `XdmcpReadARRAYofARRAY8` consumes: a CARD8 count, then each element as an
ARRAY8. -/
def ARRAYofARRAY8_wire_length (l : List (List Nat)) : Nat :=
  1 + (l.map ARRAY8_wire_length).sum

/-- Bytes consumed by the three readers of `gdm_xdmcp_handle_forward_query`. -/
def forward_query_wire_length (r : ForwardQueryFields) : Nat :=
  ARRAY8_wire_length r.clnt_addr + ARRAY8_wire_length r.clnt_port
    + ARRAYofARRAY8_wire_length r.clnt_authlist

/-- Bytes consumed by the three readers of `gdm_xdmcp_handle_manage` (CARD32, CARD16,
ARRAY8). -/
def manage_wire_length (r : ManageFields) : Nat := 4 + 2 + ARRAY8_wire_length r.clnt_dspclass

/-- Bytes consumed by the two readers of `gdm_xdmcp_handle_keepalive` (CARD16, CARD32). -/
def keepalive_wire_length (_r : KeepaliveFields) : Nat := 2 + 4

/-! ## Sample inputs for MANAGE, KEEPALIVE and the forwarding opcodes -/

/-- Collaborators as in `sample_env`, except that `fork ()` fails. -/
def sample_env_fork_fails (now : Nat) : Env :=
  { sample_env now [] with fork_ok := false }

/-- Collaborators as in `sample_env`, except that tcp-wrappers deny every host. -/
def sample_env_denying (now : Nat) : Env :=
  { sample_env now [] with host_allow := fun _ => false }

/-- Collaborators as in `sample_env`, except that `getaddrinfo` resolves: it yields the
address bytes and the port it was given, in the family of the hints. -/
def sample_env_resolving (now : Nat) : Env :=
  { sample_env now [] with
    getaddrinfo := fun a p f => some { ss_family := f, addr := a, port := p, scope_id := 0 } }

/-- A MANAGE datagram as `sample_dg_manage` (its fields occupy 15 bytes) with declared
length `len`. -/
def sample_dg_manage_len (sa : sockaddr_storage) (sessid len : Nat) : Datagram :=
  { sample_dg_manage sa sessid with
    header := some { version := XDM_PROTOCOL_VERSION, opcode := MANAGE, length := len } }

/-- A KEEPALIVE datagram from `sa` for display 1 and session `sessid`, with declared length
`len`; its fields occupy 6 bytes. -/
def sample_dg_keepalive (sa : sockaddr_storage) (sessid len : Nat) : Datagram :=
  { cond_in := true, fill_ok := true, clnt_sa := sa,
    header := some { version := XDM_PROTOCOL_VERSION, opcode := KEEPALIVE, length := len },
    as_authlist := none, as_forward_query := none, as_request := none, as_manage := none,
    as_keepalive := some { clnt_dspnum := 1, clnt_sessid := sessid }, as_address := none }

/-- A QUERY, BROADCAST_QUERY or INDIRECT_QUERY datagram from `sa` with the single
authentication name "MIT-MAGIC-COOKIE-1" and declared length `len`; its fields occupy 21
bytes. -/
def sample_dg_query (sa : sockaddr_storage) (opcode len : Nat) : Datagram :=
  { cond_in := true, fill_ok := true, clnt_sa := sa,
    header := some { version := XDM_PROTOCOL_VERSION, opcode := opcode, length := len },
    as_authlist := some [MIT_MAGIC_COOKIE_1], as_forward_query := none, as_request := none,
    as_manage := none, as_keepalive := none, as_address := none }

/-- A FORWARD_QUERY datagram from `sa` for the display 10.0.0.2, port 5000, without
authentication names, with declared length `len`; its fields occupy 11 bytes. -/
def sample_dg_forward_query (sa : sockaddr_storage) (len : Nat) : Datagram :=
  { cond_in := true, fill_ok := true, clnt_sa := sa,
    header := some { version := XDM_PROTOCOL_VERSION, opcode := FORWARD_QUERY, length := len },
    as_authlist := none,
    as_forward_query := some { clnt_addr := [10, 0, 0, 2], clnt_port := [19, 136],
                               clnt_authlist := [] },
    as_request := none, as_manage := none, as_keepalive := none, as_address := none }

/-- A datagram of one of the two vendor opcodes from `sa`, carrying the address 10.0.0.2,
with declared length `len`; its field occupies 6 bytes. -/
def sample_dg_vendor (sa : sockaddr_storage) (opcode len : Nat) : Datagram :=
  { cond_in := true, fill_ok := true, clnt_sa := sa,
    header := some { version := GDM_XDMCP_PROTOCOL_VERSION, opcode := opcode, length := len },
    as_authlist := none, as_forward_query := none, as_request := none, as_manage := none,
    as_keepalive := none, as_address := some [10, 0, 0, 2] }

/-- One REQUEST from 10.0.0.2 at time 100; it leads from `sample_init 7 16 4` to
`sample_one_pending 100 4`. -/
def trace_one_request : List (Env × Datagram) :=
  [(sample_env 100 [], sample_dg_request sample_hostA 34)]

/-- The host 10.0.0.2 sends a FORWARD_QUERY that names itself as the display, then a
REQUEST. -/
def trace_forwarded_self : List (Env × Datagram) :=
  [(sample_env_resolving 100, sample_dg_forward_query sample_hostA 11),
   (sample_env 101 [], sample_dg_request sample_hostA 34)]

/-- The state reached from the initial sample manager by `trace_forwarded_self`. -/
def state_forwarded_self : Daemon :=
  (run_datagrams (sample_init 7 16 4) trace_forwarded_self).getD (sample_init 7 16 4)

/-- A manager that queued one MANAGED_FORWARD: sent to the manager 10.0.0.3 on behalf of
the display 10.0.0.2. -/
def sample_queued_forward : Daemon :=
  { sample_init 7 16 4 with
    priv := { (sample_init 7 16 4).priv with
      managed_forwards := [{ times := 0, manager := sample_hostB,
                             origin := { ss_family := AF_INET, addr := [10, 0, 0, 2],
                                         port := 177, scope_id := 0 } }] } }

/-! ## Payload sizes -/

/-- Bytes that one written field occupies after the header: `XdmcpWriteCARD8`, `CARD16` and
`CARD32` write 1, 2 and 4 bytes, the two array writers what the array readers consume. -/
def wire_length : WireField → Nat
  | WireField.CARD8 _ => 1
  | WireField.CARD16 _ => 2
  | WireField.CARD32 _ => 4
  | WireField.ARRAY8 data => ARRAY8_wire_length data
  | WireField.ARRAYofARRAY8 data => ARRAYofARRAY8_wire_length data

/-- Bytes written between `XdmcpWriteHeader` and `XdmcpFlush`. -/
def payload_length (fields : List WireField) : Nat := (fields.map wire_length).sum

/-! ## The timer of a queued MANAGED_FORWARD -/

/-- The timer callback `managed_forward_handler` for the queue entry at position `i`: the
new private struct, the packets sent, and the value returned (TRUE: glib calls the
handler again after the next interval; FALSE: glib destroys the timer). -/
def managed_forward_handler (p : GdmXdmcpManagerPrivate) (i : Nat) :
    GdmXdmcpManagerPrivate × List Sent × Bool :=
  match p.managed_forwards[i]? with
  | none => (p, [], false)
  | some mf =>
    if p.socket_fd ≤ 0 ∨ mf.times + 1 ≥ 2 then
      ({ p with managed_forwards := p.managed_forwards.eraseIdx i },
       if p.socket_fd > 0 then [managed_forward_packet mf.manager mf.origin] else [], false)
    else
      ({ p with managed_forwards := p.managed_forwards.set i { mf with times := mf.times + 1 } },
       if p.socket_fd > 0 then [managed_forward_packet mf.manager mf.origin] else [], true)

/-- States reachable from an initial one by handling datagrams with `decode_packet` and by
firings of the timers of queued managed forwards, on a host whose set of interface
addresses is `local_addrs`. -/
inductive ReachableT (local_addrs : List sockaddr_storage) : Daemon → Prop where
  | init (s : Daemon) (h : Initial s) : ReachableT local_addrs s
  | datagram (s s1 : Daemon) (env : Env) (dg : Datagram) (out : List Sent)
      (h : ReachableT local_addrs s) (hloc : env.local_addrs = local_addrs)
      (hstep : decode_packet env s dg = some (s1, out)) : ReachableT local_addrs s1
  | timer (s : Daemon) (i : Nat) (h : ReachableT local_addrs s)
      (hi : i < s.priv.managed_forwards.length) :
      ReachableT local_addrs { s with priv := (managed_forward_handler s.priv i).1 }

/-- The pair of addresses a queue entry stands for. -/
def mf_pair (mf : ManagedForward) : sockaddr_storage × sockaddr_storage := (mf.manager, mf.origin)

/-- What holds of the two forwarding tables in every reachable state (proved below): no
two queued managed forwards stand for the same (manager, origin) pair, no two forward
queries are for the same display, and no queued managed forward stands for the (from,
display) pair of a forward query; "same" is `gdm_address_equal`. -/
structure TablesInv (fq : List GdmForwardQuery) (mf : List ManagedForward) : Prop where
  queue : (mf.map mf_pair).Pairwise (fun a b =>
    ¬ (gdm_address_equal a.1 b.1 = true ∧ gdm_address_equal a.2 b.2 = true))
  forwards : fq.Pairwise (fun a b => gdm_address_equal a.dsp_sa b.dsp_sa = false)
  apart : ∀ q ∈ fq, ∀ k ∈ mf.map mf_pair,
    ¬ (gdm_address_equal k.1 q.from_sa = true ∧ gdm_address_equal k.2 q.dsp_sa = true)

/-! ## Runs that keep what was sent -/

/-- Handle a sequence of datagrams in arrival order and collect every packet sent, each
with the wallclock time of the datagram that caused it. -/
def run_sent : Daemon → List (Env × Datagram) → Option (List (Nat × Sent))
  | _, [] => some []
  | s, (env, dg) :: rest =>
    match decode_packet env s dg with
    | none => none
    | some (s1, out) =>
      (run_sent s1 rest).map (fun l => out.map (fun pk => (env.now, pk)) ++ l)

/-! ## Sample inputs for the willing status and the forwarding tables -/

/-- Collaborators as in `sample_env`, except that running the willing script yields the
line `output`. -/
def sample_env_willing (now : Nat) (output : String) : Env :=
  { sample_env now [] with willing_run := fun _ => some output }

/-- A freshly started manager that is configured with a willing script. -/
def sample_init_script : Daemon :=
  { sample_init 7 16 4 with
    priv := { (sample_init 7 16 4).priv with willing_script := some "/etc/X11/gdm/willing" } }

/-- A FORWARD_QUERY datagram from `sa` for the display 10.0.1.`k`, port 5000, without
authentication names; its fields occupy 11 bytes and it declares 11. -/
def sample_dg_forward_query_for (sa : sockaddr_storage) (k : Nat) : Datagram :=
  { cond_in := true, fill_ok := true, clnt_sa := sa,
    header := some { version := XDM_PROTOCOL_VERSION, opcode := FORWARD_QUERY, length := 11 },
    as_authlist := none,
    as_forward_query := some { clnt_addr := [10, 0, 1, k], clnt_port := [19, 136],
                               clnt_authlist := [] },
    as_request := none, as_manage := none, as_keepalive := none, as_address := none }

/-- The manager 10.0.0.3 forwards queries for the eleven displays 10.0.1.0 to 10.0.1.10,
one per second from time 100 on. -/
def trace_eleven_forwards : List (Env × Datagram) :=
  (List.range 11).map (fun k => (sample_env_resolving (100 + k),
    sample_dg_forward_query_for sample_hostB k))

/-- The state reached from the initial sample manager by `trace_eleven_forwards`. -/
def state_eleven_forwards : Daemon :=
  (run_datagrams (sample_init 7 16 4) trace_eleven_forwards).getD (sample_init 7 16 4)

/-- Three QUERY datagrams from 10.0.0.2, denied by tcp-wrappers, at the times 100, 100
and 102. -/
def trace_denied_queries : List (Env × Datagram) :=
  [(sample_env_denying 100, sample_dg_query sample_hostA QUERY 21),
   (sample_env_denying 100, sample_dg_query sample_hostA QUERY 21),
   (sample_env_denying 102, sample_dg_query sample_hostA QUERY 21)]

/-! ## Timer firings in sequence; sample inputs for the queue of managed forwards -/

/-- Firings of the timers of the queue entries at the positions `fired`, one after the
other with nothing else in between; each position refers to the queue as it is when that
timer fires.  Returns the packets sent, in order. -/
def fire_timers : GdmXdmcpManagerPrivate → List Nat → GdmXdmcpManagerPrivate × List Sent
  | p, [] => (p, [])
  | p, i :: rest =>
    ((fire_timers (managed_forward_handler p i).1 rest).1,
     (managed_forward_handler p i).2.1 ++ (fire_timers (managed_forward_handler p i).1 rest).2)

/-- The peer 10.0.1.1:5000. -/
def sample_hostC : sockaddr_storage :=
  { ss_family := AF_INET, addr := [10, 0, 1, 1], port := 5000, scope_id := 0 }

/-- The manager 10.0.0.3 forwards queries for the displays 10.0.0.2 and 10.0.1.1; each
display then sends a MANAGE for a session that does not exist, which is refused and makes
the daemon queue a MANAGED_FORWARD to 10.0.0.3. -/
def trace_two_queued : List (Env × Datagram) :=
  [(sample_env_resolving 100, sample_dg_forward_query sample_hostB 11),
   (sample_env_resolving 100, sample_dg_forward_query_for sample_hostB 1),
   (sample_env 101 [], sample_dg_manage sample_hostA 999),
   (sample_env 101 [], sample_dg_manage sample_hostC 999)]

/-- The state reached from the initial sample manager by `trace_two_queued`. -/
def state_two_queued : Daemon :=
  (run_datagrams (sample_init 7 16 4) trace_two_queued).getD (sample_init 7 16 4)

/-- The fields of the FORWARD_QUERY of `sample_dg_forward_query`: display 10.0.0.2, port
5000, no authentication names. -/
def sample_forward_query : ForwardQueryFields :=
  { clnt_addr := [10, 0, 0, 2], clnt_port := [19, 136], clnt_authlist := [] }

/-! ## choose.c: the answer of the chooser -/

/-- Conversion of an `int` to `guint`, as the comparison `idisp->id == id` applies it to
the `int` operand. -/
def to_guint (i : Int) : Nat := (i % 4294967296).toNat

/-- The staleness test of `mdm_choose_indirect_lookup`: a resolved record (`acctime > 0`)
that is older than `max_wait_indirect`. -/
def indirect_stale (curtime max_wait_indirect : Nat) (id : MdmIndirectDisplay) : Bool :=
  decide (id.acctime > 0 ∧ curtime > id.acctime + max_wait_indirect)

/-- Number of resolved records (`acctime > 0`) of an indirect table. -/
def resolved_count (l : List MdmIndirectDisplay) : Nat :=
  l.countP (fun r => decide (r.acctime > 0))

/-- By how much the counter `ipending` exceeds the number of resolved records. -/
def pending_excess (c : ChooseState) : Int := c.ipending - (resolved_count c.indirect : Int)

/-- The scan of `remove_oldest_pending`: position and `acctime` of `oldest`; `i` is the
position of the head of the part of the list that is left. -/
def oldest_pending : List MdmIndirectDisplay → Nat → Option (Nat × Nat) → Option (Nat × Nat)
  | [], _, oldest => oldest
  | idisp :: l, i, oldest =>
    if idisp.acctime = 0 then oldest_pending l (i + 1) oldest
    else
      match oldest with
      | none => oldest_pending l (i + 1) (some (i, idisp.acctime))
      | some (j, t) =>
        if idisp.acctime < t then oldest_pending l (i + 1) (some (i, idisp.acctime))
        else oldest_pending l (i + 1) (some (j, t))

/-- The function `remove_oldest_pending`. -/
def remove_oldest_pending (c : ChooseState) : ChooseState × Bool :=
  match oldest_pending c.indirect 0 none with
  | some (i, _) => (mdm_choose_indirect_dispose c i, true)
  | none => (c, false)

/-- The loop `while (ipending >= max_indirect && remove_oldest_pending ()) ;` of
`mdm_choose_data`, one iteration per unit of budget.  `idisp` follows the record that the
enclosing scan found: its position in the list, or `none` once `remove_oldest_pending` has
disposed (and freed) that very record. -/
def mdm_choose_data_evict : Nat → ChooseState → Option Nat → Option (ChooseState × Option Nat)
  | 0, _, _ => none
  | fuel + 1, c, idisp =>
    if c.ipending ≥ c.max_indirect then
      match oldest_pending c.indirect 0 none with
      | some (i, _) =>
        mdm_choose_data_evict fuel (remove_oldest_pending c).1
          (idisp.bind (fun k => if i = k then none else if i < k then some (k - 1) else some k))
      | none => some (c, idisp)
    else some (c, idisp)

/-- The tokens that the successive calls `strtok (msg, " ")`, `strtok (NULL, " ")`, ...
return: the maximal runs of characters other than the space.  `cur` is the token being
read, in reverse. -/
def strtok_tokens : List Char → List Char → List (List Char)
  | [], cur => if cur = [] then [] else [cur.reverse]
  | ch :: rest, cur =>
    if ch.toNat = 32 then
      if cur = [] then strtok_tokens rest [] else cur.reverse :: strtok_tokens rest []
    else strtok_tokens rest (ch :: cur)

/-- The C library test `isspace` in the "C" locale. -/
def isspace (ch : Char) : Bool := ch.toNat = 32 ∨ (9 ≤ ch.toNat ∧ ch.toNat ≤ 13)

/-- The decimal digits at the start of a string, as a number; `acc` is `none` until a
digit has been read. -/
def scan_digits : List Char → Option Nat → Option Nat
  | [], acc => acc
  | ch :: rest, acc =>
    if 48 ≤ ch.toNat ∧ ch.toNat ≤ 57 then
      scan_digits rest (some (10 * acc.getD 0 + (ch.toNat - 48)))
    else acc

/-- Largest `long` (64 bits). -/
def LONG_MAX : Int := 9223372036854775807

/-- Smallest `long` (64 bits). -/
def LONG_MIN : Int := -9223372036854775808

/-- What `%d` stores for the number read: the C library converts the digits as `strtol`
does, to a `long` that stops at `LONG_MAX` or `LONG_MIN` when the number is out of range,
and stores that `long` converted to `int` (its low 32 bits, as a signed number). -/
def long_to_int (v : Int) : Int :=
  (max LONG_MIN (min LONG_MAX v) + 2147483648) % 4294967296 - 2147483648

/-- The C library conversion `sscanf (p, "%d", &id)`: white space is skipped, an optional
sign is read, then decimal digits up to the first character that is not one; `none` when
no digit is there (`sscanf` does not return 1). -/
def sscanf_d (p : List Char) : Option Int :=
  match p.dropWhile isspace with
  | [] => none
  | ch :: rest =>
    if ch.toNat = 45 then (scan_digits rest none).map (fun n => long_to_int (- (n : Int)))
    else if ch.toNat = 43 then (scan_digits rest none).map (fun n => long_to_int (n : Int))
    else (scan_digits (ch :: rest) none).map (fun n => long_to_int (n : Int))

/-- Modelled from the spec: the constant `MDM_SOP_CHOSEN` (mdm-socket-protocol.h is not
among the sources); "a single textual command `CHOSEN <indirect-id> <host-node>`". -/
def MDM_SOP_CHOSEN : String := "CHOSEN"

/-- The function `get_first_address_for_node`, given the list that `getaddrinfo` returns
for the node (empty when `getaddrinfo` fails): the first entry of family AF_INET or
AF_INET6. -/
def get_first_address_for_node (ai_list : List sockaddr_storage) : Option sockaddr_storage :=
  ai_list.find? (fun ai => ai.ss_family == AF_INET || ai.ss_family == AF_INET6)

/-- The function `mdm_choose_data`: the new statics and the value returned; `none` when
the budget of the eviction loop runs out.  The stores to `idisp` after the eviction loop
go to the record at its position; when the loop has freed the record they are stores to
freed memory and change nothing in the table. -/
def mdm_choose_data (now : Nat) (getaddrinfo : String → List sockaddr_storage)
    (c : ChooseState) (data : String) : Option (ChooseState × Bool) :=
  match strtok_tokens data.toList [] with
  | [] => some (c, false)
  | p0 :: rest0 =>
    if p0 ≠ MDM_SOP_CHOSEN.toList then some (c, false)
    else
      match rest0 with
      | [] => some (c, false)
      | p1 :: rest1 =>
        match sscanf_d p1 with
        | none => some (c, false)
        | some id =>
          match rest1 with
          | [] => some (c, false)
          | p2 :: _ =>
            match get_first_address_for_node (getaddrinfo (String.mk p2)) with
            | none => some (c, false)
            | some sa =>
              match find_first (fun idisp => idisp.id == to_guint id) c.indirect with
              | none => some (c, false)
              | some k =>
                match mdm_choose_data_evict (c.indirect.length + 1) c (some k) with
                | none => none
                | some (c1, none) => some ({ c1 with ipending := c1.ipending + 1 }, true)
                | some (c1, some k1) =>
                  match c1.indirect[k1]? with
                  | none => some ({ c1 with ipending := c1.ipending + 1 }, true)
                  | some idisp =>
                    some ({ c1 with
                            indirect := c1.indirect.set k1
                              { idisp with acctime := now, chosen_host := some sa },
                            ipending := c1.ipending + 1 }, true)

/-- A call that only removed records: the table is a sublist of what it was, `ipending`
went down by the number of resolved records removed, nothing else changed. -/
def ChooseShrink (c c1 : ChooseState) : Prop :=
  c1.indirect.Sublist c.indirect ∧ pending_excess c1 = pending_excess c
    ∧ c1.indirect_id = c.indirect_id ∧ c1.max_indirect = c.max_indirect
    ∧ c1.max_wait_indirect = c.max_wait_indirect

/-- The statics of choose.c when the daemon starts. -/
def ChooseInitial (c : ChooseState) : Prop :=
  c.ipending = 0 ∧ c.indirect = [] ∧ c.indirect_id = 1

/-- States of the statics of choose.c reachable from the initial ones by calls of
`mdm_choose_indirect_alloc`, `mdm_choose_indirect_lookup`, `mdm_choose_indirect_dispose`,
`mdm_choose_indirect_dispose_empty_id` and `mdm_choose_data`; the index counts the calls
of `mdm_choose_indirect_alloc`. -/
inductive ChooseReachable : Nat → ChooseState → Prop where
  | init (c : ChooseState) (h : ChooseInitial c) : ChooseReachable 0 c
  | alloc (n : Nat) (c : ChooseState) (clnt_sa : sockaddr_storage)
      (h : ChooseReachable n c) : ChooseReachable (n + 1) (mdm_choose_indirect_alloc c clnt_sa)
  | lookup (n : Nat) (c : ChooseState) (curtime : Nat) (clnt_sa : sockaddr_storage)
      (h : ChooseReachable n c) :
      ChooseReachable n (mdm_choose_indirect_lookup curtime c clnt_sa).1
  | dispose (n : Nat) (c : ChooseState) (i : Nat) (h : ChooseReachable n c) :
      ChooseReachable n (mdm_choose_indirect_dispose c i)
  | dispose_empty_id (n : Nat) (c : ChooseState) (id : Nat) (h : ChooseReachable n c) :
      ChooseReachable n (mdm_choose_indirect_dispose_empty_id c id)
  | data (n : Nat) (c c1 : ChooseState) (now : Nat)
      (getaddrinfo : String → List sockaddr_storage) (line : String) (ret : Bool)
      (h : ChooseReachable n c) (hstep : mdm_choose_data now getaddrinfo c line = some (c1, ret)) :
      ChooseReachable n c1

/-- The statics of choose.c after `k` further calls of `mdm_choose_indirect_alloc` for the
origin `clnt_sa`. -/
def alloc_times : Nat → ChooseState → sockaddr_storage → ChooseState
  | 0, c, _ => c
  | k + 1, c, clnt_sa => mdm_choose_indirect_alloc (alloc_times k c clnt_sa) clnt_sa

/-! ## The restarting scans, with their restarts and iterations counted -/

/-- The loop `restart_scan` with two counters added: `restarts` counts the executions of
`dlist = displays` that the loop survives, `steps` the iterations of the loop body. -/
def restart_scan_counted (hit : GdmDisplay → Bool)
    (act : Daemon → Nat → GdmDisplay → Daemon × Bool) :
    Nat → Daemon → Nat → Bool → Nat → Nat → Option (Daemon × Bool × Nat × Nat)
  | 0, _, _, _, _, _ => none
  | fuel + 1, s, dlist, sess_dirty, restarts, steps =>
    match s.displays[dlist]? with
    | none => some (s, sess_dirty, restarts, steps)
    | some d =>
      if hit d then
        if dlist = 0 ∧ (act s dlist d).1.displays.length < s.displays.length then none
        else
          restart_scan_counted hit act fuel (act s dlist d).1 0
            (sess_dirty || (act s dlist d).2) (restarts + 1) (steps + 1)
      else restart_scan_counted hit act fuel s (dlist + 1) sess_dirty restarts (steps + 1)

/-! ## Sample inputs for the chooser and for the age of forward queries -/

/-- The statics of choose.c when the daemon starts, with `max_indirect` as given and
`max_wait_indirect` 15. -/
def sample_choose (max_indirect : Int) : ChooseState :=
  { ipending := 0, indirect := [], indirect_id := 1, max_indirect := max_indirect,
    max_wait_indirect := 15 }

/-- A resolver that knows the node "10.0.0.3" only. -/
def sample_getaddrinfo (node : String) : List sockaddr_storage :=
  if node = "10.0.0.3" then
    [{ ss_family := AF_INET, addr := [10, 0, 0, 3], port := 177, scope_id := 0 }]
  else []

/-- The statics of choose.c after one `mdm_choose_indirect_alloc` for 10.0.0.2 and the
chooser's line "CHOSEN 1 10.0.0.3" at time 100: the record 1 is resolved. -/
def sample_choose_resolved (max_indirect : Int) : ChooseState :=
  { ipending := 1,
    indirect := [{ id := 1, dsp_sa := sample_hostA,
                   chosen_host := some { ss_family := AF_INET, addr := [10, 0, 0, 3],
                                         port := 177, scope_id := 0 },
                   acctime := 100 }],
    indirect_id := 2, max_indirect := max_indirect, max_wait_indirect := 15 }

/-- INDIRECT_QUERYs from 10.0.0.2 and then from 10.0.0.3 at time 100: the table then
holds the record 2 of 10.0.0.3 before the record 1 of 10.0.0.2. -/
def trace_two_indirect : List (Env × Datagram) :=
  [(sample_env 100 [], sample_dg_query sample_hostA INDIRECT_QUERY 21),
   (sample_env 100 [], sample_dg_query sample_hostB INDIRECT_QUERY 21)]

/-- The state after `trace_two_indirect` and the chooser's line "CHOSEN 2 10.0.0.3" at
time 100: the record of 10.0.0.3 is resolved, the record of 10.0.0.2 is not. -/
def state_stale_indirect : Daemon :=
  let s := (run_datagrams (sample_init 7 16 4) trace_two_indirect).getD (sample_init 7 16 4)
  { s with choose :=
      ((mdm_choose_data 100 sample_getaddrinfo s.choose "CHOSEN 2 10.0.0.3").map
        (fun r => r.1)).getD s.choose }

/-- The state after `trace_eleven_forwards` and a twelfth FORWARD_QUERY of the manager
10.0.0.3, for the display 10.0.1.11 at time 111. -/
def state_twelve_forwards : Daemon :=
  (run_datagrams state_eleven_forwards
    [(sample_env_resolving 111, sample_dg_forward_query_for sample_hostB 11)]).getD
    state_eleven_forwards

/-- The state after one FORWARD_QUERY of the manager 10.0.0.3 for the display 10.0.0.2
at time 100. -/
def state_one_forward : Daemon :=
  (run_datagrams (sample_init 7 16 4)
    [(sample_env_resolving 100, sample_dg_forward_query sample_hostB 11)]).getD
    (sample_init 7 16 4)

/-! ## Lists: what removing or replacing one element does -/

theorem getElem?_split {α : Type} : ∀ (l : List α) (i : Nat) (d : α), l[i]? = some d →
    ∃ l1 l2, l = l1 ++ d :: l2 ∧ l1.length = i
  | [], i, d, h => by simp at h
  | a :: l, 0, d, h => by
    simp at h
    exact ⟨[], l, by simp [h], rfl⟩
  | a :: l, i + 1, d, h => by
    simp at h
    obtain ⟨l1, l2, h1, h2⟩ := getElem?_split l i d h
    exact ⟨a :: l1, l2, by simp [h1], by simp [h2]⟩

theorem eraseIdx_split {α : Type} (l1 l2 : List α) (d : α) :
    (l1 ++ d :: l2).eraseIdx l1.length = l1 ++ l2 := by
  induction l1 with
  | nil => simp
  | cons a l ih => simp [ih]

theorem set_split {α : Type} (l1 l2 : List α) (d e : α) :
    (l1 ++ d :: l2).set l1.length e = l1 ++ e :: l2 := by
  induction l1 with
  | nil => simp
  | cons a l ih => simp [ih]

theorem countP_eraseIdx {α : Type} (p : α → Bool) (l : List α) (i : Nat) (d : α)
    (h : l[i]? = some d) :
    (l.eraseIdx i).countP p + (if p d then 1 else 0) = l.countP p := by
  obtain ⟨l1, l2, rfl, rfl⟩ := getElem?_split l i d h
  rw [eraseIdx_split]
  simp [List.countP_cons]
  omega

theorem countP_set {α : Type} (p : α → Bool) (l : List α) (i : Nat) (d e : α)
    (h : l[i]? = some d) :
    (l.set i e).countP p + (if p d then 1 else 0) = l.countP p + (if p e then 1 else 0) := by
  obtain ⟨l1, l2, rfl, rfl⟩ := getElem?_split l i d h
  rw [set_split]
  simp [List.countP_cons]
  omega

theorem filter_eraseIdx {α : Type} (p : α → Bool) (l : List α) (i : Nat) (d : α)
    (h : l[i]? = some d) (hp : p d = false) :
    (l.eraseIdx i).filter p = l.filter p := by
  obtain ⟨l1, l2, rfl, rfl⟩ := getElem?_split l i d h
  rw [eraseIdx_split]
  simp [List.filter_cons, hp]

theorem any_eraseIdx {α : Type} (f : α → Bool) (l : List α) (i : Nat) (d : α)
    (h : l[i]? = some d) :
    l.any f = (f d || (l.eraseIdx i).any f) := by
  obtain ⟨l1, l2, rfl, rfl⟩ := getElem?_split l i d h
  rw [eraseIdx_split]
  simp [List.any_append]
  cases f d <;> cases l1.any f <;> simp

theorem length_eraseIdx_split {α : Type} (l : List α) (i : Nat) (d : α) (h : l[i]? = some d) :
    (l.eraseIdx i).length + 1 = l.length := by
  obtain ⟨l1, l2, rfl, rfl⟩ := getElem?_split l i d h
  rw [eraseIdx_split]
  simp
  omega

theorem set_eraseIdx_same {α : Type} (l : List α) (i : Nat) (e : α) :
    (l.set i e).eraseIdx i = l.eraseIdx i := by
  induction l generalizing i with
  | nil => simp
  | cons a l ih =>
    cases i with
    | zero => simp
    | succ i => simp [ih]

/-! ## The restarting scans: purge and dispose-check -/

theorem head_survives_iff (hit : GdmDisplay → Bool) (l : List GdmDisplay) :
    head_survives hit l = true ↔ ∀ d, l[0]? = some d → hit d = false := by
  cases l with
  | nil => simp [head_survives]
  | cons a l => simp [head_survives]

theorem head_survives_eraseIdx (hit : GdmDisplay → Bool) (l : List GdmDisplay) (i : Nat)
    (hi : 0 < i) (h : head_survives hit l = true) :
    head_survives hit (l.eraseIdx i) = true := by
  rw [head_survives_iff] at h ⊢
  intro d hd
  rw [List.getElem?_eraseIdx_of_lt _ _ _ hi] at hd
  exact h d hd

theorem head_survives_filter (hit q : GdmDisplay → Bool) (l : List GdmDisplay)
    (hq : head_survives (fun d => !q d) l = true) :
    head_survives hit (l.filter q) = head_survives hit l := by
  cases l with
  | nil => rfl
  | cons a l =>
    have ha : q a = true := by simpa [head_survives] using hq
    rw [List.filter_cons_of_pos ha]
    rfl

theorem restart_scan_spec (hit mark : GdmDisplay → Bool)
    (act : Daemon → Nat → GdmDisplay → Daemon × Bool)
    (hact : ∀ s i d, s.displays[i]? = some d → hit d = true →
      (act s i d).1.displays = s.displays.eraseIdx i ∧ (act s i d).1.priv = s.priv
        ∧ (act s i d).1.statics = s.statics ∧ (act s i d).2 = mark d) :
    ∀ (fuel : Nat) (s : Daemon) (i : Nat) (dirty : Bool),
      (∀ j d, j < i → s.displays[j]? = some d → hit d = false) →
      head_survives hit s.displays = true →
      s.displays.countP hit * (s.displays.length + 1) + (s.displays.length - i) < fuel →
      ∃ s1, restart_scan hit act fuel s i dirty
            = some (s1, dirty || s.displays.any (fun d => hit d && mark d))
        ∧ s1.displays = s.displays.filter (fun d => !hit d)
        ∧ s1.priv = s.priv ∧ s1.statics = s.statics := by
  intro fuel
  induction fuel with
  | zero => intro s i dirty _ _ h; omega
  | succ fuel ih =>
    intro s i dirty hpre hhead hfuel
    unfold restart_scan
    cases hget : s.displays[i]? with
    | none =>
      have hall : ∀ d ∈ s.displays, hit d = false := by
        intro d hd
        obtain ⟨j, hj, rfl⟩ := List.getElem_of_mem hd
        have : s.displays.length ≤ i := by
          rcases Nat.lt_or_ge i s.displays.length with h | h
          · simp [List.getElem?_eq_getElem h] at hget
          · exact h
        exact hpre j _ (by omega) (by simp [List.getElem?_eq_getElem hj])
      refine ⟨s, ?_, ?_, rfl, rfl⟩
      · simp only []
        have : s.displays.any (fun d => hit d && mark d) = false := by
          simp only [List.any_eq_false]
          intro d hd
          simp [hall d hd]
        rw [this]; simp
      · symm
        rw [List.filter_eq_self]
        intro d hd
        simp [hall d hd]
    | some d =>
      simp only []
      by_cases hd : hit d = true
      · rw [if_pos hd]
        have hi0 : i ≠ 0 := by
          intro h0
          subst h0
          have := (head_survives_iff hit s.displays).mp hhead d hget
          rw [this] at hd
          exact absurd hd (by decide)
        rw [if_neg (fun hc => hi0 hc.1)]
        obtain ⟨h1, h2, h3, h4⟩ := hact s i d hget hd
        have hlen := length_eraseIdx_split s.displays i d hget
        have hcnt := countP_eraseIdx hit s.displays i d hget
        rw [if_pos hd] at hcnt
        obtain ⟨s1, e1, e2, e3, e4⟩ := ih (act s i d).1 0 (dirty || (act s i d).2)
          (by intro j d hj; omega)
          (by rw [h1]; exact head_survives_eraseIdx hit _ i (by omega) hhead)
          (by
            rw [h1]
            have : (s.displays.eraseIdx i).countP hit * ((s.displays.eraseIdx i).length + 1)
                + (s.displays.eraseIdx i).length
                < s.displays.countP hit * (s.displays.length + 1) := by
              rw [← hcnt, ← hlen]
              ring_nf
              omega
            omega)
        refine ⟨s1, ?_, ?_, ?_, ?_⟩
        · rw [e1, h1, h4, any_eraseIdx (fun d => hit d && mark d) s.displays i d hget]
          simp [hd, Bool.or_assoc]
        · rw [e2, h1]
          exact filter_eraseIdx _ _ _ _ hget (by simp [hd])
        · rw [e3, h2]
        · rw [e4, h3]
      · rw [if_neg hd]
        have hd' : hit d = false := by simpa using hd
        have hi : i < s.displays.length := by
          rcases Nat.lt_or_ge i s.displays.length with h | h
          · exact h
          · simp [List.getElem?_eq_none h] at hget
        exact ih s (i + 1) dirty
          (by
            intro j e hj he
            rcases Nat.lt_or_ge j i with h | h
            · exact hpre j e h he
            · have : j = i := by omega
              subst this
              rw [hget] at he
              cases he
              exact hd')
          hhead
          (by omega)

theorem restart_scan_freed (hit : GdmDisplay → Bool)
    (act : Daemon → Nat → GdmDisplay → Daemon × Bool)
    (hact : ∀ s i d, s.displays[i]? = some d → hit d = true →
      (act s i d).1.displays = s.displays.eraseIdx i)
    (fuel : Nat) (s : Daemon) (dirty : Bool)
    (hhead : head_survives hit s.displays = false) :
    restart_scan hit act fuel s 0 dirty = none := by
  cases fuel with
  | zero => rfl
  | succ fuel =>
    cases hl : s.displays with
    | nil => rw [hl] at hhead; simp [head_survives] at hhead
    | cons d l =>
      rw [hl] at hhead
      have hd : hit d = true := by simpa [head_survives] using hhead
      have hget : s.displays[0]? = some d := by rw [hl]; simp
      have h1 := hact s 0 d hget hd
      unfold restart_scan
      rw [hget]
      simp only []
      rw [if_pos hd, if_pos ⟨trivial, by rw [h1, hl]; simp⟩]

theorem gdm_display_dispose_spec (s : Daemon) (i : Nat) (d : GdmDisplay)
    (h : s.displays[i]? = some d) :
    (gdm_display_dispose s i).displays = s.displays.eraseIdx i
      ∧ (gdm_display_dispose s i).priv = s.priv
      ∧ (gdm_display_dispose s i).statics = s.statics := by
  unfold gdm_display_dispose
  rw [h]
  simp only []
  split <;> simp

theorem gdm_display_unmanage_spec (s : Daemon) (i : Nat) (d : GdmDisplay)
    (h : s.displays[i]? = some d) (hx : SERVER_IS_XDMCP d = true) :
    (gdm_display_unmanage s i).displays = s.displays.eraseIdx i
      ∧ (gdm_display_unmanage s i).priv = s.priv
      ∧ (gdm_display_unmanage s i).statics = s.statics := by
  have ht : d.type ≠ DispType.TYPE_STATIC := by
    intro h0
    simp [SERVER_IS_XDMCP, h0] at hx
  have hi : i < s.displays.length := by
    rcases Nat.lt_or_ge i s.displays.length with h1 | h1
    · exact h1
    · simp [List.getElem?_eq_none h1] at h
  unfold gdm_display_unmanage
  rw [h]
  simp only []
  rw [if_pos (Or.inl ht)]
  have h2 : ({ s with displays := s.displays.set i { d with dispstat := DispStat.DISPLAY_DEAD } }
      : Daemon).displays[i]? = some { d with dispstat := DispStat.DISPLAY_DEAD } := by
    simp [List.getElem?_set, hi]
  obtain ⟨e1, e2, e3⟩ := gdm_display_dispose_spec _ i _ h2
  refine ⟨?_, ?_, ?_⟩
  · rw [e1]; exact set_eraseIdx_same _ _ _
  · rw [e2]
  · rw [e3]

theorem scan_budget_enough (p : GdmDisplay → Bool) (l : List GdmDisplay) :
    l.countP p * (l.length + 1) + (l.length - 0) < scan_budget l.length := by
  have h1 : l.countP p * (l.length + 1) ≤ l.length * (l.length + 1) :=
    Nat.mul_le_mul_right _ (List.countP_le_length p)
  have h2 : (l.length + 1) * (l.length + 1) = l.length * (l.length + 1) + (l.length + 1) := by
    ring
  unfold scan_budget
  omega

theorem recount_displays (s : Daemon) : (gdm_xdmcp_recount_sessions s).displays = s.displays := rfl

theorem purge_spec (env : Env) (s : Daemon)
    (hhead : head_survives (stale_pending env.now s.priv.max_wait) s.displays = true) :
    ∃ s1, gdm_xdmcp_displays_purge env s = some s1
      ∧ s1.displays = s.displays.filter (fun d => !stale_pending env.now s.priv.max_wait d)
      ∧ s1.statics = s.statics
      ∧ s1.priv = if s.displays.any (stale_pending env.now s.priv.max_wait) = true then
          { s.priv with
            num_sessions := count_managed s1.displays % 4294967296,
            num_pending_sessions := count_pending s1.displays % 4294967296 }
        else s.priv := by
  obtain ⟨s1, e1, e2, e3, e4⟩ := restart_scan_spec (stale_pending env.now s.priv.max_wait)
    (fun _ => true) (fun s1 i _ => (gdm_display_dispose s1 i, true))
    (by
      intro s i d h _
      obtain ⟨a, b, c⟩ := gdm_display_dispose_spec s i d h
      exact ⟨a, b, c, rfl⟩)
    (scan_budget s.displays.length) s 0 false (by intro j d hj; omega) hhead
    (scan_budget_enough _ _)
  unfold gdm_xdmcp_displays_purge
  rw [e1]
  simp only [Bool.false_or, Bool.and_true]
  by_cases hany : s.displays.any (stale_pending env.now s.priv.max_wait) = true
  · simp only [hany, if_true]
    refine ⟨_, rfl, ?_, ?_, ?_⟩
    · simpa [gdm_xdmcp_recount_sessions] using e2
    · simpa [gdm_xdmcp_recount_sessions] using e4
    · simp [gdm_xdmcp_recount_sessions, e3]
  · simp only [hany, if_false]
    refine ⟨_, rfl, e2, e4, e3⟩

theorem purge_freed (env : Env) (s : Daemon)
    (hhead : head_survives (stale_pending env.now s.priv.max_wait) s.displays = false) :
    gdm_xdmcp_displays_purge env s = none := by
  unfold gdm_xdmcp_displays_purge
  rw [restart_scan_freed (stale_pending env.now s.priv.max_wait)
    (fun s1 i _ => (gdm_display_dispose s1 i, true))
    (fun s i d h _ => (gdm_display_dispose_spec s i d h).1) _ s false hhead]

theorem purge_head (env : Env) (s : Daemon) (h : gdm_xdmcp_displays_purge env s ≠ none) :
    head_survives (stale_pending env.now s.priv.max_wait) s.displays = true := by
  cases hh : head_survives (stale_pending env.now s.priv.max_wait) s.displays with
  | true => rfl
  | false => exact absurd (purge_freed env s hh) h

theorem dispose_check_spec (s : Daemon) (h : String) (dspnum : Nat)
    (hhead : head_survives (same_display h dspnum) s.displays = true) :
    ∃ s1, gdm_xdmcp_display_dispose_check s (some h) dspnum = some s1
      ∧ s1.displays = s.displays.filter (fun d => !same_display h dspnum d)
      ∧ s1.statics = s.statics
      ∧ s1.priv = if s.displays.any (fun d => same_display h dspnum d
            && decide (d.dispstat ≠ DispStat.XDMCP_MANAGED)) = true then
          { s.priv with
            num_sessions := count_managed s1.displays % 4294967296,
            num_pending_sessions := count_pending s1.displays % 4294967296 }
        else s.priv := by
  obtain ⟨s1, e1, e2, e3, e4⟩ := restart_scan_spec (same_display h dspnum)
    (fun d => decide (d.dispstat ≠ DispStat.XDMCP_MANAGED))
    (fun s1 i d =>
      if d.dispstat = DispStat.XDMCP_MANAGED then (gdm_display_unmanage s1 i, false)
      else (gdm_display_dispose s1 i, true))
    (by
      intro s i d hget hhit
      have hx : SERVER_IS_XDMCP d = true := by
        simp [same_display] at hhit
        exact hhit.1.1
      by_cases hm : d.dispstat = DispStat.XDMCP_MANAGED
      · obtain ⟨a, b, c⟩ := gdm_display_unmanage_spec s i d hget hx
        simp only [if_pos hm]
        exact ⟨a, b, c, by simp [hm]⟩
      · obtain ⟨a, b, c⟩ := gdm_display_dispose_spec s i d hget
        simp only [if_neg hm]
        exact ⟨a, b, c, by simp [hm]⟩)
    (scan_budget s.displays.length) s 0 false (by intro j d hj; omega) hhead
    (scan_budget_enough _ _)
  unfold gdm_xdmcp_display_dispose_check
  simp only []
  rw [e1]
  simp only [Bool.false_or]
  by_cases hany : s.displays.any (fun d => same_display h dspnum d
      && decide (d.dispstat ≠ DispStat.XDMCP_MANAGED)) = true
  · simp only [hany, if_true]
    refine ⟨_, rfl, ?_, ?_, ?_⟩
    · simpa [gdm_xdmcp_recount_sessions] using e2
    · simpa [gdm_xdmcp_recount_sessions] using e4
    · simp [gdm_xdmcp_recount_sessions, e3]
  · simp only [hany, if_false]
    refine ⟨_, rfl, e2, e4, e3⟩

theorem dispose_check_freed (s : Daemon) (h : String) (dspnum : Nat)
    (hhead : head_survives (same_display h dspnum) s.displays = false) :
    gdm_xdmcp_display_dispose_check s (some h) dspnum = none := by
  unfold gdm_xdmcp_display_dispose_check
  simp only []
  rw [restart_scan_freed (same_display h dspnum)
    (fun s1 i d =>
      if d.dispstat = DispStat.XDMCP_MANAGED then (gdm_display_unmanage s1 i, false)
      else (gdm_display_dispose s1 i, true))
    (by
      intro s i d hget hhit
      have hx : SERVER_IS_XDMCP d = true := by
        simp [same_display] at hhit
        exact hhit.1.1
      by_cases hm : d.dispstat = DispStat.XDMCP_MANAGED
      · simp only [if_pos hm]
        exact (gdm_display_unmanage_spec s i d hget hx).1
      · simp only [if_neg hm]
        exact (gdm_display_dispose_spec s i d hget).1) _ s false hhead]

theorem dispose_check_head (s : Daemon) (h : String) (dspnum : Nat)
    (hne : gdm_xdmcp_display_dispose_check s (some h) dspnum ≠ none) :
    head_survives (same_display h dspnum) s.displays = true := by
  cases hh : head_survives (same_display h dspnum) s.displays with
  | true => rfl
  | false => exact absurd (dispose_check_freed s h dspnum hh) hne

/-! ## Address comparison -/

theorem gdm_address_equal_iff (a b : sockaddr_storage) :
    gdm_address_equal a b = true ↔
      (a.ss_family = b.ss_family ∧ a.addr = b.addr
        ∧ (a.ss_family = AF_INET ∨ (a.ss_family = AF_INET6 ∧ a.scope_id = b.scope_id))) := by
  unfold gdm_address_equal AF_INET AF_INET6
  by_cases h1 : a.ss_family = 2 <;> by_cases h2 : b.ss_family = 2 <;>
    by_cases h3 : a.ss_family = 10 <;> by_cases h4 : b.ss_family = 10 <;>
    simp [h1, h2, h3, h4] <;> omega

theorem gdm_address_equal_right (a b c : sockaddr_storage)
    (h : gdm_address_equal a b = true) :
    gdm_address_equal c a = gdm_address_equal c b := by
  rw [gdm_address_equal_iff] at h
  obtain ⟨h1, h2, h3⟩ := h
  rw [Bool.eq_iff_iff, gdm_address_equal_iff, gdm_address_equal_iff]
  constructor
  · rintro ⟨g1, g2, g3⟩
    refine ⟨by omega, by rw [g2, h2], ?_⟩
    rcases g3 with g3 | ⟨g3, g4⟩
    · exact Or.inl g3
    · rcases h3 with h3 | ⟨h3, h4⟩
      · unfold AF_INET AF_INET6 at *; omega
      · exact Or.inr ⟨g3, by omega⟩
  · rintro ⟨g1, g2, g3⟩
    refine ⟨by omega, by rw [g2, h2], ?_⟩
    rcases g3 with g3 | ⟨g3, g4⟩
    · exact Or.inl g3
    · rcases h3 with h3 | ⟨h3, h4⟩
      · unfold AF_INET AF_INET6 at *; omega
      · exact Or.inr ⟨g3, by omega⟩

theorem gdm_address_equal_left (a b c : sockaddr_storage)
    (h : gdm_address_equal a b = true) :
    gdm_address_equal a c = gdm_address_equal b c := by
  rw [gdm_address_equal_iff] at h
  obtain ⟨h1, h2, h3⟩ := h
  rw [Bool.eq_iff_iff, gdm_address_equal_iff, gdm_address_equal_iff]
  constructor
  · rintro ⟨g1, g2, g3⟩
    refine ⟨by omega, by rw [← h2, g2], ?_⟩
    rcases h3 with h3 | ⟨h3, h4⟩
    · exact Or.inl (by omega)
    · rcases g3 with g3 | ⟨g3, g4⟩
      · unfold AF_INET AF_INET6 at *; omega
      · exact Or.inr ⟨by omega, by omega⟩
  · rintro ⟨g1, g2, g3⟩
    refine ⟨by omega, by rw [h2, g2], ?_⟩
    rcases h3 with h3 | ⟨h3, h4⟩
    · exact Or.inl h3
    · rcases g3 with g3 | ⟨g3, g4⟩
      · unfold AF_INET AF_INET6 at *; omega
      · exact Or.inr ⟨h3, by omega⟩

theorem gdm_address_is_local_congr (L : List sockaddr_storage) (a b : sockaddr_storage)
    (h : gdm_address_equal a b = true) :
    gdm_address_is_local L a = gdm_address_is_local L b := by
  unfold gdm_address_is_local
  congr 1
  funext l
  exact gdm_address_equal_left a b l h


/-! ## The invariant is kept by every handler -/

theorem Inv_shrink (L : List sockaddr_storage) (s s1 : Daemon) (q : GdmDisplay → Bool)
    (hinv : Inv L s) (hd : s1.displays = s.displays.filter q)
    (hp : (s1.priv = s.priv ∧ count_pending s1.displays = count_pending s.displays) ∨
      s1.priv = { s.priv with
        num_sessions := count_managed s1.displays % 4294967296,
        num_pending_sessions := count_pending s1.displays % 4294967296 }) :
    Inv L s1
      ∧ (s.priv.max_displays + s.priv.max_pending_displays ≤ 4294967296 →
          s1.priv.num_sessions ≤ s.priv.num_sessions) := by
  have hsub : s1.displays.Sublist s.displays := by rw [hd]; exact List.filter_sublist _
  have hM : count_managed s1.displays ≤ count_managed s.displays := hsub.countP_le _
  have hP : count_pending s1.displays ≤ count_pending s.displays := hsub.countP_le _
  have hH : ∀ peer, gdm_xdmcp_num_displays_from_host s1 peer
      ≤ gdm_xdmcp_num_displays_from_host s peer := fun peer => hsub.countP_le _
  have hPlt : count_pending s1.displays < 4294967296 := by
    have := hinv.pending_eq
    have := hinv.pending_le
    have := hinv.cfg_p
    omega
  rcases hp with ⟨hp, hc⟩ | hp
  · refine ⟨?_, fun _ => by rw [hp]⟩
    constructor
    · rw [hp]; exact hinv.cfg_d
    · rw [hp]; exact hinv.cfg_p
    · rw [hp]; exact hinv.serial_lo
    · rw [hp]; exact hinv.serial_hi
    · intro d hd1 hs
      exact hinv.typed d (hsub.subset hd1) hs
    · rw [hp, hc]; exact hinv.pending_eq
    · rw [hp]; exact hinv.pending_le
    · rw [hp]; exact hinv.sessions_lt
    · rw [hp]
      intro h
      obtain ⟨h1, h2⟩ := hinv.managed h
      exact ⟨by omega, h2⟩
    · rw [hp]
      intro h
      obtain ⟨h1, h2⟩ := hinv.ids h
      exact ⟨fun d hd1 hz => h1 d (hsub.subset hd1) hz, h2.sublist hsub⟩
    · rw [hp]
      intro peer hl
      exact le_trans (hH peer) (hinv.per_host peer hl)
  · have e1 : s1.priv.max_displays = s.priv.max_displays := by rw [hp]
    have e2 : s1.priv.max_pending_displays = s.priv.max_pending_displays := by rw [hp]
    have e3 : s1.priv.session_serial = s.priv.session_serial := by rw [hp]
    have e4 : s1.priv.max_displays_per_host = s.priv.max_displays_per_host := by rw [hp]
    have e5 : s1.priv.num_sessions = count_managed s1.displays % 4294967296 := by rw [hp]
    have e6 : s1.priv.num_pending_sessions = count_pending s1.displays % 4294967296 := by
      rw [hp]
    have e6' : s1.priv.num_pending_sessions = count_pending s1.displays := by
      rw [e6]; exact Nat.mod_eq_of_lt hPlt
    have hpe := hinv.pending_eq
    have hple := hinv.pending_le
    have hslt := hinv.sessions_lt
    refine ⟨?_, ?_⟩
    · constructor
      · rw [e1]; exact hinv.cfg_d
      · rw [e2]; exact hinv.cfg_p
      · rw [e3]; exact hinv.serial_lo
      · rw [e3]; exact hinv.serial_hi
      · intro d hd1 hs
        exact hinv.typed d (hsub.subset hd1) hs
      · exact e6'
      · rw [e6', e2]; omega
      · rw [e5]; exact Nat.mod_lt _ (by norm_num)
      · rw [e1, e2, e5, e6']
        intro h
        obtain ⟨h1, h2⟩ := hinv.managed h
        have : count_managed s1.displays < 4294967296 := by omega
        rw [Nat.mod_eq_of_lt this]
        exact ⟨le_refl _, by omega⟩
      · rw [e3]
        intro h
        obtain ⟨h1, h2⟩ := hinv.ids h
        exact ⟨fun d hd1 hz => h1 d (hsub.subset hd1) hz, h2.sublist hsub⟩
      · rw [e4]
        intro peer hl
        exact le_trans (hH peer) (hinv.per_host peer hl)
    · intro h
      obtain ⟨h1, h2⟩ := hinv.managed h
      rw [e5]
      exact le_trans (Nat.mod_le _ _) (by omega)


theorem Inv_frame (L : List sockaddr_storage) (s s1 : Daemon) (hinv : Inv L s)
    (hd : s1.displays = s.displays)
    (hp : ∃ fq mf, s1.priv = { s.priv with forward_queries := fq, managed_forwards := mf }) :
    Inv L s1 := by
  obtain ⟨fq, mf, hp⟩ := hp
  have hH : ∀ peer, gdm_xdmcp_num_displays_from_host s1 peer
      = gdm_xdmcp_num_displays_from_host s peer := by
    intro peer; unfold gdm_xdmcp_num_displays_from_host; rw [hd]
  constructor
  · rw [hp]; exact hinv.cfg_d
  · rw [hp]; exact hinv.cfg_p
  · rw [hp]; exact hinv.serial_lo
  · rw [hp]; exact hinv.serial_hi
  · rw [hd]; exact hinv.typed
  · rw [hp, hd]; exact hinv.pending_eq
  · rw [hp]; exact hinv.pending_le
  · rw [hp]; exact hinv.sessions_lt
  · rw [hp, hd]; exact hinv.managed
  · rw [hp, hd]; exact hinv.ids
  · intro peer hl
    rw [hH peer, hp]
    exact hinv.per_host peer hl

theorem gdm_forward_query_lookup_frame (t : Nat) (p : GdmXdmcpManagerPrivate)
    (sa : sockaddr_storage) :
    ∃ fq, (gdm_forward_query_lookup t p sa).1 = { p with forward_queries := fq } := by
  unfold gdm_forward_query_lookup
  exact ⟨_, rfl⟩

theorem resolve_forward_query_frame (env : Env) (p : GdmXdmcpManagerPrivate)
    (sa : sockaddr_storage) :
    ∃ fq mf, (resolve_forward_query env p sa).1
      = { p with forward_queries := fq, managed_forwards := mf } := by
  unfold resolve_forward_query
  obtain ⟨fq, h⟩ := gdm_forward_query_lookup_frame env.now p sa
  rcases hl : gdm_forward_query_lookup env.now p sa with ⟨p1, r⟩
  rw [hl] at h
  simp only at h
  subst h
  cases r with
  | none => exact ⟨_, _, rfl⟩
  | some i =>
    simp only []
    split
    · exact ⟨_, _, rfl⟩
    · unfold gdm_xdmcp_send_managed_forward gdm_forward_query_dispose
      exact ⟨_, _, rfl⟩

theorem send_decline_frame (env : Env) (s : Daemon) (sa : sockaddr_storage) (reason : String) :
    (gdm_xdmcp_send_decline env s sa reason).1.displays = s.displays
      ∧ (gdm_xdmcp_send_decline env s sa reason).1.statics = s.statics
      ∧ (gdm_xdmcp_send_decline env s sa reason).1.choose = s.choose
      ∧ (∃ fq mf, (gdm_xdmcp_send_decline env s sa reason).1.priv
          = { s.priv with forward_queries := fq, managed_forwards := mf })
      ∧ ∃ rest, (gdm_xdmcp_send_decline env s sa reason).2 = decline_packet sa reason :: rest := by
  unfold gdm_xdmcp_send_decline
  obtain ⟨fq, mf, h⟩ := resolve_forward_query_frame env s.priv sa
  rcases hl : resolve_forward_query env s.priv sa with ⟨p1, out⟩
  rw [hl] at h
  simp only at h
  exact ⟨rfl, rfl, rfl, ⟨fq, mf, h⟩, ⟨out, rfl⟩⟩

theorem send_refuse_frame (env : Env) (s : Daemon) (sa : sockaddr_storage) (sessid : Nat) :
    (gdm_xdmcp_send_refuse env s sa sessid).1.displays = s.displays
      ∧ (gdm_xdmcp_send_refuse env s sa sessid).1.statics = s.statics
      ∧ (gdm_xdmcp_send_refuse env s sa sessid).1.choose = s.choose
      ∧ (∃ fq mf, (gdm_xdmcp_send_refuse env s sa sessid).1.priv
          = { s.priv with forward_queries := fq, managed_forwards := mf })
      ∧ ∃ rest, (gdm_xdmcp_send_refuse env s sa sessid).2 = refuse_packet sa sessid :: rest := by
  unfold gdm_xdmcp_send_refuse
  obtain ⟨fq, mf, h⟩ := resolve_forward_query_frame env s.priv sa
  rcases hl : resolve_forward_query env s.priv sa with ⟨p1, out⟩
  rw [hl] at h
  simp only at h
  exact ⟨rfl, rfl, rfl, ⟨fq, mf, h⟩, ⟨out, rfl⟩⟩

theorem request_purge_freed (env : Env) (s : Daemon)
    (hhead : head_survives (stale_pending env.now s.priv.max_wait) s.displays = false) :
    request_purge env s = none := by
  unfold request_purge
  rw [purge_freed env s hhead]

theorem request_purge_head (env : Env) (s : Daemon) (h : request_purge env s ≠ none) :
    head_survives (stale_pending env.now s.priv.max_wait) s.displays = true := by
  cases hh : head_survives (stale_pending env.now s.priv.max_wait) s.displays with
  | true => rfl
  | false => exact absurd (request_purge_freed env s hh) h

theorem request_purge_spec (env : Env) (s : Daemon)
    (hhead : head_survives (stale_pending env.now s.priv.max_wait) s.displays = true) :
    ∃ s2, request_purge env s = some s2
      ∧ s2.displays = s.displays.filter (fun d => !stale_pending env.now s.priv.max_wait d)
      ∧ s2.statics = s.statics
      ∧ ((s2.priv = s.priv ∧ s2.displays = s.displays) ∨
          s2.priv = { s.priv with
            num_sessions := count_managed s2.displays % 4294967296,
            num_pending_sessions := count_pending s2.displays % 4294967296 }) := by
  obtain ⟨s1, e1, e2, e3, e4⟩ := purge_spec env s hhead
  unfold request_purge
  rw [e1]
  simp only []
  by_cases hlen : s1.displays.length < s1.priv.num_sessions
  · rw [if_pos hlen]
    refine ⟨_, rfl, by simpa [gdm_xdmcp_recount_sessions] using e2,
      by simpa [gdm_xdmcp_recount_sessions] using e3, Or.inr ?_⟩
    split at e4
    · simp [gdm_xdmcp_recount_sessions, e4]
    · simp [gdm_xdmcp_recount_sessions, e4]
  · rw [if_neg hlen]
    refine ⟨_, rfl, e2, e3, ?_⟩
    split at e4
    · exact Or.inr e4
    · rename_i hany
      refine Or.inl ⟨e4, ?_⟩
      rw [e2, List.filter_eq_self]
      intro d hd
      simp only [Bool.not_eq_true, List.any_eq_true, not_exists, not_and] at hany
      simpa using hany d hd

theorem dispose_check_shrink (s : Daemon) (he : Option String) (dspnum : Nat)
    (hne : gdm_xdmcp_display_dispose_check s he dspnum ≠ none) :
    ∃ s3, gdm_xdmcp_display_dispose_check s he dspnum = some s3
      ∧ (∃ q, s3.displays = s.displays.filter q)
      ∧ s3.statics = s.statics
      ∧ ((s3.priv = s.priv ∧ count_pending s3.displays = count_pending s.displays) ∨
          s3.priv = { s.priv with
            num_sessions := count_managed s3.displays % 4294967296,
            num_pending_sessions := count_pending s3.displays % 4294967296 }) := by
  cases he with
  | none =>
    refine ⟨s, rfl, ⟨fun _ => true, by simp⟩, rfl, Or.inl ⟨rfl, rfl⟩⟩
  | some h =>
    obtain ⟨s1, e1, e2, e3, e4⟩ := dispose_check_spec s h dspnum (dispose_check_head s h dspnum hne)
    refine ⟨s1, e1, ⟨_, e2⟩, e3, ?_⟩
    split at e4
    · exact Or.inr e4
    · rename_i hany
      refine Or.inl ⟨e4, ?_⟩
      rw [e2]
      unfold count_pending
      rw [List.countP_filter]
      apply List.countP_congr
      intro d hd
      simp only [Bool.not_eq_true, List.any_eq_false, Bool.and_eq_true, decide_eq_true_eq,
        not_and, not_not] at hany
      have h0 := hany d hd
      by_cases hs : same_display h dspnum d = true
      · have hm := h0 hs
        simp [hs, hm]
      · simp [hs]


/-! ## Session serials -/

theorem to_CARD32_inj (a b : Int) (ha : G_MININT32 ≤ a) (ha' : a ≤ G_MAXINT32)
    (hb : G_MININT32 ≤ b) (hb' : b ≤ G_MAXINT32) (h : to_CARD32 a = to_CARD32 b) : a = b := by
  unfold to_CARD32 at h
  unfold G_MININT32 at ha hb
  unfold G_MAXINT32 at ha' hb'
  omega

theorem to_CARD32_ne_zero (a : Int) (ha : G_MININT32 ≤ a) (ha' : a ≤ G_MAXINT32)
    (h : a ≠ 0) : to_CARD32 a ≠ 0 := by
  unfold to_CARD32
  unfold G_MININT32 at ha
  unfold G_MAXINT32 at ha'
  omega

theorem to_gint32_range (n : Nat) : G_MININT32 ≤ to_gint32 n ∧ to_gint32 n ≤ G_MAXINT32 := by
  unfold to_gint32 G_MININT32 G_MAXINT32
  split <;> omega

theorem get_next_session_serial_loop_nonzero :
    ∀ (fuel : Nat) (ss : Int) (random : List Nat) (r : Int × Int),
      get_next_session_serial_loop fuel ss random = some r → r.1 ≠ 0 := by
  intro fuel
  induction fuel with
  | zero => intro ss random r h; simp [get_next_session_serial_loop] at h
  | succ fuel ih =>
    intro ss random r h
    unfold get_next_session_serial_loop at h
    by_cases h1 : ss ≠ G_MAXINT32
    · rw [if_pos h1] at h
      by_cases h2 : ss = 0
      · rw [if_pos h2] at h
        exact ih _ _ _ h
      · rw [if_neg h2] at h
        cases h
        exact h2
    · rw [if_neg h1] at h
      cases random with
      | nil => simp at h
      | cons x rest =>
        simp only [] at h
        by_cases h3 : to_gint32 x = 0
        · rw [if_pos h3] at h
          exact ih _ _ _ h
        · rw [if_neg h3] at h
          cases h
          exact h3

theorem get_next_session_serial_counter (ss : Int) (random : List Nat)
    (h : ss ≠ G_MAXINT32) :
    get_next_session_serial ss random
      = some (if ss = 0 then ((1 : Int), (2 : Int)) else (ss, ss + 1)) := by
  unfold get_next_session_serial
  by_cases h2 : ss = 0
  · subst h2
    simp [get_next_session_serial_loop, G_MAXINT32]
  · simp [get_next_session_serial_loop, h, h2]

theorem get_next_session_serial_loop_random :
    ∀ (random : List Nat) (fuel : Nat), random.length < fuel →
      (∃ x ∈ random, to_gint32 x ≠ 0) →
      ∃ x ∈ random, to_gint32 x ≠ 0 ∧
        get_next_session_serial_loop fuel G_MAXINT32 random = some (to_gint32 x, G_MAXINT32) := by
  intro random
  induction random with
  | nil => intro fuel _ h; simp at h
  | cons a rest ih =>
    intro fuel hf hex
    cases fuel with
    | zero => simp at hf
    | succ fuel =>
      unfold get_next_session_serial_loop
      simp only [ne_eq, not_true_eq_false, if_false]
      by_cases h3 : to_gint32 a = 0
      · rw [if_pos h3]
        have hex' : ∃ x ∈ rest, to_gint32 x ≠ 0 := by
          obtain ⟨x, hx, hx'⟩ := hex
          simp only [List.mem_cons] at hx
          rcases hx with rfl | hx
          · exact absurd h3 hx'
          · exact ⟨x, hx, hx'⟩
        obtain ⟨x, hx, hx', e⟩ := ih fuel (by simp at hf; omega) hex'
        exact ⟨x, List.mem_cons_of_mem _ hx, hx', e⟩
      · rw [if_neg h3]
        exact ⟨a, List.mem_cons_self _ _, h3, rfl⟩

theorem get_next_session_serial_random (random : List Nat)
    (hex : ∃ x ∈ random, to_gint32 x ≠ 0) :
    ∃ x ∈ random, to_gint32 x ≠ 0 ∧
      get_next_session_serial G_MAXINT32 random = some (to_gint32 x, G_MAXINT32) := by
  unfold get_next_session_serial
  exact get_next_session_serial_loop_random random _ (by omega) hex

theorem get_next_session_serial_loop_facts :
    ∀ (fuel : Nat) (ss : Int) (random : List Nat) (r : Int × Int),
      G_MININT32 ≤ ss → ss ≤ G_MAXINT32 →
      get_next_session_serial_loop fuel ss random = some r →
      G_MININT32 ≤ r.1 ∧ r.1 ≤ G_MAXINT32 ∧ G_MININT32 ≤ r.2 ∧ r.2 ≤ G_MAXINT32 ∧ ss ≤ r.2
        ∧ (r.2 ≠ G_MAXINT32 → ss ≤ r.1 ∧ r.1 < r.2) := by
  intro fuel
  induction fuel with
  | zero => intro ss random r _ _ h; simp [get_next_session_serial_loop] at h
  | succ fuel ih =>
    intro ss random r hlo hhi h
    unfold get_next_session_serial_loop at h
    by_cases h1 : ss ≠ G_MAXINT32
    · rw [if_pos h1] at h
      have hlt : ss < G_MAXINT32 := lt_of_le_of_ne hhi h1
      by_cases h2 : ss = 0
      · rw [if_pos h2] at h
        obtain ⟨a, b, c, d, e, f⟩ := ih (ss + 1) random r (by omega) (by omega) h
        exact ⟨a, b, c, d, by omega, fun hne => ⟨by have := f hne; omega, (f hne).2⟩⟩
      · rw [if_neg h2] at h
        cases h
        exact ⟨hlo, hhi, by omega, by omega, by omega, fun _ => ⟨le_refl _, by omega⟩⟩
    · rw [if_neg h1] at h
      have hss : ss = G_MAXINT32 := by simpa using h1
      cases random with
      | nil => simp at h
      | cons x rest =>
        simp only [] at h
        by_cases h3 : to_gint32 x = 0
        · rw [if_pos h3] at h
          exact ih _ _ _ hlo hhi h
        · rw [if_neg h3] at h
          cases h
          exact ⟨(to_gint32_range x).1, (to_gint32_range x).2, hlo, hhi, le_refl _,
            fun hne => absurd hss hne⟩


/-! ## REQUEST and MANAGE keep the invariant -/

theorem shrink_cfg (s s1 : Daemon)
    (hp : (s1.priv = s.priv ∧ count_pending s1.displays = count_pending s.displays) ∨
      s1.priv = { s.priv with
        num_sessions := count_managed s1.displays % 4294967296,
        num_pending_sessions := count_pending s1.displays % 4294967296 }) :
    s1.priv.max_displays = s.priv.max_displays
      ∧ s1.priv.max_pending_displays = s.priv.max_pending_displays
      ∧ s1.priv.max_displays_per_host = s.priv.max_displays_per_host
      ∧ s1.priv.session_serial = s.priv.session_serial
      ∧ s1.priv.max_wait = s.priv.max_wait := by
  rcases hp with ⟨hp, _⟩ | hp <;> rw [hp] <;> exact ⟨rfl, rfl, rfl, rfl, rfl⟩

theorem num_displays_from_host_congr (s : Daemon) (a b : sockaddr_storage)
    (h : gdm_address_equal a b = true) :
    gdm_xdmcp_num_displays_from_host s a = gdm_xdmcp_num_displays_from_host s b := by
  unfold gdm_xdmcp_num_displays_from_host
  apply List.countP_congr
  intro d _
  rw [gdm_address_equal_right a b d.addr h]

theorem Inv_alloc (L : List sockaddr_storage) (env : Env) (s3 s4 : Daemon) (d : GdmDisplay)
    (sa : sockaddr_storage) (he : Option String) (n : Nat) (hinv : Inv L s3)
    (hP : s3.priv.num_pending_sessions < s3.priv.max_pending_displays)
    (hMs : s3.priv.max_displays + s3.priv.max_pending_displays ≤ 4294967296 →
      s3.priv.num_sessions < s3.priv.max_displays)
    (hhost : gdm_address_is_local L sa = true
      ∨ gdm_xdmcp_num_displays_from_host s3 sa < s3.priv.max_displays_per_host)
    (h : gdm_xdmcp_display_alloc env s3 sa he n = some (s4, d)) : Inv L s4 := by
  unfold gdm_xdmcp_display_alloc at h
  cases hser : get_next_session_serial s3.priv.session_serial env.random with
  | none => rw [hser] at h; simp at h
  | some r =>
    obtain ⟨serial, ss1⟩ := r
    rw [hser] at h
    simp only [Option.some.injEq, Prod.mk.injEq] at h
    obtain ⟨h4, hd⟩ := h
    have hnz : serial ≠ 0 := get_next_session_serial_loop_nonzero _ _ _ _ hser
    obtain ⟨f1, f2, f3, f4, f5, f6⟩ :=
      get_next_session_serial_loop_facts _ _ _ _ hinv.serial_lo hinv.serial_hi hser
    simp only at f1 f2 f3 f4 f5 f6 hnz
    have hcp := hinv.cfg_p
    have hpe := hinv.pending_eq
    have hinc : guint_inc s3.priv.num_pending_sessions = s3.priv.num_pending_sessions + 1 := by
      unfold guint_inc
      exact Nat.mod_eq_of_lt (by omega)
    have hdx : SERVER_IS_XDMCP d = true := by rw [← hd]; rfl
    have hdp : d.dispstat = DispStat.XDMCP_PENDING := by rw [← hd]
    have hda : d.addr = sa := by rw [← hd]
    have hdid : d.sessionid = to_CARD32 serial := by rw [← hd]
    have hcpend : count_pending (s3.displays ++ [d]) = count_pending s3.displays + 1 := by
      unfold count_pending
      simp [List.countP_append, List.countP_cons, hdx, hdp]
    have hcman : count_managed (s3.displays ++ [d]) = count_managed s3.displays := by
      unfold count_managed
      simp [List.countP_append, List.countP_cons, hdx, hdp]
    rw [hd] at h4
    rw [← h4]
    constructor
    · exact hinv.cfg_d
    · exact hinv.cfg_p
    · exact f3
    · exact f4
    · intro x hx hs
      simp only [List.mem_append, List.mem_singleton] at hx
      rcases hx with hx | hx
      · exact hinv.typed x hx hs
      · rw [hx]; exact hdx
    · simp only []
      rw [hinc, hcpend, hpe]
    · simp only []
      rw [hinc]
      omega
    · exact hinv.sessions_lt
    · simp only []
      intro hH
      obtain ⟨g1, g2⟩ := hinv.managed hH
      have := hMs hH
      rw [hinc, hcman]
      exact ⟨g1, by omega⟩
    · simp only []
      intro hne
      have hss : s3.priv.session_serial ≠ G_MAXINT32 := by
        intro hc
        rw [hc] at f5
        exact hne (le_antisymm f4 f5)
      obtain ⟨g1, g2⟩ := hinv.ids hss
      obtain ⟨k1, k2⟩ := f6 hne
      constructor
      · intro x hx hz
        simp only [List.mem_append, List.mem_singleton] at hx
        rcases hx with hx | hx
        · obtain ⟨k, a, b, c⟩ := g1 x hx hz
          exact ⟨k, a, by omega, c⟩
        · exact ⟨serial, f1, k2, by rw [hx, hdid]⟩
      · rw [List.pairwise_append]
        refine ⟨g2, List.pairwise_singleton _ _, ?_⟩
        intro a ha b hb hz
        simp only [List.mem_singleton] at hb
        obtain ⟨k, c1, c2, c3⟩ := g1 a ha hz
        rw [hb, hdid, c3]
        intro hc
        have := to_CARD32_inj k serial c1 (by omega) f1 f2 hc
        omega
    · intro peer hl
      have hcount : gdm_xdmcp_num_displays_from_host
          { s3 with
            priv := { s3.priv with
              session_serial := ss1,
              num_pending_sessions := guint_inc s3.priv.num_pending_sessions },
            displays := s3.displays ++ [d] } peer
          = gdm_xdmcp_num_displays_from_host s3 peer
            + (if gdm_address_equal sa peer = true then 1 else 0) := by
        unfold gdm_xdmcp_num_displays_from_host
        simp [List.countP_append, List.countP_cons, hdx, hda]
      rw [hcount]
      simp only []
      have hold := hinv.per_host peer hl
      by_cases heq : gdm_address_equal sa peer = true
      · rw [if_pos heq]
        have h1 : gdm_address_is_local L sa = false := by
          rw [gdm_address_is_local_congr L sa peer heq]; exact hl
        rcases hhost with hh | hh
        · rw [h1] at hh; simp at hh
        · rw [num_displays_from_host_congr s3 sa peer heq] at hh
          omega
      · rw [if_neg heq]
        omega


theorem request_purge_shrink (env : Env) (s : Daemon) (hne : request_purge env s ≠ none) :
    ∃ s2, request_purge env s = some s2
      ∧ s2.displays = s.displays.filter (fun d => !stale_pending env.now s.priv.max_wait d)
      ∧ s2.statics = s.statics
      ∧ ((s2.priv = s.priv ∧ count_pending s2.displays = count_pending s.displays) ∨
          s2.priv = { s.priv with
            num_sessions := count_managed s2.displays % 4294967296,
            num_pending_sessions := count_pending s2.displays % 4294967296 }) := by
  obtain ⟨s2, e1, e2, e3, e4⟩ := request_purge_spec env s (request_purge_head env s hne)
  refine ⟨s2, e1, e2, e3, ?_⟩
  rcases e4 with ⟨a, b⟩ | a
  · exact Or.inl ⟨a, by rw [b]⟩
  · exact Or.inr a

theorem handle_request_inv (L : List sockaddr_storage) (env : Env) (s s1 : Daemon)
    (sa : sockaddr_storage) (len : Nat) (rd : Option RequestFields) (out : List Sent)
    (hL : env.local_addrs = L) (hinv : Inv L s)
    (h : gdm_xdmcp_handle_request env s sa len rd = some (s1, out)) : Inv L s1 := by
  unfold gdm_xdmcp_handle_request at h
  by_cases ha : env.host_allow sa = false
  · rw [if_pos ha] at h
    cases h
    exact hinv
  · rw [if_neg ha] at h
    obtain ⟨s2, e1, e2, e3, e4⟩ := request_purge_shrink env s
      (by intro hn; rw [hn] at h; simp at h)
    rw [e1] at h
    simp only [] at h
    obtain ⟨hinv2, _⟩ := Inv_shrink L s s2 _ hinv e2 e4
    cases rd with
    | none =>
      simp only [] at h
      cases h
      exact hinv2
    | some r =>
      simp only [] at h
      by_cases hex : request_explen r ≠ len
      · rw [if_pos hex] at h
        cases h
        exact hinv2
      · rw [if_neg hex] at h
        split at h
        · rename_i hent
          obtain ⟨hm, hs, hh⟩ := hent
          obtain ⟨s3, d1, ⟨q, d2⟩, d3, d4⟩ :=
            dispose_check_shrink s2 (env.gethostbyaddr sa) r.clnt_dspnum
              (by intro hn; rw [hn] at h; simp at h)
          rw [d1] at h
          simp only [] at h
          obtain ⟨hinv3, hmono3⟩ := Inv_shrink L s2 s3 q hinv2 d2 d4
          obtain ⟨c1, c2, c3, c4, c5⟩ := shrink_cfg s2 s3 d4
          split at h
          · cases h
            obtain ⟨f1, f2, f3, f4, f5⟩ :=
              send_decline_frame env s3 sa "Maximum pending servers"
            exact Inv_frame L s3 _ hinv3 f1 f4
          · rename_i hpend
            cases halloc : gdm_xdmcp_display_alloc env s3 sa (env.gethostbyaddr sa)
                r.clnt_dspnum with
            | none => rw [halloc] at h; simp at h
            | some r4 =>
              obtain ⟨s4, d⟩ := r4
              rw [halloc] at h
              simp only [Option.some.injEq, Prod.mk.injEq] at h
              obtain ⟨h1, _⟩ := h
              subst h1
              refine Inv_alloc L env s3 s4 d sa _ _ hinv3 (by omega) ?_ ?_ halloc
              · intro hH
                rw [c1, c2] at hH
                have := hmono3 hH
                omega
              · rw [← hL, c3]
                rcases hh with hh | hh
                · exact Or.inl hh
                · refine Or.inr (lt_of_le_of_lt ?_ hh)
                  unfold gdm_xdmcp_num_displays_from_host
                  rw [d2]
                  exact (List.filter_sublist _).countP_le _
        · split at h
          · cases h
            obtain ⟨f1, f2, f3, f4, f5⟩ :=
              send_decline_frame env s2 sa "Only MIT-MAGIC-COOKIE-1 supported"
            exact Inv_frame L s2 _ hinv2 f1 f4
          · split at h
            · cases h
              obtain ⟨f1, f2, f3, f4, f5⟩ :=
                send_decline_frame env s2 sa "Maximum number of open sessions reached"
              exact Inv_frame L s2 _ hinv2 f1 f4
            · cases h
              obtain ⟨f1, f2, f3, f4, f5⟩ := send_decline_frame env s2 sa
                "Maximum number of open sessions from your host reached"
              exact Inv_frame L s2 _ hinv2 f1 f4


theorem map_set_same {α β : Type} (f : α → β) (l : List α) (i : Nat) (d e : α)
    (h : l[i]? = some d) (hf : f e = f d) : (l.set i e).map f = l.map f := by
  obtain ⟨l1, l2, rfl, rfl⟩ := getElem?_split l i d h
  rw [set_split]
  simp [hf]

theorem countP_set_same {α : Type} (p : α → Bool) (l : List α) (i : Nat) (d e : α)
    (h : l[i]? = some d) (hp : p e = p d) : (l.set i e).countP p = l.countP p := by
  have := countP_set p l i d e h
  rw [hp] at this
  omega

theorem mem_of_getElem? {α : Type} (l : List α) (i : Nat) (d : α) (h : l[i]? = some d) :
    d ∈ l := by
  obtain ⟨l1, l2, rfl, rfl⟩ := getElem?_split l i d h
  simp

theorem gdm_display_manage_fields (env : Env) (d : GdmDisplay)
    (hx : SERVER_IS_XDMCP d = true) :
    (gdm_display_manage env d).1.type = d.type
      ∧ (gdm_display_manage env d).1.sessionid = d.sessionid
      ∧ (gdm_display_manage env d).1.addr = d.addr
      ∧ (gdm_display_manage env d).1.dispstat = d.dispstat
      ∧ (gdm_display_manage env d).2 = env.fork_ok := by
  unfold gdm_display_manage
  cases env.fork_ok <;> simp [hx]

theorem handle_manage_inv (L : List sockaddr_storage) (env : Env) (s s1 : Daemon)
    (sa : sockaddr_storage) (rd : Option ManageFields) (out : List Sent)
    (hinv : Inv L s)
    (h : gdm_xdmcp_handle_manage env s sa rd = some (s1, out)) : Inv L s1 := by
  unfold gdm_xdmcp_handle_manage at h
  by_cases ha : env.host_allow sa = false
  · rw [if_pos ha] at h
    cases h
    exact hinv
  · rw [if_neg ha] at h
    cases rd with
    | none =>
      simp only [] at h
      cases h
      exact hinv
    | some r =>
      simp only [] at h
      have hrefuse : ∀ s1 out, some (gdm_xdmcp_send_refuse env s sa r.clnt_sessid)
          = some (s1, out) → Inv L s1 := by
        intro s1 out h
        cases h
        obtain ⟨f1, f2, f3, f4, f5⟩ := send_refuse_frame env s sa r.clnt_sessid
        exact Inv_frame L s _ hinv f1 f4
      cases hl : gdm_xdmcp_display_lookup s r.clnt_sessid with
      | none => rw [hl] at h; exact hrefuse _ _ h
      | some i =>
        rw [hl] at h
        simp only [] at h
        cases hg : s.displays[i]? with
        | none => rw [hg] at h; exact hrefuse _ _ h
        | some d =>
          rw [hg] at h
          simp only [] at h
          by_cases hpend : d.dispstat = DispStat.XDMCP_PENDING
          · rw [if_pos hpend] at h
            have hmem : d ∈ s.displays := mem_of_getElem? _ _ _ hg
            have hx : SERVER_IS_XDMCP d = true := hinv.typed d hmem hpend
            obtain ⟨fq, mf, hp1⟩ := resolve_forward_query_frame env s.priv sa
            rcases hr : resolve_forward_query env s.priv sa with ⟨p1, o1⟩
            rcases hc : manage_indirect env s sa with ⟨c1, uc, iid⟩
            rw [hr] at hp1 h
            rw [hc] at h
            simp only [] at hp1 h
            generalize hd0 : ({ d with use_chooser := uc, indirect_id := iid,
                                       dispstat := DispStat.XDMCP_MANAGED } : GdmDisplay)
              = d0 at h
            have hx0 : SERVER_IS_XDMCP d0 = true := by
              rw [← hd0]
              unfold SERVER_IS_XDMCP at hx ⊢
              exact hx
            obtain ⟨m1, m2, m3, m4, m5⟩ := gdm_display_manage_fields env d0 hx0
            generalize hm : gdm_display_manage env d0 = res at h m1 m2 m3 m4
            obtain ⟨d1, ok⟩ := res
            simp only [Option.some.injEq, Prod.mk.injEq] at h m1 m2 m3 m4
            rw [← hd0] at m1 m2 m3 m4
            simp only [] at m1 m2 m3 m4
            obtain ⟨h1, _⟩ := h
            have hd1x : SERVER_IS_XDMCP d1 = true := by
              unfold SERVER_IS_XDMCP at hx ⊢
              rw [m1]; exact hx
            have hcp := countP_set
              (fun d => SERVER_IS_XDMCP d && d.dispstat == DispStat.XDMCP_PENDING)
              s.displays i d d1 hg
            have hcm := countP_set
              (fun d => SERVER_IS_XDMCP d && d.dispstat == DispStat.XDMCP_MANAGED)
              s.displays i d d1 hg
            simp only [hx, hd1x, hpend, m4, Bool.true_and, beq_self_eq_true, if_true] at hcp hcm
            have hcp' : count_pending (s.displays.set i d1) + 1 = count_pending s.displays := by
              unfold count_pending
              simpa using hcp
            have hcm' : count_managed (s.displays.set i d1) = count_managed s.displays + 1 := by
              unfold count_managed
              simpa using hcm
            have hpe := hinv.pending_eq
            have hple := hinv.pending_le
            have hcfp := hinv.cfg_p
            have hslt := hinv.sessions_lt
            have e1 : p1.num_pending_sessions = s.priv.num_pending_sessions := by rw [hp1]
            have e2 : p1.num_sessions = s.priv.num_sessions := by rw [hp1]
            have e3 : p1.max_displays = s.priv.max_displays := by rw [hp1]
            have e4 : p1.max_pending_displays = s.priv.max_pending_displays := by rw [hp1]
            have e5 : p1.max_displays_per_host = s.priv.max_displays_per_host := by rw [hp1]
            have e6 : p1.session_serial = s.priv.session_serial := by rw [hp1]
            have hdec : guint_dec p1.num_pending_sessions = s.priv.num_pending_sessions - 1 := by
              unfold guint_dec
              rw [e1]
              omega
            rw [← h1]
            constructor
            · simp only []; rw [e3]; exact hinv.cfg_d
            · simp only []; rw [e4]; exact hinv.cfg_p
            · simp only []; rw [e6]; exact hinv.serial_lo
            · simp only []; rw [e6]; exact hinv.serial_hi
            · intro x hxm hs
              simp only [] at hxm
              rcases List.mem_or_eq_of_mem_set hxm with hxm | hxm
              · exact hinv.typed x hxm hs
              · rw [hxm]; exact hd1x
            · simp only []
              rw [hdec]
              omega
            · simp only []
              rw [hdec, e4]
              omega
            · simp only []
              unfold guint_inc
              exact Nat.mod_lt _ (by norm_num)
            · simp only []
              rw [e3, e4, hdec, e2]
              intro hH
              obtain ⟨g1, g2⟩ := hinv.managed hH
              have hinc : guint_inc s.priv.num_sessions = s.priv.num_sessions + 1 := by
                unfold guint_inc
                exact Nat.mod_eq_of_lt (by omega)
              rw [hinc, hcm']
              exact ⟨by omega, by omega⟩
            · simp only []
              rw [e6]
              intro hne
              obtain ⟨g1, g2⟩ := hinv.ids hne
              constructor
              · intro x hxm hz
                rcases List.mem_or_eq_of_mem_set hxm with hxm | hxm
                · exact g1 x hxm hz
                · rw [hxm, m2] at hz ⊢
                  exact g1 d hmem hz
              · have hmap := map_set_same (fun x : GdmDisplay => x.sessionid) s.displays i d d1
                  hg m2
                have g3 : (s.displays.map (fun x : GdmDisplay => x.sessionid)).Pairwise
                    (fun a b => a ≠ 0 → a ≠ b) := by
                  rw [List.pairwise_map]; exact g2
                rw [← hmap, List.pairwise_map] at g3
                exact g3
            · intro peer hl
              have : gdm_xdmcp_num_displays_from_host
                  { s with
                    priv := { p1 with
                      num_sessions := guint_inc p1.num_sessions,
                      num_pending_sessions := guint_dec p1.num_pending_sessions },
                    choose := c1, displays := s.displays.set i d1 } peer
                  = gdm_xdmcp_num_displays_from_host s peer := by
                unfold gdm_xdmcp_num_displays_from_host
                simp only []
                apply countP_set_same _ _ _ _ _ hg
                rw [hd1x, hx, m3]
              rw [this]
              simp only []
              rw [e5]
              exact hinv.per_host peer hl
          · rw [if_neg hpend] at h
            split at h
            · cases h
              exact hinv
            · exact hrefuse _ _ h


/-! ## The other handlers touch neither displays nor counters -/

theorem Frame.refl (s : Daemon) : Frame s s := ⟨rfl, _, _, rfl⟩

theorem Frame.trans {a b c : Daemon} (h1 : Frame a b) (h2 : Frame b c) : Frame a c := by
  obtain ⟨d1, fq1, mf1, p1⟩ := h1
  obtain ⟨d2, fq2, mf2, p2⟩ := h2
  exact ⟨by rw [d2, d1], fq2, mf2, by rw [p2, p1]⟩

theorem Frame.of_priv_eq {s s1 : Daemon} (hd : s1.displays = s.displays)
    (hp : s1.priv = s.priv) : Frame s s1 := ⟨hd, _, _, by rw [hp]⟩

theorem Inv_of_Frame (L : List sockaddr_storage) (s s1 : Daemon) (hinv : Inv L s)
    (h : Frame s s1) : Inv L s1 := Inv_frame L s s1 hinv h.1 h.2

theorem send_willing_frame (env : Env) (s : Daemon) (sa : sockaddr_storage) :
    Frame s (gdm_xdmcp_send_willing env s sa).1 := by
  unfold gdm_xdmcp_send_willing
  exact Frame.of_priv_eq rfl rfl

theorem send_unwilling_frame (env : Env) (s : Daemon) (sa : sockaddr_storage) :
    Frame s (gdm_xdmcp_send_unwilling env s sa).1 := by
  unfold gdm_xdmcp_send_unwilling
  split
  · exact Frame.refl s
  · exact Frame.of_priv_eq rfl rfl

theorem handle_direct_query_frame (env : Env) (s : Daemon) (sa : sockaddr_storage) (len : Nat)
    (rd : Option (List (List Nat))) : Frame s (handle_direct_query env s sa len rd).1 := by
  unfold handle_direct_query
  cases rd with
  | none => exact Frame.refl s
  | some l =>
    simp only []
    split
    · exact send_willing_frame env s sa
    · exact Frame.refl s

theorem handle_broadcast_query_frame (env : Env) (s : Daemon) (sa : sockaddr_storage)
    (len : Nat) (rd : Option (List (List Nat))) :
    Frame s (gdm_xdmcp_handle_broadcast_query env s sa len rd).1 := by
  unfold gdm_xdmcp_handle_broadcast_query
  split
  · exact handle_direct_query_frame env s sa len rd
  · exact Frame.refl s

theorem handle_query_frame (env : Env) (s : Daemon) (sa : sockaddr_storage)
    (len : Nat) (rd : Option (List (List Nat))) :
    Frame s (gdm_xdmcp_handle_query env s sa len rd).1 := by
  unfold gdm_xdmcp_handle_query
  split
  · exact handle_direct_query_frame env s sa len rd
  · exact send_unwilling_frame env s sa

theorem handle_indirect_query_frame (env : Env) (s : Daemon) (sa : sockaddr_storage)
    (len : Nat) (rd : Option (List (List Nat))) :
    Frame s (gdm_xdmcp_handle_indirect_query env s sa len rd).1 := by
  unfold gdm_xdmcp_handle_indirect_query
  split
  · exact Frame.refl s
  · split
    · exact Frame.refl s
    · cases rd with
      | none => exact Frame.refl s
      | some l =>
        simp only []
        split
        · rcases mdm_choose_indirect_lookup env.now s.choose sa with ⟨c1, r⟩
          cases r with
          | none =>
            simp only []
            exact Frame.trans (Frame.of_priv_eq rfl rfl) (send_willing_frame env _ sa)
          | some j =>
            simp only []
            cases c1.indirect[j]? with
            | none => exact Frame.refl s
            | some id =>
              simp only []
              cases id.chosen_host with
              | none =>
                simp only []
                exact Frame.trans (Frame.of_priv_eq rfl rfl) (send_willing_frame env _ sa)
              | some ch =>
                simp only []
                split
                · exact Frame.trans (Frame.of_priv_eq rfl rfl) (send_willing_frame env _ sa)
                · split
                  · exact Frame.of_priv_eq rfl rfl
                  · exact Frame.of_priv_eq rfl rfl
        · exact Frame.refl s

theorem remove_oldest_forward_frame (p : GdmXdmcpManagerPrivate) :
    ∃ fq, (remove_oldest_forward p).1 = { p with forward_queries := fq } := by
  unfold remove_oldest_forward
  split
  · unfold gdm_forward_query_dispose
    exact ⟨_, rfl⟩
  · exact ⟨_, rfl⟩

theorem forward_query_alloc_evict_frame :
    ∀ (count : Nat) (p : GdmXdmcpManagerPrivate),
      ∃ fq, gdm_forward_query_alloc_evict count p = { p with forward_queries := fq } := by
  intro count
  induction count with
  | zero => intro p; exact ⟨_, rfl⟩
  | succ n ih =>
    intro p
    unfold gdm_forward_query_alloc_evict
    by_cases hc : n + 1 > GDM_MAX_FORWARD_QUERIES
    · rw [if_pos hc]
      obtain ⟨fq, h⟩ := remove_oldest_forward_frame p
      rcases hr : remove_oldest_forward p with ⟨p1, b⟩
      rw [hr] at h
      simp only [] at h
      cases b with
      | true =>
        simp only []
        obtain ⟨fq2, h2⟩ := ih p1
        rw [h2, h]
        exact ⟨_, rfl⟩
      | false =>
        simp only []
        exact ⟨_, h⟩
    · rw [if_neg hc]
      exact ⟨_, rfl⟩

theorem forward_query_alloc_frame (p : GdmXdmcpManagerPrivate) (a b : sockaddr_storage) :
    ∃ fq, gdm_forward_query_alloc p a b = { p with forward_queries := fq } := by
  unfold gdm_forward_query_alloc
  obtain ⟨fq, h⟩ := forward_query_alloc_evict_frame p.forward_queries.length p
  simp only []
  rw [h]
  exact ⟨_, rfl⟩

theorem handle_forward_query_frame (env : Env) (s : Daemon) (sa : sockaddr_storage)
    (len : Nat) (rd : Option ForwardQueryFields) :
    Frame s (gdm_xdmcp_handle_forward_query env s sa len rd).1 := by
  unfold gdm_xdmcp_handle_forward_query
  split
  · exact Frame.refl s
  · cases rd with
    | none => exact Frame.refl s
    | some r =>
      simp only []
      split
      · exact Frame.refl s
      · cases create_sa_from_request env r.clnt_addr (some r.clnt_port) sa.ss_family with
        | none => exact Frame.refl s
        | some disp_sa =>
          simp only []
          have hw : ∃ mf, gdm_xdmcp_whack_queued_managed_forwards s.priv sa disp_sa
              = { s.priv with managed_forwards := mf } := by
            unfold gdm_xdmcp_whack_queued_managed_forwards
            split
            · exact ⟨_, rfl⟩
            · exact ⟨_, rfl⟩
          obtain ⟨mf, hw⟩ := hw
          rw [hw]
          split
          · obtain ⟨fq, hl⟩ := gdm_forward_query_lookup_frame env.now
              { s.priv with managed_forwards := mf } disp_sa
            rcases hlk : gdm_forward_query_lookup env.now
              { s.priv with managed_forwards := mf } disp_sa with ⟨p2, r2⟩
            rw [hlk] at hl
            simp only [] at hl
            cases r2 with
            | none =>
              simp only []
              refine Frame.trans ?_ (send_willing_frame env _ disp_sa)
              obtain ⟨fq2, ha⟩ := forward_query_alloc_frame p2 sa disp_sa
              refine ⟨rfl, fq2, mf, ?_⟩
              simp only []
              rw [ha, hl]
            | some i =>
              simp only []
              refine Frame.trans ?_ (send_willing_frame env _ disp_sa)
              obtain ⟨fq2, ha⟩ := forward_query_alloc_frame (gdm_forward_query_dispose p2 i)
                sa disp_sa
              refine ⟨rfl, fq2, mf, ?_⟩
              simp only []
              rw [ha, hl]
              rfl
          · exact ⟨rfl, _, _, rfl⟩

theorem handle_managed_forward_frame (env : Env) (s : Daemon) (sa : sockaddr_storage)
    (rd : Option (List Nat)) :
    Frame s (gdm_xdmcp_handle_managed_forward env s sa rd).1 := by
  unfold gdm_xdmcp_handle_managed_forward
  split
  · exact Frame.refl s
  · cases rd with
    | none => exact Frame.refl s
    | some a =>
      simp only []
      cases create_sa_from_request env a none sa.ss_family with
      | none => exact Frame.refl s
      | some disp_sa =>
        simp only []
        split
        · exact Frame.of_priv_eq rfl rfl
        · exact Frame.refl s

theorem handle_got_managed_forward_frame (env : Env) (s : Daemon) (sa : sockaddr_storage)
    (rd : Option (List Nat)) :
    Frame s (gdm_xdmcp_handle_got_managed_forward env s sa rd).1 := by
  unfold gdm_xdmcp_handle_got_managed_forward
  split
  · exact Frame.refl s
  · cases rd with
    | none => exact Frame.refl s
    | some a =>
      simp only []
      cases create_sa_from_request env a none sa.ss_family with
      | none => exact Frame.refl s
      | some disp_sa =>
        simp only []
        unfold gdm_xdmcp_whack_queued_managed_forwards
        split
        · exact ⟨rfl, _, _, rfl⟩
        · exact Frame.refl s

theorem handle_keepalive_frame (env : Env) (s : Daemon) (sa : sockaddr_storage)
    (rd : Option KeepaliveFields) :
    Frame s (gdm_xdmcp_handle_keepalive env s sa rd).1 := by
  unfold gdm_xdmcp_handle_keepalive
  split
  · exact Frame.refl s
  · cases rd with
    | none => exact Frame.refl s
    | some a => exact Frame.refl s

theorem decode_packet_inv (L : List sockaddr_storage) (env : Env) (s s1 : Daemon)
    (dg : Datagram) (out : List Sent) (hL : env.local_addrs = L) (hinv : Inv L s)
    (h : decode_packet env s dg = some (s1, out)) : Inv L s1 := by
  have key : ∀ (r : Daemon × List Sent), Frame s r.1 → some r = some (s1, out) → Inv L s1 := by
    intro r hf he
    cases he
    exact Inv_of_Frame L s _ hinv hf
  unfold decode_packet at h
  by_cases c1 : dg.cond_in = false
  · rw [if_pos c1] at h; cases h; exact hinv
  rw [if_neg c1] at h
  by_cases c2 : dg.fill_ok = false
  · rw [if_pos c2] at h; cases h; exact hinv
  rw [if_neg c2] at h
  cases hh : dg.header with
  | none => rw [hh] at h; cases h; exact hinv
  | some header =>
    rw [hh] at h
    simp only [] at h
    by_cases c3 : header.version ≠ XDM_PROTOCOL_VERSION
        ∧ header.version ≠ GDM_XDMCP_PROTOCOL_VERSION
    · rw [if_pos c3] at h; cases h; exact hinv
    rw [if_neg c3] at h
    by_cases o1 : header.opcode = BROADCAST_QUERY
    · rw [if_pos o1] at h
      exact key _ (handle_broadcast_query_frame _ _ _ _ _) h
    rw [if_neg o1] at h
    by_cases o2 : header.opcode = QUERY
    · rw [if_pos o2] at h
      exact key _ (handle_query_frame _ _ _ _ _) h
    rw [if_neg o2] at h
    by_cases o3 : header.opcode = INDIRECT_QUERY
    · rw [if_pos o3] at h
      exact key _ (handle_indirect_query_frame _ _ _ _ _) h
    rw [if_neg o3] at h
    by_cases o4 : header.opcode = FORWARD_QUERY
    · rw [if_pos o4] at h
      exact key _ (handle_forward_query_frame _ _ _ _ _) h
    rw [if_neg o4] at h
    by_cases o5 : header.opcode = REQUEST
    · rw [if_pos o5] at h
      exact handle_request_inv L env s s1 _ _ _ out hL hinv h
    rw [if_neg o5] at h
    by_cases o6 : header.opcode = MANAGE
    · rw [if_pos o6] at h
      exact handle_manage_inv L env s s1 _ _ out hinv h
    rw [if_neg o6] at h
    by_cases o7 : header.opcode = KEEPALIVE
    · rw [if_pos o7] at h
      exact key _ (handle_keepalive_frame _ _ _ _) h
    rw [if_neg o7] at h
    by_cases o8 : header.opcode = GDM_XDMCP_MANAGED_FORWARD
    · rw [if_pos o8] at h
      exact key _ (handle_managed_forward_frame _ _ _ _) h
    rw [if_neg o8] at h
    by_cases o9 : header.opcode = GDM_XDMCP_GOT_MANAGED_FORWARD
    · rw [if_pos o9] at h
      exact key _ (handle_got_managed_forward_frame _ _ _ _) h
    rw [if_neg o9] at h
    cases h
    exact hinv

theorem Inv_initial (L : List sockaddr_storage) (s : Daemon) (h : Initial s) : Inv L s := by
  obtain ⟨h1, h2, _, _, h5, h6, h7, h8, _, h10, _⟩ := h
  have hall : ∀ d ∈ s.displays, SERVER_IS_XDMCP d = false ∧ d.sessionid = 0
      ∧ d.dispstat ≠ DispStat.XDMCP_PENDING ∧ d.dispstat ≠ DispStat.XDMCP_MANAGED := by
    intro d hd
    have := (List.all_eq_true.mp h10) d hd
    simp only [Bool.and_eq_true, Bool.not_eq_true', beq_iff_eq, bne_iff_ne, ne_eq] at this
    obtain ⟨⟨⟨a, b⟩, c⟩, e⟩ := this
    exact ⟨a, b, c, e⟩
  have hcp : count_pending s.displays = 0 := by
    unfold count_pending
    rw [List.countP_eq_zero]
    intro d hd
    simp [(hall d hd).1]
  have hcm : count_managed s.displays = 0 := by
    unfold count_managed
    rw [List.countP_eq_zero]
    intro d hd
    simp [(hall d hd).1]
  constructor
  · exact h7
  · exact h8
  · exact h5
  · exact h6
  · intro d hd hs
    exact absurd hs (hall d hd).2.2.1
  · rw [h2, hcp]
  · rw [h2]; exact Nat.zero_le _
  · rw [h1]; norm_num
  · intro _
    rw [hcm, h1, h2]
    exact ⟨le_refl _, Nat.zero_le _⟩
  · intro _
    constructor
    · intro d hd hz
      exact absurd (hall d hd).2.1 hz
    · rw [List.pairwise_iff_forall_sublist]
      intro a b hab hz
      have : a ∈ s.displays := hab.subset (by simp)
      exact absurd (hall a this).2.1 hz
  · intro peer _
    unfold gdm_xdmcp_num_displays_from_host
    have : s.displays.countP (fun disp => SERVER_IS_XDMCP disp
        && gdm_address_equal disp.addr peer) = 0 := by
      rw [List.countP_eq_zero]
      intro d hd
      simp [(hall d hd).1]
    rw [this]
    exact Nat.zero_le _

theorem reachable_inv (L : List sockaddr_storage) (s : Daemon) (h : Reachable L s) :
    Inv L s := by
  induction h with
  | init s h => exact Inv_initial L s h
  | step s s1 env dg out _ hloc hstep ih => exact decode_packet_inv L env s s1 dg out hloc ih hstep

/-! ## Sample runs -/

theorem sample_init_initial (ss : Int) (a b : Nat) (h1 : G_MININT32 ≤ ss) (h2 : ss ≤ G_MAXINT32)
    (ha : a < 4294967296) (hb : b < 4294967296) : Initial (sample_init ss a b) := by
  unfold Initial
  refine ⟨rfl, rfl, rfl, rfl, h1, h2, ha, hb, ?_, rfl, rfl, rfl, rfl, rfl, rfl, rfl⟩
  show (2 : Nat) < 4294967296
  norm_num

theorem reachable_run (L : List sockaddr_storage) :
    ∀ (l : List (Env × Datagram)) (s s1 : Daemon), Reachable L s →
      (∀ e ∈ l, e.1.local_addrs = L) → run_datagrams s l = some s1 → Reachable L s1 := by
  intro l
  induction l with
  | nil =>
    intro s s1 hr _ h
    simp only [run_datagrams, Option.some.injEq] at h
    rw [← h]; exact hr
  | cons e rest ih =>
    intro s s1 hr hl h
    obtain ⟨env, dg⟩ := e
    unfold run_datagrams at h
    cases hd : decode_packet env s dg with
    | none => rw [hd] at h; simp at h
    | some r =>
      obtain ⟨s2, out⟩ := r
      rw [hd] at h
      simp only [] at h
      exact ih s2 s1 (Reachable.step s s2 env dg out hr (hl (env, dg) (List.mem_cons_self _ _)) hd)
        (fun e he => hl e (List.mem_cons_of_mem _ he)) h

theorem sample_traces_local :
    (∀ e ∈ trace_remanage, e.1.local_addrs = [])
      ∧ (∀ e ∈ trace_two_requests, e.1.local_addrs = [])
      ∧ (∀ e ∈ trace_two_sessions, e.1.local_addrs = []) := by
  refine ⟨?_, ?_, ?_⟩ <;> intro e he
  · simp only [trace_remanage, List.mem_cons, List.mem_singleton, List.not_mem_nil, or_false] at he
    rcases he with rfl | rfl | rfl <;> rfl
  · simp only [trace_two_requests, List.mem_cons, List.mem_singleton, List.not_mem_nil,
      or_false] at he
    rcases he with rfl | rfl <;> rfl
  · simp only [trace_two_sessions, List.mem_cons, List.mem_singleton, List.not_mem_nil,
      or_false] at he
    rcases he with rfl | rfl | rfl | rfl <;> rfl

theorem reachable_of_run (ss : Int) (a b : Nat) (l : List (Env × Datagram)) (s : Daemon)
    (h1 : G_MININT32 ≤ ss) (h2 : ss ≤ G_MAXINT32) (ha : a < 4294967296) (hb : b < 4294967296)
    (hl : ∀ e ∈ l, e.1.local_addrs = []) (h : run_datagrams (sample_init ss a b) l = some s) :
    Reachable [] s :=
  reachable_run [] l _ s (Reachable.init _ (sample_init_initial ss a b h1 h2 ha hb)) hl h

theorem sample_init_local_initial (ss : Int) (a b : Nat) (h1 : G_MININT32 ≤ ss)
    (h2 : ss ≤ G_MAXINT32) (ha : a < 4294967296) (hb : b < 4294967296) :
    Initial (sample_init_local ss a b) := by
  unfold Initial
  refine ⟨rfl, rfl, rfl, rfl, h1, h2, ha, hb, ?_, ?_, rfl, rfl, rfl, rfl, rfl, rfl⟩
  · show (2 : Nat) < 4294967296
    norm_num
  · rfl

theorem reachable_of_run_local (ss : Int) (a b : Nat) (l : List (Env × Datagram)) (s : Daemon)
    (h1 : G_MININT32 ≤ ss) (h2 : ss ≤ G_MAXINT32) (ha : a < 4294967296) (hb : b < 4294967296)
    (hl : ∀ e ∈ l, e.1.local_addrs = [])
    (h : run_datagrams (sample_init_local ss a b) l = some s) : Reachable [] s :=
  reachable_run [] l _ s (Reachable.init _ (sample_init_local_initial ss a b h1 h2 ha hb)) hl h

theorem state_two_pending_reachable : Reachable [] state_two_pending :=
  reachable_of_run 7 16 4 trace_two_requests state_two_pending (by decide) (by decide)
    (by norm_num) (by norm_num) sample_traces_local.2.1 (by decide)

theorem state_two_managed_reachable : Reachable [] state_two_managed :=
  reachable_of_run 7 16 4 trace_two_sessions state_two_managed (by decide) (by decide)
    (by norm_num) (by norm_num) sample_traces_local.2.2 (by decide)

/-! ## The claims about the session table -/

/-- C1, the failing input: the manager starts with the local display ":0" in its list;
REQUEST, MANAGE and a second REQUEST from the same host and display number lead to a
state in which `num_sessions` is 1 although no display of the list is managed (the
pending counter, 1, is exact).  The display that the second REQUEST makes
`gdm_xdmcp_display_dispose_check` remove is the second of the list: the scan restarts at
the first cell, which is still in the list. -/
theorem C1_num_sessions_stale_after_remanage :
    ∃ s, Reachable [] s ∧ run_datagrams (sample_init_local 7 16 4) trace_remanage = some s
      ∧ s.priv.num_sessions = 1 ∧ count_managed s.displays = 0
      ∧ s.priv.num_pending_sessions = 1 ∧ count_pending s.displays = 1
      ∧ s.displays.map (fun d => d.sessionid) = [0, 8] := by
  have hdec : (run_datagrams (sample_init_local 7 16 4) trace_remanage).map
      (fun s => (s.priv.num_sessions, count_managed s.displays,
        s.priv.num_pending_sessions, count_pending s.displays,
        s.displays.map (fun d => d.sessionid))) = some (1, 0, 1, 1, [0, 8]) := by
    decide
  cases h : run_datagrams (sample_init_local 7 16 4) trace_remanage with
  | none => rw [h] at hdec; simp at hdec
  | some s =>
    rw [h] at hdec
    simp only [Option.map_some', Option.some.injEq, Prod.mk.injEq] at hdec
    exact ⟨s, reachable_of_run_local 7 16 4 _ s (by decide) (by decide) (by norm_num)
      (by norm_num) sample_traces_local.1 h, rfl, hdec⟩

/-- C2, counterexample: with the serial counter at G_MAXINT32 - 1 when the manager
starts, two REQUESTs from two hosts (the random source yielding 2147483646 during the
second) lead to a reachable state whose two live displays share the non-zero session id
2147483646. -/
theorem C2_counterexample :
    ∃ s, Reachable [] s
      ∧ run_datagrams (sample_init 2147483646 16 4) trace_two_requests = some s
      ∧ s.displays.map (fun d => d.sessionid) = [2147483646, 2147483646] := by
  have hdec : (run_datagrams (sample_init 2147483646 16 4) trace_two_requests).map
      (fun s => s.displays.map (fun d => d.sessionid)) = some [2147483646, 2147483646] := by
    decide
  cases h : run_datagrams (sample_init 2147483646 16 4) trace_two_requests with
  | none => rw [h] at hdec; simp at hdec
  | some s =>
    rw [h] at hdec
    simp only [Option.map_some', Option.some.injEq] at hdec
    exact ⟨s, reachable_of_run 2147483646 16 4 _ s (by decide) (by decide) (by norm_num)
      (by norm_num) sample_traces_local.2.1 h, rfl, hdec⟩

/-- C2, amended: in every reachable state whose serial counter has not reached G_MAXINT32
no two displays of the list share a non-zero session id, and the id that an allocation
made in that state gives the new display is non-zero and differs from the session id of
every display in the list.  (Once the counter is G_MAXINT32 the ids are raw random draws;
nothing is stated about them.) -/
theorem C2_session_ids_unique_below_maxint32 (L : List sockaddr_storage) (s : Daemon)
    (hr : Reachable L s) (hs : s.priv.session_serial ≠ G_MAXINT32) :
    s.displays.Pairwise (fun a b => a.sessionid ≠ 0 → a.sessionid ≠ b.sessionid)
      ∧ ∀ (env : Env) (sa : sockaddr_storage) (he : Option String) (n : Nat),
          ∃ s1 d, gdm_xdmcp_display_alloc env s sa he n = some (s1, d)
            ∧ d.sessionid ≠ 0 ∧ ∀ e ∈ s.displays, e.sessionid ≠ d.sessionid := by
  have hinv := reachable_inv L s hr
  obtain ⟨g1, g2⟩ := hinv.ids hs
  refine ⟨g2, ?_⟩
  intro env sa he n
  have hlo := hinv.serial_lo
  have hhi := hinv.serial_hi
  have hser : ∃ serial ss1, get_next_session_serial s.priv.session_serial env.random
      = some (serial, ss1) ∧ serial ≠ 0 ∧ G_MININT32 ≤ serial ∧ serial ≤ G_MAXINT32
      ∧ s.priv.session_serial ≤ serial := by
    by_cases h0 : s.priv.session_serial = 0
    · refine ⟨1, 2, ?_, by decide, by decide, by decide, by omega⟩
      rw [get_next_session_serial_counter _ _ hs, if_pos h0]
    · refine ⟨s.priv.session_serial, s.priv.session_serial + 1, ?_, h0, hlo, hhi, le_refl _⟩
      rw [get_next_session_serial_counter _ _ hs, if_neg h0]
  obtain ⟨serial, ss1, e1, e2, e3, e4, e5⟩ := hser
  unfold gdm_xdmcp_display_alloc
  rw [e1]
  refine ⟨_, _, rfl, to_CARD32_ne_zero _ e3 e4 e2, ?_⟩
  intro e he1 hc
  have hc1 : e.sessionid = to_CARD32 serial := hc
  by_cases hz : e.sessionid = 0
  · rw [hz] at hc1
    exact to_CARD32_ne_zero _ e3 e4 e2 hc1.symm
  · obtain ⟨k, k1, k2, k3⟩ := g1 e he1 hz
    rw [k3] at hc1
    have := to_CARD32_inj k serial k1 (by omega) e3 e4 hc1
    omega

/-- C2, witness: the amended statement at the state with two pending displays (session
ids 7 and 8, serial counter 9). -/
theorem C2_session_ids_unique_witness :
    Reachable [] state_two_pending ∧ state_two_pending.priv.session_serial ≠ G_MAXINT32
      ∧ state_two_pending.displays.map (fun d => d.sessionid) = [7, 8]
      ∧ state_two_pending.displays.Pairwise
          (fun a b => a.sessionid ≠ 0 → a.sessionid ≠ b.sessionid) :=
  ⟨state_two_pending_reachable, by decide, by decide,
   (C2_session_ids_unique_below_maxint32 [] state_two_pending state_two_pending_reachable
      (by decide)).1⟩


/-- C3: whatever the serial counter and the random source, a value returned by
`get_next_session_serial` is non-zero: a counter value 0 is skipped (the result is 1), a
random draw 0 is skipped (the next draw is tried), the function returns as soon as the
counter is below G_MAXINT32 or some draw is non-zero, and the session id of a display
allocated from a `gint32` counter is non-zero. -/
theorem C3_session_serial_nonzero (env : Env) (s : Daemon) (sa : sockaddr_storage)
    (he : Option String) (n : Nat) :
    (∀ r, get_next_session_serial s.priv.session_serial env.random = some r → r.1 ≠ 0)
      ∧ get_next_session_serial 0 env.random = some (1, 2)
      ∧ get_next_session_serial G_MAXINT32 (0 :: env.random)
          = get_next_session_serial G_MAXINT32 env.random
      ∧ ((s.priv.session_serial ≠ G_MAXINT32 ∨ ∃ x ∈ env.random, to_gint32 x ≠ 0) →
          ∃ s1 d, gdm_xdmcp_display_alloc env s sa he n = some (s1, d))
      ∧ (G_MININT32 ≤ s.priv.session_serial → s.priv.session_serial ≤ G_MAXINT32 →
          ∀ s1 d, gdm_xdmcp_display_alloc env s sa he n = some (s1, d) → d.sessionid ≠ 0) := by
  refine ⟨?_, ?_, ?_, ?_, ?_⟩
  · intro r hr
    exact get_next_session_serial_loop_nonzero _ _ _ _ hr
  · rw [get_next_session_serial_counter 0 env.random (by decide)]
    rfl
  · unfold get_next_session_serial
    have h0 : to_gint32 0 = 0 := by decide
    simp only [List.length_cons]
    rw [get_next_session_serial_loop]
    simp [h0]
  · intro h
    have hsome : ∃ r, get_next_session_serial s.priv.session_serial env.random = some r := by
      by_cases hs : s.priv.session_serial ≠ G_MAXINT32
      · exact ⟨_, get_next_session_serial_counter _ _ hs⟩
      · have hs' : s.priv.session_serial = G_MAXINT32 := by simpa using hs
        rcases h with h | h
        · exact absurd hs' h
        · obtain ⟨x, _, _, hx⟩ := get_next_session_serial_random env.random h
          rw [hs']
          exact ⟨_, hx⟩
    obtain ⟨r, hr⟩ := hsome
    unfold gdm_xdmcp_display_alloc
    rw [hr]
    exact ⟨_, _, rfl⟩
  · intro hlo hhi s1 d h
    unfold gdm_xdmcp_display_alloc at h
    cases hser : get_next_session_serial s.priv.session_serial env.random with
    | none => rw [hser] at h; simp at h
    | some r =>
      rw [hser] at h
      simp only [Option.some.injEq, Prod.mk.injEq] at h
      obtain ⟨_, hd⟩ := h
      have hnz : r.1 ≠ 0 := get_next_session_serial_loop_nonzero _ _ _ _ hser
      obtain ⟨f1, f2, _⟩ := get_next_session_serial_loop_facts _ _ _ _ hlo hhi hser
      rw [← hd]
      exact to_CARD32_ne_zero _ f1 f2 hnz

/-- C3, witness: the statement at the sample manager whose counter is stuck at
G_MAXINT32 while the random source yields 0, 0, 5. -/
theorem C3_session_serial_nonzero_witness :
    (∀ r, get_next_session_serial (sample_init 2147483647 16 4).priv.session_serial
        (sample_env 100 [0, 0, 5]).random = some r → r.1 ≠ 0)
      ∧ get_next_session_serial 2147483647 [0, 0, 5] = some (5, 2147483647) :=
  ⟨(C3_session_serial_nonzero (sample_env 100 [0, 0, 5]) (sample_init 2147483647 16 4)
      sample_hostA none 1).1, by decide⟩

/-- C8, counterexample: with `max_displays = 1`, two hosts that each send REQUEST and then
MANAGE lead from the initial manager to a state with two managed displays (and
`num_sessions = 2`). -/
theorem C8_counterexample :
    ∃ s, Reachable [] s ∧ run_datagrams (sample_init 7 1 4) trace_two_sessions = some s
      ∧ s.priv.max_displays = 1 ∧ count_managed s.displays = 2 ∧ s.priv.num_sessions = 2 := by
  have hdec : (run_datagrams (sample_init 7 1 4) trace_two_sessions).map
      (fun s => (s.priv.max_displays, count_managed s.displays, s.priv.num_sessions))
      = some (1, 2, 2) := by
    decide
  cases h : run_datagrams (sample_init 7 1 4) trace_two_sessions with
  | none => rw [h] at hdec; simp at hdec
  | some s =>
    rw [h] at hdec
    simp only [Option.map_some', Option.some.injEq, Prod.mk.injEq] at hdec
    exact ⟨s, reachable_of_run 7 1 4 _ s (by decide) (by decide) (by norm_num) (by norm_num)
      sample_traces_local.2.2 h, rfl, hdec⟩

/-- C8, amended: in every reachable state the number of managed displays is at most
`num_sessions`, and `num_sessions` plus the pending counter is at most
`max_displays + max_pending_displays - 1` (the two limits together fitting a `guint`):
the limit `max_displays` is checked when a REQUEST is accepted only, and MANAGE promotes
every pending display without a capacity check. -/
theorem C8_managed_bounded_by_both_limits (L : List sockaddr_storage) (s : Daemon)
    (hr : Reachable L s)
    (hcfg : s.priv.max_displays + s.priv.max_pending_displays ≤ 4294967296) :
    count_managed s.displays ≤ s.priv.num_sessions
      ∧ s.priv.num_sessions + s.priv.num_pending_sessions
          ≤ s.priv.max_displays + s.priv.max_pending_displays - 1
      ∧ count_managed s.displays ≤ s.priv.max_displays + s.priv.max_pending_displays - 1 := by
  obtain ⟨h1, h2⟩ := (reachable_inv L s hr).managed hcfg
  exact ⟨h1, h2, by omega⟩

/-- C8, witness: the amended bound at the state with two managed displays (limits 16
and 4). -/
theorem C8_managed_bounded_witness :
    Reachable [] state_two_managed
      ∧ state_two_managed.priv.max_displays + state_two_managed.priv.max_pending_displays
          ≤ 4294967296
      ∧ count_managed state_two_managed.displays
          ≤ state_two_managed.priv.max_displays + state_two_managed.priv.max_pending_displays - 1 :=
  ⟨state_two_managed_reachable, by decide,
   (C8_managed_bounded_by_both_limits [] state_two_managed state_two_managed_reachable
      (by decide)).2.2⟩


theorem resolve_forward_query_out (env : Env) (p : GdmXdmcpManagerPrivate)
    (sa : sockaddr_storage) :
    ∀ pk ∈ (resolve_forward_query env p sa).2,
      pk.header.opcode = GDM_XDMCP_MANAGED_FORWARD := by
  unfold resolve_forward_query
  rcases gdm_forward_query_lookup env.now p sa with ⟨p1, r⟩
  cases r with
  | none => intro pk hpk; simp at hpk
  | some i =>
    simp only []
    cases p1.forward_queries[i]? with
    | none => intro pk hpk; simp at hpk
    | some fq =>
      intro pk hpk
      simp only [gdm_xdmcp_send_managed_forward, List.mem_singleton] at hpk
      rw [hpk]
      rfl

theorem send_decline_out (env : Env) (s : Daemon) (sa : sockaddr_storage) (reason : String) :
    ∃ rest, (gdm_xdmcp_send_decline env s sa reason).2 = decline_packet sa reason :: rest
      ∧ ∀ pk ∈ rest, pk.header.opcode = GDM_XDMCP_MANAGED_FORWARD := by
  unfold gdm_xdmcp_send_decline
  have h := resolve_forward_query_out env s.priv sa
  rcases hr : resolve_forward_query env s.priv sa with ⟨p1, out⟩
  rw [hr] at h
  exact ⟨out, rfl, h⟩

theorem send_decline_no_accept (env : Env) (s : Daemon) (sa : sockaddr_storage)
    (reason : String) :
    ¬ ∃ pk ∈ (gdm_xdmcp_send_decline env s sa reason).2, pk.header.opcode = ACCEPT := by
  obtain ⟨rest, h1, h2⟩ := send_decline_out env s sa reason
  rw [h1]
  rintro ⟨pk, hpk, hop⟩
  simp only [List.mem_cons] at hpk
  rcases hpk with rfl | hpk
  · have h9 : (decline_packet sa reason).header.opcode = 9 := rfl
    rw [h9] at hop
    exact absurd hop (by decide)
  · rw [h2 pk hpk] at hop
    exact absurd hop (by decide)

/-- C9: in every reachable state the pending counter equals the number of pending XDMCP
displays in the list and is at most `max_pending_displays`; and whenever the REQUEST
handler answers ACCEPT, the state it returns is what `gdm_xdmcp_display_alloc` makes of a
state whose pending counter is below `max_pending_displays`. -/
theorem C9_pending_within_limit (L : List sockaddr_storage) (s : Daemon)
    (hr : Reachable L s) :
    s.priv.num_pending_sessions = count_pending s.displays
      ∧ count_pending s.displays ≤ s.priv.max_pending_displays
      ∧ ∀ (env : Env) (sa : sockaddr_storage) (len : Nat) (rd : Option RequestFields)
          (s1 : Daemon) (out : List Sent),
          gdm_xdmcp_handle_request env s sa len rd = some (s1, out) →
          (∃ pk ∈ out, pk.header.opcode = ACCEPT) →
          ∃ s3 d r, rd = some r
            ∧ gdm_xdmcp_display_alloc env s3 sa (env.gethostbyaddr sa) r.clnt_dspnum
                = some (s1, d)
            ∧ s3.priv.num_pending_sessions < s3.priv.max_pending_displays := by
  have hinv := reachable_inv L s hr
  refine ⟨hinv.pending_eq, ?_, ?_⟩
  · rw [← hinv.pending_eq]; exact hinv.pending_le
  · intro env sa len rd s1 out h hacc
    unfold gdm_xdmcp_handle_request at h
    by_cases ha : env.host_allow sa = false
    · rw [if_pos ha] at h
      cases h
      obtain ⟨pk, hpk, _⟩ := hacc
      simp at hpk
    · rw [if_neg ha] at h
      cases hp : request_purge env s with
      | none => rw [hp] at h; simp at h
      | some s2 =>
        rw [hp] at h
        simp only [] at h
        cases rd with
        | none =>
          simp only [] at h
          cases h
          obtain ⟨pk, hpk, _⟩ := hacc
          simp at hpk
        | some r =>
          simp only [] at h
          by_cases hex : request_explen r ≠ len
          · rw [if_pos hex] at h
            cases h
            obtain ⟨pk, hpk, _⟩ := hacc
            simp at hpk
          · rw [if_neg hex] at h
            split at h
            · cases hd : gdm_xdmcp_display_dispose_check s2 (env.gethostbyaddr sa)
                  r.clnt_dspnum with
              | none => rw [hd] at h; simp at h
              | some s3 =>
                rw [hd] at h
                simp only [] at h
                split at h
                · cases h
                  exact absurd hacc (send_decline_no_accept _ _ _ _)
                · rename_i hpend
                  cases halloc : gdm_xdmcp_display_alloc env s3 sa (env.gethostbyaddr sa)
                      r.clnt_dspnum with
                  | none => rw [halloc] at h; simp at h
                  | some r4 =>
                    obtain ⟨s4, d⟩ := r4
                    rw [halloc] at h
                    simp only [Option.some.injEq, Prod.mk.injEq] at h
                    obtain ⟨h1, _⟩ := h
                    subst h1
                    exact ⟨s3, d, r, rfl, halloc, by omega⟩
            · split at h
              · cases h
                exact absurd hacc (send_decline_no_accept _ _ _ _)
              · split at h
                · cases h
                  exact absurd hacc (send_decline_no_accept _ _ _ _)
                · cases h
                  exact absurd hacc (send_decline_no_accept _ _ _ _)

/-- C9, witness: at the state with two pending displays the counter is 2, equal to the
scan, and within the limit 4. -/
theorem C9_pending_within_limit_witness :
    Reachable [] state_two_pending
      ∧ state_two_pending.priv.num_pending_sessions = count_pending state_two_pending.displays
      ∧ count_pending state_two_pending.displays = 2
      ∧ count_pending state_two_pending.displays ≤ state_two_pending.priv.max_pending_displays :=
  ⟨state_two_pending_reachable,
   (C9_pending_within_limit [] state_two_pending state_two_pending_reachable).1,
   by decide,
   (C9_pending_within_limit [] state_two_pending state_two_pending_reachable).2.1⟩

/-- C10: in every reachable state and for every peer address that is not local, the
number of XDMCP displays of the list whose address equals the peer (what
`gdm_xdmcp_num_displays_from_host` counts, hence also the pending or managed ones among
them) is at most `max_displays_per_host`, and handling a REQUEST keeps it so. -/
theorem C10_per_host_limit (L : List sockaddr_storage) (s : Daemon) (hr : Reachable L s)
    (peer : sockaddr_storage) (hl : gdm_address_is_local L peer = false) :
    gdm_xdmcp_num_displays_from_host s peer ≤ s.priv.max_displays_per_host
      ∧ s.displays.countP (fun d => SERVER_IS_XDMCP d && gdm_address_equal d.addr peer
          && (d.dispstat == DispStat.XDMCP_PENDING || d.dispstat == DispStat.XDMCP_MANAGED))
          ≤ s.priv.max_displays_per_host
      ∧ ∀ (env : Env) (sa : sockaddr_storage) (len : Nat) (rd : Option RequestFields)
          (s1 : Daemon) (out : List Sent), env.local_addrs = L →
          gdm_xdmcp_handle_request env s sa len rd = some (s1, out) →
          gdm_xdmcp_num_displays_from_host s1 peer ≤ s1.priv.max_displays_per_host := by
  have hinv := reachable_inv L s hr
  refine ⟨hinv.per_host peer hl, ?_, ?_⟩
  · refine le_trans ?_ (hinv.per_host peer hl)
    unfold gdm_xdmcp_num_displays_from_host
    apply List.countP_mono_left
    intro d _ hd
    simp only [Bool.and_eq_true] at hd ⊢
    exact hd.1
  · intro env sa len rd s1 out hL h
    exact (handle_request_inv L env s s1 sa len rd out hL hinv h).per_host peer hl

/-- C10, witness: at the state with two pending displays, 10.0.0.2 is not local and owns
one display, within the limit 2. -/
theorem C10_per_host_limit_witness :
    Reachable [] state_two_pending ∧ gdm_address_is_local [] sample_hostA = false
      ∧ gdm_xdmcp_num_displays_from_host state_two_pending sample_hostA = 1
      ∧ gdm_xdmcp_num_displays_from_host state_two_pending sample_hostA
          ≤ state_two_pending.priv.max_displays_per_host :=
  ⟨state_two_pending_reachable, by decide, by decide,
   (C10_per_host_limit [] state_two_pending state_two_pending_reachable sample_hostA
      (by decide)).1⟩

/-! ## The claims about the REQUEST handler -/

theorem strncmp_eq_zero_iff : ∀ (n : Nat) (a b : List Nat), (∀ x ∈ b, x ≠ 0) →
    a.length = b.length → b.length ≤ n → (strncmp a b n = 0 ↔ a = b)
  | 0, a, b, _, hl, hn => by
    have hb : b = [] := List.length_eq_zero.mp (by omega)
    have ha : a = [] := List.length_eq_zero.mp (by rw [hl, hb]; rfl)
    subst ha hb
    simp [strncmp]
  | n + 1, [], [], _, _, _ => by simp [strncmp]
  | n + 1, [], c2 :: s2, _, hl, _ => by simp at hl
  | n + 1, c1 :: s1, [], _, hl, _ => by simp at hl
  | n + 1, c1 :: s1, c2 :: s2, hnz, hl, hn => by
    have ih := strncmp_eq_zero_iff n s1 s2 (fun x hx => hnz x (List.mem_cons_of_mem _ hx))
      (by simpa using hl) (by simp at hn; omega)
    have hc2 : c2 ≠ 0 := hnz c2 (List.mem_cons_self _ _)
    unfold strncmp
    by_cases hc : c1 = c2
    · subst hc
      simp [hc2, ih]
    · simp only [ne_eq, hc, not_false_eq_true, if_true, List.cons.injEq, false_and, iff_false]
      omega

theorem MIT_MAGIC_COOKIE_1_bytes :
    MIT_MAGIC_COOKIE_1.length = 18 ∧ ∀ x ∈ MIT_MAGIC_COOKIE_1, x ≠ 0 := by
  decide

theorem request_mitauth_iff (l : List (List Nat)) :
    request_mitauth l = true ↔ MIT_MAGIC_COOKIE_1 ∈ l := by
  unfold request_mitauth
  rw [List.any_eq_true]
  constructor
  · rintro ⟨a, ha, h⟩
    simp only [Bool.and_eq_true, beq_iff_eq] at h
    have := (strncmp_eq_zero_iff 18 a MIT_MAGIC_COOKIE_1 MIT_MAGIC_COOKIE_1_bytes.2
      (by rw [h.1, MIT_MAGIC_COOKIE_1_bytes.1]) (by rw [MIT_MAGIC_COOKIE_1_bytes.1])).mp h.2
    rw [← this]; exact ha
  · intro h
    refine ⟨MIT_MAGIC_COOKIE_1, h, ?_⟩
    decide


theorem handle_request_no_mitauth (env : Env) (s s2 : Daemon) (sa : sockaddr_storage)
    (len : Nat) (r : RequestFields) (ha : env.host_allow sa = true)
    (hp : request_purge env s = some s2) (hlen : request_explen r = len)
    (hm : request_mitauth r.clnt_authorization = false) :
    gdm_xdmcp_handle_request env s sa len (some r)
      = some (gdm_xdmcp_send_decline env s2 sa "Only MIT-MAGIC-COOKIE-1 supported") := by
  unfold gdm_xdmcp_handle_request
  rw [if_neg (by simp [ha]), hp]
  simp only []
  rw [if_neg (by simp [hlen]), if_neg (by simp [hm]), if_pos hm]

theorem handle_request_max_sessions (env : Env) (s s2 : Daemon) (sa : sockaddr_storage)
    (len : Nat) (r : RequestFields) (ha : env.host_allow sa = true)
    (hp : request_purge env s = some s2) (hlen : request_explen r = len)
    (hm : request_mitauth r.clnt_authorization = true)
    (hs : s2.priv.max_displays ≤ s2.priv.num_sessions) :
    gdm_xdmcp_handle_request env s sa len (some r)
      = some (gdm_xdmcp_send_decline env s2 sa "Maximum number of open sessions reached") := by
  unfold gdm_xdmcp_handle_request
  rw [if_neg (by simp [ha]), hp]
  simp only []
  rw [if_neg (by simp [hlen]), if_neg (by intro h; omega), if_neg (by simp [hm]), if_pos hs]

theorem handle_request_max_host (env : Env) (s s2 : Daemon) (sa : sockaddr_storage)
    (len : Nat) (r : RequestFields) (ha : env.host_allow sa = true)
    (hp : request_purge env s = some s2) (hlen : request_explen r = len)
    (hm : request_mitauth r.clnt_authorization = true)
    (hs : s2.priv.num_sessions < s2.priv.max_displays)
    (hl : gdm_address_is_local env.local_addrs sa = false)
    (hc : s2.priv.max_displays_per_host ≤ gdm_xdmcp_num_displays_from_host s2 sa) :
    gdm_xdmcp_handle_request env s sa len (some r)
      = some (gdm_xdmcp_send_decline env s2 sa
          "Maximum number of open sessions from your host reached") := by
  unfold gdm_xdmcp_handle_request
  rw [if_neg (by simp [ha]), hp]
  simp only []
  rw [if_neg (by simp [hlen]), if_neg (by rintro ⟨_, _, h | h⟩ <;> simp_all; omega),
    if_neg (by simp [hm]), if_neg (by omega)]

theorem handle_request_entered (env : Env) (s s2 s3 : Daemon) (sa : sockaddr_storage)
    (len : Nat) (r : RequestFields) (ha : env.host_allow sa = true)
    (hp : request_purge env s = some s2) (hlen : request_explen r = len)
    (hm : request_mitauth r.clnt_authorization = true)
    (hs : s2.priv.num_sessions < s2.priv.max_displays)
    (hh : gdm_address_is_local env.local_addrs sa = true
      ∨ gdm_xdmcp_num_displays_from_host s2 sa < s2.priv.max_displays_per_host)
    (hd : gdm_xdmcp_display_dispose_check s2 (env.gethostbyaddr sa) r.clnt_dspnum = some s3) :
    gdm_xdmcp_handle_request env s sa len (some r)
      = if s3.priv.num_pending_sessions ≥ s3.priv.max_pending_displays then
          some (gdm_xdmcp_send_decline env s3 sa "Maximum pending servers")
        else
          match gdm_xdmcp_display_alloc env s3 sa (env.gethostbyaddr sa) r.clnt_dspnum with
          | none => none
          | some (s4, d) =>
            some (s4, [accept_packet sa d.sessionid [] [] MIT_MAGIC_COOKIE_1
                        (pad_take 16 d.bcookie)]) := by
  unfold gdm_xdmcp_handle_request
  rw [if_neg (by simp [ha]), hp]
  simp only []
  rw [if_neg (by simp [hlen]), if_pos ⟨hm, hs, hh⟩]
  simp only [hd]

theorem display_alloc_returns (env : Env) (s : Daemon) (sa : sockaddr_storage)
    (he : Option String) (n : Nat)
    (h : s.priv.session_serial ≠ G_MAXINT32 ∨ ∃ x ∈ env.random, to_gint32 x ≠ 0) :
    ∃ s1 d, gdm_xdmcp_display_alloc env s sa he n = some (s1, d)
      ∧ s1.displays = s.displays ++ [d]
      ∧ s1.priv.num_pending_sessions = guint_inc s.priv.num_pending_sessions
      ∧ s1.priv.num_sessions = s.priv.num_sessions
      ∧ d.dispstat = DispStat.XDMCP_PENDING ∧ SERVER_IS_XDMCP d = true ∧ d.addr = sa
      ∧ d.xdmcp_dispnum = n ∧ d.hostname = he ∧ d.acctime = env.now := by
  have hsome : ∃ r, get_next_session_serial s.priv.session_serial env.random = some r := by
    by_cases hs : s.priv.session_serial ≠ G_MAXINT32
    · exact ⟨_, get_next_session_serial_counter _ _ hs⟩
    · have hs' : s.priv.session_serial = G_MAXINT32 := by simpa using hs
      rcases h with h | h
      · exact absurd hs' h
      · obtain ⟨x, _, _, hx⟩ := get_next_session_serial_random env.random h
        rw [hs']
        exact ⟨_, hx⟩
  obtain ⟨r, hr⟩ := hsome
  unfold gdm_xdmcp_display_alloc
  rw [hr]
  exact ⟨_, _, rfl, rfl, rfl, rfl, rfl, rfl, rfl, rfl, rfl, rfl⟩

theorem dispose_check_defined (s : Daemon) (he : Option String) (dspnum : Nat)
    (hk : ∀ h, he = some h → head_survives (same_display h dspnum) s.displays = true) :
    gdm_xdmcp_display_dispose_check s he dspnum ≠ none := by
  cases he with
  | none => simp [gdm_xdmcp_display_dispose_check]
  | some h =>
    obtain ⟨s1, e1, _⟩ := dispose_check_spec s h dspnum (hk h rfl)
    rw [e1]
    simp

theorem request_purge_head_eq (env : Env) (s s2 : Daemon) (hit : GdmDisplay → Bool)
    (hp : request_purge env s = some s2) :
    head_survives hit s2.displays = head_survives hit s.displays := by
  have hk := request_purge_head env s (by rw [hp]; simp)
  obtain ⟨s2', e1, e2, _⟩ := request_purge_spec env s hk
  rw [hp] at e1
  cases e1
  rw [e2]
  apply head_survives_filter
  have : (fun d => !(fun d => !stale_pending env.now s.priv.max_wait d) d)
      = stale_pending env.now s.priv.max_wait := by
    funext d
    simp
  rw [this]
  exact hk

/-- C4, counterexample: the display list holds the local display ":0" and, after it, one
fresh pending display of 10.0.0.2, display 1; `max_pending_displays` is 1.  A second
REQUEST from 10.0.0.2 for display 1 finds, after the purge, `num_pending = 1 >= 1`, so the
decision worded in the claim is DECLINE "Maximum pending servers"; the handler answers
ACCEPT, because it has disposed the earlier display of the same host and display number
before it reads the pending counter. -/
theorem C4_counterexample :
    run_datagrams (sample_init_local 7 16 1)
        [(sample_env 95 [], sample_dg_request sample_hostA 34)]
        = some (sample_local_pending 95 1)
      ∧ (request_purge (sample_env 100 []) (sample_local_pending 95 1)).map
          (fun s2 => claimed_request_reply (sample_env 100 []) s2 sample_hostA)
          = some (RequestReply.decline "Maximum pending servers")
      ∧ (gdm_xdmcp_handle_request (sample_env 100 []) (sample_local_pending 95 1) sample_hostA
          34 (some sample_request)).map (fun r => r.2.map (fun pk => pk.header.opcode))
          = some [ACCEPT] := by
  decide

/-- C4, amended: for a REQUEST from an allowed host that parses, passes the length check
and offers MIT-MAGIC-COOKIE-1, in a state whose first display is not a stale pending one
(the purge then leaves the first cell of the list in place), with `s2` the state after the
purge of stale pending sessions (and the recount it may trigger): DECLINE "Maximum number
of open sessions reached" if `num_sessions >= max_displays` in `s2`; else DECLINE "Maximum
number of open sessions from your host reached" if the peer is not local and its per-host
count in `s2` is at least `max_displays_per_host`; else, when the first display is not an
XDMCP display of the peer's hostname and display number either, with `s3` the state after
the displays of that hostname and display number have been disposed, DECLINE "Maximum
pending servers" if `num_pending >= max_pending_displays` in `s3`; otherwise (the serial
source returning) one ACCEPT.  A DECLINE goes to the peer and its first field is the
reason; the ACCEPT goes to the peer. -/
theorem C4_request_decision_order (env : Env) (s : Daemon) (sa : sockaddr_storage)
    (len : Nat) (r : RequestFields) (ha : env.host_allow sa = true)
    (hlen : request_explen r = len) (hm : MIT_MAGIC_COOKIE_1 ∈ r.clnt_authorization)
    (hk : head_survives (stale_pending env.now s.priv.max_wait) s.displays = true) :
    (∀ reason : String, (decline_packet sa reason).dest = sa
        ∧ (decline_packet sa reason).header.opcode = DECLINE
        ∧ (decline_packet sa reason).fields
            = [WireField.ARRAY8 (ascii reason), WireField.ARRAY8 [], WireField.ARRAY8 []])
    ∧ (∀ (id : Nat) (cookie : List Nat),
        (accept_packet sa id [] [] MIT_MAGIC_COOKIE_1 cookie).dest = sa
        ∧ (accept_packet sa id [] [] MIT_MAGIC_COOKIE_1 cookie).header.opcode = ACCEPT)
    ∧ ∃ s2, request_purge env s = some s2
      ∧ s2.displays = s.displays.filter (fun d => !stale_pending env.now s.priv.max_wait d)
      ∧ (s2.priv.max_displays ≤ s2.priv.num_sessions →
          ∃ s1 rest, gdm_xdmcp_handle_request env s sa len (some r)
            = some (s1, decline_packet sa "Maximum number of open sessions reached" :: rest))
      ∧ (s2.priv.num_sessions < s2.priv.max_displays →
          gdm_address_is_local env.local_addrs sa = false →
          s2.priv.max_displays_per_host ≤ gdm_xdmcp_num_displays_from_host s2 sa →
          ∃ s1 rest, gdm_xdmcp_handle_request env s sa len (some r)
            = some (s1, decline_packet sa
                "Maximum number of open sessions from your host reached" :: rest))
      ∧ (s2.priv.num_sessions < s2.priv.max_displays →
          (gdm_address_is_local env.local_addrs sa = true
            ∨ gdm_xdmcp_num_displays_from_host s2 sa < s2.priv.max_displays_per_host) →
          (∀ h, env.gethostbyaddr sa = some h →
            head_survives (same_display h r.clnt_dspnum) s.displays = true) →
          ∃ s3, gdm_xdmcp_display_dispose_check s2 (env.gethostbyaddr sa) r.clnt_dspnum
              = some s3
            ∧ (s3.priv.max_pending_displays ≤ s3.priv.num_pending_sessions →
                ∃ s1 rest, gdm_xdmcp_handle_request env s sa len (some r)
                  = some (s1, decline_packet sa "Maximum pending servers" :: rest))
            ∧ (s3.priv.num_pending_sessions < s3.priv.max_pending_displays →
                (s3.priv.session_serial ≠ G_MAXINT32 ∨ ∃ x ∈ env.random, to_gint32 x ≠ 0) →
                ∃ (s1 : Daemon) (d : GdmDisplay),
                  gdm_xdmcp_handle_request env s sa len (some r)
                    = some (s1, [accept_packet sa d.sessionid [] [] MIT_MAGIC_COOKIE_1
                                  (pad_take 16 d.bcookie)]))) := by
  have hm' := (request_mitauth_iff _).mpr hm
  obtain ⟨s2, hp, hfil, _⟩ := request_purge_spec env s hk
  refine ⟨fun _ => ⟨rfl, rfl, rfl⟩, fun _ _ => ⟨rfl, rfl⟩, s2, hp, hfil, ?_, ?_, ?_⟩
  · intro hs
    rw [handle_request_max_sessions env s s2 sa len r ha hp hlen hm' hs]
    obtain ⟨rest, h1, _⟩ := send_decline_out env s2 sa "Maximum number of open sessions reached"
    exact ⟨_, rest, by rw [← h1]⟩
  · intro hs hl hc
    rw [handle_request_max_host env s s2 sa len r ha hp hlen hm' hs hl hc]
    obtain ⟨rest, h1, _⟩ := send_decline_out env s2 sa
      "Maximum number of open sessions from your host reached"
    exact ⟨_, rest, by rw [← h1]⟩
  · intro hs hh hk2
    obtain ⟨s3, hd, _⟩ := dispose_check_shrink s2 (env.gethostbyaddr sa) r.clnt_dspnum
      (dispose_check_defined s2 _ _
        (fun h he => by rw [request_purge_head_eq env s s2 _ hp]; exact hk2 h he))
    refine ⟨s3, hd, ?_, ?_⟩
    · intro hpend
      rw [handle_request_entered env s s2 s3 sa len r ha hp hlen hm' hs hh hd, if_pos hpend]
      obtain ⟨rest, h1, _⟩ := send_decline_out env s3 sa "Maximum pending servers"
      exact ⟨_, rest, by rw [← h1]⟩
    · intro hpend hser
      rw [handle_request_entered env s s2 s3 sa len r ha hp hlen hm' hs hh hd,
        if_neg (by omega)]
      obtain ⟨s1, d, hal, _⟩ := display_alloc_returns env s3 sa (env.gethostbyaddr sa)
        r.clnt_dspnum hser
      rw [hal]
      exact ⟨s1, d, rfl⟩

/-- C4, witness: the amended statement at the input of the counterexample; the first
display of the list is the local display ":0". -/
theorem C4_request_decision_order_witness :
    (sample_env 100 []).host_allow sample_hostA = true
      ∧ request_explen sample_request = 34
      ∧ MIT_MAGIC_COOKIE_1 ∈ sample_request.clnt_authorization
      ∧ head_survives (stale_pending 100 15) (sample_local_pending 95 1).displays = true
      ∧ ∃ s2, request_purge (sample_env 100 []) (sample_local_pending 95 1) = some s2
          ∧ s2.displays = [sample_local, sample_pending 7 95] :=
  ⟨rfl, by decide, by decide, by decide,
   (C4_request_decision_order (sample_env 100 []) (sample_local_pending 95 1) sample_hostA 34
      sample_request rfl (by decide) (by decide) (by decide)).2.2.imp
      (fun _ h => ⟨h.1, h.2.1.trans (by decide)⟩)⟩


/-- C5, counterexample: a REQUEST from an allowed host whose fields parse (they occupy 34
bytes) but whose header declares 35: at the freshly started manager the handler sends
nothing at all, no DECLINE "Failed checksum"; and where the pending display that follows
the local display ":0" is stale (accepted at 50, `max_wait` 15, now 100) the handler again
sends nothing while the purge that precedes parsing takes `num_pending` from 1 to 0. -/
theorem C5_counterexample :
    request_explen sample_request = 34
      ∧ gdm_xdmcp_handle_request (sample_env 100 []) (sample_init 7 16 4) sample_hostA 35
          (some sample_request) = some (sample_init 7 16 4, [])
      ∧ run_datagrams (sample_init_local 7 16 4)
          [(sample_env 50 [], sample_dg_request sample_hostA 34)]
          = some (sample_local_pending 50 4)
      ∧ (sample_local_pending 50 4).priv.num_pending_sessions = 1
      ∧ (gdm_xdmcp_handle_request (sample_env 100 []) (sample_local_pending 50 4) sample_hostA
          35 (some sample_request)).map
          (fun r => (r.2, r.1.priv.num_pending_sessions, r.1.displays))
          = some ([], 0, [sample_local]) := by
  decide

/-- C5, amended: for every REQUEST from an allowed host whose fields all parse but whose
declared length differs from the recomputed one, in a state whose first display is not a
stale pending one (the purge then leaves the first cell of the list in place), the manager
only logs the mismatch: it sends no packet and creates no display; the state it leaves is
the one reached by the purge of stale pending sessions that precedes parsing, so the
display list loses exactly the stale pending displays, and nothing of the list or of the
private struct (the pending counter included) changes when no display is stale and the
list is not shorter than `num_sessions`. -/
theorem C5_checksum_mismatch_dropped (env : Env) (s : Daemon) (sa : sockaddr_storage)
    (len : Nat) (r : RequestFields) (ha : env.host_allow sa = true)
    (hlen : request_explen r ≠ len)
    (hk : head_survives (stale_pending env.now s.priv.max_wait) s.displays = true) :
    ∃ s2, gdm_xdmcp_handle_request env s sa len (some r) = some (s2, [])
      ∧ request_purge env s = some s2
      ∧ s2.displays = s.displays.filter (fun d => !stale_pending env.now s.priv.max_wait d)
      ∧ ((∀ d ∈ s.displays, stale_pending env.now s.priv.max_wait d = false) →
          ¬ s.displays.length < s.priv.num_sessions →
          s2.displays = s.displays ∧ s2.priv = s.priv) := by
  obtain ⟨s1, e1, e2, e3, e4⟩ := purge_spec env s hk
  have hp : request_purge env s = some (if s1.displays.length < s1.priv.num_sessions then
      gdm_xdmcp_recount_sessions s1 else s1) := by
    unfold request_purge
    rw [e1]
  refine ⟨_, ?_, hp, ?_, ?_⟩
  · unfold gdm_xdmcp_handle_request
    rw [if_neg (by simp [ha]), hp]
    simp only []
    rw [if_pos hlen]
  · split
    · exact e2
    · exact e2
  · intro hns hlen2
    have hany : ¬ s.displays.any (stale_pending env.now s.priv.max_wait) = true := by
      simp only [List.any_eq_true, not_exists, not_and, Bool.not_eq_true]
      exact hns
    rw [if_neg hany] at e4
    have hd : s1.displays = s.displays := by
      rw [e2, List.filter_eq_self]
      intro d hd
      simp [hns d hd]
    rw [if_neg (by rw [hd, e4]; exact hlen2)]
    exact ⟨hd, e4⟩

/-- C5, witness: the amended statement at the input with the local display ":0" followed
by a stale pending display. -/
theorem C5_checksum_mismatch_dropped_witness :
    (sample_env 100 []).host_allow sample_hostA = true
      ∧ request_explen sample_request ≠ 35
      ∧ head_survives (stale_pending 100 15) (sample_local_pending 50 4).displays = true
      ∧ ∃ s2, gdm_xdmcp_handle_request (sample_env 100 []) (sample_local_pending 50 4)
          sample_hostA 35 (some sample_request) = some (s2, [])
          ∧ s2.displays = [sample_local] :=
  ⟨rfl, by decide, by decide,
   (C5_checksum_mismatch_dropped (sample_env 100 []) (sample_local_pending 50 4) sample_hostA 35
      sample_request rfl (by decide) (by decide)).imp
      (fun _ h => ⟨h.1, h.2.2.1.trans (by decide)⟩)⟩

/-- C6, counterexample: the display list holds the local display ":0" and, after it, one
fresh pending display of 10.0.0.2, display 1 (`num_pending = 1`, limit 4); a REQUEST from
10.0.0.2 for display 1 is accepted, exactly one ACCEPT is sent, and `num_pending` is 1
afterwards as before, not 2: the earlier display of the same host and display number was
disposed on the way. -/
theorem C6_counterexample :
    run_datagrams (sample_init_local 7 16 4)
        [(sample_env 95 [], sample_dg_request sample_hostA 34)]
        = some (sample_local_pending 95 4)
      ∧ (sample_local_pending 95 4).priv.num_pending_sessions = 1
      ∧ (gdm_xdmcp_handle_request (sample_env 100 []) (sample_local_pending 95 4) sample_hostA
          34 (some sample_request)).map
          (fun r => (r.2.map (fun pk => pk.header.opcode), r.1.priv.num_pending_sessions,
            r.1.displays.map (fun d => d.sessionid))) = some ([ACCEPT], 1, [0, 8]) := by
  decide

/-- C6, amended: for every REQUEST that is accepted (allowed host, well-formed,
MIT-MAGIC-COOKIE-1 offered, all capacity limits satisfied, the serial source returning),
in a state whose first display is neither a stale pending one nor an XDMCP display of the
peer's hostname and display number (the two scans then leave the first cell of the list
in place), with `s2` the state after the purge of stale pending sessions and `s3` the
state after the displays of the same hostname and display number have been disposed: the
handler sends exactly one packet; it goes to the peer, its opcode is ACCEPT and its first
field is the session id of the display that the handler appends to the list of `s3`;
that display is a pending XDMCP display of the peer accepted now, and `num_pending`
afterwards is exactly one more than `num_pending` in `s3`. -/
theorem C6_accept_adds_one_pending (env : Env) (s : Daemon) (sa : sockaddr_storage)
    (len : Nat) (r : RequestFields) (ha : env.host_allow sa = true)
    (hlen : request_explen r = len) (hm : MIT_MAGIC_COOKIE_1 ∈ r.clnt_authorization)
    (hk : head_survives (stale_pending env.now s.priv.max_wait) s.displays = true)
    (hk2 : ∀ h, env.gethostbyaddr sa = some h →
      head_survives (same_display h r.clnt_dspnum) s.displays = true) :
    ∃ s2, request_purge env s = some s2
      ∧ (s2.priv.num_sessions < s2.priv.max_displays →
          (gdm_address_is_local env.local_addrs sa = true
            ∨ gdm_xdmcp_num_displays_from_host s2 sa < s2.priv.max_displays_per_host) →
          ∃ s3, gdm_xdmcp_display_dispose_check s2 (env.gethostbyaddr sa) r.clnt_dspnum
              = some s3
            ∧ (s3.priv.num_pending_sessions < s3.priv.max_pending_displays →
                s3.priv.max_pending_displays < 4294967296 →
                (s3.priv.session_serial ≠ G_MAXINT32 ∨ ∃ x ∈ env.random, to_gint32 x ≠ 0) →
                ∃ (s1 : Daemon) (d : GdmDisplay) (pk : Sent),
                  gdm_xdmcp_handle_request env s sa len (some r) = some (s1, [pk])
                  ∧ pk.dest = sa ∧ pk.header.version = XDM_PROTOCOL_VERSION
                  ∧ pk.header.opcode = ACCEPT
                  ∧ pk.fields = [WireField.CARD32 d.sessionid, WireField.ARRAY8 [],
                      WireField.ARRAY8 [], WireField.ARRAY8 MIT_MAGIC_COOKIE_1,
                      WireField.ARRAY8 (pad_take 16 d.bcookie)]
                  ∧ s1.displays = s3.displays ++ [d]
                  ∧ d.dispstat = DispStat.XDMCP_PENDING ∧ SERVER_IS_XDMCP d = true
                  ∧ d.addr = sa ∧ d.xdmcp_dispnum = r.clnt_dspnum ∧ d.acctime = env.now
                  ∧ s1.priv.num_pending_sessions = s3.priv.num_pending_sessions + 1
                  ∧ s1.priv.num_sessions = s3.priv.num_sessions)) := by
  have hm' := (request_mitauth_iff _).mpr hm
  obtain ⟨s2, hp, _⟩ := request_purge_spec env s hk
  refine ⟨s2, hp, ?_⟩
  intro hs hh
  obtain ⟨s3, hd, _⟩ := dispose_check_shrink s2 (env.gethostbyaddr sa) r.clnt_dspnum
    (dispose_check_defined s2 _ _
      (fun h he => by rw [request_purge_head_eq env s s2 _ hp]; exact hk2 h he))
  refine ⟨s3, hd, ?_⟩
  intro hpend hcfg hser
  rw [handle_request_entered env s s2 s3 sa len r ha hp hlen hm' hs hh hd, if_neg (by omega)]
  obtain ⟨s1, d, hal, a1, a2, a3, a4, a5, a6, a7, _, a9⟩ :=
    display_alloc_returns env s3 sa (env.gethostbyaddr sa) r.clnt_dspnum hser
  rw [hal]
  refine ⟨s1, d, _, rfl, rfl, rfl, rfl, rfl, a1, a4, a5, a6, a7, a9, ?_, a3⟩
  rw [a2]
  unfold guint_inc
  exact Nat.mod_eq_of_lt (by omega)

/-- C6, witness: the amended statement at the input of the counterexample; the first
display of the list is the local display ":0", which neither scan removes. -/
theorem C6_accept_adds_one_pending_witness :
    (sample_env 100 []).host_allow sample_hostA = true
      ∧ request_explen sample_request = 34
      ∧ MIT_MAGIC_COOKIE_1 ∈ sample_request.clnt_authorization
      ∧ head_survives (stale_pending 100 15) (sample_local_pending 95 4).displays = true
      ∧ (sample_env 100 []).gethostbyaddr sample_hostA = some "a.example"
      ∧ head_survives (same_display "a.example" 1) (sample_local_pending 95 4).displays = true
      ∧ ∃ s2, request_purge (sample_env 100 []) (sample_local_pending 95 4) = some s2 :=
  ⟨rfl, by decide, by decide, by decide, by decide, by decide,
   (C6_accept_adds_one_pending (sample_env 100 []) (sample_local_pending 95 4) sample_hostA 34
      sample_request rfl (by decide) (by decide) (by decide)
      (fun h he => by
        have e : h = "a.example" := by
          have : (sample_env 100 []).gethostbyaddr sample_hostA = some "a.example" := by decide
          rw [this] at he
          exact (Option.some.inj he).symm
        rw [e]
        decide)).imp (fun _ h => h.1)⟩

theorem decline_packet_reason_inj (sa : sockaddr_storage) (a b : String)
    (h : decline_packet sa a = decline_packet sa b) : ascii a = ascii b := by
  unfold decline_packet at h
  simp only [Sent.mk.injEq, List.cons.injEq, WireField.ARRAY8.injEq] at h
  exact h.2.2.1

theorem handle_request_freed (env : Env) (s : Daemon) (sa : sockaddr_storage) (len : Nat)
    (rd : Option RequestFields) (ha : env.host_allow sa = true)
    (hk : head_survives (stale_pending env.now s.priv.max_wait) s.displays = false) :
    gdm_xdmcp_handle_request env s sa len rd = none := by
  unfold gdm_xdmcp_handle_request
  rw [if_neg (by simp [ha]), request_purge_freed env s hk]

/-- C7: for a well-formed REQUEST from an allowed host.  The handler purges the stale
pending displays before it looks at the authorization names.  When the first display of
the list is a stale pending one, the purge removes the first cell of the list and goes on
from freed memory: the handler has no result, whatever the authorization names are, and
no DECLINE is sent.  In every other state the manager answers DECLINE "Only
MIT-MAGIC-COOKIE-1 supported" if and only if no entry of the authorization names is the 18
bytes "MIT-MAGIC-COOKIE-1" (the test `length == 18 && strncmp (..) == 0` holds of exactly
that byte string); neither the counters nor the limits enter the decision, and the DECLINE
is the first packet the handler sends. -/
theorem C7_only_mit_magic_cookie (env : Env) (s : Daemon) (sa : sockaddr_storage)
    (len : Nat) (r : RequestFields) (ha : env.host_allow sa = true)
    (hlen : request_explen r = len) :
    (head_survives (stale_pending env.now s.priv.max_wait) s.displays = false →
        gdm_xdmcp_handle_request env s sa len (some r) = none)
      ∧ ((∃ s1 out, gdm_xdmcp_handle_request env s sa len (some r) = some (s1, out)
            ∧ decline_packet sa "Only MIT-MAGIC-COOKIE-1 supported" ∈ out)
          ↔ (MIT_MAGIC_COOKIE_1 ∉ r.clnt_authorization
              ∧ head_survives (stale_pending env.now s.priv.max_wait) s.displays = true))
      ∧ (head_survives (stale_pending env.now s.priv.max_wait) s.displays = true →
          MIT_MAGIC_COOKIE_1 ∉ r.clnt_authorization →
          ∃ s1 rest, gdm_xdmcp_handle_request env s sa len (some r)
            = some (s1, decline_packet sa "Only MIT-MAGIC-COOKIE-1 supported" :: rest))
      ∧ (∀ a : List Nat, (a.length == 18 && strncmp a MIT_MAGIC_COOKIE_1 18 == 0) = true
          ↔ a = MIT_MAGIC_COOKIE_1) := by
  have hback : head_survives (stale_pending env.now s.priv.max_wait) s.displays = true →
      MIT_MAGIC_COOKIE_1 ∉ r.clnt_authorization →
      ∃ s1 rest, gdm_xdmcp_handle_request env s sa len (some r)
        = some (s1, decline_packet sa "Only MIT-MAGIC-COOKIE-1 supported" :: rest) := by
    intro hk hm
    obtain ⟨s2, hp, _⟩ := request_purge_spec env s hk
    have hm' : request_mitauth r.clnt_authorization = false := by
      rw [← Bool.not_eq_true, request_mitauth_iff]; exact hm
    rw [handle_request_no_mitauth env s s2 sa len r ha hp hlen hm']
    obtain ⟨rest, h1, _⟩ := send_decline_out env s2 sa "Only MIT-MAGIC-COOKIE-1 supported"
    exact ⟨_, rest, by rw [← h1]⟩
  have hnot : ∀ (s3 : Daemon) (reason : String),
      ascii reason ≠ ascii "Only MIT-MAGIC-COOKIE-1 supported" →
      decline_packet sa "Only MIT-MAGIC-COOKIE-1 supported"
        ∉ (gdm_xdmcp_send_decline env s3 sa reason).2 := by
    intro s3 reason hne hmem
    obtain ⟨rest, h1, h2⟩ := send_decline_out env s3 sa reason
    rw [h1, List.mem_cons] at hmem
    rcases hmem with hmem | hmem
    · exact hne (decline_packet_reason_inj sa _ _ hmem).symm
    · have h3 := h2 _ hmem
      have h9 : (decline_packet sa "Only MIT-MAGIC-COOKIE-1 supported").header.opcode = 9 :=
        rfl
      rw [h9] at h3
      exact absurd h3 (by decide)
  refine ⟨handle_request_freed env s sa len _ ha, ⟨?_, ?_⟩, hback, ?_⟩
  · rintro ⟨s1, out, h, hmem⟩
    have hk : head_survives (stale_pending env.now s.priv.max_wait) s.displays = true := by
      cases hh : head_survives (stale_pending env.now s.priv.max_wait) s.displays with
      | true => rfl
      | false =>
        rw [handle_request_freed env s sa len _ ha hh] at h
        cases h
    refine ⟨?_, hk⟩
    intro hm
    obtain ⟨s2, hp, hfil, _⟩ := request_purge_spec env s hk
    have hm' := (request_mitauth_iff _).mpr hm
    by_cases hs : s2.priv.max_displays ≤ s2.priv.num_sessions
    · rw [handle_request_max_sessions env s s2 sa len r ha hp hlen hm' hs] at h
      cases h
      exact hnot s2 _ (by decide) hmem
    · by_cases hh : gdm_address_is_local env.local_addrs sa = true
          ∨ gdm_xdmcp_num_displays_from_host s2 sa < s2.priv.max_displays_per_host
      · cases hd : gdm_xdmcp_display_dispose_check s2 (env.gethostbyaddr sa) r.clnt_dspnum with
        | none =>
          unfold gdm_xdmcp_handle_request at h
          rw [if_neg (by simp [ha]), hp] at h
          simp only [] at h
          rw [if_neg (by simp [hlen]), if_pos ⟨hm', by omega, hh⟩, hd] at h
          cases h
        | some s3 =>
          rw [handle_request_entered env s s2 s3 sa len r ha hp hlen hm' (by omega) hh hd] at h
          split at h
          · cases h
            exact hnot s3 _ (by decide) hmem
          · cases hal : gdm_xdmcp_display_alloc env s3 sa (env.gethostbyaddr sa)
                r.clnt_dspnum with
            | none => rw [hal] at h; simp at h
            | some r4 =>
              obtain ⟨s4, d⟩ := r4
              rw [hal] at h
              simp only [Option.some.injEq, Prod.mk.injEq] at h
              obtain ⟨_, hout⟩ := h
              rw [← hout, List.mem_singleton] at hmem
              have h3 : (decline_packet sa "Only MIT-MAGIC-COOKIE-1 supported").header.opcode
                  = (accept_packet sa d.sessionid [] [] MIT_MAGIC_COOKIE_1
                      (pad_take 16 d.bcookie)).header.opcode := by rw [hmem]
              have h9 : (decline_packet sa "Only MIT-MAGIC-COOKIE-1 supported").header.opcode
                  = 9 := rfl
              have h8 : (accept_packet sa d.sessionid [] [] MIT_MAGIC_COOKIE_1
                  (pad_take 16 d.bcookie)).header.opcode = 8 := rfl
              rw [h9, h8] at h3
              exact absurd h3 (by decide)
      · have hl : gdm_address_is_local env.local_addrs sa = false := by
          cases hx : gdm_address_is_local env.local_addrs sa with
          | true => exact absurd (Or.inl hx) hh
          | false => rfl
        rw [handle_request_max_host env s s2 sa len r ha hp hlen hm' (by omega) hl
          (by have := fun h => hh (Or.inr h); omega)] at h
        cases h
        exact hnot s2 _ (by decide) hmem
  · rintro ⟨hm, hk⟩
    obtain ⟨s1, rest, h⟩ := hback hk hm
    exact ⟨s1, _, h, List.mem_cons_self _ _⟩
  · intro a
    simp only [Bool.and_eq_true, beq_iff_eq]
    constructor
    · rintro ⟨h1, h2⟩
      exact (strncmp_eq_zero_iff 18 a MIT_MAGIC_COOKIE_1 MIT_MAGIC_COOKIE_1_bytes.2
        (by rw [h1, MIT_MAGIC_COOKIE_1_bytes.1]) (by rw [MIT_MAGIC_COOKIE_1_bytes.1])).mp h2
    · intro h
      rw [h]
      decide

/-- C7, witness.  The failing input: the manager started with an empty display list and
accepted the REQUEST of 10.0.0.2 at time 50, so the pending display 7 is the first of the
list; at time 100 (`max_wait` is 15) a REQUEST that offers only "MIT-MAGIC-COOKIE-1x" (19
bytes) and "mit-magic-cookie-1" has no result, and no DECLINE.  At the freshly started
manager the same REQUEST is answered with that DECLINE. -/
theorem C7_only_mit_magic_cookie_witness :
    (sample_env 100 []).host_allow sample_hostA = true
      ∧ request_explen { sample_request with
          clnt_authorization := [ascii "MIT-MAGIC-COOKIE-1x", ascii "mit-magic-cookie-1"] } = 55
      ∧ run_datagrams (sample_init 7 16 4)
          [(sample_env 50 [], sample_dg_request sample_hostA 34)]
          = some (sample_one_pending 50 4)
      ∧ gdm_xdmcp_handle_request (sample_env 100 []) (sample_one_pending 50 4)
          sample_hostA 55
          (some { sample_request with
            clnt_authorization := [ascii "MIT-MAGIC-COOKIE-1x", ascii "mit-magic-cookie-1"] })
          = none
      ∧ ∃ s1 rest, gdm_xdmcp_handle_request (sample_env 100 []) (sample_init 7 16 4)
          sample_hostA 55
          (some { sample_request with
            clnt_authorization := [ascii "MIT-MAGIC-COOKIE-1x", ascii "mit-magic-cookie-1"] })
          = some (s1, decline_packet sample_hostA "Only MIT-MAGIC-COOKIE-1 supported" :: rest) :=
  ⟨rfl, by decide, by decide,
   (C7_only_mit_magic_cookie (sample_env 100 []) (sample_one_pending 50 4) sample_hostA 55
      { sample_request with
        clnt_authorization := [ascii "MIT-MAGIC-COOKIE-1x", ascii "mit-magic-cookie-1"] }
      rfl (by decide)).1 (by decide),
   (C7_only_mit_magic_cookie (sample_env 100 []) (sample_init 7 16 4) sample_hostA 55
      { sample_request with
        clnt_authorization := [ascii "MIT-MAGIC-COOKIE-1x", ascii "mit-magic-cookie-1"] }
      rfl (by decide)).2.2.1 (by decide) (by decide)⟩

/-! ## Lookups: what the first-hit scans return -/

theorem find_first_some {α : Type} (p : α → Bool) : ∀ (l : List α) (i : Nat),
    find_first p l = some i →
      ∃ d, l[i]? = some d ∧ p d = true ∧ l.find? p = some d := by
  intro l
  induction l with
  | nil => intro i h; simp [find_first] at h
  | cons a l ih =>
    intro i h
    unfold find_first at h
    by_cases hp : p a = true
    · rw [if_pos hp] at h
      cases h
      exact ⟨a, by simp, hp, by simp [List.find?, hp]⟩
    · rw [if_neg hp] at h
      cases hf : find_first p l with
      | none => rw [hf] at h; simp at h
      | some j =>
        rw [hf] at h
        simp only [Option.map_some', Option.some.injEq] at h
        subst h
        obtain ⟨d, h1, h2, h3⟩ := ih j hf
        refine ⟨d, by simpa using h1, h2, ?_⟩
        have hp' : p a = false := by simpa using hp
        simp [List.find?, hp', h3]

theorem find_first_none {α : Type} (p : α → Bool) : ∀ (l : List α),
    find_first p l = none → (∀ d ∈ l, p d = false) ∧ l.find? p = none := by
  intro l
  induction l with
  | nil => intro _; simp
  | cons a l ih =>
    intro h
    unfold find_first at h
    by_cases hp : p a = true
    · rw [if_pos hp] at h; simp at h
    · rw [if_neg hp] at h
      have hp' : p a = false := by simpa using hp
      cases hf : find_first p l with
      | some j => rw [hf] at h; simp at h
      | none =>
        obtain ⟨h1, h2⟩ := ih hf
        refine ⟨?_, ?_⟩
        · intro d hd
          simp only [List.mem_cons] at hd
          rcases hd with rfl | hd
          · exact hp'
          · exact h1 d hd
        · simp [List.find?, hp', h2]

theorem gdm_forward_query_lookup_scan_spec (t : Nat) (sa : sockaddr_storage) :
    ∀ (rest kept l : List GdmForwardQuery) (r : Option Nat),
      gdm_forward_query_lookup_scan t sa kept rest = (l, r) →
        (∀ i, r = some i →
          ∃ q, l[i]? = some q ∧ q ∈ rest ∧ gdm_address_equal q.dsp_sa sa = true)
        ∧ (r = none → ∀ q ∈ rest, gdm_address_equal q.dsp_sa sa = false) := by
  intro rest
  induction rest with
  | nil =>
    intro kept l r h
    simp only [gdm_forward_query_lookup_scan, Prod.mk.injEq] at h
    obtain ⟨_, h2⟩ := h
    subst h2
    simp
  | cons q rest ih =>
    intro kept l r h
    unfold gdm_forward_query_lookup_scan at h
    by_cases he : gdm_address_equal q.dsp_sa sa = true
    · rw [if_pos he] at h
      simp only [Prod.mk.injEq] at h
      obtain ⟨h1, h2⟩ := h
      subst h1; subst h2
      refine ⟨?_, by simp⟩
      intro i hi
      simp only [Option.some.injEq] at hi
      subst hi
      refine ⟨q, ?_, List.mem_cons_self _ _, he⟩
      rw [List.getElem?_append_right (by simp)]
      simp
    · rw [if_neg he] at h
      have he' : gdm_address_equal q.dsp_sa sa = false := by simpa using he
      have key : ∀ kept', gdm_forward_query_lookup_scan t sa kept' rest = (l, r) →
          (∀ i, r = some i →
            ∃ q0, l[i]? = some q0 ∧ q0 ∈ q :: rest ∧ gdm_address_equal q0.dsp_sa sa = true)
          ∧ (r = none → ∀ q0 ∈ q :: rest, gdm_address_equal q0.dsp_sa sa = false) := by
        intro kept' h'
        obtain ⟨a, b⟩ := ih kept' l r h'
        refine ⟨?_, ?_⟩
        · intro i hi
          obtain ⟨q0, c1, c2, c3⟩ := a i hi
          exact ⟨q0, c1, List.mem_cons_of_mem _ c2, c3⟩
        · intro hn q0 hq0
          simp only [List.mem_cons] at hq0
          rcases hq0 with rfl | hq0
          · exact he'
          · exact b hn q0 hq0
      by_cases hs : q.acctime > 0 ∧ t > q.acctime + GDM_FORWARD_QUERY_TIMEOUT
      · rw [if_pos hs] at h
        exact key _ h
      · rw [if_neg hs] at h
        exact key _ h

theorem resolve_forward_query_sent (env : Env) (p : GdmXdmcpManagerPrivate)
    (sa : sockaddr_storage) :
    ((∀ q ∈ p.forward_queries, gdm_address_equal q.dsp_sa sa = false)
        ∧ (resolve_forward_query env p sa).2 = [])
      ∨ ∃ q ∈ p.forward_queries, gdm_address_equal q.dsp_sa sa = true
          ∧ (resolve_forward_query env p sa).2 = [managed_forward_packet q.from_sa sa] := by
  unfold resolve_forward_query gdm_forward_query_lookup
  rcases hs : gdm_forward_query_lookup_scan env.now sa [] p.forward_queries with ⟨l, r⟩
  obtain ⟨h1, h2⟩ := gdm_forward_query_lookup_scan_spec env.now sa _ _ _ _ hs
  cases r with
  | none => exact Or.inl ⟨h2 rfl, rfl⟩
  | some i =>
    obtain ⟨q, c1, c2, c3⟩ := h1 i rfl
    refine Or.inr ⟨q, c2, c3, ?_⟩
    simp only [c1]
    rfl

theorem resolve_forward_query_counters (env : Env) (p : GdmXdmcpManagerPrivate)
    (sa : sockaddr_storage) :
    (resolve_forward_query env p sa).1.num_sessions = p.num_sessions
      ∧ (resolve_forward_query env p sa).1.num_pending_sessions = p.num_pending_sessions := by
  obtain ⟨fq, mf, h⟩ := resolve_forward_query_frame env p sa
  rw [h]
  exact ⟨rfl, rfl⟩

/-! ## MANAGE -/

theorem display_lookup_some (s : Daemon) (sessid i : Nat)
    (h : gdm_xdmcp_display_lookup s sessid = some i) :
    sessid ≠ 0 ∧ ∃ d, s.displays[i]? = some d ∧ d.sessionid = sessid
      ∧ s.displays.find? (fun d => d.sessionid == sessid) = some d := by
  unfold gdm_xdmcp_display_lookup at h
  by_cases h0 : sessid = 0
  · rw [if_pos h0] at h; simp at h
  · rw [if_neg h0] at h
    obtain ⟨d, h1, h2, h3⟩ := find_first_some _ _ _ h
    exact ⟨h0, d, h1, by simpa using h2, h3⟩

theorem display_lookup_none (s : Daemon) (sessid : Nat)
    (h : sessid = 0 ∨ ∀ d ∈ s.displays, d.sessionid ≠ sessid) :
    gdm_xdmcp_display_lookup s sessid = none := by
  unfold gdm_xdmcp_display_lookup
  by_cases h0 : sessid = 0
  · rw [if_pos h0]
  · rw [if_neg h0]
    rcases h with h | h
    · exact absurd h h0
    · cases hf : find_first (fun d => d.sessionid == sessid) s.displays with
      | none => rfl
      | some i =>
        obtain ⟨d, h1, h2, _⟩ := find_first_some _ _ _ hf
        exact absurd (by simpa using h2) (h d (mem_of_getElem? _ _ _ h1))

theorem handle_manage_pending (env : Env) (s : Daemon) (sa : sockaddr_storage)
    (r : ManageFields) (i : Nat) (d : GdmDisplay) (ha : env.host_allow sa = true)
    (hl : gdm_xdmcp_display_lookup s r.clnt_sessid = some i) (hd : s.displays[i]? = some d)
    (hp : d.dispstat = DispStat.XDMCP_PENDING) :
    gdm_xdmcp_handle_manage env s sa (some r)
      = some ({ s with
                  priv := { (resolve_forward_query env s.priv sa).1 with
                    num_sessions := guint_inc (resolve_forward_query env s.priv sa).1.num_sessions,
                    num_pending_sessions :=
                      guint_dec (resolve_forward_query env s.priv sa).1.num_pending_sessions },
                  choose := (manage_indirect env s sa).1,
                  displays := s.displays.set i
                    (gdm_display_manage env
                      { d with use_chooser := (manage_indirect env s sa).2.1,
                               indirect_id := (manage_indirect env s sa).2.2,
                               dispstat := DispStat.XDMCP_MANAGED }).1 },
              if (gdm_display_manage env
                      { d with use_chooser := (manage_indirect env s sa).2.1,
                               indirect_id := (manage_indirect env s sa).2.2,
                               dispstat := DispStat.XDMCP_MANAGED }).2 = true
              then (resolve_forward_query env s.priv sa).2
              else (resolve_forward_query env s.priv sa).2 ++ [failed_packet sa r.clnt_sessid]) := by
  unfold gdm_xdmcp_handle_manage
  have ha' : ¬ env.host_allow sa = false := by simp [ha]
  rw [if_neg ha']
  simp only [hl, hd, if_pos hp]


theorem trace_forwarded_self_local : ∀ e ∈ trace_forwarded_self, e.1.local_addrs = [] := by
  intro e he
  simp only [trace_forwarded_self, List.mem_cons, List.mem_singleton, List.not_mem_nil,
    or_false] at he
  rcases he with rfl | rfl <;> rfl

theorem state_forwarded_self_reachable : Reachable [] state_forwarded_self :=
  reachable_of_run 7 16 4 trace_forwarded_self state_forwarded_self (by decide) (by decide)
    (by norm_num) (by norm_num) trace_forwarded_self_local (by decide)

/-- C11, the counterexample: the host 10.0.0.2 sent a FORWARD_QUERY naming itself as the
display and then a REQUEST, so the reachable state holds its pending display 7 and a
forward query that records 10.0.0.2 as the forwarding manager.  The MANAGE for session 7
from this allowed host, with `fork` succeeding, emits a MANAGED_FORWARD whose destination
is the sender of the MANAGE. -/
theorem C11_counterexample :
    Reachable [] state_forwarded_self
      ∧ (sample_env 102 []).host_allow sample_hostA = true
      ∧ (sample_env 102 []).fork_ok = true
      ∧ state_forwarded_self.displays = [sample_pending 7 101]
      ∧ (gdm_xdmcp_handle_manage (sample_env 102 []) state_forwarded_self sample_hostA
            (some { clnt_sessid := 7, clnt_dspnum := 1, clnt_dspclass := ascii "MIT-Sun" })).map
          Prod.snd = some [managed_forward_packet sample_hostA sample_hostA]
      ∧ (managed_forward_packet sample_hostA sample_hostA).dest = sample_hostA :=
  ⟨state_forwarded_self_reachable, rfl, rfl, by decide, by decide, rfl⟩

/-- C11 (amended): in a state reachable by datagrams whose counter `num_sessions` is below
the largest `guint`, a MANAGE from an allowed host whose session id is found on a display
in status PENDING, with `fork` succeeding, returns; the display list differs only at that
display, which keeps its other fields and is now XDMCP_MANAGED with `use_chooser` cleared;
`num_sessions` grows by exactly 1 and `num_pending_sessions` shrinks by exactly 1; and the
packets sent are: none when no forward query is recorded for the sender's address,
otherwise exactly one MANAGED_FORWARD addressed to the manager recorded in such a forward
query. -/
theorem C11_manage_pending_becomes_managed (L : List sockaddr_storage) (s : Daemon)
    (hr : Reachable L s) (env : Env) (sa : sockaddr_storage) (r : ManageFields) (i : Nat)
    (d : GdmDisplay) (ha : env.host_allow sa = true)
    (hl : gdm_xdmcp_display_lookup s r.clnt_sessid = some i) (hd : s.displays[i]? = some d)
    (hp : d.dispstat = DispStat.XDMCP_PENDING) (hf : env.fork_ok = true)
    (hn : s.priv.num_sessions < 4294967295) :
    ∃ (s1 : Daemon) (out : List Sent) (indirect_id : Nat),
      gdm_xdmcp_handle_manage env s sa (some r) = some (s1, out)
      ∧ s1.displays = s.displays.set i
          { d with dispstat := DispStat.XDMCP_MANAGED, use_chooser := false,
                   indirect_id := indirect_id }
      ∧ d.sessionid = r.clnt_sessid
      ∧ (∀ j, j ≠ i → s1.displays[j]? = s.displays[j]?)
      ∧ s1.priv.num_sessions = s.priv.num_sessions + 1
      ∧ s1.priv.num_pending_sessions + 1 = s.priv.num_pending_sessions
      ∧ (((∀ q ∈ s.priv.forward_queries, gdm_address_equal q.dsp_sa sa = false) ∧ out = [])
          ∨ ∃ q ∈ s.priv.forward_queries, gdm_address_equal q.dsp_sa sa = true
              ∧ out = [managed_forward_packet q.from_sa sa]) := by
  have hinv := reachable_inv L s hr
  have hmem : d ∈ s.displays := mem_of_getElem? _ _ _ hd
  have hx : SERVER_IS_XDMCP d = true := hinv.typed d hmem hp
  obtain ⟨_, d0, hd0, hid, _⟩ := display_lookup_some s r.clnt_sessid i hl
  rw [hd] at hd0
  cases hd0
  have hpos : 0 < s.priv.num_pending_sessions := by
    rw [hinv.pending_eq]
    unfold count_pending
    exact List.countP_pos_iff.mpr ⟨d, hmem, by simp [hx, hp]⟩
  have hlt : s.priv.num_pending_sessions < 4294967296 :=
    Nat.lt_of_le_of_lt hinv.pending_le hinv.cfg_p
  obtain ⟨c1, c2⟩ := resolve_forward_query_counters env s.priv sa
  have hm : gdm_display_manage env
      { d with use_chooser := (manage_indirect env s sa).2.1,
               indirect_id := (manage_indirect env s sa).2.2,
               dispstat := DispStat.XDMCP_MANAGED }
      = ({ d with dispstat := DispStat.XDMCP_MANAGED, use_chooser := false,
                  indirect_id := (manage_indirect env s sa).2.2 }, true) := by
    unfold gdm_display_manage
    rw [if_pos hf]
    have hx' : SERVER_IS_XDMCP
        { d with use_chooser := (manage_indirect env s sa).2.1,
                 indirect_id := (manage_indirect env s sa).2.2,
                 dispstat := DispStat.XDMCP_MANAGED } = true := hx
    rw [if_pos hx']
  refine ⟨_, _, (manage_indirect env s sa).2.2,
    handle_manage_pending env s sa r i d ha hl hd hp, ?_, hid, ?_, ?_, ?_, ?_⟩
  · simp only [hm]
  · intro j hj
    simp only [hm]
    rw [List.getElem?_set_ne (Ne.symm hj)]
  · show guint_inc (resolve_forward_query env s.priv sa).1.num_sessions = _
    rw [c1]
    unfold guint_inc
    exact Nat.mod_eq_of_lt (by omega)
  · show guint_dec (resolve_forward_query env s.priv sa).1.num_pending_sessions + 1 = _
    rw [c2]
    unfold guint_dec
    omega
  · simp only [hm, if_true]
    exact resolve_forward_query_sent env s.priv sa

/-- C11, witness: the amended statement at the input of the counterexample. -/
theorem C11_manage_pending_becomes_managed_witness :
    Reachable [] state_forwarded_self
      ∧ gdm_xdmcp_display_lookup state_forwarded_self 7 = some 0
      ∧ state_forwarded_self.displays[0]? = some (sample_pending 7 101)
      ∧ state_forwarded_self.priv.num_sessions < 4294967295
      ∧ ∃ s1 out, gdm_xdmcp_handle_manage (sample_env 102 []) state_forwarded_self sample_hostA
            (some { clnt_sessid := 7, clnt_dspnum := 1, clnt_dspclass := ascii "MIT-Sun" })
          = some (s1, out)
        ∧ s1.priv.num_sessions = state_forwarded_self.priv.num_sessions + 1 :=
  ⟨state_forwarded_self_reachable, by decide, by decide, by decide,
   match C11_manage_pending_becomes_managed [] state_forwarded_self
      state_forwarded_self_reachable (sample_env 102 []) sample_hostA
      { clnt_sessid := 7, clnt_dspnum := 1, clnt_dspclass := ascii "MIT-Sun" } 0
      (sample_pending 7 101) rfl (by decide) (by decide) rfl rfl (by decide) with
   | ⟨s1, out, _, h1, _, _, _, h5, _⟩ => ⟨s1, out, h1, h5⟩⟩

/-- C12: a MANAGE whose session id is found (by `gdm_xdmcp_display_lookup`) on a display
that is already XDMCP_MANAGED sends nothing and returns the state it was given: display
list, every display, both counters, the indirect table, the forward queries and the queue
of managed forwards are all as before. -/
theorem C12_manage_idempotent (env : Env) (s : Daemon) (sa : sockaddr_storage)
    (r : ManageFields) (i : Nat) (d : GdmDisplay)
    (hl : gdm_xdmcp_display_lookup s r.clnt_sessid = some i) (hd : s.displays[i]? = some d)
    (hm : d.dispstat = DispStat.XDMCP_MANAGED) :
    gdm_xdmcp_handle_manage env s sa (some r) = some (s, []) := by
  unfold gdm_xdmcp_handle_manage
  by_cases ha : env.host_allow sa = false
  · rw [if_pos ha]
  · rw [if_neg ha]
    have hnp : ¬ d.dispstat = DispStat.XDMCP_PENDING := by rw [hm]; decide
    simp only [hl, hd, if_neg hnp, if_pos hm]

/-- C12, witness: in the state reached after two hosts were given the sessions 7 and 8
and both sent MANAGE, a second MANAGE for session 8 changes nothing and sends nothing. -/
theorem C12_manage_idempotent_witness :
    gdm_xdmcp_display_lookup state_two_managed 8 = some 1
      ∧ (∃ d, state_two_managed.displays[1]? = some d ∧ d.dispstat = DispStat.XDMCP_MANAGED)
      ∧ gdm_xdmcp_handle_manage (sample_env 104 []) state_two_managed sample_hostB
            (some { clnt_sessid := 8, clnt_dspnum := 1, clnt_dspclass := ascii "MIT-Sun" })
          = some (state_two_managed, []) :=
  ⟨by decide, ⟨(state_two_managed.displays[1]?).getD (sample_pending 0 0), by decide, by decide⟩,
   C12_manage_idempotent (sample_env 104 []) state_two_managed sample_hostB
     { clnt_sessid := 8, clnt_dspnum := 1, clnt_dspclass := ascii "MIT-Sun" } 1
     ((state_two_managed.displays[1]?).getD (sample_pending 0 0)) (by decide) (by decide)
     (by decide)⟩

/-- C13: a MANAGE from an allowed host whose session id is 0 or is the session id of no
display of the list returns; it sends exactly one REFUSE, to the sender, carrying that
session id (any other packet sent is a MANAGED_FORWARD), and the display list and both
counters are as before. -/
theorem C13_manage_unknown_session_refused (env : Env) (s : Daemon) (sa : sockaddr_storage)
    (r : ManageFields) (ha : env.host_allow sa = true)
    (hno : r.clnt_sessid = 0 ∨ ∀ d ∈ s.displays, d.sessionid ≠ r.clnt_sessid) :
    ∃ (s1 : Daemon) (rest : List Sent),
      gdm_xdmcp_handle_manage env s sa (some r) = some (s1, refuse_packet sa r.clnt_sessid :: rest)
      ∧ (refuse_packet sa r.clnt_sessid).dest = sa
      ∧ (refuse_packet sa r.clnt_sessid).header.opcode = REFUSE
      ∧ (refuse_packet sa r.clnt_sessid).fields = [WireField.CARD32 r.clnt_sessid]
      ∧ (∀ pk ∈ rest, pk.header.opcode = GDM_XDMCP_MANAGED_FORWARD)
      ∧ (refuse_packet sa r.clnt_sessid :: rest).countP (fun pk => pk.header.opcode == REFUSE) = 1
      ∧ s1.displays = s.displays
      ∧ s1.priv.num_sessions = s.priv.num_sessions
      ∧ s1.priv.num_pending_sessions = s.priv.num_pending_sessions := by
  have hl := display_lookup_none s r.clnt_sessid hno
  have ha' : ¬ env.host_allow sa = false := by simp [ha]
  have he : gdm_xdmcp_handle_manage env s sa (some r)
      = some (gdm_xdmcp_send_refuse env s sa r.clnt_sessid) := by
    unfold gdm_xdmcp_handle_manage
    rw [if_neg ha']
    simp only [hl]
  have hout := resolve_forward_query_out env s.priv sa
  obtain ⟨c1, c2⟩ := resolve_forward_query_counters env s.priv sa
  refine ⟨(gdm_xdmcp_send_refuse env s sa r.clnt_sessid).1,
    (resolve_forward_query env s.priv sa).2, he, rfl, rfl, rfl, hout, ?_, rfl, c1, c2⟩
  rw [List.countP_cons_of_pos _ _ (by rfl), List.countP_eq_zero.mpr]
  intro pk hpk
  rw [hout pk hpk]
  decide

/-- C13, witness: a fresh manager answers MANAGE for session 99, and MANAGE for session 0,
with one REFUSE carrying 99, respectively 0. -/
theorem C13_manage_unknown_session_refused_witness :
    (sample_env 100 []).host_allow sample_hostA = true
      ∧ (∀ d ∈ (sample_init 7 16 4).displays, d.sessionid ≠ 99)
      ∧ (∃ s1 rest, gdm_xdmcp_handle_manage (sample_env 100 []) (sample_init 7 16 4) sample_hostA
            (some { clnt_sessid := 99, clnt_dspnum := 1, clnt_dspclass := [] })
          = some (s1, refuse_packet sample_hostA 99 :: rest))
      ∧ ∃ s1 rest, gdm_xdmcp_handle_manage (sample_env 100 []) (sample_one_pending 100 4)
            sample_hostA (some { clnt_sessid := 0, clnt_dspnum := 1, clnt_dspclass := [] })
          = some (s1, refuse_packet sample_hostA 0 :: rest) :=
  ⟨rfl, by decide,
   match C13_manage_unknown_session_refused (sample_env 100 []) (sample_init 7 16 4)
      sample_hostA { clnt_sessid := 99, clnt_dspnum := 1, clnt_dspclass := [] } rfl
      (Or.inr (by decide)) with
   | ⟨s1, rest, h, _⟩ => ⟨s1, rest, h⟩,
   match C13_manage_unknown_session_refused (sample_env 100 []) (sample_one_pending 100 4)
      sample_hostA { clnt_sessid := 0, clnt_dspnum := 1, clnt_dspclass := [] } rfl
      (Or.inl rfl) with
   | ⟨s1, rest, h, _⟩ => ⟨s1, rest, h⟩⟩


theorem sample_one_pending_reachable : Reachable [] (sample_one_pending 100 4) :=
  reachable_of_run 7 16 4 trace_one_request (sample_one_pending 100 4) (by decide) (by decide)
    (by norm_num) (by norm_num)
    (by
      intro e he
      simp only [trace_one_request, List.mem_singleton] at he
      rw [he]
      rfl)
    (by decide)

/-- C14, the counterexample: the manager holds the pending display 7 of 10.0.0.2 (a
reachable state); `fork` fails while the MANAGE for session 7 is handled.  FAILED is sent,
but the display is still in the display list afterwards, in status XDMCP_MANAGED, and
`num_sessions` went from 0 to 1. -/
theorem C14_counterexample :
    Reachable [] (sample_one_pending 100 4)
      ∧ (sample_env_fork_fails 101).fork_ok = false
      ∧ (sample_one_pending 100 4).displays = [sample_pending 7 100]
      ∧ (sample_one_pending 100 4).priv.num_sessions = 0
      ∧ ∃ s1, gdm_xdmcp_handle_manage (sample_env_fork_fails 101) (sample_one_pending 100 4)
            sample_hostA
            (some { clnt_sessid := 7, clnt_dspnum := 1, clnt_dspclass := ascii "MIT-Sun" })
          = some (s1, [failed_packet sample_hostA 7])
        ∧ s1.displays = [{ sample_pending 7 100 with dispstat := DispStat.XDMCP_MANAGED }]
        ∧ s1.priv.num_sessions = 1
        ∧ count_managed s1.displays = 1 :=
  ⟨sample_one_pending_reachable, rfl, rfl, rfl,
   ((gdm_xdmcp_handle_manage (sample_env_fork_fails 101) (sample_one_pending 100 4)
      sample_hostA
      (some { clnt_sessid := 7, clnt_dspnum := 1, clnt_dspclass := ascii "MIT-Sun" })).getD
        (sample_init 0 0 0, [])).1,
   by decide, by decide, by decide, by decide⟩

/-- C14 (amended): a MANAGE from an allowed host whose session id is found on a display in
status PENDING, handled while `fork` fails, returns; the last packet sent is FAILED, to the
sender, with that session id and the status "Failed to start session" (any packet before
it is a MANAGED_FORWARD); the display is not disposed: the display list has the length it
had and holds, in the place of that display, the display in status XDMCP_MANAGED; and both
counters were stepped as for a successful MANAGE. -/
theorem C14_spawn_failure_sends_failed (env : Env) (s : Daemon) (sa : sockaddr_storage)
    (r : ManageFields) (i : Nat) (d : GdmDisplay) (ha : env.host_allow sa = true)
    (hl : gdm_xdmcp_display_lookup s r.clnt_sessid = some i) (hd : s.displays[i]? = some d)
    (hp : d.dispstat = DispStat.XDMCP_PENDING) (hf : env.fork_ok = false) :
    ∃ (s1 : Daemon) (rest : List Sent) (use_chooser : Bool) (indirect_id : Nat),
      gdm_xdmcp_handle_manage env s sa (some r)
          = some (s1, rest ++ [failed_packet sa r.clnt_sessid])
      ∧ (∀ pk ∈ rest, pk.header.opcode = GDM_XDMCP_MANAGED_FORWARD)
      ∧ (failed_packet sa r.clnt_sessid).dest = sa
      ∧ (failed_packet sa r.clnt_sessid).header.opcode = FAILED
      ∧ (failed_packet sa r.clnt_sessid).fields
          = [WireField.CARD32 r.clnt_sessid, WireField.ARRAY8 (ascii "Failed to start session")]
      ∧ s1.displays = s.displays.set i
          { d with dispstat := DispStat.XDMCP_MANAGED, use_chooser := use_chooser,
                   indirect_id := indirect_id }
      ∧ s1.displays.length = s.displays.length
      ∧ d.sessionid = r.clnt_sessid
      ∧ s1.priv.num_sessions = guint_inc s.priv.num_sessions
      ∧ s1.priv.num_pending_sessions = guint_dec s.priv.num_pending_sessions := by
  obtain ⟨_, d0, hd0, hid, _⟩ := display_lookup_some s r.clnt_sessid i hl
  rw [hd] at hd0
  cases hd0
  obtain ⟨c1, c2⟩ := resolve_forward_query_counters env s.priv sa
  have hm : gdm_display_manage env
      { d with use_chooser := (manage_indirect env s sa).2.1,
               indirect_id := (manage_indirect env s sa).2.2,
               dispstat := DispStat.XDMCP_MANAGED }
      = ({ d with dispstat := DispStat.XDMCP_MANAGED,
                  use_chooser := (manage_indirect env s sa).2.1,
                  indirect_id := (manage_indirect env s sa).2.2 }, false) := by
    unfold gdm_display_manage
    rw [hf]
    rfl
  have he := handle_manage_pending env s sa r i d ha hl hd hp
  rw [hm] at he
  refine ⟨_, (resolve_forward_query env s.priv sa).2, (manage_indirect env s sa).2.1,
    (manage_indirect env s sa).2.2, he, resolve_forward_query_out env s.priv sa, rfl, rfl, rfl,
    rfl, ?_, hid, ?_, ?_⟩
  · simp
  · show guint_inc (resolve_forward_query env s.priv sa).1.num_sessions = _
    rw [c1]
  · show guint_dec (resolve_forward_query env s.priv sa).1.num_pending_sessions = _
    rw [c2]

/-- C14, witness: the amended statement at the input of the counterexample. -/
theorem C14_spawn_failure_sends_failed_witness :
    (sample_env_fork_fails 101).host_allow sample_hostA = true
      ∧ gdm_xdmcp_display_lookup (sample_one_pending 100 4) 7 = some 0
      ∧ (sample_one_pending 100 4).displays[0]? = some (sample_pending 7 100)
      ∧ (sample_env_fork_fails 101).fork_ok = false
      ∧ ∃ s1 rest, gdm_xdmcp_handle_manage (sample_env_fork_fails 101) (sample_one_pending 100 4)
            sample_hostA
            (some { clnt_sessid := 7, clnt_dspnum := 1, clnt_dspclass := ascii "MIT-Sun" })
          = some (s1, rest ++ [failed_packet sample_hostA 7])
        ∧ s1.displays.length = 1 :=
  ⟨rfl, by decide, by decide, rfl,
   match C14_spawn_failure_sends_failed (sample_env_fork_fails 101) (sample_one_pending 100 4)
      sample_hostA { clnt_sessid := 7, clnt_dspnum := 1, clnt_dspclass := ascii "MIT-Sun" } 0
      (sample_pending 7 100) rfl (by decide) (by decide) rfl rfl with
   | ⟨s1, rest, _, _, h1, _, _, _, _, _, h7, _⟩ => ⟨s1, rest, h1, h7⟩⟩

/-! ## KEEPALIVE -/

theorem send_alive_spec (s : Daemon) (sa : sockaddr_storage) (dspnum sessid : Nat) :
    ∃ found : Option GdmDisplay,
      found = (match (if sessid = 0 then none
                      else s.displays.find? (fun d => d.sessionid == sessid)) with
               | some d => some d
               | none => s.displays.find? (fun d => SERVER_IS_XDMCP d
                   && gdm_address_equal d.addr sa && d.xdmcp_dispnum == dspnum))
      ∧ gdm_xdmcp_send_alive s sa dspnum sessid
          = [alive_packet sa
              ((found.map (fun d => if d.dispstat = DispStat.XDMCP_MANAGED then 1 else 0)).getD 0)
              ((found.map (fun d => d.sessionid)).getD 0)] := by
  refine ⟨_, rfl, ?_⟩
  unfold gdm_xdmcp_send_alive
  cases hl : gdm_xdmcp_display_lookup s sessid with
  | some i =>
    obtain ⟨h0, d, h1, _, h3⟩ := display_lookup_some s sessid i hl
    simp [if_neg h0, h3, h1]
  | none =>
    have hfirst : (if sessid = 0 then none
        else s.displays.find? (fun d => d.sessionid == sessid)) = none := by
      unfold gdm_xdmcp_display_lookup at hl
      by_cases h0 : sessid = 0
      · rw [if_pos h0]
      · rw [if_neg h0] at hl
        rw [if_neg h0]
        exact (find_first_none _ _ hl).2
    simp only [hfirst]
    unfold gdm_xdmcp_display_lookup_by_host
    cases hb : find_first (fun disp => SERVER_IS_XDMCP disp && gdm_address_equal disp.addr sa
        && disp.xdmcp_dispnum == dspnum) s.displays with
    | some j =>
      obtain ⟨d, h1, _, h3⟩ := find_first_some _ _ _ hb
      simp [h1, h3]
    | none =>
      simp [(find_first_none _ _ hb).2]

/-- C15: a KEEPALIVE from an allowed host changes no state and is answered with exactly
one ALIVE, sent to the sender.  `found` is the first display whose session id is the (non
zero) session id of the KEEPALIVE or, when there is none, the first XDMCP display with the
sender's address and the display number of the KEEPALIVE.  The CARD8 `running` is 1 when a
display was found and it is XDMCP_MANAGED, else 0; the CARD32 is the session id of the
display found, or 0 when none was found. -/
theorem C15_keepalive_answered_alive (env : Env) (s : Daemon) (sa : sockaddr_storage)
    (r : KeepaliveFields) (ha : env.host_allow sa = true) :
    ∃ (found : Option GdmDisplay) (running sessid : Nat),
      gdm_xdmcp_handle_keepalive env s sa (some r) = (s, [alive_packet sa running sessid])
      ∧ (alive_packet sa running sessid).dest = sa
      ∧ (alive_packet sa running sessid).header.opcode = ALIVE
      ∧ (alive_packet sa running sessid).fields
          = [WireField.CARD8 running, WireField.CARD32 sessid]
      ∧ found = (match (if r.clnt_sessid = 0 then none
                        else s.displays.find? (fun d => d.sessionid == r.clnt_sessid)) with
                 | some d => some d
                 | none => s.displays.find? (fun d => SERVER_IS_XDMCP d
                     && gdm_address_equal d.addr sa && d.xdmcp_dispnum == r.clnt_dspnum))
      ∧ (running = 1 ↔ ∃ d, found = some d ∧ d.dispstat = DispStat.XDMCP_MANAGED)
      ∧ (running = 0 ∨ running = 1)
      ∧ (∀ d, found = some d → sessid = d.sessionid)
      ∧ (found = none → sessid = 0) := by
  obtain ⟨found, hfound, hs⟩ := send_alive_spec s sa r.clnt_dspnum r.clnt_sessid
  have ha' : ¬ env.host_allow sa = false := by simp [ha]
  refine ⟨found,
    (found.map (fun d => if d.dispstat = DispStat.XDMCP_MANAGED then 1 else 0)).getD 0,
    (found.map (fun d => d.sessionid)).getD 0, ?_, rfl, rfl, rfl, hfound, ?_, ?_, ?_, ?_⟩
  · unfold gdm_xdmcp_handle_keepalive
    rw [if_neg ha']
    simp only [hs]
  · cases found with
    | none => simp
    | some d =>
      by_cases hm : d.dispstat = DispStat.XDMCP_MANAGED
      · simp [hm]
      · simp [hm]
  · cases found with
    | none => simp
    | some d =>
      by_cases hm : d.dispstat = DispStat.XDMCP_MANAGED
      · simp [hm]
      · simp [hm]
  · intro d hd
    rw [hd]
    rfl
  · intro hd
    rw [hd]
    rfl

/-- C15, witness: a fresh manager answers KEEPALIVE for display 1, session 99 with
ALIVE, running 0, session 0. -/
theorem C15_keepalive_answered_alive_witness :
    (sample_env 100 []).host_allow sample_hostA = true
      ∧ gdm_xdmcp_handle_keepalive (sample_env 100 []) (sample_init 7 16 4) sample_hostA
            (some { clnt_dspnum := 1, clnt_sessid := 99 })
          = (sample_init 7 16 4, [alive_packet sample_hostA 0 0]) :=
  ⟨rfl,
   match C15_keepalive_answered_alive (sample_env 100 []) (sample_init 7 16 4) sample_hostA
      { clnt_dspnum := 1, clnt_sessid := 99 } rfl with
   | ⟨found, running, sessid, h1, _, _, _, h5, h6, h7, _, h9⟩ => by
     have hf : found = none := by rw [h5]; decide
     have hs : sessid = 0 := h9 hf
     have hr : running = 0 := by
       rcases h7 with h | h
       · exact h
       · obtain ⟨d, hd, _⟩ := h6.mp h
         rw [hf] at hd
         cases hd
     rw [hs, hr] at h1
     exact h1⟩

/-! ## The purge of stale pending displays -/

/-- C16: `gdm_xdmcp_displays_purge`, for every display list and every wallclock value.
When the first display of the list is a stale pending XDMCP display (`acctime + max_wait <
now`), the purge disposes it, restarts its walk at the cell it fetched before the loop,
which has been freed with the display, and has no result.  In every other state it
returns; afterwards no XDMCP display in status PENDING has `acctime + max_wait < now`, and
the display list is the list before with exactly those displays filtered out: every other
display is still there, unchanged and in the same relative order. -/
theorem C16_purge_frees_stale_first_display (env : Env) (s : Daemon) :
    (head_survives (stale_pending env.now s.priv.max_wait) s.displays = false →
        gdm_xdmcp_displays_purge env s = none)
      ∧ (head_survives (stale_pending env.now s.priv.max_wait) s.displays = true →
        ∃ s1, gdm_xdmcp_displays_purge env s = some s1
          ∧ (∀ d ∈ s1.displays, SERVER_IS_XDMCP d = true →
              d.dispstat = DispStat.XDMCP_PENDING → ¬ d.acctime + s.priv.max_wait < env.now)
          ∧ s1.displays = s.displays.filter (fun d =>
              !(SERVER_IS_XDMCP d && d.dispstat == DispStat.XDMCP_PENDING
                && decide (d.acctime + s.priv.max_wait < env.now)))
          ∧ s1.displays.Sublist s.displays
          ∧ (∀ d ∈ s.displays,
              ¬ (SERVER_IS_XDMCP d = true ∧ d.dispstat = DispStat.XDMCP_PENDING
                  ∧ d.acctime + s.priv.max_wait < env.now) → d ∈ s1.displays)
          ∧ s1.priv.max_wait = s.priv.max_wait) := by
  refine ⟨purge_freed env s, ?_⟩
  intro hk
  obtain ⟨s1, h1, h2, _, h4⟩ := purge_spec env s hk
  have h2' : s1.displays = s.displays.filter (fun d =>
      !(SERVER_IS_XDMCP d && d.dispstat == DispStat.XDMCP_PENDING
        && decide (d.acctime + s.priv.max_wait < env.now))) := by
    rw [h2]
    rfl
  refine ⟨s1, h1, ?_, h2', ?_, ?_, ?_⟩
  · intro d hd hx hp hlt
    rw [h2'] at hd
    simp [List.mem_filter, hx, hp, hlt] at hd
  · rw [h2']
    exact List.filter_sublist _
  · intro d hd hns
    rw [h2']
    simp only [List.mem_filter, hd, true_and]
    by_cases hx : SERVER_IS_XDMCP d = true
    · by_cases hp : d.dispstat = DispStat.XDMCP_PENDING
      · have hlt : ¬ d.acctime + s.priv.max_wait < env.now := fun h => hns ⟨hx, hp, h⟩
        simp [hlt]
      · simp [hp]
    · simp [hx]
  · rw [h4]
    split <;> rfl

/-- C16, witness.  The failing input: the manager started with an empty display list and
accepted the REQUEST of 10.0.0.2 at time 50; at time 100 (`max_wait` is 15) that pending
display is stale and is the first of the list: the purge has no result.  With the local
display ":0" in front of the same pending display the purge returns and leaves the local
display alone in the list. -/
theorem C16_purge_frees_stale_first_display_witness :
    run_datagrams (sample_init 7 16 4) [(sample_env 50 [], sample_dg_request sample_hostA 34)]
        = some (sample_one_pending 50 4)
      ∧ (sample_one_pending 50 4).displays = [sample_pending 7 50]
      ∧ gdm_xdmcp_displays_purge (sample_env 100 []) (sample_one_pending 50 4) = none
      ∧ ∃ s1, gdm_xdmcp_displays_purge (sample_env 100 []) (sample_local_pending 50 4) = some s1
          ∧ s1.displays = [sample_local] :=
  ⟨by decide, rfl,
   (C16_purge_frees_stale_first_display (sample_env 100 []) (sample_one_pending 50 4)).1
     (by decide),
   ((C16_purge_frees_stale_first_display (sample_env 100 []) (sample_local_pending 50 4)).2
     (by decide)).imp (fun _ h => ⟨h.1, h.2.2.1.trans (by decide)⟩)⟩


/-! ## The dispatcher -/

theorem decode_packet_dispatch (env : Env) (s : Daemon) (dg : Datagram) (h : XdmcpHeader)
    (hc : dg.cond_in = true) (hf : dg.fill_ok = true) (hh : dg.header = some h)
    (hv : h.version = XDM_PROTOCOL_VERSION ∨ h.version = GDM_XDMCP_PROTOCOL_VERSION) :
    decode_packet env s dg =
      if h.opcode = BROADCAST_QUERY then
        some (gdm_xdmcp_handle_broadcast_query env s dg.clnt_sa h.length dg.as_authlist)
      else if h.opcode = QUERY then
        some (gdm_xdmcp_handle_query env s dg.clnt_sa h.length dg.as_authlist)
      else if h.opcode = INDIRECT_QUERY then
        some (gdm_xdmcp_handle_indirect_query env s dg.clnt_sa h.length dg.as_authlist)
      else if h.opcode = FORWARD_QUERY then
        some (gdm_xdmcp_handle_forward_query env s dg.clnt_sa h.length dg.as_forward_query)
      else if h.opcode = REQUEST then
        gdm_xdmcp_handle_request env s dg.clnt_sa h.length dg.as_request
      else if h.opcode = MANAGE then
        gdm_xdmcp_handle_manage env s dg.clnt_sa dg.as_manage
      else if h.opcode = KEEPALIVE then
        some (gdm_xdmcp_handle_keepalive env s dg.clnt_sa dg.as_keepalive)
      else if h.opcode = GDM_XDMCP_MANAGED_FORWARD then
        some (gdm_xdmcp_handle_managed_forward env s dg.clnt_sa dg.as_address)
      else if h.opcode = GDM_XDMCP_GOT_MANAGED_FORWARD then
        some (gdm_xdmcp_handle_got_managed_forward env s dg.clnt_sa dg.as_address)
      else some (s, []) := by
  unfold decode_packet
  have hc' : ¬ dg.cond_in = false := by simp [hc]
  have hf' : ¬ dg.fill_ok = false := by simp [hf]
  have hv' : ¬ (h.version ≠ XDM_PROTOCOL_VERSION ∧ h.version ≠ GDM_XDMCP_PROTOCOL_VERSION) := by
    rintro ⟨a, b⟩
    rcases hv with hv | hv
    · exact a hv
    · exact b hv
  rw [if_neg hc', if_neg hf']
  simp only [hh]
  rw [if_neg hv']

theorem decode_packet_dropped (env : Env) (s : Daemon) (dg : Datagram)
    (h : dg.cond_in = false ∨ dg.fill_ok = false ∨ dg.header = none
      ∨ ∃ hd, dg.header = some hd ∧ hd.version ≠ XDM_PROTOCOL_VERSION
          ∧ hd.version ≠ GDM_XDMCP_PROTOCOL_VERSION) :
    decode_packet env s dg = some (s, []) := by
  unfold decode_packet
  by_cases hc : dg.cond_in = false
  · rw [if_pos hc]
  · rw [if_neg hc]
    by_cases hf : dg.fill_ok = false
    · rw [if_pos hf]
    · rw [if_neg hf]
      rcases h with h | h | h | ⟨hd, h1, h2, h3⟩
      · exact absurd h hc
      · exact absurd h hf
      · simp only [h]
      · simp only [h1]
        rw [if_pos ⟨h2, h3⟩]

/-- C20: `decode_packet` returns the state it was given and sends nothing whenever the
header version is neither 1 nor 1001, or the opcode is none of BROADCAST_QUERY, QUERY,
INDIRECT_QUERY, FORWARD_QUERY, REQUEST, MANAGE, KEEPALIVE, MANAGED_FORWARD (1000) and
GOT_MANAGED_FORWARD (1001); and for a datagram that was read, with header version 1 or
1001, its result is the result of the handler of the opcode, applied to the sender, the
declared length and the rest of the buffer. -/
theorem C20_decode_packet_dispatch (env : Env) (s : Daemon) (dg : Datagram) :
    ((∀ h, dg.header = some h →
        (h.version ≠ 1 ∧ h.version ≠ 1001)
        ∨ (h.opcode ≠ BROADCAST_QUERY ∧ h.opcode ≠ QUERY ∧ h.opcode ≠ INDIRECT_QUERY
            ∧ h.opcode ≠ FORWARD_QUERY ∧ h.opcode ≠ REQUEST ∧ h.opcode ≠ MANAGE
            ∧ h.opcode ≠ KEEPALIVE ∧ h.opcode ≠ 1000 ∧ h.opcode ≠ 1001)) →
      decode_packet env s dg = some (s, []))
    ∧ ∀ h, dg.cond_in = true → dg.fill_ok = true → dg.header = some h →
        (h.version = 1 ∨ h.version = 1001) →
        (h.opcode = BROADCAST_QUERY → decode_packet env s dg
          = some (gdm_xdmcp_handle_broadcast_query env s dg.clnt_sa h.length dg.as_authlist))
        ∧ (h.opcode = QUERY → decode_packet env s dg
          = some (gdm_xdmcp_handle_query env s dg.clnt_sa h.length dg.as_authlist))
        ∧ (h.opcode = INDIRECT_QUERY → decode_packet env s dg
          = some (gdm_xdmcp_handle_indirect_query env s dg.clnt_sa h.length dg.as_authlist))
        ∧ (h.opcode = FORWARD_QUERY → decode_packet env s dg
          = some (gdm_xdmcp_handle_forward_query env s dg.clnt_sa h.length dg.as_forward_query))
        ∧ (h.opcode = REQUEST → decode_packet env s dg
          = gdm_xdmcp_handle_request env s dg.clnt_sa h.length dg.as_request)
        ∧ (h.opcode = MANAGE → decode_packet env s dg
          = gdm_xdmcp_handle_manage env s dg.clnt_sa dg.as_manage)
        ∧ (h.opcode = KEEPALIVE → decode_packet env s dg
          = some (gdm_xdmcp_handle_keepalive env s dg.clnt_sa dg.as_keepalive))
        ∧ (h.opcode = 1000 → decode_packet env s dg
          = some (gdm_xdmcp_handle_managed_forward env s dg.clnt_sa dg.as_address))
        ∧ (h.opcode = 1001 → decode_packet env s dg
          = some (gdm_xdmcp_handle_got_managed_forward env s dg.clnt_sa dg.as_address)) := by
  refine ⟨?_, ?_⟩
  · intro hbad
    by_cases hc : dg.cond_in = false
    · exact decode_packet_dropped env s dg (Or.inl hc)
    · by_cases hf : dg.fill_ok = false
      · exact decode_packet_dropped env s dg (Or.inr (Or.inl hf))
      · cases hh : dg.header with
        | none => exact decode_packet_dropped env s dg (Or.inr (Or.inr (Or.inl hh)))
        | some h =>
          rcases hbad h hh with hv | ho
          · exact decode_packet_dropped env s dg (Or.inr (Or.inr (Or.inr ⟨h, hh, hv.1, hv.2⟩)))
          · by_cases hv : h.version = 1 ∨ h.version = 1001
            · rw [decode_packet_dispatch env s dg h (by simpa using hc) (by simpa using hf) hh hv]
              obtain ⟨o1, o2, o3, o4, o5, o6, o7, o8, o9⟩ := ho
              have o8 : h.opcode ≠ GDM_XDMCP_MANAGED_FORWARD := o8
              have o9 : h.opcode ≠ GDM_XDMCP_GOT_MANAGED_FORWARD := o9
              rw [if_neg o1, if_neg o2, if_neg o3, if_neg o4, if_neg o5, if_neg o6, if_neg o7,
                if_neg o8, if_neg o9]
            · exact decode_packet_dropped env s dg
                (Or.inr (Or.inr (Or.inr ⟨h, hh, fun a => hv (Or.inl a), fun a => hv (Or.inr a)⟩)))
  · intro h hc hf hh hv
    have hd := decode_packet_dispatch env s dg h hc hf hh hv
    refine ⟨?_, ?_, ?_, ?_, ?_, ?_, ?_, ?_, ?_⟩ <;> intro ho <;> rw [hd, ho] <;> rfl

/-- C20, witness: a QUERY with header version 2 is dropped, an opcode 5 (WILLING) with
version 1 is dropped, and a KEEPALIVE with version 1 is given to the KEEPALIVE handler. -/
theorem C20_decode_packet_dispatch_witness :
    decode_packet (sample_env 100 []) (sample_init 7 16 4)
        { sample_dg_query sample_hostA QUERY 21 with
          header := some { version := 2, opcode := QUERY, length := 21 } }
      = some (sample_init 7 16 4, [])
    ∧ decode_packet (sample_env 100 []) (sample_init 7 16 4) (sample_dg_query sample_hostA 5 21)
      = some (sample_init 7 16 4, [])
    ∧ decode_packet (sample_env 100 []) (sample_init 7 16 4) (sample_dg_keepalive sample_hostA 99 6)
      = some (gdm_xdmcp_handle_keepalive (sample_env 100 []) (sample_init 7 16 4) sample_hostA
          (some { clnt_dspnum := 1, clnt_sessid := 99 })) :=
  ⟨(C20_decode_packet_dispatch (sample_env 100 []) (sample_init 7 16 4) _).1
      (fun h hh => Or.inl (by cases hh; decide)),
   (C20_decode_packet_dispatch (sample_env 100 []) (sample_init 7 16 4) _).1
      (fun h hh => Or.inr (by cases hh; decide)),
   ((C20_decode_packet_dispatch (sample_env 100 []) (sample_init 7 16 4)
      (sample_dg_keepalive sample_hostA 99 6)).2 _ rfl rfl rfl (Or.inl rfl)).2.2.2.2.2.2.1 rfl⟩


/-! ## QUERY and BROADCAST_QUERY; denied hosts; declared lengths -/

theorem send_willing_spec (env : Env) (s : Daemon) (sa : sockaddr_storage) :
    ∃ (s1 : Daemon) (pk : Sent), gdm_xdmcp_send_willing env s sa = (s1, [pk])
      ∧ pk.dest = sa ∧ pk.header.opcode = WILLING
      ∧ s1.priv = s.priv ∧ s1.displays = s.displays ∧ s1.choose = s.choose := by
  unfold gdm_xdmcp_send_willing
  exact ⟨_, _, rfl, rfl, rfl, rfl, rfl, rfl⟩

theorem send_unwilling_spec (env : Env) (s : Daemon) (sa : sockaddr_storage) :
    ∃ (s1 : Daemon) (out : List Sent), gdm_xdmcp_send_unwilling env s sa = (s1, out)
      ∧ (∀ pk ∈ out, pk.header.opcode = UNWILLING ∧ pk.dest = sa) ∧ out.length ≤ 1
      ∧ s1.priv = s.priv ∧ s1.displays = s.displays ∧ s1.choose = s.choose := by
  unfold gdm_xdmcp_send_unwilling
  by_cases h : s.statics.last_time + 1 ≥ (env.now : Int)
  · rw [if_pos h]
    exact ⟨_, _, rfl, by simp, by simp, rfl, rfl, rfl⟩
  · rw [if_neg h]
    refine ⟨_, _, rfl, ?_, by simp, rfl, rfl, rfl⟩
    intro pk hpk
    simp only [List.mem_singleton] at hpk
    rw [hpk]
    exact ⟨rfl, rfl⟩

theorem handle_direct_query_spec (env : Env) (s : Daemon) (sa : sockaddr_storage) (len : Nat)
    (names : List (List Nat)) :
    ∃ (s1 : Daemon) (out : List Sent), handle_direct_query env s sa len (some names) = (s1, out)
      ∧ (len = ARRAYofARRAY8_wire_length names →
          ∃ pk, out = [pk] ∧ pk.dest = sa ∧ pk.header.opcode = WILLING)
      ∧ (len ≠ ARRAYofARRAY8_wire_length names → s1 = s ∧ out = [])
      ∧ s1.priv = s.priv ∧ s1.displays = s.displays ∧ s1.choose = s.choose := by
  unfold handle_direct_query
  simp only []
  by_cases hlen : len = 1 + (names.map (fun a => 2 + a.length)).sum
  · rw [if_pos hlen]
    obtain ⟨s1, pk, h1, h2, h3, h4, h5, h6⟩ := send_willing_spec env s sa
    refine ⟨s1, [pk], h1, fun _ => ⟨pk, rfl, h2, h3⟩, ?_, h4, h5, h6⟩
    intro hne
    exact absurd hlen hne
  · rw [if_neg hlen]
    refine ⟨s, [], rfl, ?_, fun _ => ⟨rfl, rfl⟩, rfl, rfl, rfl⟩
    intro he
    exact absurd he hlen

/-- C17: a QUERY or BROADCAST_QUERY that was read, from an allowed host, whose list of
authentication names parses: when the declared length is `1 + Σ (2 + name length)` exactly
one packet is sent, a WILLING to the sender; otherwise nothing is sent (and the state is
returned as it was); in both cases the private struct (counters, forward queries,
managed forwards), the display list and the indirect table are unchanged. -/
theorem C17_direct_query_willing (env : Env) (s : Daemon) (dg : Datagram) (h : XdmcpHeader)
    (names : List (List Nat)) (hc : dg.cond_in = true) (hf : dg.fill_ok = true)
    (hh : dg.header = some h) (hv : h.version = 1 ∨ h.version = 1001)
    (hop : h.opcode = QUERY ∨ h.opcode = BROADCAST_QUERY)
    (ha : env.host_allow dg.clnt_sa = true) (hn : dg.as_authlist = some names) :
    ∃ (s1 : Daemon) (out : List Sent), decode_packet env s dg = some (s1, out)
      ∧ (h.length = 1 + (names.map (fun a => 2 + a.length)).sum →
          ∃ pk, out = [pk] ∧ pk.dest = dg.clnt_sa ∧ pk.header.opcode = WILLING)
      ∧ (h.length ≠ 1 + (names.map (fun a => 2 + a.length)).sum → s1 = s ∧ out = [])
      ∧ s1.priv = s.priv ∧ s1.displays = s.displays ∧ s1.choose = s.choose := by
  obtain ⟨s1, out, h1, h2, h3, h4, h5, h6⟩ :=
    handle_direct_query_spec env s dg.clnt_sa h.length names
  have hd := decode_packet_dispatch env s dg h hc hf hh hv
  refine ⟨s1, out, ?_, h2, h3, h4, h5, h6⟩
  rw [hd, hn]
  rcases hop with hop | hop
  · rw [hop]
    show some (gdm_xdmcp_handle_query env s dg.clnt_sa h.length (some names)) = _
    unfold gdm_xdmcp_handle_query
    rw [if_pos ha, h1]
  · rw [hop]
    show some (gdm_xdmcp_handle_broadcast_query env s dg.clnt_sa h.length (some names)) = _
    unfold gdm_xdmcp_handle_broadcast_query
    rw [if_pos ha, h1]

/-- C17, witness: a fresh manager answers the QUERY of the direct-session scenario (one
name, declared length 21) with one WILLING, and sends nothing when the declared length
is 22. -/
theorem C17_direct_query_willing_witness :
    (sample_env 100 []).host_allow sample_hostA = true
      ∧ (1 + ([MIT_MAGIC_COOKIE_1].map (fun a => 2 + a.length)).sum = 21)
      ∧ (∃ s1 pk, decode_packet (sample_env 100 []) (sample_init 7 16 4)
            (sample_dg_query sample_hostA QUERY 21) = some (s1, [pk])
          ∧ pk.header.opcode = WILLING)
      ∧ ∃ s1, decode_packet (sample_env 100 []) (sample_init 7 16 4)
            (sample_dg_query sample_hostA BROADCAST_QUERY 22) = some (s1, []) :=
  ⟨rfl, by decide,
   match C17_direct_query_willing (sample_env 100 []) (sample_init 7 16 4)
      (sample_dg_query sample_hostA QUERY 21) _ [MIT_MAGIC_COOKIE_1] rfl rfl rfl (Or.inl rfl)
      (Or.inl rfl) rfl rfl with
   | ⟨s1, out, h1, h2, _⟩ =>
     match h2 (by decide) with
     | ⟨pk, e1, _, e3⟩ => ⟨s1, pk, by rw [← e1]; exact h1, e3⟩,
   match C17_direct_query_willing (sample_env 100 []) (sample_init 7 16 4)
      (sample_dg_query sample_hostA BROADCAST_QUERY 22) _ [MIT_MAGIC_COOKIE_1] rfl rfl rfl
      (Or.inl rfl) (Or.inr rfl) rfl rfl with
   | ⟨s1, out, h1, _, h3, _⟩ => ⟨s1, by rw [← (h3 (by decide)).2]; exact h1⟩⟩

/-- C18: a datagram whose sender fails `host_allow` is always handled to the end; every
packet sent is an UNWILLING to the sender and there is at most one; the private struct
(counters, forward queries, managed forwards), the display list and the indirect table
are unchanged; and unless the opcode is QUERY the whole state is unchanged and nothing is
sent. -/
theorem C18_denied_host_dropped (env : Env) (s : Daemon) (dg : Datagram)
    (hdeny : env.host_allow dg.clnt_sa = false) :
    ∃ (s1 : Daemon) (out : List Sent), decode_packet env s dg = some (s1, out)
      ∧ (∀ pk ∈ out, pk.header.opcode = UNWILLING ∧ pk.dest = dg.clnt_sa)
      ∧ out.length ≤ 1
      ∧ s1.priv = s.priv ∧ s1.displays = s.displays ∧ s1.choose = s.choose
      ∧ ((∀ h, dg.header = some h → h.opcode ≠ QUERY) → s1 = s ∧ out = []) := by
  have drop : decode_packet env s dg = some (s, []) →
      ∃ (s1 : Daemon) (out : List Sent), decode_packet env s dg = some (s1, out)
        ∧ (∀ pk ∈ out, pk.header.opcode = UNWILLING ∧ pk.dest = dg.clnt_sa)
        ∧ out.length ≤ 1
        ∧ s1.priv = s.priv ∧ s1.displays = s.displays ∧ s1.choose = s.choose
        ∧ ((∀ h, dg.header = some h → h.opcode ≠ QUERY) → s1 = s ∧ out = []) :=
    fun e => ⟨s, [], e, by simp, by simp, rfl, rfl, rfl, fun _ => ⟨rfl, rfl⟩⟩
  have hdeny' : ¬ env.host_allow dg.clnt_sa = true := by simp [hdeny]
  by_cases hc : dg.cond_in = false
  · exact drop (decode_packet_dropped env s dg (Or.inl hc))
  · by_cases hf : dg.fill_ok = false
    · exact drop (decode_packet_dropped env s dg (Or.inr (Or.inl hf)))
    · rcases Option.eq_none_or_eq_some dg.header with hh | ⟨h, hh⟩
      · exact drop (decode_packet_dropped env s dg (Or.inr (Or.inr (Or.inl hh))))
      · by_cases hv : h.version = XDM_PROTOCOL_VERSION ∨ h.version = GDM_XDMCP_PROTOCOL_VERSION
        · have hd := decode_packet_dispatch env s dg h (by simpa using hc) (by simpa using hf)
            hh hv
          by_cases o2 : h.opcode = QUERY
          · have e : decode_packet env s dg
                = some (gdm_xdmcp_send_unwilling env s dg.clnt_sa) := by
              rw [hd, o2]
              show some (gdm_xdmcp_handle_query env s dg.clnt_sa h.length dg.as_authlist) = _
              unfold gdm_xdmcp_handle_query
              rw [if_neg hdeny']
            obtain ⟨s1, out, h1, h2, h3, h4, h5, h6⟩ := send_unwilling_spec env s dg.clnt_sa
            refine ⟨s1, out, by rw [e, h1], h2, h3, h4, h5, h6, ?_⟩
            intro hq
            exact absurd o2 (hq h hh)
          · apply drop
            rw [hd, if_neg o2]
            unfold gdm_xdmcp_handle_broadcast_query gdm_xdmcp_handle_indirect_query
              gdm_xdmcp_handle_forward_query gdm_xdmcp_handle_request gdm_xdmcp_handle_manage
              gdm_xdmcp_handle_keepalive gdm_xdmcp_handle_managed_forward
              gdm_xdmcp_handle_got_managed_forward
            rw [if_neg hdeny']
            simp only [hdeny, if_true, ite_self]
        · exact drop (decode_packet_dropped env s dg
            (Or.inr (Or.inr (Or.inr ⟨h, hh, fun a => hv (Or.inl a), fun a => hv (Or.inr a)⟩))))

/-- C18, witness: with tcp-wrappers denying 10.0.0.2, its MANAGE for the pending session 7
changes nothing and sends nothing, and its QUERY is answered with one UNWILLING. -/
theorem C18_denied_host_dropped_witness :
    (sample_env_denying 101).host_allow sample_hostA = false
      ∧ decode_packet (sample_env_denying 101) (sample_one_pending 100 4)
            (sample_dg_manage sample_hostA 7) = some (sample_one_pending 100 4, [])
      ∧ ∃ s1 out, decode_packet (sample_env_denying 101) (sample_one_pending 100 4)
            (sample_dg_query sample_hostA QUERY 21) = some (s1, out)
          ∧ out = [unwilling_packet (sample_one_pending 100 4) sample_hostA] :=
  ⟨rfl,
   match C18_denied_host_dropped (sample_env_denying 101) (sample_one_pending 100 4)
      (sample_dg_manage sample_hostA 7) rfl with
   | ⟨s1, out, h1, _, _, _, _, _, h7⟩ => by
     obtain ⟨a, b⟩ := h7 (fun h hh => by cases hh; decide)
     rw [a, b] at h1
     exact h1,
   match C18_denied_host_dropped (sample_env_denying 101) (sample_one_pending 100 4)
      (sample_dg_query sample_hostA QUERY 21) rfl with
   | ⟨s1, out, h1, _⟩ => ⟨s1, out, h1, by
     have e : decode_packet (sample_env_denying 101) (sample_one_pending 100 4)
         (sample_dg_query sample_hostA QUERY 21)
         = some ((gdm_xdmcp_send_unwilling (sample_env_denying 101) (sample_one_pending 100 4)
             sample_hostA).1, [unwilling_packet (sample_one_pending 100 4) sample_hostA]) := by
       decide
     rw [e] at h1
     simp only [Option.some.injEq, Prod.mk.injEq] at h1
     exact h1.2.symm⟩⟩

/-- C19, the counterexample: four datagrams from allowed hosts whose declared length is
not the number of bytes their fields occupy, and which are handled all the same.  A
KEEPALIVE (6 bytes of fields, declared 7) is answered with ALIVE; a MANAGE (15 bytes,
declared 16) for the pending session 7 makes the display managed and steps both counters;
a MANAGED_FORWARD (6 bytes, declared 8) is answered with GOT_MANAGED_FORWARD; a
GOT_MANAGED_FORWARD (6 bytes, declared 8) removes the queued managed forward. -/
theorem C19_counterexample :
    ((sample_env 101 []).host_allow sample_hostA = true
      ∧ keepalive_wire_length { clnt_dspnum := 1, clnt_sessid := 99 } = 6
      ∧ decode_packet (sample_env 101 []) (sample_init 7 16 4)
            (sample_dg_keepalive sample_hostA 99 7)
          = some (sample_init 7 16 4, [alive_packet sample_hostA 0 0]))
    ∧ (manage_wire_length { clnt_sessid := 7, clnt_dspnum := 1, clnt_dspclass := ascii "MIT-Sun" }
          = 15
      ∧ (sample_one_pending 100 4).priv.num_sessions = 0
      ∧ (sample_one_pending 100 4).priv.num_pending_sessions = 1
      ∧ (decode_packet (sample_env 101 []) (sample_one_pending 100 4)
            (sample_dg_manage_len sample_hostA 7 16)).map
          (fun r => (r.1.priv.num_sessions, r.1.priv.num_pending_sessions,
            r.1.displays.map (fun d => d.dispstat)))
          = some (1, 0, [DispStat.XDMCP_MANAGED]))
    ∧ ((sample_env_resolving 101).host_allow sample_hostB = true
      ∧ ARRAY8_wire_length [10, 0, 0, 2] = 6
      ∧ (decode_packet (sample_env_resolving 101) (sample_init 7 16 4)
            (sample_dg_vendor sample_hostB GDM_XDMCP_MANAGED_FORWARD 8)).map Prod.snd
          = some [got_managed_forward_packet sample_hostB
              { ss_family := AF_INET, addr := [10, 0, 0, 2], port := 177, scope_id := 0 }])
    ∧ (sample_queued_forward.priv.managed_forwards.length = 1
      ∧ (decode_packet (sample_env_resolving 101) sample_queued_forward
            (sample_dg_vendor sample_hostB GDM_XDMCP_GOT_MANAGED_FORWARD 8)).map
          (fun r => r.1.priv.managed_forwards) = some []) :=
  ⟨⟨rfl, rfl, by decide⟩, ⟨by decide, rfl, rfl, by decide⟩, ⟨rfl, rfl, by decide⟩,
   ⟨rfl, by decide⟩⟩

/-- C19 (amended): for QUERY, BROADCAST_QUERY, INDIRECT_QUERY and FORWARD_QUERY, a datagram
from an allowed host whose fields parse and whose declared header length differs from the
number of bytes these fields occupy is dropped: `decode_packet` returns the state it was
given and sends nothing. -/
theorem C19_length_mismatch_dropped (env : Env) (s : Daemon) (dg : Datagram) (h : XdmcpHeader)
    (hh : dg.header = some h) (ha : env.host_allow dg.clnt_sa = true) :
    ((h.opcode = QUERY ∨ h.opcode = BROADCAST_QUERY ∨ h.opcode = INDIRECT_QUERY) →
        ∀ names, dg.as_authlist = some names → h.length ≠ ARRAYofARRAY8_wire_length names →
          decode_packet env s dg = some (s, []))
    ∧ (h.opcode = FORWARD_QUERY →
        ∀ r, dg.as_forward_query = some r → h.length ≠ forward_query_wire_length r →
          decode_packet env s dg = some (s, [])) := by
  have ha' : ¬ env.host_allow dg.clnt_sa = false := by simp [ha]
  by_cases hc : dg.cond_in = false
  · exact ⟨fun _ _ _ _ => decode_packet_dropped env s dg (Or.inl hc),
      fun _ _ _ _ => decode_packet_dropped env s dg (Or.inl hc)⟩
  by_cases hf : dg.fill_ok = false
  · exact ⟨fun _ _ _ _ => decode_packet_dropped env s dg (Or.inr (Or.inl hf)),
      fun _ _ _ _ => decode_packet_dropped env s dg (Or.inr (Or.inl hf))⟩
  by_cases hv : h.version = XDM_PROTOCOL_VERSION ∨ h.version = GDM_XDMCP_PROTOCOL_VERSION
  · have hd := decode_packet_dispatch env s dg h (by simpa using hc) (by simpa using hf) hh hv
    refine ⟨?_, ?_⟩
    · intro hop names hn hlen
      have hlen' : ¬ h.length = 1 + (names.map (fun a => 2 + a.length)).sum := hlen
      rw [hd, hn]
      rcases hop with hop | hop | hop
      · rw [hop]
        show some (gdm_xdmcp_handle_query env s dg.clnt_sa h.length (some names)) = _
        unfold gdm_xdmcp_handle_query handle_direct_query
        rw [if_pos ha]
        simp only []
        rw [if_neg hlen']
      · rw [hop]
        show some (gdm_xdmcp_handle_broadcast_query env s dg.clnt_sa h.length (some names)) = _
        unfold gdm_xdmcp_handle_broadcast_query handle_direct_query
        rw [if_pos ha]
        simp only []
        rw [if_neg hlen']
      · rw [hop]
        show some (gdm_xdmcp_handle_indirect_query env s dg.clnt_sa h.length (some names)) = _
        unfold gdm_xdmcp_handle_indirect_query
        rw [if_neg ha']
        by_cases hi : s.priv.honor_indirect = false
        · rw [if_pos hi]
        · rw [if_neg hi]
          simp only []
          rw [if_neg hlen']
    · intro hop r hr hlen
      have hlen' : h.length ≠ 1 + (2 + r.clnt_addr.length) + (2 + r.clnt_port.length)
          + (r.clnt_authlist.map (fun a => 2 + a.length)).sum := by
        intro e
        apply hlen
        rw [e]
        show _ = (2 + r.clnt_addr.length) + (2 + r.clnt_port.length)
          + (1 + (r.clnt_authlist.map (fun a => 2 + a.length)).sum)
        omega
      rw [hd, hr, hop]
      show some (gdm_xdmcp_handle_forward_query env s dg.clnt_sa h.length (some r)) = _
      unfold gdm_xdmcp_handle_forward_query
      rw [if_neg ha']
      simp only []
      rw [if_pos hlen']
  · have hdrop := decode_packet_dropped env s dg
      (Or.inr (Or.inr (Or.inr ⟨h, hh, fun a => hv (Or.inl a), fun a => hv (Or.inr a)⟩)))
    exact ⟨fun _ _ _ _ => hdrop, fun _ _ _ _ => hdrop⟩

/-- C19, witness: an INDIRECT_QUERY and a FORWARD_QUERY whose declared length is one more
than the bytes of their fields are dropped by a fresh manager. -/
theorem C19_length_mismatch_dropped_witness :
    (sample_env_resolving 100).host_allow sample_hostA = true
      ∧ ARRAYofARRAY8_wire_length [MIT_MAGIC_COOKIE_1] = 21
      ∧ forward_query_wire_length
          { clnt_addr := [10, 0, 0, 2], clnt_port := [19, 136], clnt_authlist := [] } = 11
      ∧ decode_packet (sample_env_resolving 100) (sample_init 7 16 4)
            (sample_dg_query sample_hostA INDIRECT_QUERY 22) = some (sample_init 7 16 4, [])
      ∧ decode_packet (sample_env_resolving 100) (sample_init 7 16 4)
            (sample_dg_forward_query sample_hostA 12) = some (sample_init 7 16 4, []) :=
  ⟨rfl, by decide, by decide,
   (C19_length_mismatch_dropped (sample_env_resolving 100) (sample_init 7 16 4)
      (sample_dg_query sample_hostA INDIRECT_QUERY 22) _ rfl rfl).1 (Or.inr (Or.inr rfl))
      [MIT_MAGIC_COOKIE_1] rfl (by decide),
   (C19_length_mismatch_dropped (sample_env_resolving 100) (sample_init 7 16 4)
      (sample_dg_forward_query sample_hostA 12) _ rfl rfl).2 rfl
      { clnt_addr := [10, 0, 0, 2], clnt_port := [19, 136], clnt_authlist := [] } rfl
      (by decide)⟩

/-! ## Declared lengths of the packets sent -/

theorem pad_take_length (n : Nat) (l : List Nat) : (pad_take n l).length = n := by
  unfold pad_take
  simp

theorem set_address_for_request_length (ss : sockaddr_storage) :
    (set_address_for_request ss).length ≤ 16 := by
  unfold set_address_for_request
  split
  · rw [pad_take_length]; omega
  · split
    · rw [pad_take_length]
    · simp

/-- C24: both vendor packets carry header version 1001, but for every destination and
every origin address the length written in the header is `4 + address length`, two more
than the payload written after the header (one ARRAY8: `2 + address length` bytes). -/
theorem C24_vendor_length_two_more (sa origin : sockaddr_storage) :
    (managed_forward_packet sa origin).header.version = 1001
      ∧ (got_managed_forward_packet sa origin).header.version = 1001
      ∧ (managed_forward_packet sa origin).fields
          = [WireField.ARRAY8 (set_address_for_request origin)]
      ∧ (got_managed_forward_packet sa origin).fields
          = [WireField.ARRAY8 (set_address_for_request origin)]
      ∧ (managed_forward_packet sa origin).header.length
          = payload_length (managed_forward_packet sa origin).fields + 2
      ∧ (got_managed_forward_packet sa origin).header.length
          = payload_length (got_managed_forward_packet sa origin).fields + 2 := by
  have hl := set_address_for_request_length origin
  refine ⟨rfl, rfl, rfl, rfl, ?_, ?_⟩
  · simp only [managed_forward_packet, to_CARD16, payload_length, wire_length,
      ARRAY8_wire_length, List.map_cons, List.map_nil, List.sum_cons, List.sum_nil]
    omega
  · simp only [got_managed_forward_packet, to_CARD16, payload_length, wire_length,
      ARRAY8_wire_length, List.map_cons, List.map_nil, List.sum_cons, List.sum_nil]
    omega


/-! ## The forward-query table: allocation -/

theorem oldest_forward_some : ∀ (l : List GdmForwardQuery) (k : Nat) (acc : Option (Nat × Nat)),
    (∀ j t, acc = some (j, t) → j < k) → (l ≠ [] ∨ acc ≠ none) →
    ∃ j t, oldest_forward l k acc = some (j, t) ∧ j < k + l.length := by
  intro l
  induction l with
  | nil =>
    intro k acc hacc hne
    rcases hne with h | h
    · exact absurd rfl h
    · cases acc with
      | none => exact absurd rfl h
      | some a =>
        obtain ⟨j, t⟩ := a
        exact ⟨j, t, rfl, by have := hacc j t rfl; simpa using this⟩
  | cons q l ih =>
    intro k acc hacc _
    cases acc with
    | none =>
      unfold oldest_forward
      obtain ⟨j, t, h1, h2⟩ := ih (k + 1) (some (k, q.acctime))
        (by intro j t h; cases h; omega) (Or.inr (by simp))
      exact ⟨j, t, h1, by simp only [List.length_cons]; omega⟩
    | some a =>
      obtain ⟨j0, t0⟩ := a
      unfold oldest_forward
      have hj0 := hacc j0 t0 rfl
      by_cases hlt : q.acctime < t0
      · rw [if_pos hlt]
        obtain ⟨j, t, h1, h2⟩ := ih (k + 1) (some (k, q.acctime))
          (by intro j t h; cases h; omega) (Or.inr (by simp))
        exact ⟨j, t, h1, by simp only [List.length_cons]; omega⟩
      · rw [if_neg hlt]
        obtain ⟨j, t, h1, h2⟩ := ih (k + 1) (some (j0, t0))
          (by intro j t h; cases h; omega) (Or.inr (by simp))
        exact ⟨j, t, h1, by simp only [List.length_cons]; omega⟩

theorem remove_oldest_forward_spec (p : GdmXdmcpManagerPrivate) (h : p.forward_queries ≠ []) :
    ∃ i, i < p.forward_queries.length
      ∧ remove_oldest_forward p
          = ({ p with forward_queries := p.forward_queries.eraseIdx i }, true) := by
  obtain ⟨j, t, h1, h2⟩ := oldest_forward_some p.forward_queries 0 none
    (by intro j t h; cases h) (Or.inl h)
  refine ⟨j, by omega, ?_⟩
  unfold remove_oldest_forward gdm_forward_query_dispose
  rw [h1]

theorem forward_query_alloc_evict_spec : ∀ (count : Nat) (p : GdmXdmcpManagerPrivate),
    p.forward_queries.length = count →
    (gdm_forward_query_alloc_evict count p).forward_queries.length = min count 10
      ∧ (gdm_forward_query_alloc_evict count p).forward_queries.Sublist p.forward_queries
      ∧ (gdm_forward_query_alloc_evict count p).managed_forwards = p.managed_forwards := by
  intro count
  induction count with
  | zero =>
    intro p hp
    unfold gdm_forward_query_alloc_evict
    exact ⟨by simpa using hp, List.Sublist.refl _, rfl⟩
  | succ count ih =>
    intro p hp
    unfold gdm_forward_query_alloc_evict GDM_MAX_FORWARD_QUERIES
    by_cases hgt : count + 1 > 10
    · rw [if_pos hgt]
      have hne : p.forward_queries ≠ [] := by
        intro h
        rw [h] at hp
        simp at hp
      obtain ⟨i, hi, hr⟩ := remove_oldest_forward_spec p hne
      rw [hr]
      simp only []
      obtain ⟨a, b, c⟩ := ih { p with forward_queries := p.forward_queries.eraseIdx i }
        (by simp only [List.length_eraseIdx, hi, if_true]; omega)
      refine ⟨?_, ?_, c⟩
      · rw [a]; omega
      · exact b.trans (List.eraseIdx_sublist _ _)
    · rw [if_neg hgt]
      exact ⟨by omega, List.Sublist.refl _, rfl⟩

theorem forward_query_alloc_spec (p : GdmXdmcpManagerPrivate) (a b : sockaddr_storage) :
    ∃ rest, (gdm_forward_query_alloc p a b).forward_queries
        = { acctime := 0, dsp_sa := b, from_sa := a } :: rest
      ∧ rest.length = min p.forward_queries.length 10
      ∧ rest.Sublist p.forward_queries
      ∧ (gdm_forward_query_alloc p a b).managed_forwards = p.managed_forwards := by
  obtain ⟨h1, h2, h3⟩ := forward_query_alloc_evict_spec p.forward_queries.length p rfl
  unfold gdm_forward_query_alloc
  exact ⟨_, rfl, h1, h2, h3⟩

theorem trace_eleven_forwards_local : ∀ e ∈ trace_eleven_forwards, e.1.local_addrs = [] := by
  intro e he
  simp only [trace_eleven_forwards, List.mem_map] at he
  obtain ⟨k, _, rfl⟩ := he
  rfl

theorem state_eleven_forwards_reachable : Reachable [] state_eleven_forwards :=
  reachable_of_run 7 16 4 trace_eleven_forwards state_eleven_forwards (by decide) (by decide)
    (by norm_num) (by norm_num) trace_eleven_forwards_local (by decide)

/-- C29: `gdm_forward_query_alloc` evicts only while the count is above 10 (`count >
GDM_MAX_FORWARD_QUERIES`), so on a table of 10 or more entries it leaves 10 and inserts the
new one: the table then holds 11 entries.  Eleven FORWARD_QUERY datagrams for eleven
displays lead the initial manager to a table of 11 entries. -/
theorem C29_alloc_leaves_eleven :
    (∀ (p : GdmXdmcpManagerPrivate) (a b : sockaddr_storage),
        (gdm_forward_query_alloc p a b).forward_queries.length
          = min p.forward_queries.length 10 + 1)
    ∧ (∀ (p : GdmXdmcpManagerPrivate) (a b : sockaddr_storage),
        10 ≤ p.forward_queries.length →
        (gdm_forward_query_alloc p a b).forward_queries.length = 11)
    ∧ Reachable [] state_eleven_forwards
    ∧ state_eleven_forwards.priv.forward_queries.length = 11 := by
  have h : ∀ (p : GdmXdmcpManagerPrivate) (a b : sockaddr_storage),
      (gdm_forward_query_alloc p a b).forward_queries.length
        = min p.forward_queries.length 10 + 1 := by
    intro p a b
    obtain ⟨rest, h1, h2, _⟩ := forward_query_alloc_spec p a b
    rw [h1, List.length_cons, h2]
  refine ⟨h, ?_, state_eleven_forwards_reachable, by decide⟩
  intro p a b hp
  rw [h]
  omega

/-- C30: the entry that `gdm_forward_query_alloc` inserts at the head of the table has the
display address `origin` and the from address `from` it was given, and `acctime` 0: the
entry comes zeroed from `g_new0` and `acctime` is not assigned (the function does not read
the clock).  A FORWARD_QUERY handled at wallclock time 100 leaves an entry with `acctime`
0. -/
theorem C30_alloc_entry_acctime_zero :
    (∀ (p : GdmXdmcpManagerPrivate) (from_sa origin : sockaddr_storage),
        (gdm_forward_query_alloc p from_sa origin).forward_queries.head?
          = some { acctime := 0, dsp_sa := origin, from_sa := from_sa })
    ∧ (sample_env_resolving 100).now = 100
    ∧ (decode_packet (sample_env_resolving 100) (sample_init 7 16 4)
          (sample_dg_forward_query sample_hostB 11)).map (fun r => r.1.priv.forward_queries)
        = some [{ acctime := 0, dsp_sa := sample_hostA, from_sa := sample_hostB }] := by
  refine ⟨?_, rfl, by decide⟩
  intro p a b
  obtain ⟨rest, h1, _⟩ := forward_query_alloc_spec p a b
  rw [h1]
  rfl


/-! ## WILLING and UNWILLING: the status cache and the rate limit -/

/-- C22: `gdm_xdmcp_send_willing` never assigns `last_willing`, so while it is 0 (its
initialiser) every WILLING evaluates the status source (the willing script, else sysid)
anew and nothing is reused.  A manager configured with a willing script answers a QUERY at
time 100, when the script prints "load 1", and a QUERY at time 101, when it prints
"load 2": the second WILLING carries "load 2". -/
theorem C22_willing_status_not_cached :
    (∀ (env : Env) (s : Daemon) (sa : sockaddr_storage),
        (gdm_xdmcp_send_willing env s sa).1.statics.last_willing = s.statics.last_willing)
    ∧ (∀ (env : Env) (s : Daemon) (sa : sockaddr_storage), s.statics.last_willing = 0 →
        (gdm_xdmcp_send_willing env s sa).1.statics.last_status
          = some ((get_willing_output env s).getD s.priv.sysid))
    ∧ sample_init_script.statics.last_willing = 0
    ∧ run_sent sample_init_script
          [(sample_env_willing 100 "load 1", sample_dg_query sample_hostA QUERY 21),
           (sample_env_willing 101 "load 2", sample_dg_query sample_hostA QUERY 21)]
        = some [(100, willing_packet sample_init_script sample_hostA (ascii "load 1")),
                (101, willing_packet sample_init_script sample_hostA (ascii "load 2"))] := by
  refine ⟨?_, ?_, rfl, by decide⟩
  · intro env s sa
    rfl
  · intro env s sa h0
    unfold gdm_xdmcp_send_willing
    simp only [h0, true_or, if_true]
    cases get_willing_output env s <;> rfl

theorem decode_packet_denied (env : Env) (s : Daemon) (dg : Datagram)
    (hdeny : env.host_allow dg.clnt_sa = false) :
    decode_packet env s dg = some (s, [])
      ∨ decode_packet env s dg = some (gdm_xdmcp_send_unwilling env s dg.clnt_sa) := by
  have hdeny' : ¬ env.host_allow dg.clnt_sa = true := by simp [hdeny]
  by_cases hc : dg.cond_in = false
  · exact Or.inl (decode_packet_dropped env s dg (Or.inl hc))
  · by_cases hf : dg.fill_ok = false
    · exact Or.inl (decode_packet_dropped env s dg (Or.inr (Or.inl hf)))
    · rcases Option.eq_none_or_eq_some dg.header with hh | ⟨h, hh⟩
      · exact Or.inl (decode_packet_dropped env s dg (Or.inr (Or.inr (Or.inl hh))))
      · by_cases hv : h.version = XDM_PROTOCOL_VERSION ∨ h.version = GDM_XDMCP_PROTOCOL_VERSION
        · have hd := decode_packet_dispatch env s dg h (by simpa using hc) (by simpa using hf)
            hh hv
          by_cases o2 : h.opcode = QUERY
          · right
            rw [hd, o2]
            show some (gdm_xdmcp_handle_query env s dg.clnt_sa h.length dg.as_authlist) = _
            unfold gdm_xdmcp_handle_query
            rw [if_neg hdeny']
          · left
            rw [hd, if_neg o2]
            unfold gdm_xdmcp_handle_broadcast_query gdm_xdmcp_handle_indirect_query
              gdm_xdmcp_handle_forward_query gdm_xdmcp_handle_request gdm_xdmcp_handle_manage
              gdm_xdmcp_handle_keepalive gdm_xdmcp_handle_managed_forward
              gdm_xdmcp_handle_got_managed_forward
            rw [if_neg hdeny']
            simp only [hdeny, if_true, ite_self]
        · exact Or.inl (decode_packet_dropped env s dg
            (Or.inr (Or.inr (Or.inr ⟨h, hh, fun a => hv (Or.inl a), fun a => hv (Or.inr a)⟩))))

theorem send_unwilling_cases (env : Env) (s : Daemon) (sa : sockaddr_storage) :
    (¬ s.statics.last_time + 1 < (env.now : Int)
        ∧ gdm_xdmcp_send_unwilling env s sa = (s, []))
      ∨ (s.statics.last_time + 1 < (env.now : Int)
        ∧ (gdm_xdmcp_send_unwilling env s sa).2 = [unwilling_packet s sa]
        ∧ (gdm_xdmcp_send_unwilling env s sa).1.statics.last_time = (env.now : Int)) := by
  unfold gdm_xdmcp_send_unwilling
  by_cases h : s.statics.last_time + 1 ≥ (env.now : Int)
  · rw [if_pos h]
    exact Or.inl ⟨by omega, rfl⟩
  · rw [if_neg h]
    exact Or.inr ⟨by omega, rfl, rfl⟩

theorem run_sent_denied : ∀ (l : List (Env × Datagram)) (s : Daemon),
    (∀ e ∈ l, e.1.host_allow e.2.clnt_sa = false) →
    ∃ em, run_sent s l = some em
      ∧ (∀ p ∈ em, p.2.header.opcode = UNWILLING ∧ s.statics.last_time + 1 < (p.1 : Int))
      ∧ em.Pairwise (fun a b => a.1 + 1 < b.1) := by
  intro l
  induction l with
  | nil =>
    intro s _
    exact ⟨[], rfl, by simp, List.Pairwise.nil⟩
  | cons e rest ih =>
    intro s hd
    obtain ⟨env, dg⟩ := e
    have hdeny : env.host_allow dg.clnt_sa = false := hd (env, dg) (List.mem_cons_self _ _)
    have hrest : ∀ e ∈ rest, e.1.host_allow e.2.clnt_sa = false :=
      fun e he => hd e (List.mem_cons_of_mem _ he)
    have quiet : decode_packet env s dg = some (s, []) →
        ∃ em, run_sent s ((env, dg) :: rest) = some em
          ∧ (∀ p ∈ em, p.2.header.opcode = UNWILLING ∧ s.statics.last_time + 1 < (p.1 : Int))
          ∧ em.Pairwise (fun a b => a.1 + 1 < b.1) := by
      intro hq
      obtain ⟨em, h1, h2, h3⟩ := ih s hrest
      refine ⟨em, ?_, h2, h3⟩
      unfold run_sent
      rw [hq]
      simp [h1]
    rcases decode_packet_denied env s dg hdeny with hq | hu
    · exact quiet hq
    · rcases send_unwilling_cases env s dg.clnt_sa with ⟨_, hs⟩ | ⟨hlt, hout, hlast⟩
      · rw [hs] at hu
        exact quiet hu
      · obtain ⟨em, h1, h2, h3⟩ := ih (gdm_xdmcp_send_unwilling env s dg.clnt_sa).1 hrest
        rw [hlast] at h2
        refine ⟨(env.now, unwilling_packet s dg.clnt_sa) :: em, ?_, ?_, ?_⟩
        · unfold run_sent
          rw [hu]
          simp only [h1, hout, Option.map_some', List.map_cons, List.map_nil,
            List.singleton_append]
        · intro p hp
          simp only [List.mem_cons] at hp
          rcases hp with rfl | hp
          · exact ⟨rfl, hlt⟩
          · exact ⟨(h2 p hp).1, by have := (h2 p hp).2; omega⟩
        · refine List.Pairwise.cons ?_ h3
          intro p hp
          have := (h2 p hp).2
          show env.now + 1 < p.1
          omega

/-- C21: `gdm_xdmcp_send_unwilling` sends (one UNWILLING) exactly when `now > last_time +
1`, and then records `now` as `last_time`.  Hence for every state and every sequence of
datagrams from denied hosts, QUERYs or others, whatever their wallclock times: the run
returns, every packet sent is an UNWILLING, and any two of them were sent at wallclock
times more than one second apart, so never within the same second. -/
theorem C21_unwilling_rate_limited :
    (∀ (env : Env) (s : Daemon) (sa : sockaddr_storage),
        ((gdm_xdmcp_send_unwilling env s sa).2 ≠ [] ↔ s.statics.last_time + 1 < (env.now : Int))
        ∧ ((gdm_xdmcp_send_unwilling env s sa).2 ≠ [] →
            (gdm_xdmcp_send_unwilling env s sa).2 = [unwilling_packet s sa]
            ∧ (gdm_xdmcp_send_unwilling env s sa).1.statics.last_time = (env.now : Int)))
    ∧ ∀ (s : Daemon) (l : List (Env × Datagram)),
        (∀ e ∈ l, e.1.host_allow e.2.clnt_sa = false) →
        ∃ em, run_sent s l = some em
          ∧ (∀ p ∈ em, p.2.header.opcode = UNWILLING)
          ∧ em.Pairwise (fun a b => a.1 + 1 < b.1)
          ∧ em.Pairwise (fun a b => a.1 ≠ b.1) := by
  refine ⟨?_, ?_⟩
  · intro env s sa
    rcases send_unwilling_cases env s sa with ⟨h1, h2⟩ | ⟨h1, h2, h3⟩
    · rw [h2]
      exact ⟨⟨fun h => absurd rfl h, fun h => absurd h h1⟩, fun h => absurd rfl h⟩
    · rw [h2]
      exact ⟨⟨fun _ => h1, fun _ => by simp⟩, fun _ => ⟨rfl, h3⟩⟩
  · intro s l hd
    obtain ⟨em, h1, h2, h3⟩ := run_sent_denied l s hd
    refine ⟨em, h1, fun p hp => (h2 p hp).1, h3, ?_⟩
    exact h3.imp (fun h => by omega)

/-- C21, witness: three denied QUERYs at the times 100, 100 and 102 are answered with
two UNWILLINGs, at 100 and at 102. -/
theorem C21_unwilling_rate_limited_witness :
    (∀ e ∈ trace_denied_queries, e.1.host_allow e.2.clnt_sa = false)
      ∧ run_sent (sample_init 7 16 4) trace_denied_queries
          = some [(100, unwilling_packet (sample_init 7 16 4) sample_hostA),
                  (102, unwilling_packet (sample_init 7 16 4) sample_hostA)]
      ∧ ∃ em, run_sent (sample_init 7 16 4) trace_denied_queries = some em
          ∧ em.Pairwise (fun a b => a.1 ≠ b.1) :=
  ⟨by decide, by decide,
   match C21_unwilling_rate_limited.2 (sample_init 7 16 4) trace_denied_queries (by decide) with
   | ⟨em, h1, _, _, h4⟩ => ⟨em, h1, h4⟩⟩


/-! ## MANAGED_FORWARD: the acknowledgement and the retransmissions -/

/-- C25, the counterexample: a MANAGED_FORWARD from a host that tcp-wrappers deny, and a
MANAGED_FORWARD from an allowed host whose origin address does not resolve, are both
dropped: no GOT_MANAGED_FORWARD is sent. -/
theorem C25_counterexample :
    (sample_env_denying 100).host_allow sample_hostB = false
      ∧ decode_packet (sample_env_denying 100) (sample_init 7 16 4)
            (sample_dg_vendor sample_hostB GDM_XDMCP_MANAGED_FORWARD 6)
          = some (sample_init 7 16 4, [])
      ∧ (sample_env 100 []).host_allow sample_hostB = true
      ∧ create_sa_from_request (sample_env 100 []) [10, 0, 0, 2] none sample_hostB.ss_family
          = none
      ∧ decode_packet (sample_env 100 []) (sample_init 7 16 4)
            (sample_dg_vendor sample_hostB GDM_XDMCP_MANAGED_FORWARD 6)
          = some (sample_init 7 16 4, []) :=
  ⟨rfl, by decide, rfl, by decide, by decide⟩

/-- C25 (amended): a MANAGED_FORWARD from an allowed host whose origin address is read and
resolves (`create_sa_from_request` succeeds: 4 or 16 bytes that `getaddrinfo` accepts, port
177) is answered with exactly one packet, a GOT_MANAGED_FORWARD addressed to the sender
and carrying the origin address, whether or not `mdm_choose_indirect_lookup_by_chosen`
finds a record for (chosen = sender, origin = parsed address); when it finds one, that
record is disposed, and otherwise the state is unchanged. -/
theorem C25_managed_forward_acknowledged (env : Env) (s : Daemon) (sa : sockaddr_storage)
    (addr : List Nat) (origin : sockaddr_storage) (ha : env.host_allow sa = true)
    (ho : create_sa_from_request env addr none sa.ss_family = some origin) :
    (gdm_xdmcp_handle_managed_forward env s sa (some addr)).2
        = [got_managed_forward_packet sa origin]
      ∧ (got_managed_forward_packet sa origin).dest = sa
      ∧ (got_managed_forward_packet sa origin).header.opcode = GDM_XDMCP_GOT_MANAGED_FORWARD
      ∧ (got_managed_forward_packet sa origin).fields
          = [WireField.ARRAY8 (set_address_for_request origin)]
      ∧ (∀ j, mdm_choose_indirect_lookup_by_chosen env s.choose sa origin = some j →
          (gdm_xdmcp_handle_managed_forward env s sa (some addr)).1
            = { s with choose := mdm_choose_indirect_dispose s.choose j })
      ∧ (mdm_choose_indirect_lookup_by_chosen env s.choose sa origin = none →
          (gdm_xdmcp_handle_managed_forward env s sa (some addr)).1 = s) := by
  have ha' : ¬ env.host_allow sa = false := by simp [ha]
  have he : gdm_xdmcp_handle_managed_forward env s sa (some addr)
      = match mdm_choose_indirect_lookup_by_chosen env s.choose sa origin with
        | some j =>
          ({ s with choose := mdm_choose_indirect_dispose s.choose j },
           [got_managed_forward_packet sa origin])
        | none => (s, [got_managed_forward_packet sa origin]) := by
    unfold gdm_xdmcp_handle_managed_forward
    rw [if_neg ha']
    simp only [ho]
  refine ⟨?_, rfl, rfl, rfl, ?_, ?_⟩
  · rw [he]
    cases mdm_choose_indirect_lookup_by_chosen env s.choose sa origin <;> rfl
  · intro j hj
    rw [he, hj]
  · intro hj
    rw [he, hj]

/-- C25, witness: the fresh manager, which holds no indirect record, answers the
MANAGED_FORWARD of 10.0.0.3 about the origin 10.0.0.2 with one GOT_MANAGED_FORWARD. -/
theorem C25_managed_forward_acknowledged_witness :
    (sample_env_resolving 100).host_allow sample_hostB = true
      ∧ create_sa_from_request (sample_env_resolving 100) [10, 0, 0, 2] none
            sample_hostB.ss_family
          = some { ss_family := AF_INET, addr := [10, 0, 0, 2], port := 177, scope_id := 0 }
      ∧ (gdm_xdmcp_handle_managed_forward (sample_env_resolving 100) (sample_init 7 16 4)
            sample_hostB (some [10, 0, 0, 2])).2
          = [got_managed_forward_packet sample_hostB
              { ss_family := AF_INET, addr := [10, 0, 0, 2], port := 177, scope_id := 0 }] :=
  ⟨rfl, by decide,
   (C25_managed_forward_acknowledged (sample_env_resolving 100) (sample_init 7 16 4)
      sample_hostB [10, 0, 0, 2]
      { ss_family := AF_INET, addr := [10, 0, 0, 2], port := 177, scope_id := 0 } rfl
      (by decide)).1⟩

theorem gdm_address_equal_symm (a b : sockaddr_storage) :
    gdm_address_equal a b = gdm_address_equal b a := by
  rw [Bool.eq_iff_iff, gdm_address_equal_iff, gdm_address_equal_iff]
  constructor
  · rintro ⟨h1, h2, h3⟩
    refine ⟨h1.symm, h2.symm, ?_⟩
    rcases h3 with h | ⟨h, h'⟩
    · exact Or.inl (by rw [← h1]; exact h)
    · exact Or.inr ⟨by rw [← h1]; exact h, h'.symm⟩
  · rintro ⟨h1, h2, h3⟩
    refine ⟨h1.symm, h2.symm, ?_⟩
    rcases h3 with h | ⟨h, h'⟩
    · exact Or.inl (by rw [← h1]; exact h)
    · exact Or.inr ⟨by rw [← h1]; exact h, h'.symm⟩

theorem gdm_address_equal_both (a b c : sockaddr_storage)
    (h1 : gdm_address_equal a c = true) (h2 : gdm_address_equal b c = true) :
    gdm_address_equal a b = true := by
  rw [gdm_address_equal_symm b c] at h2
  rw [gdm_address_equal_right c b a h2] at h1
  exact h1

theorem TablesInv_nil : TablesInv [] [] :=
  ⟨List.Pairwise.nil, List.Pairwise.nil, by intro q hq; simp at hq⟩

theorem TablesInv_sublist (fq fq1 : List GdmForwardQuery) (mf mf1 : List ManagedForward)
    (h : TablesInv fq mf) (h1 : fq1.Sublist fq)
    (h2 : (mf1.map mf_pair).Sublist (mf.map mf_pair)) : TablesInv fq1 mf1 :=
  ⟨h.queue.sublist h2, h.forwards.sublist h1,
   fun q hq k hk => h.apart q (h1.subset hq) k (h2.subset hk)⟩

theorem gdm_forward_query_lookup_scan_sublist (t : Nat) (sa : sockaddr_storage) :
    ∀ (rest kept : List GdmForwardQuery),
      (gdm_forward_query_lookup_scan t sa kept rest).1.Sublist (kept.reverse ++ rest) := by
  intro rest
  induction rest with
  | nil =>
    intro kept
    simp [gdm_forward_query_lookup_scan]
  | cons q rest ih =>
    intro kept
    unfold gdm_forward_query_lookup_scan
    by_cases he : gdm_address_equal q.dsp_sa sa = true
    · rw [if_pos he]
    · rw [if_neg he]
      by_cases hs : q.acctime > 0 ∧ t > q.acctime + GDM_FORWARD_QUERY_TIMEOUT
      · rw [if_pos hs]
        exact (ih kept).trans (List.Sublist.append_left (List.sublist_cons_self _ _) _)
      · rw [if_neg hs]
        have := ih (q :: kept)
        simpa using this

theorem resolve_forward_query_struct (env : Env) (p : GdmXdmcpManagerPrivate)
    (sa : sockaddr_storage) :
    (∃ l : List GdmForwardQuery, l.Sublist p.forward_queries
        ∧ (∀ q ∈ p.forward_queries, gdm_address_equal q.dsp_sa sa = false)
        ∧ resolve_forward_query env p sa = ({ p with forward_queries := l }, []))
    ∨ ∃ (l : List GdmForwardQuery) (i : Nat) (q : GdmForwardQuery),
        l.Sublist p.forward_queries ∧ l[i]? = some q
        ∧ gdm_address_equal q.dsp_sa sa = true
        ∧ resolve_forward_query env p sa
            = ({ p with
                 forward_queries := l.eraseIdx i,
                 managed_forwards :=
                   { times := 0, manager := q.from_sa, origin := sa } :: p.managed_forwards },
               [managed_forward_packet q.from_sa sa]) := by
  unfold resolve_forward_query gdm_forward_query_lookup
  have hsub := gdm_forward_query_lookup_scan_sublist env.now sa p.forward_queries []
  rcases hs : gdm_forward_query_lookup_scan env.now sa [] p.forward_queries with ⟨l, r⟩
  rw [hs] at hsub
  obtain ⟨h1, h2⟩ := gdm_forward_query_lookup_scan_spec env.now sa _ _ _ _ hs
  cases r with
  | none => exact Or.inl ⟨l, by simpa using hsub, h2 rfl, rfl⟩
  | some i =>
    obtain ⟨q, c1, c2, c3⟩ := h1 i rfl
    refine Or.inr ⟨l, i, q, by simpa using hsub, c1, c3, ?_⟩
    simp only [c1]
    rfl

theorem TablesInv_resolve (env : Env) (p : GdmXdmcpManagerPrivate) (sa : sockaddr_storage)
    (h : TablesInv p.forward_queries p.managed_forwards) :
    TablesInv (resolve_forward_query env p sa).1.forward_queries
      (resolve_forward_query env p sa).1.managed_forwards := by
  rcases resolve_forward_query_struct env p sa with ⟨l, hl, _, he⟩ | ⟨l, i, q, hl, hq, heq, he⟩
  · rw [he]
    exact TablesInv_sublist _ _ _ _ h hl (List.Sublist.refl _)
  · rw [he]
    have hl' : TablesInv l p.managed_forwards :=
      TablesInv_sublist _ _ _ _ h hl (List.Sublist.refl _)
    obtain ⟨l1, l2, rfl, rfl⟩ := getElem?_split l i q hq
    have hfw := hl'.forwards
    rw [List.pairwise_append] at hfw
    obtain ⟨f1, f2, f3⟩ := hfw
    rw [List.pairwise_cons] at f2
    have hq_mem : q ∈ l1 ++ q :: l2 := by simp
    refine ⟨?_, ?_, ?_⟩
    · show (({ times := 0, manager := q.from_sa, origin := sa } :: p.managed_forwards).map
        mf_pair).Pairwise _
      rw [List.map_cons, List.pairwise_cons]
      refine ⟨?_, h.queue⟩
      intro k hk hboth
      apply hl'.apart q hq_mem k hk
      obtain ⟨b1, b2⟩ := hboth
      have b1' : gdm_address_equal q.from_sa k.1 = true := b1
      have b2' : gdm_address_equal sa k.2 = true := b2
      refine ⟨by rw [gdm_address_equal_symm]; exact b1', ?_⟩
      rw [gdm_address_equal_symm] at b2'
      exact gdm_address_equal_both _ _ _ b2' heq
    · show ((l1 ++ q :: l2).eraseIdx l1.length).Pairwise _
      rw [eraseIdx_split]
      exact hl'.forwards.sublist (List.Sublist.append_left (List.sublist_cons_self _ _) _)
    · intro q' hq' k hk
      have hq'mem : q' ∈ l1 ++ l2 := by
        have : (l1 ++ q :: l2).eraseIdx l1.length = l1 ++ l2 := eraseIdx_split l1 l2 q
        rw [← this]
        exact hq'
      have hq'l : q' ∈ l1 ++ q :: l2 := by
        simp only [List.mem_append, List.mem_cons] at hq'mem ⊢
        rcases hq'mem with a | a
        · exact Or.inl a
        · exact Or.inr (Or.inr a)
      rw [List.map_cons, List.mem_cons] at hk
      rcases hk with rfl | hk
      · rintro ⟨_, b2⟩
        have b2' : gdm_address_equal sa q'.dsp_sa = true := b2
        have hqq : gdm_address_equal q.dsp_sa q'.dsp_sa = true := by
          rw [gdm_address_equal_symm] at b2'
          exact gdm_address_equal_both _ _ _ heq b2'
        simp only [List.mem_append] at hq'mem
        rcases hq'mem with a | a
        · have := f3 q' a q (List.mem_cons_self _ _)
          rw [gdm_address_equal_symm] at this
          rw [this] at hqq
          cases hqq
        · have := f2.1 q' a
          rw [this] at hqq
          cases hqq
      · exact hl'.apart q' hq'l k hk


theorem erase_first_match (sa o : sockaddr_storage) : ∀ l : List ManagedForward,
    (l.map mf_pair).Pairwise (fun a b =>
      ¬ (gdm_address_equal a.1 b.1 = true ∧ gdm_address_equal a.2 b.2 = true)) →
    (find_first (fun mf => gdm_address_equal mf.manager sa && gdm_address_equal mf.origin o)
        l).elim l (fun i => l.eraseIdx i)
      = l.filter (fun mf =>
          !(gdm_address_equal mf.manager sa && gdm_address_equal mf.origin o)) := by
  intro l
  induction l with
  | nil => intro _; rfl
  | cons a l ih =>
    intro h
    rw [List.map_cons, List.pairwise_cons] at h
    obtain ⟨ha, hl⟩ := h
    have ih' := ih hl
    unfold find_first
    by_cases hm : (gdm_address_equal a.manager sa && gdm_address_equal a.origin o) = true
    · rw [if_pos hm]
      have hall : ∀ b ∈ l,
          (!(gdm_address_equal b.manager sa && gdm_address_equal b.origin o)) = true := by
        intro b hb
        by_contra hcon
        have hb' : (gdm_address_equal b.manager sa && gdm_address_equal b.origin o) = true := by
          simpa using hcon
        rw [Bool.and_eq_true] at hm hb'
        exact ha (mf_pair b) (List.mem_map_of_mem _ hb)
          ⟨gdm_address_equal_both _ _ _ hm.1 hb'.1, gdm_address_equal_both _ _ _ hm.2 hb'.2⟩
      have hf : l.filter (fun mf =>
          !(gdm_address_equal mf.manager sa && gdm_address_equal mf.origin o)) = l :=
        List.filter_eq_self.mpr hall
      rw [List.filter_cons_of_neg (by simp [hm]), hf]
      rfl
    · rw [if_neg hm]
      have hm' : (gdm_address_equal a.manager sa && gdm_address_equal a.origin o) = false := by
        simpa using hm
      cases hf : find_first (fun mf => gdm_address_equal mf.manager sa
          && gdm_address_equal mf.origin o) l with
      | none =>
        rw [hf] at ih'
        simp only [Option.elim] at ih'
        simp only [Option.map_none', Option.elim]
        rw [List.filter_cons_of_pos (by simp [hm']), ← ih']
      | some j =>
        rw [hf] at ih'
        simp only [Option.elim] at ih'
        simp only [Option.map_some', Option.elim, List.eraseIdx_cons_succ]
        rw [List.filter_cons_of_pos (by simp [hm']), ← ih']

theorem whack_spec (p : GdmXdmcpManagerPrivate) (sa o : sockaddr_storage) :
    gdm_xdmcp_whack_queued_managed_forwards p sa o
        = { p with managed_forwards :=
              (gdm_xdmcp_whack_queued_managed_forwards p sa o).managed_forwards }
      ∧ (gdm_xdmcp_whack_queued_managed_forwards p sa o).managed_forwards.Sublist
          p.managed_forwards
      ∧ (gdm_xdmcp_whack_queued_managed_forwards p sa o).managed_forwards
          = (find_first (fun mf => gdm_address_equal mf.manager sa
                && gdm_address_equal mf.origin o) p.managed_forwards).elim
              p.managed_forwards (fun i => p.managed_forwards.eraseIdx i) := by
  unfold gdm_xdmcp_whack_queued_managed_forwards
  cases find_first (fun mf => gdm_address_equal mf.manager sa
      && gdm_address_equal mf.origin o) p.managed_forwards with
  | none => exact ⟨rfl, List.Sublist.refl _, rfl⟩
  | some i => exact ⟨rfl, List.eraseIdx_sublist _ _, rfl⟩

theorem whack_filter (p : GdmXdmcpManagerPrivate) (sa o : sockaddr_storage)
    (h : TablesInv p.forward_queries p.managed_forwards) :
    gdm_xdmcp_whack_queued_managed_forwards p sa o
      = { p with managed_forwards := p.managed_forwards.filter (fun mf =>
            !(gdm_address_equal mf.manager sa && gdm_address_equal mf.origin o)) } := by
  obtain ⟨h1, _, h3⟩ := whack_spec p sa o
  rw [h1, h3, erase_first_match sa o _ h.queue]

theorem forward_query_lookup_struct (t : Nat) (p : GdmXdmcpManagerPrivate)
    (sa : sockaddr_storage) :
    (∃ l : List GdmForwardQuery, l.Sublist p.forward_queries
        ∧ (∀ q ∈ p.forward_queries, gdm_address_equal q.dsp_sa sa = false)
        ∧ gdm_forward_query_lookup t p sa = ({ p with forward_queries := l }, none))
    ∨ ∃ (l : List GdmForwardQuery) (i : Nat) (q : GdmForwardQuery),
        l.Sublist p.forward_queries ∧ l[i]? = some q
        ∧ gdm_address_equal q.dsp_sa sa = true
        ∧ gdm_forward_query_lookup t p sa = ({ p with forward_queries := l }, some i) := by
  unfold gdm_forward_query_lookup
  have hsub := gdm_forward_query_lookup_scan_sublist t sa p.forward_queries []
  rcases hs : gdm_forward_query_lookup_scan t sa [] p.forward_queries with ⟨l, r⟩
  rw [hs] at hsub
  obtain ⟨h1, h2⟩ := gdm_forward_query_lookup_scan_spec t sa _ _ _ _ hs
  cases r with
  | none => exact Or.inl ⟨l, by simpa using hsub, h2 rfl, rfl⟩
  | some i =>
    obtain ⟨q, c1, c2, c3⟩ := h1 i rfl
    exact Or.inr ⟨l, i, q, by simpa using hsub, c1, c3, rfl⟩

theorem pairwise_erase_unequal (l : List GdmForwardQuery) (i : Nat) (q : GdmForwardQuery)
    (sa : sockaddr_storage)
    (hp : l.Pairwise (fun a b => gdm_address_equal a.dsp_sa b.dsp_sa = false))
    (hq : l[i]? = some q) (he : gdm_address_equal q.dsp_sa sa = true) :
    ∀ q' ∈ l.eraseIdx i, gdm_address_equal q'.dsp_sa sa = false := by
  obtain ⟨l1, l2, rfl, rfl⟩ := getElem?_split l i q hq
  rw [eraseIdx_split]
  rw [List.pairwise_append] at hp
  obtain ⟨_, f2, f3⟩ := hp
  rw [List.pairwise_cons] at f2
  intro q' hq'
  rw [← gdm_address_equal_right q.dsp_sa sa q'.dsp_sa he]
  simp only [List.mem_append] at hq'
  rcases hq' with a | a
  · exact f3 q' a q (List.mem_cons_self _ _)
  · rw [gdm_address_equal_symm]
    exact f2.1 q' a

theorem handle_forward_query_accepted (env : Env) (s : Daemon) (sa : sockaddr_storage)
    (len : Nat) (r : ForwardQueryFields) (T : sockaddr_storage)
    (ha : env.host_allow sa = true)
    (hlen : len = 1 + (2 + r.clnt_addr.length) + (2 + r.clnt_port.length)
        + (r.clnt_authlist.map (fun a => 2 + a.length)).sum)
    (hT : create_sa_from_request env r.clnt_addr (some r.clnt_port) sa.ss_family = some T)
    (haT : env.host_allow T = true)
    (hinv : TablesInv s.priv.forward_queries s.priv.managed_forwards) :
    ∃ (s1 : Daemon) (rest : List GdmForwardQuery) (pk : Sent),
      gdm_xdmcp_handle_forward_query env s sa len (some r) = (s1, [pk])
      ∧ pk.dest = T ∧ pk.header.opcode = WILLING
      ∧ s1.priv.forward_queries = { acctime := 0, dsp_sa := T, from_sa := sa } :: rest
      ∧ rest.Sublist s.priv.forward_queries
      ∧ (∀ q ∈ rest, gdm_address_equal q.dsp_sa T = false)
      ∧ s1.priv.managed_forwards = s.priv.managed_forwards.filter (fun mf =>
          !(gdm_address_equal mf.manager sa && gdm_address_equal mf.origin T))
      ∧ s1.displays = s.displays ∧ s1.choose = s.choose := by
  have ha' : ¬ env.host_allow sa = false := by simp [ha]
  have hlen' : ¬ len ≠ 1 + (2 + r.clnt_addr.length) + (2 + r.clnt_port.length)
      + (r.clnt_authlist.map (fun a => 2 + a.length)).sum := by simp [hlen]
  have hw := whack_filter s.priv sa T hinv
  have finish : ∀ (p3 : GdmXdmcpManagerPrivate),
      p3.forward_queries.Sublist s.priv.forward_queries →
      (∀ q ∈ p3.forward_queries, gdm_address_equal q.dsp_sa T = false) →
      p3.managed_forwards = s.priv.managed_forwards.filter (fun mf =>
          !(gdm_address_equal mf.manager sa && gdm_address_equal mf.origin T)) →
      ∃ (s1 : Daemon) (rest : List GdmForwardQuery) (pk : Sent),
        gdm_xdmcp_send_willing env { s with priv := gdm_forward_query_alloc p3 sa T } T
            = (s1, [pk])
        ∧ pk.dest = T ∧ pk.header.opcode = WILLING
        ∧ s1.priv.forward_queries = { acctime := 0, dsp_sa := T, from_sa := sa } :: rest
        ∧ rest.Sublist s.priv.forward_queries
        ∧ (∀ q ∈ rest, gdm_address_equal q.dsp_sa T = false)
        ∧ s1.priv.managed_forwards = s.priv.managed_forwards.filter (fun mf =>
            !(gdm_address_equal mf.manager sa && gdm_address_equal mf.origin T))
        ∧ s1.displays = s.displays ∧ s1.choose = s.choose := by
    intro p3 hsub hne hmf
    obtain ⟨rest, a1, _, a3, a4⟩ := forward_query_alloc_spec p3 sa T
    obtain ⟨s1, pk, b1, b2, b3, b4, b5, b6⟩ :=
      send_willing_spec env { s with priv := gdm_forward_query_alloc p3 sa T } T
    refine ⟨s1, rest, pk, b1, b2, b3, ?_, a3.trans hsub, ?_, ?_, b5, b6⟩
    · rw [b4]; exact a1
    · intro q hq
      exact hne q (a3.subset hq)
    · rw [b4]
      show (gdm_forward_query_alloc p3 sa T).managed_forwards = _
      rw [a4, hmf]
  obtain ⟨p1, hp1⟩ : ∃ p1 : GdmXdmcpManagerPrivate,
      p1 = { s.priv with managed_forwards := s.priv.managed_forwards.filter (fun mf =>
          !(gdm_address_equal mf.manager sa && gdm_address_equal mf.origin T)) } := ⟨_, rfl⟩
  rw [← hp1] at hw
  have hp1f : p1.forward_queries = s.priv.forward_queries := by rw [hp1]
  have hp1m : p1.managed_forwards = s.priv.managed_forwards.filter (fun mf =>
      !(gdm_address_equal mf.manager sa && gdm_address_equal mf.origin T)) := by rw [hp1]
  have hfw : p1.forward_queries.Pairwise
      (fun a b => gdm_address_equal a.dsp_sa b.dsp_sa = false) := by
    rw [hp1f]; exact hinv.forwards
  rcases forward_query_lookup_struct env.now p1 T
    with ⟨l, hl, hne, hlk⟩ | ⟨l, i, q, hl, hq, heq, hlk⟩
  · have he : gdm_xdmcp_handle_forward_query env s sa len (some r)
        = gdm_xdmcp_send_willing env
            { s with priv := gdm_forward_query_alloc { p1 with forward_queries := l } sa T }
            T := by
      unfold gdm_xdmcp_handle_forward_query
      rw [if_neg ha']
      simp only []
      rw [if_neg hlen']
      simp only [hT, haT, if_true, hw, hlk]
    rw [he]
    exact finish _ (by rw [← hp1f]; exact hl) (fun q hq => hne q (hl.subset hq)) hp1m
  · obtain ⟨p2, hp2⟩ : ∃ p2 : GdmXdmcpManagerPrivate,
        p2 = gdm_forward_query_dispose { p1 with forward_queries := l } i := ⟨_, rfl⟩
    have hp2f : p2.forward_queries = l.eraseIdx i := by rw [hp2]; rfl
    have hp2m : p2.managed_forwards = p1.managed_forwards := by rw [hp2]; rfl
    have he : gdm_xdmcp_handle_forward_query env s sa len (some r)
        = gdm_xdmcp_send_willing env { s with priv := gdm_forward_query_alloc p2 sa T } T := by
      rw [hp2]
      unfold gdm_xdmcp_handle_forward_query
      rw [if_neg ha']
      simp only []
      rw [if_neg hlen']
      simp only [hT, haT, if_true, hw, hlk]
    rw [he]
    refine finish p2 (by rw [hp2f, ← hp1f]; exact (List.eraseIdx_sublist _ _).trans hl) ?_
      (by rw [hp2m]; exact hp1m)
    rw [hp2f]
    exact pairwise_erase_unequal l i q T (hfw.sublist hl) hq heq

theorem TablesInv_accepted (fq rest : List GdmForwardQuery) (mf : List ManagedForward)
    (sa T : sockaddr_storage) (h : TablesInv fq mf) (hsub : rest.Sublist fq)
    (hne : ∀ q ∈ rest, gdm_address_equal q.dsp_sa T = false) :
    TablesInv ({ acctime := 0, dsp_sa := T, from_sa := sa } :: rest)
      (mf.filter (fun m => !(gdm_address_equal m.manager sa && gdm_address_equal m.origin T))) := by
  have hmsub : ((mf.filter (fun m => !(gdm_address_equal m.manager sa
      && gdm_address_equal m.origin T))).map mf_pair).Sublist (mf.map mf_pair) :=
    (List.filter_sublist _).map _
  have h0 := TablesInv_sublist fq rest mf _ h hsub hmsub
  refine ⟨h0.queue, ?_, ?_⟩
  · rw [List.pairwise_cons]
    refine ⟨?_, h0.forwards⟩
    intro q hq
    show gdm_address_equal T q.dsp_sa = false
    rw [gdm_address_equal_symm]
    exact hne q hq
  · intro q hq k hk
    rw [List.mem_cons] at hq
    rcases hq with rfl | hq
    · rw [List.mem_map] at hk
      obtain ⟨m, hm, rfl⟩ := hk
      rw [List.mem_filter] at hm
      obtain ⟨_, hm⟩ := hm
      rintro ⟨b1, b2⟩
      have b1' : gdm_address_equal m.manager sa = true := b1
      have b2' : gdm_address_equal m.origin T = true := b2
      rw [b1', b2'] at hm
      cases hm
    · exact h0.apart q hq k hk

theorem TablesInv_whack (p : GdmXdmcpManagerPrivate) (sa o : sockaddr_storage)
    (h : TablesInv p.forward_queries p.managed_forwards) :
    TablesInv (gdm_xdmcp_whack_queued_managed_forwards p sa o).forward_queries
      (gdm_xdmcp_whack_queued_managed_forwards p sa o).managed_forwards := by
  obtain ⟨h1, h2, _⟩ := whack_spec p sa o
  have hf : (gdm_xdmcp_whack_queued_managed_forwards p sa o).forward_queries
      = p.forward_queries := by rw [h1]
  rw [hf]
  exact TablesInv_sublist _ _ _ _ h (List.Sublist.refl _) (h2.map _)

theorem TablesInv_timer (p : GdmXdmcpManagerPrivate) (i : Nat)
    (h : TablesInv p.forward_queries p.managed_forwards) :
    TablesInv (managed_forward_handler p i).1.forward_queries
      (managed_forward_handler p i).1.managed_forwards := by
  unfold managed_forward_handler
  rcases Option.eq_none_or_eq_some p.managed_forwards[i]? with hn | ⟨mf, hs⟩
  · rw [hn]; exact h
  · rw [hs]
    simp only []
    split
    · exact TablesInv_sublist _ _ _ _ h (List.Sublist.refl _)
        ((List.eraseIdx_sublist _ _).map _)
    · have hm : (p.managed_forwards.set i { mf with times := mf.times + 1 }).map mf_pair
          = p.managed_forwards.map mf_pair :=
        map_set_same mf_pair p.managed_forwards i mf _ hs rfl
      exact ⟨by show ((p.managed_forwards.set i _).map mf_pair).Pairwise _; rw [hm]; exact h.queue,
        h.forwards,
        by
          intro q hq k hk
          have hk' : k ∈ (p.managed_forwards.set i { mf with times := mf.times + 1 }).map
              mf_pair := hk
          rw [hm] at hk'
          exact h.apart q hq k hk'⟩

theorem shrink_tables (s s1 : Daemon)
    (hp : (s1.priv = s.priv ∧ count_pending s1.displays = count_pending s.displays) ∨
      s1.priv = { s.priv with
        num_sessions := count_managed s1.displays % 4294967296,
        num_pending_sessions := count_pending s1.displays % 4294967296 }) :
    s1.priv.forward_queries = s.priv.forward_queries
      ∧ s1.priv.managed_forwards = s.priv.managed_forwards := by
  rcases hp with ⟨hp, _⟩ | hp <;> rw [hp] <;> exact ⟨rfl, rfl⟩

theorem TablesInv_of_eq (s s1 : Daemon)
    (h : TablesInv s.priv.forward_queries s.priv.managed_forwards)
    (he : s1.priv.forward_queries = s.priv.forward_queries
      ∧ s1.priv.managed_forwards = s.priv.managed_forwards) :
    TablesInv s1.priv.forward_queries s1.priv.managed_forwards := by
  rw [he.1, he.2]; exact h

theorem send_decline_tables (env : Env) (s : Daemon) (sa : sockaddr_storage) (reason : String)
    (h : TablesInv s.priv.forward_queries s.priv.managed_forwards) :
    TablesInv (gdm_xdmcp_send_decline env s sa reason).1.priv.forward_queries
      (gdm_xdmcp_send_decline env s sa reason).1.priv.managed_forwards := by
  have he : (gdm_xdmcp_send_decline env s sa reason).1.priv
      = (resolve_forward_query env s.priv sa).1 := rfl
  rw [he]
  exact TablesInv_resolve env s.priv sa h

theorem send_refuse_tables (env : Env) (s : Daemon) (sa : sockaddr_storage) (sessid : Nat)
    (h : TablesInv s.priv.forward_queries s.priv.managed_forwards) :
    TablesInv (gdm_xdmcp_send_refuse env s sa sessid).1.priv.forward_queries
      (gdm_xdmcp_send_refuse env s sa sessid).1.priv.managed_forwards := by
  have he : (gdm_xdmcp_send_refuse env s sa sessid).1.priv
      = (resolve_forward_query env s.priv sa).1 := rfl
  rw [he]
  exact TablesInv_resolve env s.priv sa h

theorem display_alloc_tables (env : Env) (s s4 : Daemon) (sa : sockaddr_storage)
    (he : Option String) (n : Nat) (d : GdmDisplay)
    (h : gdm_xdmcp_display_alloc env s sa he n = some (s4, d)) :
    s4.priv.forward_queries = s.priv.forward_queries
      ∧ s4.priv.managed_forwards = s.priv.managed_forwards := by
  unfold gdm_xdmcp_display_alloc at h
  cases hr : get_next_session_serial s.priv.session_serial env.random with
  | none => rw [hr] at h; simp at h
  | some r =>
    obtain ⟨a, b⟩ := r
    rw [hr] at h
    simp only [Option.some.injEq, Prod.mk.injEq] at h
    obtain ⟨h1, _⟩ := h
    subst h1
    exact ⟨rfl, rfl⟩

theorem handle_request_tables (env : Env) (s s1 : Daemon)
    (sa : sockaddr_storage) (len : Nat) (rd : Option RequestFields) (out : List Sent)
    (hinv : TablesInv s.priv.forward_queries s.priv.managed_forwards)
    (h : gdm_xdmcp_handle_request env s sa len rd = some (s1, out)) :
    TablesInv s1.priv.forward_queries s1.priv.managed_forwards := by
  unfold gdm_xdmcp_handle_request at h
  by_cases ha : env.host_allow sa = false
  · rw [if_pos ha] at h
    cases h
    exact hinv
  · rw [if_neg ha] at h
    obtain ⟨s2, e1, e2, e3, e4⟩ := request_purge_shrink env s
      (by intro hn; rw [hn] at h; simp at h)
    rw [e1] at h
    simp only [] at h
    have hinv2 := TablesInv_of_eq s s2 hinv (shrink_tables s s2 e4)
    cases rd with
    | none =>
      simp only [] at h
      cases h
      exact hinv2
    | some r =>
      simp only [] at h
      by_cases hex : request_explen r ≠ len
      · rw [if_pos hex] at h
        cases h
        exact hinv2
      · rw [if_neg hex] at h
        split at h
        · obtain ⟨s3, d1, ⟨q, d2⟩, d3, d4⟩ :=
            dispose_check_shrink s2 (env.gethostbyaddr sa) r.clnt_dspnum
              (by intro hn; rw [hn] at h; simp at h)
          rw [d1] at h
          simp only [] at h
          have hinv3 := TablesInv_of_eq s2 s3 hinv2 (shrink_tables s2 s3 d4)
          split at h
          · cases h
            exact send_decline_tables env s3 sa "Maximum pending servers" hinv3
          · cases halloc : gdm_xdmcp_display_alloc env s3 sa (env.gethostbyaddr sa)
                r.clnt_dspnum with
            | none => rw [halloc] at h; simp at h
            | some r4 =>
              obtain ⟨s4, d⟩ := r4
              rw [halloc] at h
              simp only [Option.some.injEq, Prod.mk.injEq] at h
              obtain ⟨h1, _⟩ := h
              subst h1
              exact TablesInv_of_eq s3 s4 hinv3 (display_alloc_tables env s3 s4 sa _ _ d halloc)
        · split at h
          · cases h
            exact send_decline_tables env s2 sa "Only MIT-MAGIC-COOKIE-1 supported" hinv2
          · split at h
            · cases h
              exact send_decline_tables env s2 sa "Maximum number of open sessions reached" hinv2
            · cases h
              exact send_decline_tables env s2 sa
                "Maximum number of open sessions from your host reached" hinv2

theorem handle_manage_tables (env : Env) (s s1 : Daemon)
    (sa : sockaddr_storage) (rd : Option ManageFields) (out : List Sent)
    (hinv : TablesInv s.priv.forward_queries s.priv.managed_forwards)
    (h : gdm_xdmcp_handle_manage env s sa rd = some (s1, out)) :
    TablesInv s1.priv.forward_queries s1.priv.managed_forwards := by
  by_cases ha : env.host_allow sa = false
  · unfold gdm_xdmcp_handle_manage at h
    rw [if_pos ha] at h
    cases h
    exact hinv
  · have ha1 : env.host_allow sa = true := by simpa using ha
    cases rd with
    | none =>
      unfold gdm_xdmcp_handle_manage at h
      rw [if_neg ha] at h
      simp only [] at h
      cases h
      exact hinv
    | some r =>
      have hrefuse : ∀ s1 out, some (gdm_xdmcp_send_refuse env s sa r.clnt_sessid)
          = some (s1, out) → TablesInv s1.priv.forward_queries s1.priv.managed_forwards := by
        intro s1 out h
        cases h
        exact send_refuse_tables env s sa r.clnt_sessid hinv
      cases hl : gdm_xdmcp_display_lookup s r.clnt_sessid with
      | none =>
        unfold gdm_xdmcp_handle_manage at h
        rw [if_neg ha] at h
        simp only [] at h
        rw [hl] at h
        exact hrefuse _ _ h
      | some i =>
        cases hg : s.displays[i]? with
        | none =>
          unfold gdm_xdmcp_handle_manage at h
          rw [if_neg ha] at h
          simp only [] at h
          rw [hl] at h
          simp only [] at h
          rw [hg] at h
          exact hrefuse _ _ h
        | some d =>
          by_cases hpend : d.dispstat = DispStat.XDMCP_PENDING
          · rw [handle_manage_pending env s sa r i d ha1 hl hg hpend] at h
            simp only [Option.some.injEq, Prod.mk.injEq] at h
            obtain ⟨h1, _⟩ := h
            subst h1
            exact TablesInv_resolve env s.priv sa hinv
          · unfold gdm_xdmcp_handle_manage at h
            rw [if_neg ha] at h
            simp only [] at h
            rw [hl] at h
            simp only [] at h
            rw [hg] at h
            simp only [] at h
            rw [if_neg hpend] at h
            split at h
            · cases h; exact hinv
            · exact hrefuse _ _ h

theorem handle_forward_query_tables (env : Env) (s : Daemon) (sa : sockaddr_storage)
    (len : Nat) (rd : Option ForwardQueryFields)
    (hinv : TablesInv s.priv.forward_queries s.priv.managed_forwards) :
    TablesInv (gdm_xdmcp_handle_forward_query env s sa len rd).1.priv.forward_queries
      (gdm_xdmcp_handle_forward_query env s sa len rd).1.priv.managed_forwards := by
  by_cases ha : env.host_allow sa = false
  · unfold gdm_xdmcp_handle_forward_query
    rw [if_pos ha]
    exact hinv
  have ha1 : env.host_allow sa = true := by simpa using ha
  cases rd with
  | none =>
    unfold gdm_xdmcp_handle_forward_query
    rw [if_neg ha]
    exact hinv
  | some r =>
    by_cases hlen : len ≠ 1 + (2 + r.clnt_addr.length) + (2 + r.clnt_port.length)
        + (r.clnt_authlist.map (fun a => 2 + a.length)).sum
    · unfold gdm_xdmcp_handle_forward_query
      rw [if_neg ha]
      simp only []
      rw [if_pos hlen]
      exact hinv
    have hlen1 : len = 1 + (2 + r.clnt_addr.length) + (2 + r.clnt_port.length)
        + (r.clnt_authlist.map (fun a => 2 + a.length)).sum := by simpa using hlen
    rcases Option.eq_none_or_eq_some
        (create_sa_from_request env r.clnt_addr (some r.clnt_port) sa.ss_family)
      with hT | ⟨T, hT⟩
    · unfold gdm_xdmcp_handle_forward_query
      rw [if_neg ha]
      simp only []
      rw [if_neg hlen, hT]
      exact hinv
    by_cases haT : env.host_allow T = true
    · obtain ⟨s1, rest, pk, e, _, _, e1, e2, e3, e4, _, _⟩ :=
        handle_forward_query_accepted env s sa len r T ha1 hlen1 hT haT hinv
      rw [e]
      show TablesInv s1.priv.forward_queries s1.priv.managed_forwards
      rw [e1, e4]
      exact TablesInv_accepted _ rest _ sa T hinv e2 e3
    · have he : gdm_xdmcp_handle_forward_query env s sa len (some r)
          = ({ s with priv := gdm_xdmcp_whack_queued_managed_forwards s.priv sa T }, []) := by
        unfold gdm_xdmcp_handle_forward_query
        rw [if_neg ha]
        simp only []
        rw [if_neg hlen]
        simp only [hT]
        rw [if_neg haT]
      rw [he]
      exact TablesInv_whack s.priv sa T hinv

theorem handle_got_managed_forward_tables (env : Env) (s : Daemon) (sa : sockaddr_storage)
    (rd : Option (List Nat))
    (hinv : TablesInv s.priv.forward_queries s.priv.managed_forwards) :
    TablesInv (gdm_xdmcp_handle_got_managed_forward env s sa rd).1.priv.forward_queries
      (gdm_xdmcp_handle_got_managed_forward env s sa rd).1.priv.managed_forwards := by
  unfold gdm_xdmcp_handle_got_managed_forward
  split
  · exact hinv
  · cases rd with
    | none => exact hinv
    | some a =>
      simp only []
      cases create_sa_from_request env a none sa.ss_family with
      | none => exact hinv
      | some disp_sa => exact TablesInv_whack s.priv sa disp_sa hinv

theorem send_willing_priv (env : Env) (s : Daemon) (sa : sockaddr_storage) :
    (gdm_xdmcp_send_willing env s sa).1.priv = s.priv := rfl

theorem send_unwilling_priv (env : Env) (s : Daemon) (sa : sockaddr_storage) :
    (gdm_xdmcp_send_unwilling env s sa).1.priv = s.priv := by
  unfold gdm_xdmcp_send_unwilling
  split <;> rfl

theorem handle_direct_query_priv (env : Env) (s : Daemon) (sa : sockaddr_storage) (len : Nat)
    (rd : Option (List (List Nat))) : (handle_direct_query env s sa len rd).1.priv = s.priv := by
  unfold handle_direct_query
  cases rd with
  | none => rfl
  | some l =>
    simp only []
    split <;> rfl

theorem handle_broadcast_query_priv (env : Env) (s : Daemon) (sa : sockaddr_storage)
    (len : Nat) (rd : Option (List (List Nat))) :
    (gdm_xdmcp_handle_broadcast_query env s sa len rd).1.priv = s.priv := by
  unfold gdm_xdmcp_handle_broadcast_query
  split
  · exact handle_direct_query_priv env s sa len rd
  · rfl

theorem handle_query_priv (env : Env) (s : Daemon) (sa : sockaddr_storage)
    (len : Nat) (rd : Option (List (List Nat))) :
    (gdm_xdmcp_handle_query env s sa len rd).1.priv = s.priv := by
  unfold gdm_xdmcp_handle_query
  split
  · exact handle_direct_query_priv env s sa len rd
  · exact send_unwilling_priv env s sa

theorem handle_indirect_query_priv (env : Env) (s : Daemon) (sa : sockaddr_storage)
    (len : Nat) (rd : Option (List (List Nat))) :
    (gdm_xdmcp_handle_indirect_query env s sa len rd).1.priv = s.priv := by
  unfold gdm_xdmcp_handle_indirect_query
  split
  · rfl
  · split
    · rfl
    · cases rd with
      | none => rfl
      | some l =>
        simp only []
        split
        · rcases mdm_choose_indirect_lookup env.now s.choose sa with ⟨c1, r⟩
          cases r with
          | none => rfl
          | some j =>
            simp only []
            cases c1.indirect[j]? with
            | none => rfl
            | some id =>
              simp only []
              cases id.chosen_host with
              | none => rfl
              | some ch =>
                simp only []
                split
                · rfl
                · split <;> rfl
        · rfl

theorem handle_managed_forward_priv (env : Env) (s : Daemon) (sa : sockaddr_storage)
    (rd : Option (List Nat)) :
    (gdm_xdmcp_handle_managed_forward env s sa rd).1.priv = s.priv := by
  unfold gdm_xdmcp_handle_managed_forward
  split
  · rfl
  · cases rd with
    | none => rfl
    | some a =>
      simp only []
      cases create_sa_from_request env a none sa.ss_family with
      | none => rfl
      | some disp_sa =>
        simp only []
        split <;> rfl

theorem handle_keepalive_priv (env : Env) (s : Daemon) (sa : sockaddr_storage)
    (rd : Option KeepaliveFields) :
    (gdm_xdmcp_handle_keepalive env s sa rd).1.priv = s.priv := by
  unfold gdm_xdmcp_handle_keepalive
  split
  · rfl
  · cases rd with
    | none => rfl
    | some a => rfl

theorem decode_packet_tables (env : Env) (s s1 : Daemon) (dg : Datagram) (out : List Sent)
    (hinv : TablesInv s.priv.forward_queries s.priv.managed_forwards)
    (h : decode_packet env s dg = some (s1, out)) :
    TablesInv s1.priv.forward_queries s1.priv.managed_forwards := by
  have key : ∀ (r : Daemon × List Sent), r.1.priv = s.priv → some r = some (s1, out) →
      TablesInv s1.priv.forward_queries s1.priv.managed_forwards := by
    intro r hf he
    cases he
    rw [hf]
    exact hinv
  have key2 : ∀ (r : Daemon × List Sent),
      TablesInv r.1.priv.forward_queries r.1.priv.managed_forwards → some r = some (s1, out) →
      TablesInv s1.priv.forward_queries s1.priv.managed_forwards := by
    intro r hf he
    cases he
    exact hf
  unfold decode_packet at h
  by_cases c1 : dg.cond_in = false
  · rw [if_pos c1] at h; cases h; exact hinv
  rw [if_neg c1] at h
  by_cases c2 : dg.fill_ok = false
  · rw [if_pos c2] at h; cases h; exact hinv
  rw [if_neg c2] at h
  cases hh : dg.header with
  | none => rw [hh] at h; cases h; exact hinv
  | some header =>
    rw [hh] at h
    simp only [] at h
    by_cases c3 : header.version ≠ XDM_PROTOCOL_VERSION
        ∧ header.version ≠ GDM_XDMCP_PROTOCOL_VERSION
    · rw [if_pos c3] at h; cases h; exact hinv
    rw [if_neg c3] at h
    by_cases o1 : header.opcode = BROADCAST_QUERY
    · rw [if_pos o1] at h
      exact key _ (handle_broadcast_query_priv _ _ _ _ _) h
    rw [if_neg o1] at h
    by_cases o2 : header.opcode = QUERY
    · rw [if_pos o2] at h
      exact key _ (handle_query_priv _ _ _ _ _) h
    rw [if_neg o2] at h
    by_cases o3 : header.opcode = INDIRECT_QUERY
    · rw [if_pos o3] at h
      exact key _ (handle_indirect_query_priv _ _ _ _ _) h
    rw [if_neg o3] at h
    by_cases o4 : header.opcode = FORWARD_QUERY
    · rw [if_pos o4] at h
      exact key2 _ (handle_forward_query_tables _ _ _ _ _ hinv) h
    rw [if_neg o4] at h
    by_cases o5 : header.opcode = REQUEST
    · rw [if_pos o5] at h
      exact handle_request_tables env s s1 _ _ _ out hinv h
    rw [if_neg o5] at h
    by_cases o6 : header.opcode = MANAGE
    · rw [if_pos o6] at h
      exact handle_manage_tables env s s1 _ _ out hinv h
    rw [if_neg o6] at h
    by_cases o7 : header.opcode = KEEPALIVE
    · rw [if_pos o7] at h
      exact key _ (handle_keepalive_priv _ _ _ _) h
    rw [if_neg o7] at h
    by_cases o8 : header.opcode = GDM_XDMCP_MANAGED_FORWARD
    · rw [if_pos o8] at h
      exact key _ (handle_managed_forward_priv _ _ _ _) h
    rw [if_neg o8] at h
    by_cases o9 : header.opcode = GDM_XDMCP_GOT_MANAGED_FORWARD
    · rw [if_pos o9] at h
      exact key2 _ (handle_got_managed_forward_tables _ _ _ _ hinv) h
    rw [if_neg o9] at h
    cases h
    exact hinv

theorem reachableT_tables (L : List sockaddr_storage) (s : Daemon) (h : ReachableT L s) :
    TablesInv s.priv.forward_queries s.priv.managed_forwards := by
  induction h with
  | init s h =>
    obtain ⟨_, _, h3, h4, _⟩ := h
    rw [h3, h4]
    exact TablesInv_nil
  | datagram s s1 env dg out _ _ hstep ih => exact decode_packet_tables env s s1 dg out ih hstep
  | timer s i _ _ ih => exact TablesInv_timer s.priv i ih

theorem reachableT_of_reachable (L : List sockaddr_storage) (s : Daemon) (h : Reachable L s) :
    ReachableT L s := by
  induction h with
  | init s h => exact ReachableT.init s h
  | step s s1 env dg out _ hloc hstep ih => exact ReachableT.datagram s s1 env dg out ih hloc hstep

/-! ## GOT_MANAGED_FORWARD cancels; FORWARD_QUERY records -/

theorem managed_forward_handler_sent (p : GdmXdmcpManagerPrivate) (i : Nat) :
    ∀ pk ∈ (managed_forward_handler p i).2.1,
      ∃ mf ∈ p.managed_forwards, pk = managed_forward_packet mf.manager mf.origin := by
  unfold managed_forward_handler
  rcases Option.eq_none_or_eq_some p.managed_forwards[i]? with hn | ⟨mf, hs⟩
  · rw [hn]
    intro pk hpk
    simp at hpk
  · rw [hs]
    have hmem : mf ∈ p.managed_forwards := mem_of_getElem? _ _ _ hs
    simp only []
    split
    · intro pk hpk
      simp only [] at hpk
      split at hpk
      · rw [List.mem_singleton] at hpk
        exact ⟨mf, hmem, hpk⟩
      · simp at hpk
    · intro pk hpk
      simp only [] at hpk
      split at hpk
      · rw [List.mem_singleton] at hpk
        exact ⟨mf, hmem, hpk⟩
      · simp at hpk

theorem managed_forward_handler_queue (p : GdmXdmcpManagerPrivate) (i : Nat) :
    ((managed_forward_handler p i).1.managed_forwards.map mf_pair).Sublist
      (p.managed_forwards.map mf_pair) := by
  unfold managed_forward_handler
  rcases Option.eq_none_or_eq_some p.managed_forwards[i]? with hn | ⟨mf, hs⟩
  · rw [hn]
  · rw [hs]
    simp only []
    split
    · exact (List.eraseIdx_sublist _ _).map _
    · have hm : (p.managed_forwards.set i { mf with times := mf.times + 1 }).map mf_pair
          = p.managed_forwards.map mf_pair :=
        map_set_same mf_pair p.managed_forwards i mf _ hs rfl
      show ((p.managed_forwards.set i { mf with times := mf.times + 1 }).map mf_pair).Sublist _
      rw [hm]

theorem fire_timers_sent : ∀ (fired : List Nat) (p : GdmXdmcpManagerPrivate),
    ∀ pk ∈ (fire_timers p fired).2,
      ∃ k ∈ p.managed_forwards.map mf_pair, pk = managed_forward_packet k.1 k.2 := by
  intro fired
  induction fired with
  | nil =>
    intro p pk hpk
    simp [fire_timers] at hpk
  | cons i rest ih =>
    intro p pk hpk
    unfold fire_timers at hpk
    simp only [List.mem_append] at hpk
    rcases hpk with hpk | hpk
    · obtain ⟨mf, hmf, e⟩ := managed_forward_handler_sent p i pk hpk
      exact ⟨mf_pair mf, List.mem_map_of_mem _ hmf, e⟩
    · obtain ⟨k, hk, e⟩ := ih _ pk hpk
      exact ⟨k, (managed_forward_handler_queue p i).subset hk, e⟩

theorem gdm_address_equal_self (a : sockaddr_storage)
    (h : a.ss_family = AF_INET ∨ a.ss_family = AF_INET6) : gdm_address_equal a a = true := by
  unfold gdm_address_equal
  rcases h with h | h
  · simp [h]
  · simp [h, AF_INET, AF_INET6]

theorem trace_two_queued_local : ∀ e ∈ trace_two_queued, e.1.local_addrs = [] := by
  intro e he
  simp only [trace_two_queued, List.mem_cons, List.mem_singleton, List.not_mem_nil,
    or_false] at he
  rcases he with rfl | rfl | rfl | rfl <;> rfl

theorem state_two_queued_reachable : ReachableT [] state_two_queued :=
  reachableT_of_reachable [] _
    (reachable_of_run 7 16 4 trace_two_queued state_two_queued (by decide) (by decide)
      (by norm_num) (by norm_num) trace_two_queued_local (by decide))

/-- C27: in every state reachable by datagrams and timer firings, handling a
GOT_MANAGED_FORWARD from an allowed `sa` whose address field parses to the origin `o`
sends nothing and changes nothing but the queue of managed forwards, which becomes the old
queue without its entries for the pair (`sa`, `o`): no entry for that pair remains, the
entries of every other pair stay as they were and in their order, and whatever timers fire
afterwards, every MANAGED_FORWARD they send belongs to an entry of another pair. -/
theorem C27_got_managed_forward_cancels (L : List sockaddr_storage) (env : Env) (s : Daemon)
    (sa : sockaddr_storage) (addr : List Nat) (o : sockaddr_storage)
    (hr : ReachableT L s) (ha : env.host_allow sa = true)
    (ho : create_sa_from_request env addr none sa.ss_family = some o) :
    ∃ s1 : Daemon,
      gdm_xdmcp_handle_got_managed_forward env s sa (some addr) = (s1, [])
      ∧ s1.priv = gdm_xdmcp_whack_queued_managed_forwards s.priv sa o
      ∧ (∀ mf ∈ s1.priv.managed_forwards,
          ¬ (gdm_address_equal mf.manager sa = true ∧ gdm_address_equal mf.origin o = true))
      ∧ s1.priv.managed_forwards = s.priv.managed_forwards.filter (fun mf =>
          !(gdm_address_equal mf.manager sa && gdm_address_equal mf.origin o))
      ∧ (∀ (fired : List Nat) (pk : Sent), pk ∈ (fire_timers s1.priv fired).2 →
          ∃ mf ∈ s.priv.managed_forwards,
            ¬ (gdm_address_equal mf.manager sa = true ∧ gdm_address_equal mf.origin o = true)
            ∧ pk = managed_forward_packet mf.manager mf.origin)
      ∧ s1.priv.forward_queries = s.priv.forward_queries
      ∧ s1.displays = s.displays ∧ s1.choose = s.choose ∧ s1.statics = s.statics := by
  have hinv := reachableT_tables L s hr
  have ha' : ¬ env.host_allow sa = false := by simp [ha]
  have he : gdm_xdmcp_handle_got_managed_forward env s sa (some addr)
      = ({ s with priv := gdm_xdmcp_whack_queued_managed_forwards s.priv sa o }, []) := by
    unfold gdm_xdmcp_handle_got_managed_forward
    rw [if_neg ha']
    simp only [ho]
  have hw := whack_filter s.priv sa o hinv
  have hmf : (gdm_xdmcp_whack_queued_managed_forwards s.priv sa o).managed_forwards
      = s.priv.managed_forwards.filter (fun mf =>
          !(gdm_address_equal mf.manager sa && gdm_address_equal mf.origin o)) := by
    rw [hw]
  have hfq : (gdm_xdmcp_whack_queued_managed_forwards s.priv sa o).forward_queries
      = s.priv.forward_queries := by
    rw [hw]
  have hno : ∀ mf ∈ s.priv.managed_forwards.filter (fun mf =>
      !(gdm_address_equal mf.manager sa && gdm_address_equal mf.origin o)),
      mf ∈ s.priv.managed_forwards
        ∧ ¬ (gdm_address_equal mf.manager sa = true ∧ gdm_address_equal mf.origin o = true) := by
    intro mf hmem
    rw [List.mem_filter] at hmem
    refine ⟨hmem.1, ?_⟩
    rintro ⟨b1, b2⟩
    have := hmem.2
    rw [b1, b2] at this
    cases this
  refine ⟨_, he, rfl, ?_, hmf, ?_, hfq, rfl, rfl, rfl⟩
  · intro mf hmem
    have hmem' : mf ∈ (gdm_xdmcp_whack_queued_managed_forwards s.priv sa o).managed_forwards :=
      hmem
    rw [hmf] at hmem'
    exact (hno mf hmem').2
  · intro fired pk hpk
    obtain ⟨k, hk, e⟩ := fire_timers_sent fired _ pk hpk
    have hk' : k ∈ (gdm_xdmcp_whack_queued_managed_forwards s.priv sa o).managed_forwards.map
        mf_pair := hk
    rw [hmf, List.mem_map] at hk'
    obtain ⟨mf, hmem, rfl⟩ := hk'
    exact ⟨mf, (hno mf hmem).1, (hno mf hmem).2, e⟩

/-- C27, witness: the daemon has queued MANAGED_FORWARDs to the manager 10.0.0.3 for the
displays 10.0.1.1 and 10.0.0.2; a GOT_MANAGED_FORWARD from 10.0.0.3 carrying 10.0.0.2
leaves exactly the entry for 10.0.1.1. -/
theorem C27_got_managed_forward_cancels_witness :
    ReachableT [] state_two_queued
    ∧ state_two_queued.priv.managed_forwards
        = [{ times := 0, manager := sample_hostB, origin := sample_hostC },
           { times := 0, manager := sample_hostB, origin := sample_hostA }]
    ∧ ∃ s1 : Daemon,
        gdm_xdmcp_handle_got_managed_forward (sample_env_resolving 102) state_two_queued
            sample_hostB (some [10, 0, 0, 2]) = (s1, [])
        ∧ s1.priv.managed_forwards
            = [{ times := 0, manager := sample_hostB, origin := sample_hostC }] := by
  refine ⟨state_two_queued_reachable, by decide, ?_⟩
  obtain ⟨s1, h1, _, _, h4, _⟩ :=
    C27_got_managed_forward_cancels [] (sample_env_resolving 102) state_two_queued sample_hostB
      [10, 0, 0, 2] { ss_family := AF_INET, addr := [10, 0, 0, 2], port := 177, scope_id := 0 }
      state_two_queued_reachable rfl (by decide)
  refine ⟨s1, h1, ?_⟩
  rw [h4]
  decide

/-- C28: in every state reachable by datagrams and timer firings, a FORWARD_QUERY from an
allowed `sa` whose declared length is the size of its fields and whose address and port
resolve to an allowed internet address `T` (so the address has 4 or 16 bytes and the port
2) makes the daemon send exactly one packet, a WILLING addressed to `T`; afterwards
exactly one forward query is for `T`, with `sa` as the forwarding manager, and no queued
managed forward is for the pair (`sa`, `T`).  Whatever the state, the sender and the
declared length: when the port has not 2 bytes or the address has neither 4 nor 16, the
handler sends nothing and returns the state unchanged. -/
theorem C28_forward_query_recorded (L : List sockaddr_storage) (env : Env) (s : Daemon)
    (sa : sockaddr_storage) (len : Nat) (r : ForwardQueryFields) :
    (ReachableT L s → env.host_allow sa = true → len = forward_query_wire_length r →
      ∀ T : sockaddr_storage,
        create_sa_from_request env r.clnt_addr (some r.clnt_port) sa.ss_family = some T →
        env.host_allow T = true → (T.ss_family = AF_INET ∨ T.ss_family = AF_INET6) →
        (r.clnt_addr.length = 4 ∨ r.clnt_addr.length = 16) ∧ r.clnt_port.length = 2
        ∧ ∃ (s1 : Daemon) (pk : Sent),
            gdm_xdmcp_handle_forward_query env s sa len (some r) = (s1, [pk])
            ∧ pk.dest = T ∧ pk.header.opcode = WILLING
            ∧ s1.priv.forward_queries.filter (fun q => gdm_address_equal q.dsp_sa T)
                = [{ acctime := 0, dsp_sa := T, from_sa := sa }]
            ∧ (∀ mf ∈ s1.priv.managed_forwards,
                ¬ (gdm_address_equal mf.manager sa = true
                    ∧ gdm_address_equal mf.origin T = true))
            ∧ s1.displays = s.displays ∧ s1.choose = s.choose)
    ∧ (r.clnt_port.length ≠ 2 ∨ ¬ (r.clnt_addr.length = 4 ∨ r.clnt_addr.length = 16) →
        gdm_xdmcp_handle_forward_query env s sa len (some r) = (s, [])) := by
  constructor
  · intro hr ha hlen T hT haT hfam
    have hlen' : len = 1 + (2 + r.clnt_addr.length) + (2 + r.clnt_port.length)
        + (r.clnt_authlist.map (fun a => 2 + a.length)).sum := by
      have hm : r.clnt_authlist.map ARRAY8_wire_length
          = r.clnt_authlist.map (fun a => 2 + a.length) := rfl
      rw [hlen]
      unfold forward_query_wire_length ARRAYofARRAY8_wire_length
      rw [hm]
      unfold ARRAY8_wire_length
      omega
    have hshape : (r.clnt_addr.length = 4 ∨ r.clnt_addr.length = 16)
        ∧ r.clnt_port.length = 2 := by
      unfold create_sa_from_request at hT
      simp only [] at hT
      by_cases hp : r.clnt_port.length ≠ 2
      · rw [if_pos hp] at hT; cases hT
      · rw [if_neg hp] at hT
        by_cases hl : r.clnt_addr.length = 4 ∨ r.clnt_addr.length = 16
        · exact ⟨hl, by simpa using hp⟩
        · rw [if_neg hl] at hT; cases hT
    obtain ⟨s1, rest, pk, e, e1, e2, e3, _, e5, e6, e7, e8⟩ :=
      handle_forward_query_accepted env s sa len r T ha hlen' hT haT
        (reachableT_tables L s hr)
    refine ⟨hshape.1, hshape.2, s1, pk, e, e1, e2, ?_, ?_, e7, e8⟩
    · have hnil : rest.filter (fun q => gdm_address_equal q.dsp_sa T) = [] := by
        rw [List.filter_eq_nil_iff]
        intro q hq
        rw [e5 q hq]
        simp
      rw [e3, List.filter_cons, hnil]
      simp only [gdm_address_equal_self T hfam, if_true]
    · intro mf hmem
      rw [e6, List.mem_filter] at hmem
      rintro ⟨b1, b2⟩
      have := hmem.2
      rw [b1, b2] at this
      cases this
  · intro hbad
    have hnone : create_sa_from_request env r.clnt_addr (some r.clnt_port) sa.ss_family
        = none := by
      unfold create_sa_from_request
      simp only []
      by_cases hp : r.clnt_port.length ≠ 2
      · rw [if_pos hp]
      · rw [if_neg hp]
        rcases hbad with hb | hb
        · exact absurd hb hp
        · rw [if_neg hb]
    unfold gdm_xdmcp_handle_forward_query
    split
    · rfl
    · simp only []
      split
      · rfl
      · rw [hnone]

/-- C28, witness: the manager 10.0.0.3 has a MANAGED_FORWARD queued for the display
10.0.0.2 and forwards a new query for 10.0.0.2:5000; a second FORWARD_QUERY, whose port
field has one byte, changes nothing. -/
theorem C28_forward_query_recorded_witness :
    ReachableT [] state_two_queued
    ∧ (∃ (s1 : Daemon) (pk : Sent),
        gdm_xdmcp_handle_forward_query (sample_env_resolving 102) state_two_queued sample_hostB
            11 (some sample_forward_query) = (s1, [pk])
        ∧ pk.dest = sample_hostA ∧ pk.header.opcode = WILLING
        ∧ s1.priv.forward_queries.filter (fun q => gdm_address_equal q.dsp_sa sample_hostA)
            = [{ acctime := 0, dsp_sa := sample_hostA, from_sa := sample_hostB }])
    ∧ gdm_xdmcp_handle_forward_query (sample_env_resolving 102) state_two_queued sample_hostB
          10 (some { sample_forward_query with clnt_port := [19] })
        = (state_two_queued, []) := by
  refine ⟨state_two_queued_reachable, ?_, ?_⟩
  · obtain ⟨_, _, s1, pk, h1, h2, h3, h4, _⟩ :=
      (C28_forward_query_recorded [] (sample_env_resolving 102) state_two_queued sample_hostB
        11 sample_forward_query).1 state_two_queued_reachable rfl (by decide) sample_hostA
        (by decide) rfl (Or.inl rfl)
    exact ⟨s1, pk, h1, h2, h3, h4⟩
  · exact (C28_forward_query_recorded [] (sample_env_resolving 102) state_two_queued
      sample_hostB 10 { sample_forward_query with clnt_port := [19] }).2 (Or.inl (by decide))

/-! ## Forward queries never carry a time -/

theorem resolve_forward_query_fq_sublist (env : Env) (p : GdmXdmcpManagerPrivate)
    (sa : sockaddr_storage) :
    (resolve_forward_query env p sa).1.forward_queries.Sublist p.forward_queries := by
  rcases resolve_forward_query_struct env p sa with ⟨l, hl, _, he⟩ | ⟨l, i, q, hl, _, _, he⟩
  · rw [he]; exact hl
  · rw [he]; exact (List.eraseIdx_sublist _ _).trans hl

theorem zero_of_sublist (l l1 : List GdmForwardQuery) (h : ∀ q ∈ l, q.acctime = 0)
    (hs : l1.Sublist l) : ∀ q ∈ l1, q.acctime = 0 :=
  fun q hq => h q (hs.subset hq)

theorem send_decline_zero (env : Env) (s : Daemon) (sa : sockaddr_storage) (reason : String)
    (h : ∀ q ∈ s.priv.forward_queries, q.acctime = 0) :
    ∀ q ∈ (gdm_xdmcp_send_decline env s sa reason).1.priv.forward_queries, q.acctime = 0 := by
  have he : (gdm_xdmcp_send_decline env s sa reason).1.priv
      = (resolve_forward_query env s.priv sa).1 := rfl
  rw [he]
  exact zero_of_sublist _ _ h (resolve_forward_query_fq_sublist env s.priv sa)

theorem send_refuse_zero (env : Env) (s : Daemon) (sa : sockaddr_storage) (sessid : Nat)
    (h : ∀ q ∈ s.priv.forward_queries, q.acctime = 0) :
    ∀ q ∈ (gdm_xdmcp_send_refuse env s sa sessid).1.priv.forward_queries, q.acctime = 0 := by
  have he : (gdm_xdmcp_send_refuse env s sa sessid).1.priv
      = (resolve_forward_query env s.priv sa).1 := rfl
  rw [he]
  exact zero_of_sublist _ _ h (resolve_forward_query_fq_sublist env s.priv sa)

theorem zero_of_eq (s s1 : Daemon) (h : ∀ q ∈ s.priv.forward_queries, q.acctime = 0)
    (he : s1.priv.forward_queries = s.priv.forward_queries
      ∧ s1.priv.managed_forwards = s.priv.managed_forwards) :
    ∀ q ∈ s1.priv.forward_queries, q.acctime = 0 := by
  rw [he.1]; exact h

theorem handle_request_zero (env : Env) (s s1 : Daemon)
    (sa : sockaddr_storage) (len : Nat) (rd : Option RequestFields) (out : List Sent)
    (hinv : ∀ q ∈ s.priv.forward_queries, q.acctime = 0)
    (h : gdm_xdmcp_handle_request env s sa len rd = some (s1, out)) :
    ∀ q ∈ s1.priv.forward_queries, q.acctime = 0 := by
  unfold gdm_xdmcp_handle_request at h
  by_cases ha : env.host_allow sa = false
  · rw [if_pos ha] at h
    cases h
    exact hinv
  · rw [if_neg ha] at h
    obtain ⟨s2, e1, e2, e3, e4⟩ := request_purge_shrink env s
      (by intro hn; rw [hn] at h; simp at h)
    rw [e1] at h
    simp only [] at h
    have hinv2 := zero_of_eq s s2 hinv (shrink_tables s s2 e4)
    cases rd with
    | none =>
      simp only [] at h
      cases h
      exact hinv2
    | some r =>
      simp only [] at h
      by_cases hex : request_explen r ≠ len
      · rw [if_pos hex] at h
        cases h
        exact hinv2
      · rw [if_neg hex] at h
        split at h
        · obtain ⟨s3, d1, ⟨q, d2⟩, d3, d4⟩ :=
            dispose_check_shrink s2 (env.gethostbyaddr sa) r.clnt_dspnum
              (by intro hn; rw [hn] at h; simp at h)
          rw [d1] at h
          simp only [] at h
          have hinv3 := zero_of_eq s2 s3 hinv2 (shrink_tables s2 s3 d4)
          split at h
          · cases h
            exact send_decline_zero env s3 sa "Maximum pending servers" hinv3
          · cases halloc : gdm_xdmcp_display_alloc env s3 sa (env.gethostbyaddr sa)
                r.clnt_dspnum with
            | none => rw [halloc] at h; simp at h
            | some r4 =>
              obtain ⟨s4, d⟩ := r4
              rw [halloc] at h
              simp only [Option.some.injEq, Prod.mk.injEq] at h
              obtain ⟨h1, _⟩ := h
              subst h1
              exact zero_of_eq s3 s4 hinv3 (display_alloc_tables env s3 s4 sa _ _ d halloc)
        · split at h
          · cases h
            exact send_decline_zero env s2 sa "Only MIT-MAGIC-COOKIE-1 supported" hinv2
          · split at h
            · cases h
              exact send_decline_zero env s2 sa "Maximum number of open sessions reached" hinv2
            · cases h
              exact send_decline_zero env s2 sa
                "Maximum number of open sessions from your host reached" hinv2

theorem handle_manage_zero (env : Env) (s s1 : Daemon)
    (sa : sockaddr_storage) (rd : Option ManageFields) (out : List Sent)
    (hinv : ∀ q ∈ s.priv.forward_queries, q.acctime = 0)
    (h : gdm_xdmcp_handle_manage env s sa rd = some (s1, out)) :
    ∀ q ∈ s1.priv.forward_queries, q.acctime = 0 := by
  by_cases ha : env.host_allow sa = false
  · unfold gdm_xdmcp_handle_manage at h
    rw [if_pos ha] at h
    cases h
    exact hinv
  · have ha1 : env.host_allow sa = true := by simpa using ha
    cases rd with
    | none =>
      unfold gdm_xdmcp_handle_manage at h
      rw [if_neg ha] at h
      simp only [] at h
      cases h
      exact hinv
    | some r =>
      have hrefuse : ∀ s1 out, some (gdm_xdmcp_send_refuse env s sa r.clnt_sessid)
          = some (s1, out) → ∀ q ∈ s1.priv.forward_queries, q.acctime = 0 := by
        intro s1 out h
        cases h
        exact send_refuse_zero env s sa r.clnt_sessid hinv
      cases hl : gdm_xdmcp_display_lookup s r.clnt_sessid with
      | none =>
        unfold gdm_xdmcp_handle_manage at h
        rw [if_neg ha] at h
        simp only [] at h
        rw [hl] at h
        exact hrefuse _ _ h
      | some i =>
        cases hg : s.displays[i]? with
        | none =>
          unfold gdm_xdmcp_handle_manage at h
          rw [if_neg ha] at h
          simp only [] at h
          rw [hl] at h
          simp only [] at h
          rw [hg] at h
          exact hrefuse _ _ h
        | some d =>
          by_cases hpend : d.dispstat = DispStat.XDMCP_PENDING
          · rw [handle_manage_pending env s sa r i d ha1 hl hg hpend] at h
            simp only [Option.some.injEq, Prod.mk.injEq] at h
            obtain ⟨h1, _⟩ := h
            subst h1
            exact zero_of_sublist _ _ hinv (resolve_forward_query_fq_sublist env s.priv sa)
          · unfold gdm_xdmcp_handle_manage at h
            rw [if_neg ha] at h
            simp only [] at h
            rw [hl] at h
            simp only [] at h
            rw [hg] at h
            simp only [] at h
            rw [if_neg hpend] at h
            split at h
            · cases h; exact hinv
            · exact hrefuse _ _ h

theorem handle_forward_query_zero (env : Env) (s : Daemon) (sa : sockaddr_storage)
    (len : Nat) (rd : Option ForwardQueryFields)
    (hinv : TablesInv s.priv.forward_queries s.priv.managed_forwards)
    (hz : ∀ q ∈ s.priv.forward_queries, q.acctime = 0) :
    ∀ q ∈ (gdm_xdmcp_handle_forward_query env s sa len rd).1.priv.forward_queries,
      q.acctime = 0 := by
  by_cases ha : env.host_allow sa = false
  · unfold gdm_xdmcp_handle_forward_query
    rw [if_pos ha]
    exact hz
  have ha1 : env.host_allow sa = true := by simpa using ha
  cases rd with
  | none =>
    unfold gdm_xdmcp_handle_forward_query
    rw [if_neg ha]
    exact hz
  | some r =>
    by_cases hlen : len ≠ 1 + (2 + r.clnt_addr.length) + (2 + r.clnt_port.length)
        + (r.clnt_authlist.map (fun a => 2 + a.length)).sum
    · unfold gdm_xdmcp_handle_forward_query
      rw [if_neg ha]
      simp only []
      rw [if_pos hlen]
      exact hz
    have hlen1 : len = 1 + (2 + r.clnt_addr.length) + (2 + r.clnt_port.length)
        + (r.clnt_authlist.map (fun a => 2 + a.length)).sum := by simpa using hlen
    rcases Option.eq_none_or_eq_some
        (create_sa_from_request env r.clnt_addr (some r.clnt_port) sa.ss_family)
      with hT | ⟨T, hT⟩
    · unfold gdm_xdmcp_handle_forward_query
      rw [if_neg ha]
      simp only []
      rw [if_neg hlen, hT]
      exact hz
    by_cases haT : env.host_allow T = true
    · obtain ⟨s1, rest, pk, e, _, _, e1, e2, _, _, _, _⟩ :=
        handle_forward_query_accepted env s sa len r T ha1 hlen1 hT haT hinv
      rw [e]
      show ∀ q ∈ s1.priv.forward_queries, q.acctime = 0
      rw [e1]
      intro q hq
      rw [List.mem_cons] at hq
      rcases hq with rfl | hq
      · rfl
      · exact hz q (e2.subset hq)
    · have he : gdm_xdmcp_handle_forward_query env s sa len (some r)
          = ({ s with priv := gdm_xdmcp_whack_queued_managed_forwards s.priv sa T }, []) := by
        unfold gdm_xdmcp_handle_forward_query
        rw [if_neg ha]
        simp only []
        rw [if_neg hlen]
        simp only [hT]
        rw [if_neg haT]
      rw [he]
      obtain ⟨h1, _, _⟩ := whack_spec s.priv sa T
      show ∀ q ∈ (gdm_xdmcp_whack_queued_managed_forwards s.priv sa T).forward_queries,
        q.acctime = 0
      rw [h1]
      exact hz

theorem handle_got_managed_forward_zero (env : Env) (s : Daemon) (sa : sockaddr_storage)
    (rd : Option (List Nat))
    (hz : ∀ q ∈ s.priv.forward_queries, q.acctime = 0) :
    ∀ q ∈ (gdm_xdmcp_handle_got_managed_forward env s sa rd).1.priv.forward_queries,
      q.acctime = 0 := by
  unfold gdm_xdmcp_handle_got_managed_forward
  split
  · exact hz
  · cases rd with
    | none => exact hz
    | some a =>
      simp only []
      cases create_sa_from_request env a none sa.ss_family with
      | none => exact hz
      | some disp_sa =>
        obtain ⟨h1, _, _⟩ := whack_spec s.priv sa disp_sa
        show ∀ q ∈ (gdm_xdmcp_whack_queued_managed_forwards s.priv sa disp_sa).forward_queries,
          q.acctime = 0
        rw [h1]
        exact hz

theorem decode_packet_zero (env : Env) (s s1 : Daemon) (dg : Datagram) (out : List Sent)
    (hinv : TablesInv s.priv.forward_queries s.priv.managed_forwards)
    (hz : ∀ q ∈ s.priv.forward_queries, q.acctime = 0)
    (h : decode_packet env s dg = some (s1, out)) :
    ∀ q ∈ s1.priv.forward_queries, q.acctime = 0 := by
  have key : ∀ (r : Daemon × List Sent), r.1.priv = s.priv → some r = some (s1, out) →
      ∀ q ∈ s1.priv.forward_queries, q.acctime = 0 := by
    intro r hf he
    cases he
    rw [hf]
    exact hz
  have key2 : ∀ (r : Daemon × List Sent),
      (∀ q ∈ r.1.priv.forward_queries, q.acctime = 0) → some r = some (s1, out) →
      ∀ q ∈ s1.priv.forward_queries, q.acctime = 0 := by
    intro r hf he
    cases he
    exact hf
  unfold decode_packet at h
  by_cases c1 : dg.cond_in = false
  · rw [if_pos c1] at h; cases h; exact hz
  rw [if_neg c1] at h
  by_cases c2 : dg.fill_ok = false
  · rw [if_pos c2] at h; cases h; exact hz
  rw [if_neg c2] at h
  cases hh : dg.header with
  | none => rw [hh] at h; cases h; exact hz
  | some header =>
    rw [hh] at h
    simp only [] at h
    by_cases c3 : header.version ≠ XDM_PROTOCOL_VERSION
        ∧ header.version ≠ GDM_XDMCP_PROTOCOL_VERSION
    · rw [if_pos c3] at h; cases h; exact hz
    rw [if_neg c3] at h
    by_cases o1 : header.opcode = BROADCAST_QUERY
    · rw [if_pos o1] at h
      exact key _ (handle_broadcast_query_priv _ _ _ _ _) h
    rw [if_neg o1] at h
    by_cases o2 : header.opcode = QUERY
    · rw [if_pos o2] at h
      exact key _ (handle_query_priv _ _ _ _ _) h
    rw [if_neg o2] at h
    by_cases o3 : header.opcode = INDIRECT_QUERY
    · rw [if_pos o3] at h
      exact key _ (handle_indirect_query_priv _ _ _ _ _) h
    rw [if_neg o3] at h
    by_cases o4 : header.opcode = FORWARD_QUERY
    · rw [if_pos o4] at h
      exact key2 _ (handle_forward_query_zero _ _ _ _ _ hinv hz) h
    rw [if_neg o4] at h
    by_cases o5 : header.opcode = REQUEST
    · rw [if_pos o5] at h
      exact handle_request_zero env s s1 _ _ _ out hz h
    rw [if_neg o5] at h
    by_cases o6 : header.opcode = MANAGE
    · rw [if_pos o6] at h
      exact handle_manage_zero env s s1 _ _ out hz h
    rw [if_neg o6] at h
    by_cases o7 : header.opcode = KEEPALIVE
    · rw [if_pos o7] at h
      exact key _ (handle_keepalive_priv _ _ _ _) h
    rw [if_neg o7] at h
    by_cases o8 : header.opcode = GDM_XDMCP_MANAGED_FORWARD
    · rw [if_pos o8] at h
      exact key _ (handle_managed_forward_priv _ _ _ _) h
    rw [if_neg o8] at h
    by_cases o9 : header.opcode = GDM_XDMCP_GOT_MANAGED_FORWARD
    · rw [if_pos o9] at h
      exact key2 _ (handle_got_managed_forward_zero _ _ _ _ hz) h
    rw [if_neg o9] at h
    cases h
    exact hz

theorem managed_forward_handler_fq (p : GdmXdmcpManagerPrivate) (i : Nat) :
    (managed_forward_handler p i).1.forward_queries = p.forward_queries := by
  unfold managed_forward_handler
  rcases Option.eq_none_or_eq_some p.managed_forwards[i]? with hn | ⟨mf, hs⟩
  · rw [hn]
  · rw [hs]
    simp only []
    split <;> rfl

theorem reachableT_acctime_zero (L : List sockaddr_storage) (s : Daemon)
    (h : ReachableT L s) : ∀ q ∈ s.priv.forward_queries, q.acctime = 0 := by
  induction h with
  | init s h =>
    obtain ⟨_, _, h3, _⟩ := h
    rw [h3]
    intro q hq
    simp at hq
  | datagram s s1 env dg out hr _ hstep ih =>
    exact decode_packet_zero env s s1 dg out (reachableT_tables L s hr) ih hstep
  | timer s i _ _ ih =>
    show ∀ q ∈ (managed_forward_handler s.priv i).1.forward_queries, q.acctime = 0
    rw [managed_forward_handler_fq]
    exact ih

theorem lookup_scan_zero (t : Nat) (sa : sockaddr_storage) :
    ∀ (rest kept : List GdmForwardQuery), (∀ q ∈ rest, q.acctime = 0) →
      gdm_forward_query_lookup_scan t sa kept rest
        = (kept.reverse ++ rest,
           (find_first (fun q => gdm_address_equal q.dsp_sa sa) rest).map
             (fun i => i + kept.length)) := by
  intro rest
  induction rest with
  | nil =>
    intro kept _
    simp [gdm_forward_query_lookup_scan, find_first]
  | cons q rest ih =>
    intro kept hz
    have hq : q.acctime = 0 := hz q (List.mem_cons_self _ _)
    have hrest : ∀ x ∈ rest, x.acctime = 0 := fun x hx => hz x (List.mem_cons_of_mem _ hx)
    unfold gdm_forward_query_lookup_scan find_first
    by_cases he : gdm_address_equal q.dsp_sa sa = true
    · rw [if_pos he, if_pos he]
      simp
    · rw [if_neg he, if_neg he]
      have hs : ¬ (q.acctime > 0 ∧ t > q.acctime + GDM_FORWARD_QUERY_TIMEOUT) := by
        rw [hq]; simp
      rw [if_neg hs, ih (q :: kept) hrest]
      simp only [List.reverse_cons, List.append_assoc, List.singleton_append, List.length_cons,
        Option.map_map, Prod.mk.injEq, true_and]
      congr 1
      funext i
      simp only [Function.comp]
      omega

theorem forward_query_lookup_zero (t : Nat) (p : GdmXdmcpManagerPrivate)
    (sa : sockaddr_storage) (hz : ∀ q ∈ p.forward_queries, q.acctime = 0) :
    gdm_forward_query_lookup t p sa
      = (p, find_first (fun q => gdm_address_equal q.dsp_sa sa) p.forward_queries) := by
  unfold gdm_forward_query_lookup
  rw [lookup_scan_zero t sa p.forward_queries [] hz]
  simp

theorem oldest_forward_zero : ∀ (l : List GdmForwardQuery) (k j : Nat),
    (∀ q ∈ l, q.acctime = 0) → oldest_forward l k (some (j, 0)) = some (j, 0) := by
  intro l
  induction l with
  | nil => intro k j _; rfl
  | cons q l ih =>
    intro k j hz
    unfold oldest_forward
    have hq : q.acctime = 0 := hz q (List.mem_cons_self _ _)
    rw [if_neg (by rw [hq]; exact Nat.lt_irrefl 0)]
    exact ih (k + 1) j (fun x hx => hz x (List.mem_cons_of_mem _ hx))

theorem remove_oldest_forward_zero (p : GdmXdmcpManagerPrivate) (q : GdmForwardQuery)
    (rest : List GdmForwardQuery) (hp : p.forward_queries = q :: rest)
    (hz : ∀ x ∈ p.forward_queries, x.acctime = 0) :
    remove_oldest_forward p = ({ p with forward_queries := rest }, true) := by
  have hq : q.acctime = 0 := hz q (by rw [hp]; exact List.mem_cons_self _ _)
  have hrest : ∀ x ∈ rest, x.acctime = 0 :=
    fun x hx => hz x (by rw [hp]; exact List.mem_cons_of_mem _ hx)
  unfold remove_oldest_forward
  rw [hp]
  unfold oldest_forward
  rw [hq, oldest_forward_zero rest 1 0 hrest]
  simp only [gdm_forward_query_dispose, hp, List.eraseIdx_cons_zero]

theorem forward_query_alloc_evict_zero : ∀ (count : Nat) (p : GdmXdmcpManagerPrivate),
    p.forward_queries.length = count → (∀ x ∈ p.forward_queries, x.acctime = 0) →
    gdm_forward_query_alloc_evict count p
      = { p with forward_queries := p.forward_queries.drop (count - 10) } := by
  intro count
  induction count with
  | zero =>
    intro p _ _
    unfold gdm_forward_query_alloc_evict
    simp
  | succ n ih =>
    intro p hp hz
    unfold gdm_forward_query_alloc_evict
    by_cases hc : n + 1 > GDM_MAX_FORWARD_QUERIES
    · rw [if_pos hc]
      have hc' : n + 1 > 10 := hc
      cases hl : p.forward_queries with
      | nil => rw [hl] at hp; simp at hp
      | cons q rest =>
        rw [remove_oldest_forward_zero p q rest hl hz]
        simp only []
        have hlen : rest.length = n := by rw [hl] at hp; simpa using hp
        rw [ih { p with forward_queries := rest } hlen
          (fun x hx => hz x (by rw [hl]; exact List.mem_cons_of_mem _ hx))]
        have : n + 1 - 10 = (n - 10) + 1 := by omega
        rw [this, List.drop_succ_cons]
    · rw [if_neg hc]
      have hc' : ¬ n + 1 > 10 := hc
      have : n + 1 - 10 = 0 := by omega
      rw [this]
      simp

theorem forward_query_alloc_zero (p : GdmXdmcpManagerPrivate) (a b : sockaddr_storage)
    (hz : ∀ x ∈ p.forward_queries, x.acctime = 0) :
    (gdm_forward_query_alloc p a b).forward_queries
      = { acctime := 0, dsp_sa := b, from_sa := a }
          :: p.forward_queries.drop (p.forward_queries.length - 10) := by
  unfold gdm_forward_query_alloc
  simp only []
  rw [forward_query_alloc_evict_zero p.forward_queries.length p rfl hz]

/-! ## The age of forward queries: expiry and eviction -/

theorem state_one_forward_reachable : Reachable [] state_one_forward :=
  reachable_of_run 7 16 4 [(sample_env_resolving 100, sample_dg_forward_query sample_hostB 11)]
    state_one_forward (by decide) (by decide) (by norm_num)
    (by norm_num)
    (by
      intro e he
      simp only [List.mem_singleton] at he
      rw [he]
      rfl)
    (by decide)

/-- C31: no forward query ever expires.  In every state reachable by datagrams and timer
firings every entry of the forward-query table has `acctime` 0 (`gdm_forward_query_alloc`
never assigns it), so `gdm_forward_query_lookup` disposes nothing, whatever the wallclock
time.  Besides, the lookup tests the address before the age: an entry at the head of the
table whose display is the one looked up is returned whatever its `acctime`.  A forward
query allocated at time 100 is returned by the lookup at time 200, and a MANAGE for an
unknown session sent by its display at time 200 is answered with REFUSE and a
MANAGED_FORWARD to the manager that had forwarded the query. -/
theorem C31_forward_query_never_expires :
    (∀ (L : List sockaddr_storage) (s : Daemon), ReachableT L s →
        ∀ q ∈ s.priv.forward_queries, q.acctime = 0)
    ∧ (∀ (L : List sockaddr_storage) (s : Daemon) (now : Nat) (sa : sockaddr_storage),
        ReachableT L s →
        gdm_forward_query_lookup now s.priv sa
          = (s.priv, find_first (fun q => gdm_address_equal q.dsp_sa sa)
              s.priv.forward_queries))
    ∧ (∀ (now : Nat) (p : GdmXdmcpManagerPrivate) (q : GdmForwardQuery)
        (rest : List GdmForwardQuery) (sa : sockaddr_storage),
        p.forward_queries = q :: rest → gdm_address_equal q.dsp_sa sa = true →
        gdm_forward_query_lookup now p sa = (p, some 0))
    ∧ Reachable [] state_one_forward
    ∧ state_one_forward.priv.forward_queries
        = [{ acctime := 0, dsp_sa := sample_hostA, from_sa := sample_hostB }]
    ∧ gdm_forward_query_lookup 200 state_one_forward.priv sample_hostA
        = (state_one_forward.priv, some 0)
    ∧ (decode_packet (sample_env 200 []) state_one_forward
          (sample_dg_manage sample_hostA 999)).map (fun r => r.2)
        = some [refuse_packet sample_hostA 999,
                managed_forward_packet sample_hostB sample_hostA] := by
  refine ⟨reachableT_acctime_zero, ?_, ?_, state_one_forward_reachable, by decide, by decide,
    by decide⟩
  · intro L s now sa hr
    exact forward_query_lookup_zero now s.priv sa (reachableT_acctime_zero L s hr)
  · intro now p q rest sa hp he
    unfold gdm_forward_query_lookup
    rw [hp]
    unfold gdm_forward_query_lookup_scan
    rw [if_pos he]
    simp only [List.reverse_nil, List.nil_append, List.length_nil]
    rw [← hp]

/-- C32: with every `acctime` 0, as in every reachable state, the scan of
`remove_oldest_forward` (which replaces `oldest` only on a strictly smaller `acctime`)
keeps the first entry of the list, the one allocated last, and that entry is evicted:
`gdm_forward_query_alloc` on a reachable table drops the entries at the head until 10 are
left.  After the eleven FORWARD_QUERYs for 10.0.1.0 to 10.0.1.10 a twelfth, for
10.0.1.11, evicts the entry of 10.0.1.10, allocated after every entry that remains. -/
theorem C32_eviction_newest_first :
    (∀ (p : GdmXdmcpManagerPrivate) (q : GdmForwardQuery) (rest : List GdmForwardQuery),
        p.forward_queries = q :: rest → (∀ x ∈ p.forward_queries, x.acctime = 0) →
        remove_oldest_forward p = ({ p with forward_queries := rest }, true))
    ∧ (∀ (L : List sockaddr_storage) (s : Daemon) (a b : sockaddr_storage), ReachableT L s →
        (gdm_forward_query_alloc s.priv a b).forward_queries
          = { acctime := 0, dsp_sa := b, from_sa := a }
              :: s.priv.forward_queries.drop (s.priv.forward_queries.length - 10))
    ∧ Reachable [] state_eleven_forwards
    ∧ state_eleven_forwards.priv.forward_queries.map (fun q => (q.acctime, q.dsp_sa.addr))
        = [(0, [10, 0, 1, 10]), (0, [10, 0, 1, 9]), (0, [10, 0, 1, 8]), (0, [10, 0, 1, 7]),
           (0, [10, 0, 1, 6]), (0, [10, 0, 1, 5]), (0, [10, 0, 1, 4]), (0, [10, 0, 1, 3]),
           (0, [10, 0, 1, 2]), (0, [10, 0, 1, 1]), (0, [10, 0, 1, 0])]
    ∧ state_twelve_forwards.priv.forward_queries.map (fun q => (q.acctime, q.dsp_sa.addr))
        = [(0, [10, 0, 1, 11]), (0, [10, 0, 1, 9]), (0, [10, 0, 1, 8]), (0, [10, 0, 1, 7]),
           (0, [10, 0, 1, 6]), (0, [10, 0, 1, 5]), (0, [10, 0, 1, 4]), (0, [10, 0, 1, 3]),
           (0, [10, 0, 1, 2]), (0, [10, 0, 1, 1]), (0, [10, 0, 1, 0])] := by
  refine ⟨remove_oldest_forward_zero, ?_, state_eleven_forwards_reachable, by decide,
    by decide⟩
  intro L s a b hr
  exact forward_query_alloc_zero s.priv a b (reachableT_acctime_zero L s hr)

theorem send_decline_eq (env : Env) (s : Daemon) (sa : sockaddr_storage) (reason : String) :
    gdm_xdmcp_send_decline env s sa reason
      = ({ s with priv := (resolve_forward_query env s.priv sa).1 },
         decline_packet sa reason :: (resolve_forward_query env s.priv sa).2) := rfl

theorem send_refuse_eq (env : Env) (s : Daemon) (sa : sockaddr_storage) (sessid : Nat) :
    gdm_xdmcp_send_refuse env s sa sessid
      = ({ s with priv := (resolve_forward_query env s.priv sa).1 },
         refuse_packet sa sessid :: (resolve_forward_query env s.priv sa).2) := rfl

/-- C39: `gdm_xdmcp_send_decline` and `gdm_xdmcp_send_refuse`, in every state.  When some
forward query is for the client, the lookup returns one such entry `q`; after the DECLINE
or REFUSE one MANAGED_FORWARD carrying the client's address goes to `q.from_sa`, an entry
(`times = 0`) for it is put at the head of the queue of managed forwards, and `q` is
removed from the forward-query table (`l` is the table as the lookup left it).  When no
forward query is for the client, the DECLINE or REFUSE is the only packet and the queue of
managed forwards is unchanged. -/
theorem C39_decline_refuse_managed_forward (env : Env) (s : Daemon) (sa : sockaddr_storage)
    (reason : String) (sessid : Nat) :
    ((∃ q ∈ s.priv.forward_queries, gdm_address_equal q.dsp_sa sa = true) →
      ∃ (l : List GdmForwardQuery) (i : Nat) (q : GdmForwardQuery)
          (p1 : GdmXdmcpManagerPrivate),
        l.Sublist s.priv.forward_queries ∧ l[i]? = some q
        ∧ gdm_address_equal q.dsp_sa sa = true
        ∧ p1.forward_queries = l.eraseIdx i
        ∧ p1.managed_forwards
            = { times := 0, manager := q.from_sa, origin := sa } :: s.priv.managed_forwards
        ∧ gdm_xdmcp_send_decline env s sa reason
            = ({ s with priv := p1 },
               [decline_packet sa reason, managed_forward_packet q.from_sa sa])
        ∧ gdm_xdmcp_send_refuse env s sa sessid
            = ({ s with priv := p1 },
               [refuse_packet sa sessid, managed_forward_packet q.from_sa sa])
        ∧ (managed_forward_packet q.from_sa sa).dest = q.from_sa
        ∧ (managed_forward_packet q.from_sa sa).header.opcode = GDM_XDMCP_MANAGED_FORWARD
        ∧ (managed_forward_packet q.from_sa sa).fields
            = [WireField.ARRAY8 (set_address_for_request sa)])
    ∧ ((∀ q ∈ s.priv.forward_queries, gdm_address_equal q.dsp_sa sa = false) →
      ∃ p1 : GdmXdmcpManagerPrivate,
        p1.forward_queries.Sublist s.priv.forward_queries
        ∧ p1.managed_forwards = s.priv.managed_forwards
        ∧ gdm_xdmcp_send_decline env s sa reason
            = ({ s with priv := p1 }, [decline_packet sa reason])
        ∧ gdm_xdmcp_send_refuse env s sa sessid
            = ({ s with priv := p1 }, [refuse_packet sa sessid])) := by
  rw [send_decline_eq, send_refuse_eq]
  constructor
  · rintro ⟨q0, hq0, he0⟩
    rcases resolve_forward_query_struct env s.priv sa with
      ⟨l, _, hne, _⟩ | ⟨l, i, q, hl, hq, heq, he⟩
    · rw [hne q0 hq0] at he0
      cases he0
    · refine ⟨l, i, q, (resolve_forward_query env s.priv sa).1, hl, hq, heq, ?_, ?_, ?_, ?_,
        rfl, rfl, rfl⟩
      · rw [he]
      · rw [he]
      · rw [he]
      · rw [he]
  · intro hall
    rcases resolve_forward_query_struct env s.priv sa with
      ⟨l, hl, _, he⟩ | ⟨l, i, q, hl, hq, heq, _⟩
    · refine ⟨(resolve_forward_query env s.priv sa).1, ?_, ?_, ?_, ?_⟩
      · rw [he]; exact hl
      · rw [he]
      · rw [he]
      · rw [he]
    · have hmem : q ∈ s.priv.forward_queries := hl.subset (mem_of_getElem? _ _ _ hq)
      rw [hall q hmem] at heq
      cases heq

/-- C39, witness: the manager 10.0.0.3 has forwarded a query for 10.0.0.2; a REFUSE to
10.0.0.2 is followed by a MANAGED_FORWARD to 10.0.0.3, and a REFUSE to 10.0.0.3, for
which no forward query exists, is not. -/
theorem C39_decline_refuse_managed_forward_witness :
    (∃ q ∈ state_one_forward.priv.forward_queries, gdm_address_equal q.dsp_sa sample_hostA = true)
    ∧ (gdm_xdmcp_send_refuse (sample_env 101 []) state_one_forward sample_hostA 999).2
        = [refuse_packet sample_hostA 999, managed_forward_packet sample_hostB sample_hostA]
    ∧ (∃ q : GdmForwardQuery,
        (gdm_xdmcp_send_refuse (sample_env 101 []) state_one_forward sample_hostA 999).2
          = [refuse_packet sample_hostA 999, managed_forward_packet q.from_sa sample_hostA])
    ∧ (∃ p1 : GdmXdmcpManagerPrivate,
        p1.managed_forwards = state_one_forward.priv.managed_forwards
        ∧ gdm_xdmcp_send_refuse (sample_env 101 []) state_one_forward sample_hostB 999
            = ({ state_one_forward with priv := p1 }, [refuse_packet sample_hostB 999])) := by
  have hex : ∃ q ∈ state_one_forward.priv.forward_queries,
      gdm_address_equal q.dsp_sa sample_hostA = true :=
    ⟨{ acctime := 0, dsp_sa := sample_hostA, from_sa := sample_hostB }, by decide, by decide⟩
  refine ⟨hex, by decide, ?_, ?_⟩
  · obtain ⟨l, i, q, p1, _, _, _, _, _, _, h7, _⟩ :=
      (C39_decline_refuse_managed_forward (sample_env 101 []) state_one_forward sample_hostA
        "none" 999).1 hex
    exact ⟨q, by rw [h7]⟩
  obtain ⟨p1, _, h2, _, h4⟩ :=
    (C39_decline_refuse_managed_forward (sample_env 101 []) state_one_forward sample_hostB
      "none" 999).2 (by decide)
  exact ⟨p1, h2, h4⟩

/-! ## choose.c: what each call does to the table and to `ipending` -/

theorem ChooseShrink_refl (c : ChooseState) : ChooseShrink c c :=
  ⟨List.Sublist.refl _, rfl, rfl, rfl, rfl⟩

theorem ChooseShrink_trans {a b c : ChooseState} (h1 : ChooseShrink a b)
    (h2 : ChooseShrink b c) : ChooseShrink a c := by
  obtain ⟨a1, a2, a3, a4, a5⟩ := h1
  obtain ⟨b1, b2, b3, b4, b5⟩ := h2
  exact ⟨b1.trans a1, by rw [b2, a2], by rw [b3, a3], by rw [b4, a4], by rw [b5, a5]⟩

theorem resolved_count_cons (r : MdmIndirectDisplay) (l : List MdmIndirectDisplay) :
    resolved_count (r :: l) = resolved_count l + (if r.acctime > 0 then 1 else 0) := by
  unfold resolved_count
  rw [List.countP_cons]
  simp

theorem resolved_count_append (a b : List MdmIndirectDisplay) :
    resolved_count (a ++ b) = resolved_count a + resolved_count b := by
  unfold resolved_count
  rw [List.countP_append]

theorem resolved_count_sublist (a b : List MdmIndirectDisplay) (h : a.Sublist b) :
    resolved_count a ≤ resolved_count b := by
  unfold resolved_count
  exact h.countP_le _

theorem resolved_count_eraseIdx (l : List MdmIndirectDisplay) (i : Nat)
    (r : MdmIndirectDisplay) (h : l[i]? = some r) :
    resolved_count (l.eraseIdx i) + (if r.acctime > 0 then 1 else 0) = resolved_count l := by
  have := countP_eraseIdx (fun r => decide (r.acctime > 0)) l i r h
  unfold resolved_count
  simpa using this

theorem dispose_spec (c : ChooseState) (i : Nat) :
    ChooseShrink c (mdm_choose_indirect_dispose c i)
      ∧ (c.indirect[i]? = none → mdm_choose_indirect_dispose c i = c)
      ∧ ∀ r, c.indirect[i]? = some r →
          mdm_choose_indirect_dispose c i
            = { c with indirect := c.indirect.eraseIdx i,
                       ipending := if r.acctime > 0 then c.ipending - 1 else c.ipending } := by
  unfold mdm_choose_indirect_dispose
  rcases Option.eq_none_or_eq_some c.indirect[i]? with h | ⟨r, h⟩
  · rw [h]
    exact ⟨ChooseShrink_refl c, fun _ => rfl, fun r hr => (by cases hr)⟩
  · rw [h]
    refine ⟨⟨List.eraseIdx_sublist _ _, ?_, rfl, rfl, rfl⟩, fun hn => (by cases hn), ?_⟩
    · have hc := resolved_count_eraseIdx c.indirect i r h
      unfold pending_excess
      simp only []
      by_cases hr : r.acctime > 0
      · rw [if_pos hr] at hc ⊢
        omega
      · rw [if_neg hr] at hc ⊢
        omega
    · intro r' hr'
      cases hr'
      rfl

theorem dispose_empty_id_shrink (c : ChooseState) (id : Nat) :
    ChooseShrink c (mdm_choose_indirect_dispose_empty_id c id) := by
  unfold mdm_choose_indirect_dispose_empty_id
  split
  · exact ChooseShrink_refl c
  · cases find_first (fun idisp => idisp.id == id) c.indirect with
    | none => exact ChooseShrink_refl c
    | some i =>
      simp only []
      cases c.indirect[i]? with
      | none => exact ChooseShrink_refl c
      | some idisp =>
        simp only []
        split
        · exact (dispose_spec c i).1
        · exact ChooseShrink_refl c

theorem indirect_lookup_scan_shrink (t w : Nat) (sa : sockaddr_storage) :
    ∀ (rest kept : List MdmIndirectDisplay) (ip : Int),
      (mdm_choose_indirect_lookup_scan t w sa kept rest ip).1.Sublist (kept.reverse ++ rest)
      ∧ (mdm_choose_indirect_lookup_scan t w sa kept rest ip).2.1
          - (resolved_count (mdm_choose_indirect_lookup_scan t w sa kept rest ip).1 : Int)
        = ip - (resolved_count (kept.reverse ++ rest) : Int) := by
  intro rest
  induction rest with
  | nil =>
    intro kept ip
    simp [mdm_choose_indirect_lookup_scan]
  | cons id rest ih =>
    intro kept ip
    unfold mdm_choose_indirect_lookup_scan
    by_cases hs : id.acctime > 0 ∧ t > id.acctime + w
    · rw [if_pos hs]
      obtain ⟨h1, h2⟩ := ih kept (ip - 1)
      refine ⟨h1.trans (List.Sublist.append_left (List.sublist_cons_self _ _) _), ?_⟩
      rw [h2, resolved_count_append, resolved_count_append, resolved_count_cons, if_pos hs.1]
      push_cast
      omega
    · rw [if_neg hs]
      by_cases he : gdm_address_equal id.dsp_sa sa = true
      · rw [if_pos he]
        exact ⟨List.Sublist.refl _, rfl⟩
      · rw [if_neg he]
        have := ih (id :: kept) ip
        simpa using this

theorem lookup_shrink (t : Nat) (c : ChooseState) (sa : sockaddr_storage) :
    ChooseShrink c (mdm_choose_indirect_lookup t c sa).1 := by
  obtain ⟨h1, h2⟩ := indirect_lookup_scan_shrink t c.max_wait_indirect sa c.indirect []
    c.ipending
  unfold mdm_choose_indirect_lookup
  rcases hs : mdm_choose_indirect_lookup_scan t c.max_wait_indirect sa [] c.indirect
    c.ipending with ⟨l, ip, r⟩
  rw [hs] at h1 h2
  simp only [List.reverse_nil, List.nil_append] at h1 h2
  exact ⟨h1, h2, rfl, rfl, rfl⟩

theorem alloc_spec (c : ChooseState) (sa : sockaddr_storage) :
    (mdm_choose_indirect_alloc c sa).indirect
        = { id := if c.indirect_id = 0 then 1 else c.indirect_id, dsp_sa := sa,
            chosen_host := none, acctime := 0 } :: c.indirect
      ∧ (mdm_choose_indirect_alloc c sa).indirect_id
          = (if c.indirect_id = 0 then 2 else guint_inc c.indirect_id)
      ∧ (mdm_choose_indirect_alloc c sa).ipending = c.ipending
      ∧ (mdm_choose_indirect_alloc c sa).max_indirect = c.max_indirect
      ∧ (mdm_choose_indirect_alloc c sa).max_wait_indirect = c.max_wait_indirect
      ∧ pending_excess (mdm_choose_indirect_alloc c sa) = pending_excess c := by
  unfold mdm_choose_indirect_alloc
  refine ⟨?_, ?_, rfl, rfl, rfl, ?_⟩
  · by_cases h : c.indirect_id = 0
    · simp only [h, if_true]; rfl
    · simp only [h, if_false]
  · by_cases h : c.indirect_id = 0
    · simp only [h, if_true]; rfl
    · simp only [h, if_false]
  · unfold pending_excess
    simp only []
    rw [resolved_count_cons]
    simp

theorem oldest_pending_spec : ∀ (l : List MdmIndirectDisplay) (k : Nat)
    (acc : Option (Nat × Nat)), (∀ j t, acc = some (j, t) → t > 0 ∧ j < k) →
    (oldest_pending l k acc = none ↔ acc = none ∧ ∀ x ∈ l, x.acctime = 0)
    ∧ ∀ j t, oldest_pending l k acc = some (j, t) →
        t > 0 ∧ (∀ x ∈ l, x.acctime > 0 → t ≤ x.acctime)
        ∧ (∀ j' t', acc = some (j', t') → t ≤ t')
        ∧ (acc = some (j, t) ∨ ∃ x, k ≤ j ∧ l[j - k]? = some x ∧ x.acctime = t) := by
  intro l
  induction l with
  | nil =>
    intro k acc hacc
    unfold oldest_pending
    refine ⟨by simp, ?_⟩
    intro j t h
    exact ⟨(hacc j t h).1, by simp, fun j' t' h' => (by rw [h] at h'; cases h'; exact le_refl _),
      Or.inl h⟩
  | cons id l ih =>
    intro k acc hacc
    unfold oldest_pending
    by_cases h0 : id.acctime = 0
    · rw [if_pos h0]
      obtain ⟨i1, i2⟩ := ih (k + 1) acc (fun j t h => ⟨(hacc j t h).1, by have := (hacc j t h).2; omega⟩)
      refine ⟨?_, ?_⟩
      · rw [i1]
        simp [h0]
      · intro j t h
        obtain ⟨a, b, c, d⟩ := i2 j t h
        refine ⟨a, ?_, c, ?_⟩
        · intro x hx hpos
          rw [List.mem_cons] at hx
          rcases hx with rfl | hx
          · omega
          · exact b x hx hpos
        · rcases d with d | ⟨x, d1, d2, d3⟩
          · exact Or.inl d
          · refine Or.inr ⟨x, by omega, ?_, d3⟩
            have : j - k = (j - (k + 1)) + 1 := by omega
            rw [this, List.getElem?_cons_succ]
            exact d2
    · rw [if_neg h0]
      have hpos : id.acctime > 0 := Nat.pos_of_ne_zero h0
      cases acc with
      | none =>
        simp only []
        obtain ⟨i1, i2⟩ := ih (k + 1) (some (k, id.acctime))
          (fun j t h => by cases h; exact ⟨hpos, by omega⟩)
        refine ⟨?_, ?_⟩
        · rw [i1]
          simp
          intro h
          exact absurd h h0
        · intro j t h
          obtain ⟨a, b, c, d⟩ := i2 j t h
          refine ⟨a, ?_, fun j' t' h' => (by cases h'), ?_⟩
          · intro x hx hxpos
            rw [List.mem_cons] at hx
            rcases hx with rfl | hx
            · exact c k _ rfl
            · exact b x hx hxpos
          · rcases d with d | ⟨x, d1, d2, d3⟩
            · cases d
              exact Or.inr ⟨id, le_refl _, by simp, rfl⟩
            · refine Or.inr ⟨x, by omega, ?_, d3⟩
              have : j - k = (j - (k + 1)) + 1 := by omega
              rw [this, List.getElem?_cons_succ]
              exact d2
      | some a =>
        obtain ⟨j0, t0⟩ := a
        simp only []
        obtain ⟨ht0, hj0⟩ := hacc j0 t0 rfl
        by_cases hlt : id.acctime < t0
        · rw [if_pos hlt]
          obtain ⟨i1, i2⟩ := ih (k + 1) (some (k, id.acctime))
            (fun j t h => by cases h; exact ⟨hpos, by omega⟩)
          refine ⟨?_, ?_⟩
          · rw [i1]
            simp
          · intro j t h
            obtain ⟨a, b, c, d⟩ := i2 j t h
            have hc := c k _ rfl
            refine ⟨a, ?_, fun j' t' h' => (by cases h'; omega), ?_⟩
            · intro x hx hxpos
              rw [List.mem_cons] at hx
              rcases hx with rfl | hx
              · exact hc
              · exact b x hx hxpos
            · rcases d with d | ⟨x, d1, d2, d3⟩
              · cases d
                exact Or.inr ⟨id, le_refl _, by simp, rfl⟩
              · refine Or.inr ⟨x, by omega, ?_, d3⟩
                have : j - k = (j - (k + 1)) + 1 := by omega
                rw [this, List.getElem?_cons_succ]
                exact d2
        · rw [if_neg hlt]
          obtain ⟨i1, i2⟩ := ih (k + 1) (some (j0, t0))
            (fun j t h => by cases h; exact ⟨ht0, by omega⟩)
          refine ⟨?_, ?_⟩
          · rw [i1]
            simp
          · intro j t h
            obtain ⟨a, b, c, d⟩ := i2 j t h
            have hc := c j0 t0 rfl
            refine ⟨a, ?_, fun j' t' h' => (by cases h'; exact hc), ?_⟩
            · intro x hx hxpos
              rw [List.mem_cons] at hx
              rcases hx with rfl | hx
              · omega
              · exact b x hx hxpos
            · rcases d with d | ⟨x, d1, d2, d3⟩
              · exact Or.inl d
              · refine Or.inr ⟨x, by omega, ?_, d3⟩
                have : j - k = (j - (k + 1)) + 1 := by omega
                rw [this, List.getElem?_cons_succ]
                exact d2

theorem resolved_count_zero_iff (l : List MdmIndirectDisplay) :
    resolved_count l = 0 ↔ ∀ x ∈ l, x.acctime = 0 := by
  unfold resolved_count
  rw [List.countP_eq_zero]
  constructor
  · intro h x hx
    have := h x hx
    simpa using this
  · intro h x hx
    simp [h x hx]

theorem remove_oldest_pending_spec (c : ChooseState) :
    (resolved_count c.indirect = 0 ∧ oldest_pending c.indirect 0 none = none
        ∧ remove_oldest_pending c = (c, false))
    ∨ ∃ (i t : Nat) (r : MdmIndirectDisplay),
        oldest_pending c.indirect 0 none = some (i, t)
        ∧ c.indirect[i]? = some r ∧ r.acctime > 0
        ∧ (∀ x ∈ c.indirect, x.acctime > 0 → r.acctime ≤ x.acctime)
        ∧ remove_oldest_pending c
            = ({ c with indirect := c.indirect.eraseIdx i, ipending := c.ipending - 1 }, true)
        ∧ ChooseShrink c (remove_oldest_pending c).1 := by
  obtain ⟨h1, h2⟩ := oldest_pending_spec c.indirect 0 none (fun j t h => by cases h)
  rcases ho : oldest_pending c.indirect 0 none with _ | ⟨i, t⟩
  · left
    have := h1.mp ho
    refine ⟨(resolved_count_zero_iff _).mpr this.2, rfl, ?_⟩
    unfold remove_oldest_pending
    rw [ho]
  · right
    obtain ⟨a, b, _, d⟩ := h2 i t ho
    rcases d with d | ⟨x, _, d2, d3⟩
    · cases d
    · have d2' : c.indirect[i]? = some x := by simpa using d2
      have hx : x.acctime > 0 := by omega
      have hd := (dispose_spec c i).2.2 x d2'
      have hsh := (dispose_spec c i).1
      have he : remove_oldest_pending c = (mdm_choose_indirect_dispose c i, true) := by
        unfold remove_oldest_pending
        rw [ho]
      refine ⟨i, t, x, rfl, d2', hx, ?_, ?_, ?_⟩
      · intro y hy hypos
        rw [d3]
        exact b y hy hypos
      · rw [he, hd, if_pos hx]
      · rw [he]
        exact hsh

theorem getElem?_eraseIdx_track {α : Type} (l : List α) (i k : Nat) (h : i ≠ k) :
    (l.eraseIdx i)[if i < k then k - 1 else k]? = l[k]? := by
  rw [List.getElem?_eraseIdx]
  by_cases hlt : i < k
  · rw [if_pos hlt]
    have h1 : ¬ k - 1 < i := by omega
    rw [if_neg h1]
    have : k - 1 + 1 = k := by omega
    rw [this]
  · rw [if_neg hlt]
    have h1 : k < i := by omega
    rw [if_pos h1]

theorem choose_data_evict_spec : ∀ (fuel : Nat) (c : ChooseState) (idisp : Option Nat),
    c.indirect.length < fuel →
    ∃ (c1 : ChooseState) (idisp1 : Option Nat),
      mdm_choose_data_evict fuel c idisp = some (c1, idisp1)
      ∧ ChooseShrink c c1
      ∧ (c1.ipending < c1.max_indirect ∨ resolved_count c1.indirect = 0)
      ∧ c1.indirect.filter (fun x => decide (x.acctime = 0))
          = c.indirect.filter (fun x => decide (x.acctime = 0))
      ∧ (∀ k1, idisp1 = some k1 → ∃ k, idisp = some k ∧ c1.indirect[k1]? = c.indirect[k]?)
      ∧ (∀ k r, idisp = some k → c.indirect[k]? = some r → r.acctime = 0 →
          ∃ k1, idisp1 = some k1)
      ∧ (c.ipending < c.max_indirect → c1 = c ∧ idisp1 = idisp) := by
  intro fuel
  induction fuel with
  | zero => intro c idisp h; omega
  | succ fuel ih =>
    intro c idisp hlen
    unfold mdm_choose_data_evict
    by_cases hge : c.ipending ≥ c.max_indirect
    · rw [if_pos hge]
      rcases remove_oldest_pending_spec c with
        ⟨h0, ho, _⟩ | ⟨i, t, r, ho, hget, hpos, _, hr, hsh⟩
      · rw [ho]
        exact ⟨c, idisp, rfl, ChooseShrink_refl c, Or.inr h0, rfl,
          fun k1 h => ⟨k1, h, rfl⟩, fun k r h _ _ => ⟨k, h⟩, fun _ => ⟨rfl, rfl⟩⟩
      · rw [ho]
        simp only []
        have hlen1 : (remove_oldest_pending c).1.indirect.length < fuel := by
          rw [hr]
          have := length_eraseIdx_split c.indirect i r hget
          show (c.indirect.eraseIdx i).length < fuel
          omega
        have hind : (remove_oldest_pending c).1.indirect = c.indirect.eraseIdx i := by rw [hr]
        obtain ⟨c1, idisp1, e1, e2, e3, e4, e5, e6, _⟩ := ih (remove_oldest_pending c).1
          (idisp.bind (fun k => if i = k then none else if i < k then some (k - 1) else some k))
          hlen1
        refine ⟨c1, idisp1, e1, ChooseShrink_trans hsh e2, e3, ?_, ?_, ?_, ?_⟩
        · rw [e4, hind]
          exact filter_eraseIdx _ _ _ _ hget (by simp; omega)
        · intro k1 hk1
          obtain ⟨k', a1, a2⟩ := e5 k1 hk1
          cases idisp with
          | none => simp at a1
          | some k =>
            simp only [Option.some_bind] at a1
            by_cases hik : i = k
            · rw [if_pos hik] at a1; cases a1
            · rw [if_neg hik] at a1
              refine ⟨k, rfl, ?_⟩
              rw [a2, hind, ← getElem?_eraseIdx_track c.indirect i k hik]
              by_cases hlt : i < k
              · rw [if_pos hlt] at a1 ⊢
                cases a1; rfl
              · rw [if_neg hlt] at a1 ⊢
                cases a1; rfl
        · intro k r0 hk hr0 hz
          cases hk
          have hik : i ≠ k := by
            intro hik
            rw [hik, hr0] at hget
            cases hget
            omega
          refine e6 (if i < k then k - 1 else k) r0 ?_ ?_ hz
          · simp only [Option.some_bind]
            rw [if_neg hik]
            by_cases hlt : i < k
            · rw [if_pos hlt, if_pos hlt]
            · rw [if_neg hlt, if_neg hlt]
          · rw [hind, getElem?_eraseIdx_track c.indirect i k hik]
            exact hr0
        · intro hlt
          omega
    · rw [if_neg hge]
      exact ⟨c, idisp, rfl, ChooseShrink_refl c, Or.inl (by omega), rfl,
        fun k1 h => ⟨k1, h, rfl⟩, fun k r h _ _ => ⟨k, h⟩, fun _ => ⟨rfl, rfl⟩⟩

theorem choose_data_cases (now : Nat) (gai : String → List sockaddr_storage)
    (c : ChooseState) (data : String) :
    (mdm_choose_data now gai c data = some (c, false)
      ∧ ¬ ∃ (p1 p2 : List Char) (rest : List (List Char)) (id : Int) (sa : sockaddr_storage)
          (k : Nat),
          strtok_tokens data.toList [] = MDM_SOP_CHOSEN.toList :: p1 :: p2 :: rest
          ∧ sscanf_d p1 = some id
          ∧ get_first_address_for_node (gai (String.mk p2)) = some sa
          ∧ find_first (fun idisp => idisp.id == to_guint id) c.indirect = some k)
    ∨ ∃ (p1 p2 : List Char) (rest : List (List Char)) (id : Int) (sa : sockaddr_storage)
        (k : Nat) (c2 : ChooseState) (idisp1 : Option Nat) (c1 : ChooseState),
        strtok_tokens data.toList [] = MDM_SOP_CHOSEN.toList :: p1 :: p2 :: rest
        ∧ sscanf_d p1 = some id
        ∧ get_first_address_for_node (gai (String.mk p2)) = some sa
        ∧ find_first (fun idisp => idisp.id == to_guint id) c.indirect = some k
        ∧ mdm_choose_data_evict (c.indirect.length + 1) c (some k) = some (c2, idisp1)
        ∧ mdm_choose_data now gai c data = some (c1, true)
        ∧ c1.ipending = c2.ipending + 1 ∧ c1.indirect_id = c2.indirect_id
        ∧ c1.max_indirect = c2.max_indirect ∧ c1.max_wait_indirect = c2.max_wait_indirect
        ∧ ((c1.indirect = c2.indirect
              ∧ (idisp1 = none ∨ ∃ k1, idisp1 = some k1 ∧ c2.indirect[k1]? = none))
            ∨ ∃ (k1 : Nat) (r : MdmIndirectDisplay), idisp1 = some k1
                ∧ c2.indirect[k1]? = some r
                ∧ c1.indirect
                    = c2.indirect.set k1 { r with acctime := now, chosen_host := some sa }) := by
  unfold mdm_choose_data
  rcases htok : strtok_tokens data.toList [] with _ | ⟨p0, rest0⟩
  · left
    exact ⟨rfl, by rintro ⟨p1, p2, rest, id, sa, k, h, _⟩; cases h⟩
  simp only []
  by_cases hp0 : p0 ≠ MDM_SOP_CHOSEN.toList
  · rw [if_pos hp0]
    left
    refine ⟨rfl, ?_⟩
    rintro ⟨p1, p2, rest, id, sa, k, h, _⟩
    simp only [List.cons.injEq] at h
    exact hp0 h.1
  rw [if_neg hp0]
  have hp0' : p0 = MDM_SOP_CHOSEN.toList := by simpa using hp0
  subst hp0'
  cases rest0 with
  | nil =>
    left
    exact ⟨rfl, by rintro ⟨p1, p2, rest, id, sa, k, h, _⟩; simp at h⟩
  | cons p1 rest1 =>
    simp only []
    rcases hsc : sscanf_d p1 with _ | id
    · left
      refine ⟨rfl, ?_⟩
      rintro ⟨p1', p2, rest, id, sa, k, h, h2, _⟩
      simp only [List.cons.injEq] at h
      obtain ⟨_, h, _⟩ := h
      subst h
      rw [hsc] at h2
      cases h2
    simp only []
    cases rest1 with
    | nil =>
      left
      exact ⟨rfl, by rintro ⟨p1', p2, rest, id, sa, k, h, _⟩; simp at h⟩
    | cons p2 rest2 =>
      simp only []
      rcases hga : get_first_address_for_node (gai (String.mk p2)) with _ | sa
      · left
        refine ⟨rfl, ?_⟩
        rintro ⟨p1', p2', rest, id', sa, k, h, _, h3, _⟩
        simp only [List.cons.injEq] at h
        obtain ⟨_, _, h, _⟩ := h
        subst h
        rw [hga] at h3
        cases h3
      simp only []
      generalize hff : find_first _ c.indirect = ff
      rcases ff with _ | k
      · left
        refine ⟨rfl, ?_⟩
        rintro ⟨p1', p2', rest, id', sa', k, h, h2, _, h4⟩
        simp only [List.cons.injEq] at h
        obtain ⟨_, h, _, _⟩ := h
        subst h
        rw [hsc] at h2
        cases h2
        rw [hff] at h4
        cases h4
      simp only []
      right
      obtain ⟨c2, idisp1, e1, _⟩ := choose_data_evict_spec (c.indirect.length + 1) c (some k)
        (Nat.lt_succ_self _)
      rw [e1]
      cases idisp1 with
      | none =>
        exact ⟨p1, p2, rest2, id, sa, k, c2, none, _, rfl, hsc, hga, hff, e1, rfl, rfl, rfl,
          rfl, rfl, Or.inl ⟨rfl, Or.inl rfl⟩⟩
      | some k1 =>
        simp only []
        rcases hg : c2.indirect[k1]? with _ | r
        · exact ⟨p1, p2, rest2, id, sa, k, c2, some k1, _, rfl, hsc, hga, hff, e1, rfl, rfl,
            rfl, rfl, rfl, Or.inl ⟨rfl, Or.inr ⟨k1, rfl, hg⟩⟩⟩
        · exact ⟨p1, p2, rest2, id, sa, k, c2, some k1, _, rfl, hsc, hga, hff, e1, rfl, rfl,
            rfl, rfl, rfl, Or.inr ⟨k1, r, rfl, hg, rfl⟩⟩

theorem choose_data_step (now : Nat) (gai : String → List sockaddr_storage)
    (c c1 : ChooseState) (data : String) (ret : Bool)
    (h : mdm_choose_data now gai c data = some (c1, ret)) :
    c1.max_indirect = c.max_indirect ∧ c1.max_wait_indirect = c.max_wait_indirect
      ∧ c1.indirect_id = c.indirect_id
      ∧ pending_excess c ≤ pending_excess c1
      ∧ (c1.indirect.map (fun r => r.id)).Sublist (c.indirect.map (fun r => r.id))
      ∧ (ret = false → c1 = c)
      ∧ (1 ≤ c.max_indirect → 0 ≤ pending_excess c →
          (resolved_count c.indirect : Int) ≤ c.max_indirect →
          (resolved_count c1.indirect : Int) ≤ c.max_indirect) := by
  rcases choose_data_cases now gai c data with
    ⟨h0, _⟩ | ⟨p1, p2, rest, id, sa, k, c2, idisp1, c1', _, _, _, _, hev, hd, a1, a2, a3, a4, a5⟩
  · rw [h0] at h
    simp only [Option.some.injEq, Prod.mk.injEq] at h
    obtain ⟨h1, _⟩ := h
    subst h1
    exact ⟨rfl, rfl, rfl, le_refl _, List.Sublist.refl _, fun _ => rfl, fun _ _ hb => hb⟩
  · rw [hd] at h
    simp only [Option.some.injEq, Prod.mk.injEq] at h
    obtain ⟨h1, h2⟩ := h
    subst h1
    subst h2
    obtain ⟨c2', idisp1', e1, e2, e3, _⟩ := choose_data_evict_spec (c.indirect.length + 1) c
      (some k) (Nat.lt_succ_self _)
    rw [hev] at e1
    simp only [Option.some.injEq, Prod.mk.injEq] at e1
    obtain ⟨e1a, e1b⟩ := e1
    subst e1a
    subst e1b
    obtain ⟨s1, s2, s3, s4, s5⟩ := e2
    have hR2 := resolved_count_sublist _ _ s1
    have hex2 : pending_excess c2 = c2.ipending - (resolved_count c2.indirect : Int) := rfl
    have hex : pending_excess c = c.ipending - (resolved_count c.indirect : Int) := rfl
    have hex1 : pending_excess c1' = c1'.ipending - (resolved_count c1'.indirect : Int) := rfl
    rcases a5 with ⟨b1, _⟩ | ⟨k1, r, _, b2, b3⟩
    · have hR1 : resolved_count c1'.indirect = resolved_count c2.indirect := by rw [b1]
      refine ⟨by rw [a3, s4], by rw [a4, s5], by rw [a2, s3], by omega, ?_,
        fun hf => (by cases hf), ?_⟩
      · rw [b1]
        exact s1.map _
      · intro _ _ hb
        omega
    · have hcnt := countP_set (fun r => decide (r.acctime > 0)) c2.indirect k1 r
        { r with acctime := now, chosen_host := some sa } b2
      have hR1 : resolved_count c1'.indirect + (if r.acctime > 0 then 1 else 0)
          = resolved_count c2.indirect + (if now > 0 then 1 else 0) := by
        rw [b3]
        unfold resolved_count
        simpa using hcnt
      have hR1le : resolved_count c1'.indirect ≤ resolved_count c2.indirect + 1 := by
        split at hR1 <;> split at hR1 <;> omega
      refine ⟨by rw [a3, s4], by rw [a4, s5], by rw [a2, s3], by omega, ?_,
        fun hf => (by cases hf), ?_⟩
      · have hm : (c2.indirect.set k1 { r with acctime := now, chosen_host := some sa }).map
            (fun r => r.id) = c2.indirect.map (fun r => r.id) :=
          map_set_same (fun r : MdmIndirectDisplay => r.id) c2.indirect k1 r
            { r with acctime := now, chosen_host := some sa } b2 rfl
        rw [b3, hm]
        exact s1.map _
      · intro hmax hpos hb
        rcases e3 with e3 | e3
        · omega
        · omega

theorem choose_reachable_inv (n : Nat) (c : ChooseState) (h : ChooseReachable n c) :
    0 ≤ pending_excess c
      ∧ (1 ≤ c.max_indirect → (resolved_count c.indirect : Int) ≤ c.max_indirect) := by
  have shrink : ∀ (c c1 : ChooseState), ChooseShrink c c1 →
      (0 ≤ pending_excess c
        ∧ (1 ≤ c.max_indirect → (resolved_count c.indirect : Int) ≤ c.max_indirect)) →
      (0 ≤ pending_excess c1
        ∧ (1 ≤ c1.max_indirect → (resolved_count c1.indirect : Int) ≤ c1.max_indirect)) := by
    intro c c1 hs hi
    obtain ⟨s1, s2, _, s4, _⟩ := hs
    have := resolved_count_sublist _ _ s1
    refine ⟨by rw [s2]; exact hi.1, ?_⟩
    intro hm
    rw [s4] at hm ⊢
    have := hi.2 hm
    omega
  induction h with
  | init c h =>
    obtain ⟨h1, h2, _⟩ := h
    unfold pending_excess
    rw [h1, h2]
    simp [resolved_count]
    intro hm
    omega
  | alloc n c sa _ ih =>
    obtain ⟨a1, _, _, a4, _, a6⟩ := alloc_spec c sa
    refine ⟨by rw [a6]; exact ih.1, ?_⟩
    intro hm
    rw [a4] at hm ⊢
    rw [a1, resolved_count_cons]
    simpa using ih.2 hm
  | lookup n c t sa _ ih => exact shrink c _ (lookup_shrink t c sa) ih
  | dispose n c i _ ih => exact shrink c _ (dispose_spec c i).1 ih
  | dispose_empty_id n c id _ ih => exact shrink c _ (dispose_empty_id_shrink c id) ih
  | data n c c1 now gai line ret _ hstep ih =>
    obtain ⟨d1, _, _, d4, _, _, d7⟩ := choose_data_step now gai c c1 line ret hstep
    refine ⟨le_trans ih.1 d4, ?_⟩
    intro hm
    rw [d1] at hm ⊢
    exact d7 hm ih.1 (ih.2 hm)

theorem choose_reachable_ids (n : Nat) (c : ChooseState) (h : ChooseReachable n c) :
    n ≤ 4294967294 → c.indirect_id = n + 1 ∧ ∀ r ∈ c.indirect, 0 < r.id ∧ r.id ≤ n := by
  have shrink : ∀ (n : Nat) (c c1 : ChooseState), ChooseShrink c c1 →
      (c.indirect_id = n + 1 ∧ ∀ r ∈ c.indirect, 0 < r.id ∧ r.id ≤ n) →
      (c1.indirect_id = n + 1 ∧ ∀ r ∈ c1.indirect, 0 < r.id ∧ r.id ≤ n) := by
    intro n c c1 hs hi
    obtain ⟨s1, _, s3, _, _⟩ := hs
    exact ⟨by rw [s3]; exact hi.1, fun r hr => hi.2 r (s1.subset hr)⟩
  induction h with
  | init c h =>
    intro _
    obtain ⟨_, h2, h3⟩ := h
    rw [h2, h3]
    exact ⟨rfl, by intro r hr; simp at hr⟩
  | alloc n c sa _ ih =>
    intro hn
    obtain ⟨i1, i2⟩ := ih (by omega)
    obtain ⟨a1, a2, _⟩ := alloc_spec c sa
    have hne : ¬ c.indirect_id = 0 := by omega
    rw [if_neg hne] at a1 a2
    refine ⟨?_, ?_⟩
    · rw [a2, i1]
      unfold guint_inc
      omega
    · intro r hr
      rw [a1, List.mem_cons] at hr
      rcases hr with rfl | hr
      · show 0 < c.indirect_id ∧ c.indirect_id ≤ n + 1
        omega
      · have := i2 r hr
        omega
  | lookup n c t sa _ ih => intro hn; exact shrink n c _ (lookup_shrink t c sa) (ih hn)
  | dispose n c i _ ih => intro hn; exact shrink n c _ (dispose_spec c i).1 (ih hn)
  | dispose_empty_id n c id _ ih =>
    intro hn; exact shrink n c _ (dispose_empty_id_shrink c id) (ih hn)
  | data n c c1 now gai line ret _ hstep ih =>
    intro hn
    obtain ⟨i1, i2⟩ := ih hn
    obtain ⟨_, _, d3, _, d5, _, _⟩ := choose_data_step now gai c c1 line ret hstep
    refine ⟨by rw [d3]; exact i1, ?_⟩
    intro r hr
    have hm : r.id ∈ c.indirect.map (fun r => r.id) :=
      d5.subset (List.mem_map_of_mem (fun r => r.id) hr)
    rw [List.mem_map] at hm
    obtain ⟨r', hr', he⟩ := hm
    have := i2 r' hr'
    have he' : r'.id = r.id := he
    omega

theorem alloc_times_spec (c0 : ChooseState) (sa : sockaddr_storage) (h0 : ChooseInitial c0) :
    ∀ k, k ≤ 4294967295 →
      ChooseReachable k (alloc_times k c0 sa)
        ∧ (alloc_times k c0 sa).indirect_id = (k + 1) % 4294967296
        ∧ (1 ≤ k → ∃ r ∈ (alloc_times k c0 sa).indirect, r.id = 1) := by
  intro k
  induction k with
  | zero =>
    intro _
    refine ⟨ChooseReachable.init c0 h0, ?_, fun h => by omega⟩
    show c0.indirect_id = _
    rw [h0.2.2]
  | succ k ih =>
    intro hk
    obtain ⟨i1, i2, i3⟩ := ih (by omega)
    obtain ⟨a1, a2, _⟩ := alloc_spec (alloc_times k c0 sa) sa
    have hid : (alloc_times k c0 sa).indirect_id = k + 1 := by
      rw [i2]
      omega
    have hne : ¬ (alloc_times k c0 sa).indirect_id = 0 := by omega
    rw [if_neg hne] at a1 a2
    refine ⟨ChooseReachable.alloc k _ sa i1, ?_, ?_⟩
    · show (mdm_choose_indirect_alloc (alloc_times k c0 sa) sa).indirect_id = _
      rw [a2, hid]
      rfl
    · intro _
      show ∃ r ∈ (mdm_choose_indirect_alloc (alloc_times k c0 sa) sa).indirect, r.id = 1
      rw [a1]
      by_cases hk0 : k = 0
      · refine ⟨_, List.mem_cons_self _ _, ?_⟩
        show (alloc_times k c0 sa).indirect_id = 1
        rw [hid, hk0]
      · obtain ⟨r, hr, he⟩ := i3 (by omega)
        exact ⟨r, List.mem_cons_of_mem _ hr, he⟩

/-! ## choose.c: the claims -/

theorem sample_choose_resolved_reachable :
    ChooseReachable 1 (sample_choose_resolved 1)
      ∧ ChooseReachable 1 (sample_choose_resolved 15) :=
  ⟨ChooseReachable.data 1 (mdm_choose_indirect_alloc (sample_choose 1) sample_hostA)
      (sample_choose_resolved 1) 100 sample_getaddrinfo "CHOSEN 1 10.0.0.3" true
      (ChooseReachable.alloc 0 _ sample_hostA (ChooseReachable.init _ ⟨rfl, rfl, rfl⟩))
      (by decide),
   ChooseReachable.data 1 (mdm_choose_indirect_alloc (sample_choose 15) sample_hostA)
      (sample_choose_resolved 15) 100 sample_getaddrinfo "CHOSEN 1 10.0.0.3" true
      (ChooseReachable.alloc 0 _ sample_hostA (ChooseReachable.init _ ⟨rfl, rfl, rfl⟩))
      (by decide)⟩

/-- C33, counterexample: `indirect_id` is a `guint` and only the value 0 is skipped.
After 4294967295 allocations, with the record of the first one (id 1) still in the table,
the counter has wrapped to 0 and the next allocation gives the new record the id 1 again. -/
theorem C33_counterexample :
    ChooseReachable 4294967295 (alloc_times 4294967295 (sample_choose 15) sample_hostA)
    ∧ (∃ r ∈ (alloc_times 4294967295 (sample_choose 15) sample_hostA).indirect, r.id = 1)
    ∧ ((mdm_choose_indirect_alloc (alloc_times 4294967295 (sample_choose 15) sample_hostA)
          sample_hostB).indirect.map (fun r => r.id)).head? = some 1 := by
  obtain ⟨i1, i2, i3⟩ := alloc_times_spec (sample_choose 15) sample_hostA ⟨rfl, rfl, rfl⟩
    4294967295 (le_refl _)
  have hz : (alloc_times 4294967295 (sample_choose 15) sample_hostA).indirect_id = 0 := by
    rw [i2]
  obtain ⟨a1, _⟩ := alloc_spec (alloc_times 4294967295 (sample_choose 15) sample_hostA)
    sample_hostB
  refine ⟨i1, i3 (by norm_num), ?_⟩
  rw [a1, if_pos hz, List.map_cons, List.head?_cons]

/-- C33 (amended): in every state, `mdm_choose_indirect_alloc` puts at the head of the
table a record with a non-zero id (the counter, or 1 when the counter is 0), the origin
given, no chosen host and `acctime` 0, and the earlier records follow unchanged.  In a
state reached from the initial one with `n ≤ 4294967294` allocations so far, the id is
`n + 1` and differs from the id of every record in the table. -/
theorem C33_alloc_fresh_id (c : ChooseState) (sa : sockaddr_storage) :
    (∃ id : Nat, id ≠ 0
        ∧ (id = c.indirect_id ∨ (c.indirect_id = 0 ∧ id = 1))
        ∧ (mdm_choose_indirect_alloc c sa).indirect
            = { id := id, dsp_sa := sa, chosen_host := none, acctime := 0 } :: c.indirect
        ∧ (mdm_choose_indirect_alloc c sa).ipending = c.ipending)
    ∧ (∀ n : Nat, ChooseReachable n c → n ≤ 4294967294 →
        (mdm_choose_indirect_alloc c sa).indirect
            = { id := n + 1, dsp_sa := sa, chosen_host := none, acctime := 0 } :: c.indirect
        ∧ ∀ r ∈ c.indirect, r.id ≠ n + 1) := by
  obtain ⟨a1, _, a3, _⟩ := alloc_spec c sa
  constructor
  · by_cases h : c.indirect_id = 0
    · rw [if_pos h] at a1
      exact ⟨1, by decide, Or.inr ⟨h, rfl⟩, a1, a3⟩
    · rw [if_neg h] at a1
      exact ⟨c.indirect_id, h, Or.inl rfl, a1, a3⟩
  · intro n hr hn
    obtain ⟨i1, i2⟩ := choose_reachable_ids n c hr hn
    have hne : ¬ c.indirect_id = 0 := by omega
    rw [if_neg hne, i1] at a1
    refine ⟨a1, ?_⟩
    intro r hr'
    have := i2 r hr'
    omega

/-- C33, witness: with the record 1 in the table, the next record gets the id 2. -/
theorem C33_alloc_fresh_id_witness :
    ChooseReachable 1 (sample_choose_resolved 15)
    ∧ ((mdm_choose_indirect_alloc (sample_choose_resolved 15) sample_hostB).indirect.map
        (fun r => r.id)) = [2, 1] := by
  refine ⟨sample_choose_resolved_reachable.2, ?_⟩
  rw [((C33_alloc_fresh_id (sample_choose_resolved 15) sample_hostB).2 1
    sample_choose_resolved_reachable.2 (by norm_num)).1]
  rfl

theorem indirect_lookup_scan_none (t w : Nat) (sa : sockaddr_storage) :
    ∀ (rest kept : List MdmIndirectDisplay) (ip : Int),
      (∀ x ∈ rest, indirect_stale t w x = true ∨ gdm_address_equal x.dsp_sa sa = false) →
      mdm_choose_indirect_lookup_scan t w sa kept rest ip
        = (kept.reverse ++ rest.filter (fun x => !indirect_stale t w x),
           ip - (rest.countP (indirect_stale t w) : Int), none) := by
  intro rest
  induction rest with
  | nil =>
    intro kept ip _
    simp [mdm_choose_indirect_lookup_scan]
  | cons id rest ih =>
    intro kept ip hall
    have hrest : ∀ x ∈ rest,
        indirect_stale t w x = true ∨ gdm_address_equal x.dsp_sa sa = false :=
      fun x hx => hall x (List.mem_cons_of_mem _ hx)
    unfold mdm_choose_indirect_lookup_scan
    by_cases hs : id.acctime > 0 ∧ t > id.acctime + w
    · have hst : indirect_stale t w id = true := by simp [indirect_stale, hs]
      rw [if_pos hs, ih kept (ip - 1) hrest]
      simp only [List.filter_cons, List.countP_cons, hst, Bool.not_true, if_true,
        Bool.false_eq_true, if_false, Prod.mk.injEq, true_and, and_true]
      push_cast
      omega
    · have hst : indirect_stale t w id = false := by simp [indirect_stale, hs]
      rw [if_neg hs]
      have he : gdm_address_equal id.dsp_sa sa = false := by
        rcases hall id (List.mem_cons_self _ _) with h | h
        · rw [hst] at h; cases h
        · exact h
      rw [if_neg (by rw [he]; simp), ih (id :: kept) ip hrest]
      simp only [List.filter_cons, List.countP_cons, hst, Bool.not_false, if_true,
        Bool.false_eq_true, if_false, List.reverse_cons, List.append_assoc,
        List.singleton_append, Prod.mk.injEq, true_and, and_true]
      omega

theorem indirect_lookup_scan_found (t w : Nat) (sa : sockaddr_storage)
    (id : MdmIndirectDisplay) (post : List MdmIndirectDisplay)
    (hst : indirect_stale t w id = false) (he : gdm_address_equal id.dsp_sa sa = true) :
    ∀ (pre kept : List MdmIndirectDisplay) (ip : Int),
      (∀ x ∈ pre, indirect_stale t w x = true ∨ gdm_address_equal x.dsp_sa sa = false) →
      mdm_choose_indirect_lookup_scan t w sa kept (pre ++ id :: post) ip
        = (kept.reverse ++ (pre.filter (fun x => !indirect_stale t w x) ++ id :: post),
           ip - (pre.countP (indirect_stale t w) : Int),
           some (kept.length + (pre.filter (fun x => !indirect_stale t w x)).length)) := by
  intro pre
  induction pre with
  | nil =>
    intro kept ip _
    have hs : ¬ (id.acctime > 0 ∧ t > id.acctime + w) := by
      simpa [indirect_stale] using hst
    simp only [List.nil_append]
    unfold mdm_choose_indirect_lookup_scan
    rw [if_neg hs, if_pos he]
    simp
  | cons x pre ih =>
    intro kept ip hall
    have hpre : ∀ y ∈ pre,
        indirect_stale t w y = true ∨ gdm_address_equal y.dsp_sa sa = false :=
      fun y hy => hall y (List.mem_cons_of_mem _ hy)
    simp only [List.cons_append]
    unfold mdm_choose_indirect_lookup_scan
    by_cases hs : x.acctime > 0 ∧ t > x.acctime + w
    · have hsx : indirect_stale t w x = true := by simp [indirect_stale, hs]
      rw [if_pos hs, ih kept (ip - 1) hpre]
      simp only [List.filter_cons, List.countP_cons, hsx, Bool.not_true, if_true,
        Bool.false_eq_true, if_false, Prod.mk.injEq, true_and, and_true]
      push_cast
      omega
    · have hsx : indirect_stale t w x = false := by simp [indirect_stale, hs]
      rw [if_neg hs]
      have hex : gdm_address_equal x.dsp_sa sa = false := by
        rcases hall x (List.mem_cons_self _ _) with h | h
        · rw [hsx] at h; cases h
        · exact h
      rw [if_neg (by rw [hex]; simp), ih (x :: kept) ip hpre]
      simp only [List.filter_cons, List.countP_cons, hsx, Bool.not_false, if_true,
        Bool.false_eq_true, if_false, List.reverse_cons, List.append_assoc,
        List.singleton_append, List.cons_append, List.length_cons, Prod.mk.injEq, true_and,
        Option.some.injEq]
      refine ⟨by rw [List.nil_append], by simp, by omega⟩

theorem first_fresh_split (t w : Nat) (sa : sockaddr_storage) :
    ∀ l : List MdmIndirectDisplay,
      (∀ x ∈ l, indirect_stale t w x = true ∨ gdm_address_equal x.dsp_sa sa = false)
      ∨ ∃ (pre : List MdmIndirectDisplay) (id : MdmIndirectDisplay)
          (post : List MdmIndirectDisplay),
          l = pre ++ id :: post
          ∧ (∀ x ∈ pre, indirect_stale t w x = true ∨ gdm_address_equal x.dsp_sa sa = false)
          ∧ indirect_stale t w id = false ∧ gdm_address_equal id.dsp_sa sa = true := by
  intro l
  induction l with
  | nil => left; intro x hx; simp at hx
  | cons a l ih =>
    by_cases ha : indirect_stale t w a = false ∧ gdm_address_equal a.dsp_sa sa = true
    · right
      exact ⟨[], a, l, rfl, by intro x hx; simp at hx, ha.1, ha.2⟩
    · have ha' : indirect_stale t w a = true ∨ gdm_address_equal a.dsp_sa sa = false := by
        by_cases h1 : indirect_stale t w a = true
        · exact Or.inl h1
        · right
          have h1' : indirect_stale t w a = false := by simpa using h1
          by_contra h2
          exact ha ⟨h1', by simpa using h2⟩
      rcases ih with ih | ⟨pre, id, post, e1, e2, e3, e4⟩
      · left
        intro x hx
        rw [List.mem_cons] at hx
        rcases hx with rfl | hx
        · exact ha'
        · exact ih x hx
      · right
        refine ⟨a :: pre, id, post, by rw [e1]; rfl, ?_, e3, e4⟩
        intro x hx
        rw [List.mem_cons] at hx
        rcases hx with rfl | hx
        · exact ha'
        · exact e2 x hx

theorem indirect_lookup_cases (now : Nat) (c : ChooseState) (sa : sockaddr_storage) :
    ((∀ x ∈ c.indirect, indirect_stale now c.max_wait_indirect x = true
          ∨ gdm_address_equal x.dsp_sa sa = false)
      ∧ mdm_choose_indirect_lookup now c sa
          = ({ c with
               indirect := c.indirect.filter
                 (fun x => !indirect_stale now c.max_wait_indirect x),
               ipending := c.ipending
                 - (c.indirect.countP (indirect_stale now c.max_wait_indirect) : Int) },
             none))
    ∨ ∃ (pre : List MdmIndirectDisplay) (id : MdmIndirectDisplay)
        (post : List MdmIndirectDisplay),
        c.indirect = pre ++ id :: post
        ∧ (∀ x ∈ pre, indirect_stale now c.max_wait_indirect x = true
            ∨ gdm_address_equal x.dsp_sa sa = false)
        ∧ indirect_stale now c.max_wait_indirect id = false
        ∧ gdm_address_equal id.dsp_sa sa = true
        ∧ mdm_choose_indirect_lookup now c sa
            = ({ c with
                 indirect := pre.filter
                   (fun x => !indirect_stale now c.max_wait_indirect x) ++ id :: post,
                 ipending := c.ipending
                   - (pre.countP (indirect_stale now c.max_wait_indirect) : Int) },
               some (pre.filter
                 (fun x => !indirect_stale now c.max_wait_indirect x)).length)
        ∧ (pre.filter (fun x => !indirect_stale now c.max_wait_indirect x) ++ id :: post)[
            (pre.filter (fun x => !indirect_stale now c.max_wait_indirect x)).length]?
            = some id := by
  rcases first_fresh_split now c.max_wait_indirect sa c.indirect with
    h | ⟨pre, id, post, e1, e2, e3, e4⟩
  · left
    refine ⟨h, ?_⟩
    unfold mdm_choose_indirect_lookup
    rw [indirect_lookup_scan_none now c.max_wait_indirect sa c.indirect [] c.ipending h]
    simp
  · right
    refine ⟨pre, id, post, e1, e2, e3, e4, ?_, by rw [List.getElem?_append_right (le_refl _)]; simp⟩
    unfold mdm_choose_indirect_lookup
    rw [e1, indirect_lookup_scan_found now c.max_wait_indirect sa id post e3 e4 pre []
      c.ipending e2]
    simp

/-- C34: `mdm_choose_indirect_lookup`, for every table, origin and wallclock time.  A
record is stale when it is resolved (`acctime > 0`) and `now > acctime + max_wait_indirect`.
Either every record is stale or has another origin: then the lookup returns none, and the
table is left without its stale records, `ipending` lowered by their number.  Or `id` is
the first record in list order that is not stale and has the origin looked up: then the
lookup returns `id` (at its new position), the stale records before it are gone from the
table with `ipending` lowered by their number, and `id` and the records after it are
untouched. -/
theorem C34_indirect_lookup_first_fresh (now : Nat) (c : ChooseState)
    (sa : sockaddr_storage) :
    (∀ x : MdmIndirectDisplay, indirect_stale now c.max_wait_indirect x = true
        ↔ (x.acctime > 0 ∧ now > x.acctime + c.max_wait_indirect))
    ∧ (((∀ x ∈ c.indirect, indirect_stale now c.max_wait_indirect x = true
            ∨ gdm_address_equal x.dsp_sa sa = false)
        ∧ mdm_choose_indirect_lookup now c sa
            = ({ c with
                 indirect := c.indirect.filter
                   (fun x => !indirect_stale now c.max_wait_indirect x),
                 ipending := c.ipending
                   - (c.indirect.countP (indirect_stale now c.max_wait_indirect) : Int) },
               none))
      ∨ ∃ (pre : List MdmIndirectDisplay) (id : MdmIndirectDisplay)
          (post : List MdmIndirectDisplay),
          c.indirect = pre ++ id :: post
          ∧ (∀ x ∈ pre, indirect_stale now c.max_wait_indirect x = true
              ∨ gdm_address_equal x.dsp_sa sa = false)
          ∧ indirect_stale now c.max_wait_indirect id = false
          ∧ gdm_address_equal id.dsp_sa sa = true
          ∧ mdm_choose_indirect_lookup now c sa
              = ({ c with
                   indirect := pre.filter
                     (fun x => !indirect_stale now c.max_wait_indirect x) ++ id :: post,
                   ipending := c.ipending
                     - (pre.countP (indirect_stale now c.max_wait_indirect) : Int) },
                 some (pre.filter
                   (fun x => !indirect_stale now c.max_wait_indirect x)).length)
          ∧ (pre.filter (fun x => !indirect_stale now c.max_wait_indirect x) ++ id :: post)[
              (pre.filter (fun x => !indirect_stale now c.max_wait_indirect x)).length]?
              = some id) := by
  refine ⟨?_, indirect_lookup_cases now c sa⟩
  intro x
  simp [indirect_stale]

/-- C35: `mdm_choose_data` always returns, and it returns TRUE exactly when the line
splits (at spaces) into at least three tokens of which the first is "CHOSEN", the second
starts with an integer for `sscanf`, the third resolves to an address, and some record of
the table has that id; when it returns FALSE nothing changes.  But the record found need
not survive: the eviction loop runs after the record has been found and may dispose that
very record.  With `max_indirect = 1` and the record 1 already resolved, a second
"CHOSEN 1 10.0.0.3" returns TRUE and leaves the table empty (the stores of `acctime` and
`chosen_host` go to the freed record). -/
theorem C35_choose_data_frees_found_record :
    (∀ (now : Nat) (gai : String → List sockaddr_storage) (c : ChooseState) (data : String),
        ∃ c1 ret, mdm_choose_data now gai c data = some (c1, ret))
    ∧ (∀ (now : Nat) (gai : String → List sockaddr_storage) (c : ChooseState)
        (data : String),
        (∃ c1, mdm_choose_data now gai c data = some (c1, true))
          ↔ ∃ (p1 p2 : List Char) (rest : List (List Char)) (id : Int)
              (sa : sockaddr_storage) (k : Nat),
              strtok_tokens data.toList [] = MDM_SOP_CHOSEN.toList :: p1 :: p2 :: rest
              ∧ sscanf_d p1 = some id
              ∧ get_first_address_for_node (gai (String.mk p2)) = some sa
              ∧ find_first (fun idisp => idisp.id == to_guint id) c.indirect = some k)
    ∧ (∀ (now : Nat) (gai : String → List sockaddr_storage) (c c1 : ChooseState)
        (data : String), mdm_choose_data now gai c data = some (c1, false) → c1 = c)
    ∧ ChooseReachable 1 (sample_choose_resolved 1)
    ∧ mdm_choose_data 101 sample_getaddrinfo (sample_choose_resolved 1) "CHOSEN 1 10.0.0.3"
        = some ({ sample_choose_resolved 1 with indirect := [], ipending := 1 }, true) := by
  refine ⟨?_, ?_, ?_, sample_choose_resolved_reachable.1, by decide⟩
  · intro now gai c data
    rcases choose_data_cases now gai c data with
      ⟨h0, _⟩ | ⟨_, _, _, _, _, _, _, _, c1, _, _, _, _, _, hd, _⟩
    · exact ⟨c, false, h0⟩
    · exact ⟨c1, true, hd⟩
  · intro now gai c data
    rcases choose_data_cases now gai c data with
      ⟨h0, hn⟩ | ⟨p1, p2, rest, id, sa, k, _, _, c1, h1, h2, h3, h4, _, hd, _⟩
    · constructor
      · rintro ⟨c1, h⟩
        rw [h0] at h
        simp at h
      · intro h
        exact absurd h hn
    · exact ⟨fun _ => ⟨p1, p2, rest, id, sa, k, h1, h2, h3, h4⟩, fun _ => ⟨c1, hd⟩⟩
  · intro now gai c c1 data h
    exact (choose_data_step now gai c c1 data false h).2.2.2.2.2.1 rfl

/-- C36: in every state of the statics of choose.c reachable through
`mdm_choose_indirect_alloc`, `_lookup`, `_dispose`, `_dispose_empty_id` and
`mdm_choose_data`, with `max_indirect ≥ 1`, the number of resolved records is at most
`max_indirect` (so in particular after every `mdm_choose_data`).  In every state,
`remove_oldest_pending` either finds no resolved record and changes nothing, or disposes
a resolved record whose `acctime` is the smallest among the resolved ones; and the
eviction loop of `mdm_choose_data` returns with the unresolved records exactly as they
were. -/
theorem C36_resolved_bounded (n : Nat) (c : ChooseState) (hr : ChooseReachable n c)
    (hm : 1 ≤ c.max_indirect) :
    (resolved_count c.indirect : Int) ≤ c.max_indirect
    ∧ (∀ (now : Nat) (gai : String → List sockaddr_storage) (line : String)
        (c1 : ChooseState) (ret : Bool),
        mdm_choose_data now gai c line = some (c1, ret) →
        (resolved_count c1.indirect : Int) ≤ c1.max_indirect)
    ∧ (∀ c0 : ChooseState,
        (resolved_count c0.indirect = 0 ∧ remove_oldest_pending c0 = (c0, false))
        ∨ ∃ (i : Nat) (r : MdmIndirectDisplay),
            c0.indirect[i]? = some r ∧ r.acctime > 0
            ∧ (∀ x ∈ c0.indirect, x.acctime > 0 → r.acctime ≤ x.acctime)
            ∧ remove_oldest_pending c0
                = ({ c0 with indirect := c0.indirect.eraseIdx i,
                             ipending := c0.ipending - 1 }, true))
    ∧ (∀ (c0 : ChooseState) (idisp : Option Nat),
        ∃ (c2 : ChooseState) (idisp1 : Option Nat),
          mdm_choose_data_evict (c0.indirect.length + 1) c0 idisp = some (c2, idisp1)
          ∧ c2.indirect.Sublist c0.indirect
          ∧ c2.indirect.filter (fun x => decide (x.acctime = 0))
              = c0.indirect.filter (fun x => decide (x.acctime = 0))) := by
  refine ⟨(choose_reachable_inv n c hr).2 hm, ?_, ?_, ?_⟩
  · intro now gai line c1 ret h
    have hr1 := ChooseReachable.data n c c1 now gai line ret hr h
    have hmax := (choose_data_step now gai c c1 line ret h).1
    exact (choose_reachable_inv n c1 hr1).2 (by rw [hmax]; exact hm)
  · intro c0
    rcases remove_oldest_pending_spec c0 with ⟨a, _, b⟩ | ⟨i, t, r, _, a, b, d, e, _⟩
    · exact Or.inl ⟨a, b⟩
    · exact Or.inr ⟨i, r, a, b, d, e⟩
  · intro c0 idisp
    obtain ⟨c2, idisp1, e1, e2, _, e4, _⟩ :=
      choose_data_evict_spec (c0.indirect.length + 1) c0 idisp (Nat.lt_succ_self _)
    exact ⟨c2, idisp1, e1, e2.1, e4⟩

/-- C36, witness: with `max_indirect = 1` and the record 1 resolved, the bound holds
with equality. -/
theorem C36_resolved_bounded_witness :
    ChooseReachable 1 (sample_choose_resolved 1)
    ∧ (1 : Int) ≤ (sample_choose_resolved 1).max_indirect
    ∧ (resolved_count (sample_choose_resolved 1).indirect : Int)
        ≤ (sample_choose_resolved 1).max_indirect
    ∧ resolved_count (sample_choose_resolved 1).indirect = 1 :=
  ⟨sample_choose_resolved_reachable.1, by decide,
   (C36_resolved_bounded 1 (sample_choose_resolved 1) sample_choose_resolved_reachable.1
      (by decide)).1,
   by decide⟩

/-- C38: `mdm_choose_data` increments `ipending` whenever it finds the record, also when
that record is resolved already, whereas `mdm_choose_indirect_dispose` decrements it once
per resolved record.  After `mdm_choose_indirect_alloc` and two lines "CHOSEN 1 10.0.0.3"
(`max_indirect = 15`) the table holds one resolved record and `ipending` is 2.  What
holds in every reachable state is only that `ipending` is not below the number of
resolved records. -/
theorem C38_ipending_counts_twice :
    (∀ (n : Nat) (c : ChooseState), ChooseReachable n c →
        (resolved_count c.indirect : Int) ≤ c.ipending)
    ∧ ChooseReachable 1 (sample_choose_resolved 15)
    ∧ (sample_choose_resolved 15).ipending = 1
    ∧ resolved_count (sample_choose_resolved 15).indirect = 1
    ∧ (∃ c1 : ChooseState,
        mdm_choose_data 101 sample_getaddrinfo (sample_choose_resolved 15) "CHOSEN 1 10.0.0.3"
          = some (c1, true)
        ∧ ChooseReachable 1 c1 ∧ c1.ipending = 2 ∧ resolved_count c1.indirect = 1
        ∧ c1.indirect.map (fun r => (r.id, r.acctime)) = [(1, 101)]) := by
  refine ⟨?_, sample_choose_resolved_reachable.2, rfl, by decide, ?_⟩
  · intro n c hr
    have := (choose_reachable_inv n c hr).1
    unfold pending_excess at this
    omega
  · have hd : mdm_choose_data 101 sample_getaddrinfo (sample_choose_resolved 15)
        "CHOSEN 1 10.0.0.3"
        = some ({ sample_choose_resolved 15 with
                  indirect := [{ id := 1, dsp_sa := sample_hostA,
                                 chosen_host := some { ss_family := AF_INET,
                                                       addr := [10, 0, 0, 3],
                                                       port := 177, scope_id := 0 },
                                 acctime := 101 }],
                  ipending := 2 }, true) := by decide
    exact ⟨_, hd, ChooseReachable.data 1 _ _ 101 sample_getaddrinfo "CHOSEN 1 10.0.0.3" true
      sample_choose_resolved_reachable.2 hd, rfl, by decide, by decide⟩

/-! ## INDIRECT_QUERY -/

/-- C37, counterexample: the table holds the record 2 of 10.0.0.3, resolved at time 100,
before the unresolved record 1 of 10.0.0.2 (`max_wait_indirect` is 15).  An INDIRECT_QUERY
from 10.0.0.2 at time 200 finds the record 1, which has no chosen host, and one WILLING is
sent; but the table is not unchanged: the lookup has disposed the stale record 2 on its
way and lowered `ipending` from 1 to 0. -/
theorem C37_counterexample :
    (sample_env 200 []).host_allow sample_hostA = true
    ∧ state_stale_indirect.priv.honor_indirect = true
    ∧ state_stale_indirect.choose.indirect.map
        (fun r => (r.id, r.dsp_sa.addr, r.chosen_host.isSome, r.acctime))
        = [(2, [10, 0, 0, 3], true, 100), (1, [10, 0, 0, 2], false, 0)]
    ∧ state_stale_indirect.choose.ipending = 1
    ∧ (gdm_xdmcp_handle_indirect_query (sample_env 200 []) state_stale_indirect sample_hostA
          21 (some [MIT_MAGIC_COOKIE_1])).2.map (fun pk => (pk.header.opcode, pk.dest))
        = [(WILLING, sample_hostA)]
    ∧ (gdm_xdmcp_handle_indirect_query (sample_env 200 []) state_stale_indirect sample_hostA
          21 (some [MIT_MAGIC_COOKIE_1])).1.choose.indirect.map
        (fun r => (r.id, r.dsp_sa.addr, r.chosen_host.isSome, r.acctime))
        = [(1, [10, 0, 0, 2], false, 0)]
    ∧ (gdm_xdmcp_handle_indirect_query (sample_env 200 []) state_stale_indirect sample_hostA
          21 (some [MIT_MAGIC_COOKIE_1])).1.choose.ipending = 0 :=
  ⟨rfl, by decide, by decide, by decide, by decide, by decide, by decide⟩

theorem handle_indirect_query_none (env : Env) (s : Daemon) (sa : sockaddr_storage)
    (len : Nat) (authlist : List (List Nat)) (c1 : ChooseState)
    (ha : env.host_allow sa = true) (hh : s.priv.honor_indirect = true)
    (hlen : len = 1 + (authlist.map (fun a => 2 + a.length)).sum)
    (hl : mdm_choose_indirect_lookup env.now s.choose sa = (c1, none)) :
    gdm_xdmcp_handle_indirect_query env s sa len (some authlist)
      = gdm_xdmcp_send_willing env { s with choose := mdm_choose_indirect_alloc c1 sa } sa := by
  unfold gdm_xdmcp_handle_indirect_query
  rw [if_neg (by simp [ha]), if_neg (by simp [hh])]
  simp only [hlen, if_true, hl]

theorem handle_indirect_query_some (env : Env) (s : Daemon) (sa : sockaddr_storage)
    (len : Nat) (authlist : List (List Nat)) (c1 : ChooseState) (j : Nat)
    (r : MdmIndirectDisplay)
    (ha : env.host_allow sa = true) (hh : s.priv.honor_indirect = true)
    (hlen : len = 1 + (authlist.map (fun a => 2 + a.length)).sum)
    (hl : mdm_choose_indirect_lookup env.now s.choose sa = (c1, some j))
    (hr : c1.indirect[j]? = some r) :
    (r.chosen_host = none →
      gdm_xdmcp_handle_indirect_query env s sa len (some authlist)
        = gdm_xdmcp_send_willing env { s with choose := c1 } sa)
    ∧ (∀ h, r.chosen_host = some h →
        (gdm_address_is_local env.local_addrs h = true →
          gdm_xdmcp_handle_indirect_query env s sa len (some authlist)
            = gdm_xdmcp_send_willing env
                { s with choose := mdm_choose_indirect_dispose c1 j } sa)
        ∧ (gdm_address_is_local env.local_addrs h = false → env.is_loopback sa = true →
          gdm_xdmcp_handle_indirect_query env s sa len (some authlist)
            = ({ s with choose := c1 },
               (env.local_addrs.filter (fun saddr => !env.is_loopback saddr)).map
                 (fun saddr => forward_query_packet h sa saddr authlist)))
        ∧ (gdm_address_is_local env.local_addrs h = false → env.is_loopback sa = false →
          gdm_xdmcp_handle_indirect_query env s sa len (some authlist)
            = ({ s with choose := c1 }, [forward_query_packet h sa sa authlist]))) := by
  have h1 : ¬ env.host_allow sa = false := by simp [ha]
  have h2 : ¬ s.priv.honor_indirect = false := by simp [hh]
  refine ⟨?_, ?_⟩
  · intro hc
    unfold gdm_xdmcp_handle_indirect_query
    rw [if_neg h1, if_neg h2]
    simp only [hlen, if_true, hl, hr, hc]
  · intro h hc
    refine ⟨?_, ?_, ?_⟩
    · intro hloc
      unfold gdm_xdmcp_handle_indirect_query
      rw [if_neg h1, if_neg h2]
      simp only [hlen, if_true, hl, hr, hc, hloc]
    · intro hloc hlb
      unfold gdm_xdmcp_handle_indirect_query
      rw [if_neg h1, if_neg h2]
      simp only [hlen, if_true, hl, hr, hc, hloc, hlb, Bool.false_eq_true, if_false]
    · intro hloc hlb
      unfold gdm_xdmcp_handle_indirect_query
      rw [if_neg h1, if_neg h2]
      simp only [hlen, if_true, hl, hr, hc, hloc, hlb, Bool.false_eq_true, if_false]

/-- C37 (amended): an INDIRECT_QUERY from an allowed host whose declared length is the
size of its authentication names.  With `honor_indirect` false nothing is sent and
nothing changes.  Otherwise `mdm_choose_indirect_lookup` runs first and leaves the table
`c1`, which is the old table without the stale records it passed (the old table itself
when no record is stale).  No record found: a new unresolved record for the origin is put
at the head of `c1` and one WILLING goes to the origin.  Record without chosen host: one
WILLING goes to the origin and the table is `c1`.  Chosen host local: the record is
disposed and one WILLING goes to the origin.  Chosen host not local and origin loopback:
one FORWARD_QUERY for each local address that is not loopback, none for the others.
Chosen host not local and origin not loopback: exactly one FORWARD_QUERY.  A FORWARD_QUERY
goes to the 8-byte copy that `gdm_xdmcp_send_forward_query` makes of the chosen host,
which is the chosen host when that is an IPv4 address (`AF_INET`); where it goes for a
chosen host of another family is not stated. -/
theorem C37_indirect_query_cases (env : Env) (s : Daemon) (sa : sockaddr_storage)
    (len : Nat) (authlist : List (List Nat))
    (ha : env.host_allow sa = true) (hlen : len = ARRAYofARRAY8_wire_length authlist) :
    (s.priv.honor_indirect = false →
      gdm_xdmcp_handle_indirect_query env s sa len (some authlist) = (s, []))
    ∧ (s.priv.honor_indirect = true →
      (∀ c1, mdm_choose_indirect_lookup env.now s.choose sa = (c1, none) →
        ∃ (s1 : Daemon) (pk : Sent) (id : Nat),
          gdm_xdmcp_handle_indirect_query env s sa len (some authlist) = (s1, [pk])
          ∧ pk.dest = sa ∧ pk.header.opcode = WILLING
          ∧ s1.choose = mdm_choose_indirect_alloc c1 sa
          ∧ s1.choose.indirect
              = { id := id, dsp_sa := sa, chosen_host := none, acctime := 0 } :: c1.indirect
          ∧ s1.priv = s.priv ∧ s1.displays = s.displays)
      ∧ (∀ c1 j, mdm_choose_indirect_lookup env.now s.choose sa = (c1, some j) →
        ∃ r : MdmIndirectDisplay, c1.indirect[j]? = some r
          ∧ gdm_address_equal r.dsp_sa sa = true
          ∧ (r.chosen_host = none →
              ∃ (s1 : Daemon) (pk : Sent),
                gdm_xdmcp_handle_indirect_query env s sa len (some authlist) = (s1, [pk])
                ∧ pk.dest = sa ∧ pk.header.opcode = WILLING
                ∧ s1.choose = c1 ∧ s1.priv = s.priv ∧ s1.displays = s.displays)
          ∧ (∀ h, r.chosen_host = some h →
              (gdm_address_is_local env.local_addrs h = true →
                ∃ (s1 : Daemon) (pk : Sent),
                  gdm_xdmcp_handle_indirect_query env s sa len (some authlist) = (s1, [pk])
                  ∧ pk.dest = sa ∧ pk.header.opcode = WILLING
                  ∧ s1.choose = mdm_choose_indirect_dispose c1 j
                  ∧ s1.choose.indirect = c1.indirect.eraseIdx j
                  ∧ s1.priv = s.priv ∧ s1.displays = s.displays)
              ∧ (gdm_address_is_local env.local_addrs h = false →
                  env.is_loopback sa = true →
                  gdm_xdmcp_handle_indirect_query env s sa len (some authlist)
                    = ({ s with choose := c1 },
                       (env.local_addrs.filter (fun saddr => !env.is_loopback saddr)).map
                         (fun saddr => forward_query_packet h sa saddr authlist)))
              ∧ (gdm_address_is_local env.local_addrs h = false →
                  env.is_loopback sa = false →
                  gdm_xdmcp_handle_indirect_query env s sa len (some authlist)
                    = ({ s with choose := c1 }, [forward_query_packet h sa sa authlist]))
              ∧ (∀ saddr,
                  (h.ss_family = AF_INET →
                    (forward_query_packet h sa saddr authlist).dest = h)
                  ∧ (forward_query_packet h sa saddr authlist).header.opcode
                      = FORWARD_QUERY)))
      ∧ (mdm_choose_indirect_lookup env.now s.choose sa).1.indirect.Sublist s.choose.indirect
      ∧ ((∀ x ∈ s.choose.indirect,
            indirect_stale env.now s.choose.max_wait_indirect x = false) →
          (mdm_choose_indirect_lookup env.now s.choose sa).1 = s.choose)) := by
  have hlen' : len = 1 + (authlist.map (fun a => 2 + a.length)).sum := hlen
  constructor
  · intro hh
    unfold gdm_xdmcp_handle_indirect_query
    rw [if_neg (by simp [ha]), if_pos hh]
  · intro hh
    refine ⟨?_, ?_, (lookup_shrink env.now s.choose sa).1, ?_⟩
    · intro c1 hl
      rw [handle_indirect_query_none env s sa len authlist c1 ha hh hlen' hl]
      obtain ⟨s1, pk, b1, b2, b3, b4, b5, b6⟩ :=
        send_willing_spec env { s with choose := mdm_choose_indirect_alloc c1 sa } sa
      obtain ⟨a1, _⟩ := alloc_spec c1 sa
      exact ⟨s1, pk, _, b1, b2, b3, b6, by rw [b6]; exact a1, b4, b5⟩
    · intro c1 j hl
      have hfound : ∃ r : MdmIndirectDisplay, c1.indirect[j]? = some r
          ∧ gdm_address_equal r.dsp_sa sa = true := by
        rcases indirect_lookup_cases env.now s.choose sa with
          ⟨_, e⟩ | ⟨pre, id, post, _, _, _, e4, e5, e6⟩
        · rw [e] at hl
          simp only [Prod.mk.injEq] at hl
          obtain ⟨_, h2⟩ := hl
          cases h2
        · rw [e5] at hl
          simp only [Prod.mk.injEq, Option.some.injEq] at hl
          obtain ⟨h1, h2⟩ := hl
          subst h1
          subst h2
          exact ⟨id, e6, e4⟩
      obtain ⟨r, hr, heq⟩ := hfound
      obtain ⟨g1, g2⟩ := handle_indirect_query_some env s sa len authlist c1 j r ha hh hlen'
        hl hr
      refine ⟨r, hr, heq, ?_, ?_⟩
      · intro hc
        rw [g1 hc]
        obtain ⟨s1, pk, b1, b2, b3, b4, b5, b6⟩ :=
          send_willing_spec env { s with choose := c1 } sa
        exact ⟨s1, pk, b1, b2, b3, b6, b4, b5⟩
      · intro h hc
        obtain ⟨k1, k2, k3⟩ := g2 h hc
        refine ⟨?_, k2, k3, fun saddr =>
          ⟨fun hf => by simp [forward_query_packet, chosen_host_memdup, hf], rfl⟩⟩
        intro hloc
        rw [k1 hloc]
        obtain ⟨s1, pk, b1, b2, b3, b4, b5, b6⟩ :=
          send_willing_spec env { s with choose := mdm_choose_indirect_dispose c1 j } sa
        refine ⟨s1, pk, b1, b2, b3, b6, ?_, b4, b5⟩
        rw [b6]
        show (mdm_choose_indirect_dispose c1 j).indirect = _
        rw [(dispose_spec c1 j).2.2 r hr]
    · intro hfresh
      rcases indirect_lookup_cases env.now s.choose sa with
        ⟨_, e⟩ | ⟨pre, id, post, e1, _, _, _, e5, _⟩
      · rw [e]
        have hf : s.choose.indirect.filter
            (fun x => !indirect_stale env.now s.choose.max_wait_indirect x)
            = s.choose.indirect := by
          rw [List.filter_eq_self]
          intro x hx
          simp [hfresh x hx]
        have hc : s.choose.indirect.countP
            (indirect_stale env.now s.choose.max_wait_indirect) = 0 := by
          rw [List.countP_eq_zero]
          intro x hx
          simp [hfresh x hx]
        simp only [hf, hc]
        simp
      · rw [e5]
        have hpre : ∀ x ∈ pre,
            indirect_stale env.now s.choose.max_wait_indirect x = false := by
          intro x hx
          exact hfresh x (by rw [e1]; simp [hx])
        have hf : pre.filter
            (fun x => !indirect_stale env.now s.choose.max_wait_indirect x) = pre := by
          rw [List.filter_eq_self]
          intro x hx
          simp [hpre x hx]
        have hc : pre.countP (indirect_stale env.now s.choose.max_wait_indirect) = 0 := by
          rw [List.countP_eq_zero]
          intro x hx
          simp [hpre x hx]
        simp only [hf, hc, ← e1]
        simp

/-- C37, witness: the fresh manager answers the first INDIRECT_QUERY of 10.0.0.2 with one
WILLING and creates the unresolved record 1 for it; and where the record of 10.0.0.3 is
resolved to the IPv4 host 10.0.0.3:177, an INDIRECT_QUERY of 10.0.0.3 at time 100 is
answered with one FORWARD_QUERY to that host. -/
theorem C37_indirect_query_cases_witness :
    (sample_env 100 []).host_allow sample_hostA = true
    ∧ (21 : Nat) = ARRAYofARRAY8_wire_length [MIT_MAGIC_COOKIE_1]
    ∧ (sample_init 7 16 4).priv.honor_indirect = true
    ∧ (∃ (s1 : Daemon) (pk : Sent) (id : Nat),
        gdm_xdmcp_handle_indirect_query (sample_env 100 []) (sample_init 7 16 4) sample_hostA
            21 (some [MIT_MAGIC_COOKIE_1]) = (s1, [pk])
        ∧ pk.dest = sample_hostA ∧ pk.header.opcode = WILLING
        ∧ s1.choose.indirect
            = [{ id := id, dsp_sa := sample_hostA, chosen_host := none, acctime := 0 }])
    ∧ (gdm_xdmcp_handle_indirect_query (sample_env 100 []) state_stale_indirect sample_hostB
          21 (some [MIT_MAGIC_COOKIE_1])).2.map (fun pk => (pk.header.opcode, pk.dest))
        = [(FORWARD_QUERY,
            { ss_family := AF_INET, addr := [10, 0, 0, 3], port := 177, scope_id := 0 })] := by
  refine ⟨rfl, by decide, rfl, ?_, by decide⟩
  obtain ⟨s1, pk, id, h1, h2, h3, _, h5, _⟩ :=
    ((C37_indirect_query_cases (sample_env 100 []) (sample_init 7 16 4) sample_hostA 21
      [MIT_MAGIC_COOKIE_1] rfl (by decide)).2 rfl).1 (sample_init 7 16 4).choose (by decide)
  exact ⟨s1, pk, id, h1, h2, h3, h5⟩

/-! ## The restarting scans: restarts and iterations -/

theorem restart_scan_counted_fst (hit : GdmDisplay → Bool)
    (act : Daemon → Nat → GdmDisplay → Daemon × Bool) :
    ∀ (fuel : Nat) (s : Daemon) (i : Nat) (dirty : Bool) (r k : Nat),
      (restart_scan_counted hit act fuel s i dirty r k).map (fun x => (x.1, x.2.1))
        = restart_scan hit act fuel s i dirty := by
  intro fuel
  induction fuel with
  | zero => intro s i dirty r k; rfl
  | succ fuel ih =>
    intro s i dirty r k
    unfold restart_scan_counted restart_scan
    cases s.displays[i]? with
    | none => rfl
    | some d =>
      simp only []
      by_cases hd : hit d = true
      · rw [if_pos hd, if_pos hd]
        by_cases hc : i = 0 ∧ (act s i d).1.displays.length < s.displays.length
        · rw [if_pos hc, if_pos hc]
          rfl
        · rw [if_neg hc, if_neg hc]
          exact ih _ _ _ _ _
      · rw [if_neg hd, if_neg hd]
        exact ih _ _ _ _ _

theorem restart_scan_counted_spec (hit : GdmDisplay → Bool)
    (act : Daemon → Nat → GdmDisplay → Daemon × Bool)
    (hact : ∀ s i d, s.displays[i]? = some d → hit d = true →
      (act s i d).1.displays = s.displays.eraseIdx i) :
    ∀ (fuel : Nat) (s : Daemon) (i : Nat) (dirty : Bool) (r k : Nat),
      (∀ j d, j < i → s.displays[j]? = some d → hit d = false) →
      head_survives hit s.displays = true →
      s.displays.countP hit * (s.displays.length + 1) + (s.displays.length - i) < fuel →
      ∃ (s1 : Daemon) (d1 : Bool) (k1 : Nat),
        restart_scan_counted hit act fuel s i dirty r k
            = some (s1, d1, r + s.displays.countP hit, k1)
        ∧ k1 ≤ k + s.displays.countP hit * (s.displays.length + 1) + (s.displays.length - i)
        ∧ s1.displays.length + s.displays.countP hit = s.displays.length := by
  intro fuel
  induction fuel with
  | zero => intro s i dirty r k _ _ h; omega
  | succ fuel ih =>
    intro s i dirty r k hpre hhead hfuel
    unfold restart_scan_counted
    cases hget : s.displays[i]? with
    | none =>
      have hall : ∀ d ∈ s.displays, hit d = false := by
        intro d hd
        obtain ⟨j, hj, rfl⟩ := List.getElem_of_mem hd
        have : s.displays.length ≤ i := by
          rcases Nat.lt_or_ge i s.displays.length with h | h
          · simp [List.getElem?_eq_getElem h] at hget
          · exact h
        exact hpre j _ (by omega) (by simp [List.getElem?_eq_getElem hj])
      have hc : s.displays.countP hit = 0 := by
        rw [List.countP_eq_zero]
        intro d hd
        simp [hall d hd]
      refine ⟨s, dirty, k, ?_, by omega, by omega⟩
      simp only [hc, Nat.add_zero]
    | some d =>
      simp only []
      have hi : i < s.displays.length := by
        rcases Nat.lt_or_ge i s.displays.length with h | h
        · exact h
        · simp [List.getElem?_eq_none h] at hget
      by_cases hd : hit d = true
      · rw [if_pos hd]
        have hi0 : i ≠ 0 := by
          intro h0
          subst h0
          have := (head_survives_iff hit s.displays).mp hhead d hget
          rw [this] at hd
          exact absurd hd (by decide)
        rw [if_neg (fun hc => hi0 hc.1)]
        have h1 := hact s i d hget hd
        have hlen := length_eraseIdx_split s.displays i d hget
        have hcnt := countP_eraseIdx hit s.displays i d hget
        rw [if_pos hd] at hcnt
        have hmul : (s.displays.eraseIdx i).countP hit * ((s.displays.eraseIdx i).length + 1)
            + (s.displays.eraseIdx i).length + 1
            ≤ s.displays.countP hit * (s.displays.length + 1) := by
          rw [← hcnt, ← hlen]
          ring_nf
          omega
        obtain ⟨s1, d1, k1, e1, e2, e3⟩ := ih (act s i d).1 0 (dirty || (act s i d).2)
          (r + 1) (k + 1) (by intro j d hj; omega)
          (by rw [h1]; exact head_survives_eraseIdx hit _ i (by omega) hhead)
          (by rw [h1]; omega)
        rw [h1] at e1 e2 e3
        refine ⟨s1, d1, k1, ?_, by omega, by omega⟩
        rw [e1]
        have : r + 1 + (s.displays.eraseIdx i).countP hit = r + s.displays.countP hit := by
          omega
        rw [this]
      · rw [if_neg hd]
        have hd' : hit d = false := by simpa using hd
        obtain ⟨s1, d1, k1, e1, e2, e3⟩ := ih s (i + 1) dirty r (k + 1)
          (by
            intro j e hj he
            rcases Nat.lt_or_ge j i with h | h
            · exact hpre j e h he
            · have : j = i := by omega
              subst this
              rw [hget] at he
              cases he
              exact hd')
          hhead
          (by omega)
        exact ⟨s1, d1, k1, e1, by omega, e3⟩

/-- C40: `gdm_xdmcp_displays_purge` and `gdm_xdmcp_display_dispose_check`.  In both loops
the walk goes back to `displays` only after the action on the display it stands on, and
that action (dispose, or unmanage of an XDMCP display) removes this display from the
list; otherwise the walk advances by one element.  `displays` is the first cell as it was
fetched before the loop.  When the first display of the list satisfies the test of the
loop, that cell is freed by the removal and the walk goes on from freed memory: neither
function has a result.  When the first display does not satisfy the test, both functions
return; with the restarts and the iterations counted, the number of restarts is the number
of displays that satisfy the test, so at most the number of displays, the list is shorter
by that number at the end, and the loop body runs at most `restarts * (n + 1) + n` times
on a list of `n` displays. -/
theorem C40_restarting_scans_first_cell (env : Env) (s : Daemon) (dspnum : Nat) :
    (head_survives (stale_pending env.now s.priv.max_wait) s.displays = false →
        gdm_xdmcp_displays_purge env s = none)
    ∧ (∀ h : String, head_survives (same_display h dspnum) s.displays = false →
        gdm_xdmcp_display_dispose_check s (some h) dspnum = none)
    ∧ gdm_xdmcp_display_dispose_check s none dspnum = some s
    ∧ (∀ (s0 : Daemon) (i : Nat) (d : GdmDisplay), s0.displays[i]? = some d →
        (gdm_display_dispose s0 i).displays = s0.displays.eraseIdx i
        ∧ (SERVER_IS_XDMCP d = true →
            (gdm_display_unmanage s0 i).displays = s0.displays.eraseIdx i))
    ∧ (head_survives (stale_pending env.now s.priv.max_wait) s.displays = true →
        (∃ s1, gdm_xdmcp_displays_purge env s = some s1)
        ∧ ∃ (s1 : Daemon) (dirty : Bool) (restarts steps : Nat),
          restart_scan_counted (stale_pending env.now s.priv.max_wait)
              (fun s1 i _ => (gdm_display_dispose s1 i, true))
              (scan_budget s.displays.length) s 0 false 0 0
            = some (s1, dirty, restarts, steps)
          ∧ restart_scan (stale_pending env.now s.priv.max_wait)
              (fun s1 i _ => (gdm_display_dispose s1 i, true))
              (scan_budget s.displays.length) s 0 false = some (s1, dirty)
          ∧ restarts = s.displays.countP (stale_pending env.now s.priv.max_wait)
          ∧ restarts ≤ s.displays.length
          ∧ s1.displays.length + restarts = s.displays.length
          ∧ steps ≤ restarts * (s.displays.length + 1) + s.displays.length)
    ∧ (∀ h : String, head_survives (same_display h dspnum) s.displays = true →
        (∃ s1, gdm_xdmcp_display_dispose_check s (some h) dspnum = some s1)
        ∧ ∃ (s1 : Daemon) (dirty : Bool) (restarts steps : Nat),
          restart_scan_counted (same_display h dspnum)
              (fun s1 i d =>
                if d.dispstat = DispStat.XDMCP_MANAGED then (gdm_display_unmanage s1 i, false)
                else (gdm_display_dispose s1 i, true))
              (scan_budget s.displays.length) s 0 false 0 0
            = some (s1, dirty, restarts, steps)
          ∧ restart_scan (same_display h dspnum)
              (fun s1 i d =>
                if d.dispstat = DispStat.XDMCP_MANAGED then (gdm_display_unmanage s1 i, false)
                else (gdm_display_dispose s1 i, true))
              (scan_budget s.displays.length) s 0 false = some (s1, dirty)
          ∧ restarts = s.displays.countP (same_display h dspnum)
          ∧ restarts ≤ s.displays.length
          ∧ s1.displays.length + restarts = s.displays.length
          ∧ steps ≤ restarts * (s.displays.length + 1) + s.displays.length) := by
  refine ⟨purge_freed env s, fun h => dispose_check_freed s h dspnum, rfl, ?_, ?_, ?_⟩
  · intro s0 i d hget
    exact ⟨(gdm_display_dispose_spec s0 i d hget).1,
      fun hx => (gdm_display_unmanage_spec s0 i d hget hx).1⟩
  · intro hk
    refine ⟨(purge_spec env s hk).imp (fun _ h => h.1), ?_⟩
    obtain ⟨s1, d1, k1, e1, e2, e3⟩ := restart_scan_counted_spec
      (stale_pending env.now s.priv.max_wait)
      (fun s1 i _ => (gdm_display_dispose s1 i, true))
      (fun s0 i d hget _ => (gdm_display_dispose_spec s0 i d hget).1)
      (scan_budget s.displays.length) s 0 false 0 0 (by intro j d hj; omega) hk
      (scan_budget_enough _ _)
    have hfst := restart_scan_counted_fst (stale_pending env.now s.priv.max_wait)
      (fun s1 i _ => (gdm_display_dispose s1 i, true)) (scan_budget s.displays.length) s 0
      false 0 0
    rw [e1] at hfst
    simp only [Nat.zero_add, Nat.sub_zero] at e1 e2
    refine ⟨s1, d1, _, k1, e1, hfst.symm, rfl, ?_, by omega, by omega⟩
    have := List.countP_le_length (stale_pending env.now s.priv.max_wait) (l := s.displays)
    omega
  · intro h hk
    refine ⟨(dispose_check_spec s h dspnum hk).imp (fun _ h => h.1), ?_⟩
    obtain ⟨s1, d1, k1, e1, e2, e3⟩ := restart_scan_counted_spec
      (same_display h dspnum)
      (fun s1 i d =>
        if d.dispstat = DispStat.XDMCP_MANAGED then (gdm_display_unmanage s1 i, false)
        else (gdm_display_dispose s1 i, true))
      (by
        intro s0 i d hget hhit
        have hx : SERVER_IS_XDMCP d = true := by
          simp [same_display] at hhit
          exact hhit.1.1
        by_cases hm : d.dispstat = DispStat.XDMCP_MANAGED
        · simp only [if_pos hm]
          exact (gdm_display_unmanage_spec s0 i d hget hx).1
        · simp only [if_neg hm]
          exact (gdm_display_dispose_spec s0 i d hget).1)
      (scan_budget s.displays.length) s 0 false 0 0 (by intro j d hj; omega) hk
      (scan_budget_enough _ _)
    have hfst := restart_scan_counted_fst (same_display h dspnum)
      (fun s1 i d =>
        if d.dispstat = DispStat.XDMCP_MANAGED then (gdm_display_unmanage s1 i, false)
        else (gdm_display_dispose s1 i, true)) (scan_budget s.displays.length) s 0
      false 0 0
    rw [e1] at hfst
    simp only [Nat.zero_add, Nat.sub_zero] at e1 e2
    refine ⟨s1, d1, _, k1, e1, hfst.symm, rfl, ?_, by omega, by omega⟩
    have := List.countP_le_length (same_display h dspnum) (l := s.displays)
    omega

/-- C40, witness.  The failing input: the manager started with an empty display list and
accepted the REQUEST of 10.0.0.2 ("a.example") for display 1 at time 95, so that pending
display is the first of the list; `gdm_xdmcp_display_dispose_check ("a.example", 1)`, which
a second REQUEST of 10.0.0.2 for display 1 runs, has no result, and so has that REQUEST.
With the local display ":0" in front of the same pending display the function returns a
list that holds the local display only, after one restart and three iterations. -/
theorem C40_restarting_scans_first_cell_witness :
    run_datagrams (sample_init 7 16 4) [(sample_env 95 [], sample_dg_request sample_hostA 34)]
        = some (sample_one_pending 95 4)
      ∧ gdm_xdmcp_display_dispose_check (sample_one_pending 95 4) (some "a.example") 1 = none
      ∧ gdm_xdmcp_handle_request (sample_env 100 []) (sample_one_pending 95 4) sample_hostA 34
          (some sample_request) = none
      ∧ (∃ s1, gdm_xdmcp_display_dispose_check (sample_local_pending 95 4)
          (some "a.example") 1 = some s1)
      ∧ (gdm_xdmcp_display_dispose_check (sample_local_pending 95 4) (some "a.example") 1).map
          (fun s1 => s1.displays) = some [sample_local]
      ∧ (restart_scan_counted (same_display "a.example" 1)
            (fun s1 i d =>
              if d.dispstat = DispStat.XDMCP_MANAGED then (gdm_display_unmanage s1 i, false)
              else (gdm_display_dispose s1 i, true))
            (scan_budget 2) (sample_local_pending 95 4) 0 false 0 0).map
          (fun r => (r.2.2.1, r.2.2.2)) = some (1, 3) :=
  ⟨by decide,
   (C40_restarting_scans_first_cell (sample_env 100 []) (sample_one_pending 95 4) 1).2.1
     "a.example" (by decide),
   by decide,
   ((C40_restarting_scans_first_cell (sample_env 100 []) (sample_local_pending 95 4) 1).2.2.2.2.2
     "a.example" (by decide)).1,
   by decide, by decide⟩

end Mdm
